import Mathlib

/-!
# auth-service: session and token lifecycle

A shallow embedding of the Go service `s10n41k/auth-service`:

* `internal/servises/auth/auth.go`  — the orchestrator (`Auth.Login`,
  `Auth.GetRefreshToken`, `Auth.Logout`, `Auth.LogoutAll`);
* `internal/redis/redis.go`        — the session registry `repositoryRedis`;
* `internal/token/token.go`        — the token manager `JWTManager`;
* `internal/grpc/auth/server.go`   — the transport handlers.

Stateful code is written in state-passing style: a Go method that talks to a
collaborator becomes a function `σ → result × σ`.  A Go `error` is an
`Option Err` (`none` is `nil`); a Go `(value, error)` pair whose value is only
read when the error is `nil` is an `Except Err value`.
-/

namespace AuthService

/-! ## Errors -/

/-- Go error values.  `redisNil` is the sentinel `redis.Nil`; `new msg` is
`errors.New(msg)` or a `fmt.Errorf` without `%w`; `wrap msg e` is
`fmt.Errorf(msg + ": %w", e)`. -/
inductive Err where
  | redisNil : Err
  | new (msg : String) : Err
  | wrap (msg : String) (inner : Err) : Err
  deriving DecidableEq, Repr

deriving instance DecidableEq for Except

/-- The method `err.Error()`. -/
def Err.Error : Err → String
  | .redisNil => "redis: nil"
  | .new msg => msg
  | .wrap msg inner => msg ++ ": " ++ inner.Error

/-- The test `errors.Is(err, redis.Nil)`: the chain of wrapped errors is searched. -/
def Err.isRedisNil : Err → Bool
  | .redisNil => true
  | .new _ => false
  | .wrap _ inner => inner.isRedisNil

/-- The Go condition `err != nil && !errors.Is(err, redis.Nil)`. -/
def notNilAndNotRedisNil : Option Err → Bool
  | none => false
  | some e => !e.isRedisNil

/-! ## Strings -/

/-- Whether `sub` occurs in `s` from its first position on. -/
def hasPrefixChars : List Char → List Char → Bool
  | [], _ => true
  | _ :: _, [] => false
  | c :: sub, d :: s => c == d && hasPrefixChars sub s

/-- Whether `sub` occurs somewhere in `s`. -/
def containsChars (sub : List Char) : List Char → Bool
  | [] => hasPrefixChars sub []
  | d :: s => hasPrefixChars sub (d :: s) || containsChars sub s

/-- The Go function `strings.Contains(s, substr)`. -/
def stringsContains (s substr : String) : Bool :=
  containsChars substr.data s.data

/-- The Go function `strings.Split(s, sep)` for a one-character separator. -/
def stringsSplit (s : String) (sep : Char) : List String :=
  (s.data.splitOn sep).map String.mk

/-! ## Decimal integers -/

/-- The decimal digits of `n`, least significant first; `fuel` bounds the number of digits. -/
def digitsRev : Nat → Nat → List Nat
  | 0, _ => []
  | fuel + 1, n => if n < 10 then [n] else (n % 10) :: digitsRev fuel (n / 10)

/-- The value of a list of decimal digits, least significant first. -/
def ofDigitsRev : List Nat → Nat
  | [] => 0
  | d :: ds => d + 10 * ofDigitsRev ds

/-- The character of a decimal digit. -/
def digitChar (d : Nat) : Char := Char.ofNat (48 + d)

/-- The decimal digit of a character, when it is one of `'0'..'9'`. -/
def charDigit (c : Char) : Option Nat :=
  if 48 ≤ c.toNat ∧ c.toNat ≤ 57 then some (c.toNat - 48) else none

/-- The decimal digits of a natural number, most significant first. -/
def natChars (n : Nat) : List Char :=
  ((digitsRev (n + 1) n).map digitChar).reverse

/-- The canonical decimal text of an integer, as Redis stores a counter. -/
def intChars (i : Int) : List Char :=
  match i with
  | .ofNat n => natChars n
  | .negSucc n => '-' :: natChars (n + 1)

/-- The digits of a non-empty all-digit text, most significant first. -/
def charsDigits : List Char → Option (List Nat)
  | [] => some []
  | c :: cs =>
    match charDigit c, charsDigits cs with
    | some d, some ds => some (d :: ds)
    | _, _ => none

/-- The value of a non-empty text of decimal digits (leading zeros allowed). -/
def parseNat (cs : List Char) : Option Nat :=
  match cs with
  | [] => none
  | _ :: _ => (charsDigits cs).map (fun ds => ofDigitsRev ds.reverse)

/-- The largest `int64`. -/
def maxInt64 : Int := 9223372036854775807

/-- The smallest `int64`. -/
def minInt64 : Int := -9223372036854775808

/-- The nearest `int64` to an integer, the value `strconv.ParseInt` leaves on a range error. -/
def clampInt64 (i : Int) : Int :=
  if i > maxInt64 then maxInt64 else if i < minInt64 then minInt64 else i

/-- The Go call `strconv.Atoi(s)` with its error dropped, as in `version, _ := strconv.Atoi(val)`:
an optional sign and decimal digits; `0` on a syntax error and the nearest `int64` bound on a
range error. -/
def strconvAtoi (s : String) : Int :=
  match s.data with
  | '-' :: cs => match parseNat cs with
    | some n => clampInt64 (-(n : Int))
    | none => 0
  | '+' :: cs => match parseNat cs with
    | some n => clampInt64 (n : Int)
    | none => 0
  | cs => match parseNat cs with
    | some n => clampInt64 (n : Int)
    | none => 0

/-- Keeps an integer only when `v` is its canonical decimal text and it is an `int64`. -/
def canonInt64 (v : String) (i : Int) : Option Int :=
  if intChars i = v.data ∧ minInt64 ≤ i ∧ i ≤ maxInt64 then some i else none

/-- The integer a Redis string value holds for `INCR`: the text must be the canonical decimal
form of an `int64` (no plus sign, no leading zeros, no `-0`). -/
def redisInt (v : String) : Option Int :=
  match v.data with
  | '-' :: cs => match parseNat cs with
    | some n => canonInt64 v (-(n : Int))
    | none => none
  | cs => match parseNat cs with
    | some n => canonInt64 v (n : Int)
    | none => none

/-! ## Data model (`internal/model`) -/

/-- The record `model.User`. -/
structure User where
  UserID : String
  Email : String
  Name : String
  Valid : Bool
  Role : String
  deriving DecidableEq, Repr

/-- The record `model.Token`. -/
structure Token where
  AccessToken : String
  RefreshToken : String
  TokenType : String
  deriving DecidableEq, Repr

/-- The record `model.UserRefresh`. -/
structure UserRefresh where
  SessionId : String
  UserID : String
  Name : String
  Email : String
  Role : String
  Version : Int
  deriving DecidableEq, Repr

/-- The record `model.UserTemporary`. -/
structure UserTemporary where
  SessionId : String
  Code : String
  Name : String
  Email : String
  Password : String
  deriving DecidableEq, Repr

/-! ## Token claims (`jwt.MapClaims`) -/

/-- A finite `float64`: the number `mant * 2 ^ exp`. -/
structure Float64 where
  mant : Int
  exp : Int
  deriving DecidableEq, Repr

/-- The Go conversion `int(f)` of a `float64`: the fraction is dropped (rounding toward zero).
Exact for every value within the `int64` range; outside it Go leaves the result to the
platform. -/
def Float64.toInt (f : Float64) : Int :=
  if 0 ≤ f.exp then f.mant * 2 ^ f.exp.toNat else Int.tdiv f.mant (2 ^ (-f.exp).toNat)

/-- How many low bits a natural number loses when it is cut to 53 significant bits. -/
def excessBits : Nat → Nat → Nat
  | 0, _ => 0
  | fuel + 1, a => if a < 2 ^ 53 then 0 else 1 + excessBits fuel (a / 2)

/-- The nearest `float64` to a natural number, ties to the even mantissa. -/
def roundNat53 (a : Nat) : Float64 :=
  let shift := excessBits a a
  let q := a / 2 ^ shift
  let r := a % 2 ^ shift
  let half := 2 ^ shift / 2
  if shift = 0 then ⟨a, 0⟩
  else if r > half ∨ (r = half ∧ q % 2 = 1) then ⟨((q + 1 : Nat) : Int), shift⟩
  else ⟨(q : Int), shift⟩

/-- The `float64` a JSON parser returns for an integer written in decimal. -/
def Float64.ofInt (i : Int) : Float64 :=
  match i with
  | .ofNat n => roundNat53 n
  | .negSucc n => ⟨-(roundNat53 (n + 1)).mant, (roundNat53 (n + 1)).exp⟩

/-- A value of a claims map (`interface{}`).  `int` is a Go integer as the issuing code puts
it into the map; `float64` is a JSON number as the parser returns it; `str` is a string;
`null` is anything else. -/
inductive JVal where
  | str (s : String) : JVal
  | int (i : Int) : JVal
  | float64 (f : Float64) : JVal
  | null : JVal
  deriving DecidableEq, Repr

/-- The map type `jwt.MapClaims`, as a list of key and value; the first entry of a key counts. -/
abbrev MapClaims := List (String × JVal)

/-- The map access `claims[key]`. -/
def MapClaims.get (claims : MapClaims) (key : String) : Option JVal :=
  (claims.find? (fun kv => kv.1 == key)).map Prod.snd

/-- The type assertion `claims[key].(string)`: the value and `ok`. -/
def MapClaims.getString (claims : MapClaims) (key : String) : Option String :=
  match claims.get key with
  | some (.str s) => some s
  | _ => none

/-- The type assertion `claims[key].(float64)`: the value and `ok`. -/
def MapClaims.getFloat64 (claims : MapClaims) (key : String) : Option Float64 :=
  match claims.get key with
  | some (.float64 f) => some f
  | _ => none

/-! ## Collaborator interfaces

Each Go interface is a record of state-passing functions over a state `σ` that stands for
everything outside the process (the key-value store, the user directory, the clock). -/

/-- The interface `users.Provider` (`internal/provider/users/provider.go`). -/
structure Provider (σ : Type) where
  LoginUsers : String → String → σ → Except Err User × σ
  RegisterUsers : String → String → String → σ → Except Err String × σ
  FindOneUsers : String → σ → Except Err UserRefresh × σ
  Exists : String → σ → Option Err × σ

/-- The interface `token.Generate` (`internal/token/token.go`). -/
structure Generate (σ : Type) where
  GenerateAccessToken : UserRefresh → σ → Except Err String × σ
  GenerateRefreshToken : String → σ → Except Err String × σ
  VerifyRefreshToken : String → σ → Except Err MapClaims × σ
  VerifyAccessToken : String → σ → Except Err MapClaims × σ

/-- The interface `storage.Storage` (`internal/storage/storage.go`).  `GetUserSessions` keeps
both components of its Go result, because `LogoutAll` reads the list next to a `redis.Nil`
error. -/
structure Storage (σ : Type) where
  Save : String → String → σ → Option Err × σ
  Get : String → σ → Except Err String × σ
  IncrementTokenVersion : String → σ → Except Err Int × σ
  GetTokenVersion : String → σ → Except Err Int × σ
  DeleteVersionToken : String → σ → Option Err × σ
  DeleteRefreshToken : String → σ → Option Err × σ
  AddSession : String → String → σ → Option Err × σ
  RemoveSession : String → String → σ → Option Err × σ
  GetUserSessions : String → σ → (List String × Option Err) × σ
  DeleteAllSessions : String → σ → Option Err × σ
  SaveTemporarySession : UserTemporary → σ → Option Err × σ
  GetTemporarySession : String → σ → Except Err UserTemporary × σ
  DeleteTemporarySession : String → σ → Option Err × σ

/-- The interface `sender.EmailSender`. -/
structure EmailSender (σ : Type) where
  SendVerificationCode : String → String → String → σ → Option Err × σ

/-! ## The key-value store client (`pkg/client/redis/client.go`) -/

/-- The commands of the interface `redis.Client` that the registry issues.  A duration is a
number of nanoseconds. -/
structure Client (κ : Type) where
  Set : String → String → Int → κ → Option Err × κ
  Get : String → κ → Except Err String × κ
  Del : String → κ → Except Err Int × κ
  Incr : String → κ → Except Err Int × κ
  Expire : String → Int → κ → Except Err Bool × κ
  SAdd : String → String → κ → Except Err Int × κ
  SRem : String → String → κ → Except Err Int × κ
  SMembers : String → κ → (List String × Option Err) × κ

/-- A value held under a key: a string or a set of members. -/
inductive RVal where
  | str (v : String) : RVal
  | set (members : List String) : RVal
  deriving DecidableEq, Repr

/-- The contents of the key-value store. -/
abbrev Store := String → Option RVal

/-- The empty store. -/
def Store.empty : Store := fun _ => none

/-- The store with `key` bound to `v` (or unbound, for `none`). -/
def Store.put (st : Store) (key : String) (v : Option RVal) : Store :=
  fun k => if k = key then v else st k

/-- The reply to a command on a key that holds the other kind of value. -/
def wrongType : Err :=
  .new "WRONGTYPE Operation against a key holding the wrong kind of value"

/-- A key-value store that answers every command and loses no key: the commands of a Redis
server on a map from keys to values.  Lifetimes are not counted down: a key set with a lifetime
stays until it is deleted or overwritten, and `EXPIRE` with a lifetime that is not positive
deletes the key at once. -/
def memClient : Client Store where
  Set := fun key value _ st => (none, st.put key (some (.str value)))
  Get := fun key st =>
    match st key with
    | none => (.error .redisNil, st)
    | some (.str v) => (.ok v, st)
    | some (.set _) => (.error wrongType, st)
  Del := fun key st =>
    match st key with
    | none => (.ok 0, st)
    | some _ => (.ok 1, st.put key none)
  Incr := fun key st =>
    match st key with
    | none => (.ok 1, st.put key (some (.str "1")))
    | some (.str v) =>
      match redisInt v with
      | none => (.error (.new "ERR value is not an integer or out of range"), st)
      | some n =>
        if n = maxInt64 then (.error (.new "ERR increment or decrement would overflow"), st)
        else (.ok (n + 1), st.put key (some (.str (String.mk (intChars (n + 1))))))
    | some (.set _) => (.error wrongType, st)
  Expire := fun key ttl st =>
    match st key with
    | none => (.ok false, st)
    | some _ => if ttl ≤ 0 then (.ok true, st.put key none) else (.ok true, st)
  SAdd := fun key member st =>
    match st key with
    | none => (.ok 1, st.put key (some (.set [member])))
    | some (.set ms) =>
      if member ∈ ms then (.ok 0, st) else (.ok 1, st.put key (some (.set (ms ++ [member]))))
    | some (.str _) => (.error wrongType, st)
  SRem := fun key member st =>
    match st key with
    | none => (.ok 0, st)
    | some (.set ms) =>
      if member ∈ ms then
        (.ok 1, st.put key (if ms.erase member = [] then none else some (.set (ms.erase member))))
      else (.ok 0, st)
    | some (.str _) => (.error wrongType, st)
  SMembers := fun key st =>
    match st key with
    | none => (([], none), st)
    | some (.set ms) => ((ms, none), st)
    | some (.str _) => (([], some wrongType), st)

/-! ## JSON text (`encoding/json`) -/

/-- The characters of a string inside a JSON string literal: a double quote and a backslash
get a backslash in front.  (Go also writes control characters and a few others as escapes;
those are read back the same way and are left as they are here.) -/
def jsonEscape : List Char → List Char
  | [] => []
  | c :: cs =>
    if c = '"' ∨ c = '\\' then '\\' :: c :: jsonEscape cs else c :: jsonEscape cs

/-- Reads a JSON string literal after its opening quote, up to the closing quote: the text it
denotes and what follows the literal. -/
def jsonScanString : List Char → Option (List Char × List Char)
  | [] => none
  | [c] => if c = '"' then some ([], []) else none
  | c :: d :: rest =>
    if c = '"' then some ([], d :: rest)
    else if c = '\\' then (jsonScanString rest).map (fun p => (d :: p.1, p.2))
    else (jsonScanString (d :: rest)).map (fun p => (c :: p.1, p.2))

/-- Reads the fixed text `lit` at the start of `cs` and returns what follows it. -/
def jsonExpect (lit : List Char) (cs : List Char) : Option (List Char) :=
  if lit.isPrefixOf cs then some (cs.drop lit.length) else none

/-- The call `json.Marshal(s)` on a string: the escaped text between double quotes, and a nil
error. -/
def jsonMarshalString (s : String) : String × Option Err :=
  (String.mk ('"' :: (jsonEscape s.data ++ ['"'])), none)

/-- The call `json.Unmarshal(text, &s)` into a string. -/
def jsonUnmarshalString (text : String) : Except Err String :=
  match text.data with
  | '"' :: rest =>
    match jsonScanString rest with
    | some (inner, []) => .ok (String.mk inner)
    | _ => .error (.new "invalid character after top-level value")
  | _ => .error (.new "json: cannot unmarshal into Go value of type string")

/-- The call `json.Marshal(userTemporary)`: the fields in declaration order, the first under
its tag `session_id`. -/
def jsonMarshalUserTemporary (u : UserTemporary) : String × Option Err :=
  (String.mk ("\x7b\"session_id\":\"".data ++ jsonEscape u.SessionId.data
    ++ "\",\"Code\":\"".data ++ jsonEscape u.Code.data
    ++ "\",\"Name\":\"".data ++ jsonEscape u.Name.data
    ++ "\",\"Email\":\"".data ++ jsonEscape u.Email.data
    ++ "\",\"Password\":\"".data ++ jsonEscape u.Password.data
    ++ "\"\x7d".data), none)

/-- The call `json.Unmarshal(text, &user)` into a `model.UserTemporary`, for a text in the
layout that `json.Marshal` writes. -/
def jsonUnmarshalUserTemporary (text : String) : Except Err UserTemporary :=
  let r : Option UserTemporary := do
    let c0 ← jsonExpect "\x7b\"session_id\":\"".data text.data
    let (sessionId, c1) ← jsonScanString c0
    let c2 ← jsonExpect ",\"Code\":\"".data c1
    let (code, c3) ← jsonScanString c2
    let c4 ← jsonExpect ",\"Name\":\"".data c3
    let (name, c5) ← jsonScanString c4
    let c6 ← jsonExpect ",\"Email\":\"".data c5
    let (email, c7) ← jsonScanString c6
    let c8 ← jsonExpect ",\"Password\":\"".data c7
    let (password, c9) ← jsonScanString c8
    if c9 = ['}'] then
      some ⟨String.mk sessionId, String.mk code, String.mk name, String.mk email,
        String.mk password⟩
    else none
  match r with
  | some u => .ok u
  | none => .error (.new "json: cannot unmarshal into Go value of type model.UserTemporary")

/-! ## The session registry (`internal/redis/redis.go`) -/

/-- The record `repositoryRedis`. -/
structure repositoryRedis (κ : Type) where
  Client : Client κ
  RefreshTTL : Int

/-- Go: `func (r *repositoryRedis) Save(ctx, userId, refreshToken string) error`.  The
variable `err` is the one assigned by `json.Marshal`; it is what both `return err` statements
return. -/
def repositoryRedis.Save {κ : Type} (r : repositoryRedis κ) (userId refreshToken : String)
    (k : κ) : Option Err × κ :=
  match jsonMarshalString refreshToken with
  | (token, err) =>
    if err ≠ none then (err, k)
    else
      let key := "session:" ++ userId
      match r.Client.Set key token r.RefreshTTL k with
      | (resErr, k1) =>
        if resErr ≠ none then (err, k1)
        else (none, k1)

/-- Go: `func (r *repositoryRedis) DeleteRefreshToken(ctx, session string) error`. -/
def repositoryRedis.DeleteRefreshToken {κ : Type} (r : repositoryRedis κ) (session : String)
    (k : κ) : Option Err × κ :=
  let key := "session:" ++ session
  match r.Client.Del key k with
  | (.error err, k1) => (some err, k1)
  | (.ok _, k1) => (none, k1)

/-- Go: `func (r *repositoryRedis) Get(ctx, userId string) (token string, err error)`. -/
def repositoryRedis.Get {κ : Type} (r : repositoryRedis κ) (userId : String)
    (k : κ) : Except Err String × κ :=
  let key := "session:" ++ userId
  match r.Client.Get key k with
  | (.error resErr, k1) => (.error resErr, k1)
  | (.ok val, k1) =>
    match jsonUnmarshalString val with
    | .error err => (.error err, k1)
    | .ok token => (.ok token, k1)

/-- Go: `func (r *repositoryRedis) GetTokenVersion(ctx, userID string) (int, error)`. -/
def repositoryRedis.GetTokenVersion {κ : Type} (r : repositoryRedis κ) (userID : String)
    (k : κ) : Except Err Int × κ :=
  let key := "token_ver:" ++ userID
  match r.Client.Get key k with
  | (.error err, k1) =>
    if err.isRedisNil then (.ok 1, k1)
    else (.error err, k1)
  | (.ok val, k1) => (.ok (strconvAtoi val), k1)

/-- Go: `func (r *repositoryRedis) IncrementTokenVersion(ctx, userID string) (int, error)`.
The result of `Expire` is not looked at. -/
def repositoryRedis.IncrementTokenVersion {κ : Type} (r : repositoryRedis κ) (userID : String)
    (k : κ) : Except Err Int × κ :=
  let key := "token_ver:" ++ userID
  match r.Client.Incr key k with
  | (.error err, k1) => (.error err, k1)
  | (.ok newVersion, k1) =>
    match r.Client.Expire key r.RefreshTTL k1 with
    | (_, k2) => (.ok newVersion, k2)

/-- Go: `func (r *repositoryRedis) DeleteVersionToken(ctx, session string) error`. -/
def repositoryRedis.DeleteVersionToken {κ : Type} (r : repositoryRedis κ) (session : String)
    (k : κ) : Option Err × κ :=
  let key := "token_ver:" ++ session
  match r.Client.Del key k with
  | (.error err, k1) => (some err, k1)
  | (.ok _, k1) => (none, k1)

/-- Go: `func (r *repositoryRedis) AddSession(ctx, userID, deviceID string) error`. -/
def repositoryRedis.AddSession {κ : Type} (r : repositoryRedis κ) (userID deviceID : String)
    (k : κ) : Option Err × κ :=
  let key := "user_sessions:" ++ userID
  match r.Client.SAdd key deviceID k with
  | (.error err, k1) => (some err, k1)
  | (.ok _, k1) => (none, k1)

/-- Go: `func (r *repositoryRedis) RemoveSession(ctx, userID, deviceID string) error`. -/
def repositoryRedis.RemoveSession {κ : Type} (r : repositoryRedis κ) (userID deviceID : String)
    (k : κ) : Option Err × κ :=
  let key := "user_sessions:" ++ userID
  match r.Client.SRem key deviceID k with
  | (.error err, k1) => (some err, k1)
  | (.ok _, k1) => (none, k1)

/-- Go: `func (r *repositoryRedis) GetUserSessions(ctx, userID string) ([]string, error)`. -/
def repositoryRedis.GetUserSessions {κ : Type} (r : repositoryRedis κ) (userID : String)
    (k : κ) : (List String × Option Err) × κ :=
  let key := "user_sessions:" ++ userID
  r.Client.SMembers key k

/-- Go: `func (r *repositoryRedis) DeleteAllSessions(ctx, userID string) error`. -/
def repositoryRedis.DeleteAllSessions {κ : Type} (r : repositoryRedis κ) (userID : String)
    (k : κ) : Option Err × κ :=
  let key := "user_sessions:" ++ userID
  match r.Client.Del key k with
  | (.error err, k1) => (some err, k1)
  | (.ok _, k1) => (none, k1)

/-- Go: `func (r *repositoryRedis) SaveTemporarySession(ctx, userTemporary) error`.  The
result of `Set` is not looked at; the lifetime is three minutes. -/
def repositoryRedis.SaveTemporarySession {κ : Type} (r : repositoryRedis κ)
    (userTemporary : UserTemporary) (k : κ) : Option Err × κ :=
  let key := userTemporary.SessionId
  match jsonMarshalUserTemporary userTemporary with
  | (user, err) =>
    if err ≠ none then (err, k)
    else
      match r.Client.Set key user (3 * 60 * 1000000000) k with
      | (_, k1) => (none, k1)

/-- Go: `func (r *repositoryRedis) GetTemporarySession(ctx, session string)
(user *model.UserTemporary, err error)`. -/
def repositoryRedis.GetTemporarySession {κ : Type} (r : repositoryRedis κ) (session : String)
    (k : κ) : Except Err UserTemporary × κ :=
  match r.Client.Get session k with
  | (.error resErr, k1) => (.error resErr, k1)
  | (.ok val, k1) =>
    match jsonUnmarshalUserTemporary val with
    | .error err => (.error err, k1)
    | .ok user => (.ok user, k1)

/-- Go: `func (r *repositoryRedis) DeleteTemporarySession(ctx, session string) error`. -/
def repositoryRedis.DeleteTemporarySession {κ : Type} (r : repositoryRedis κ)
    (session : String) (k : κ) : Option Err × κ :=
  match r.Client.Del session k with
  | (.error err, k1) => (some err, k1)
  | (.ok _, k1) => (none, k1)

/-- Go: `func NewRepositoryRedis(client redis.Client, RefreshTTl time.Duration)
storage.Storage`: the registry as an implementation of the storage interface. -/
def NewRepositoryRedis {κ : Type} (client : Client κ) (RefreshTTl : Int) : Storage κ :=
  let r : repositoryRedis κ := { Client := client, RefreshTTL := RefreshTTl }
  { Save := r.Save
    Get := r.Get
    IncrementTokenVersion := r.IncrementTokenVersion
    GetTokenVersion := r.GetTokenVersion
    DeleteVersionToken := r.DeleteVersionToken
    DeleteRefreshToken := r.DeleteRefreshToken
    AddSession := r.AddSession
    RemoveSession := r.RemoveSession
    GetUserSessions := r.GetUserSessions
    DeleteAllSessions := r.DeleteAllSessions
    SaveTemporarySession := r.SaveTemporarySession
    GetTemporarySession := r.GetTemporarySession
    DeleteTemporarySession := r.DeleteTemporarySession }

/-! ## The orchestrator (`internal/servises/auth/auth.go`)

The logger is left out: it has no effect on results or on the collaborators. -/

/-- The record `Auth`: the collaborators the orchestrator is built from. -/
structure Auth (σ : Type) where
  provider : Provider σ
  token : Generate σ
  redis : Storage σ
  sender : EmailSender σ

/-- Go: `func NewServer(provider, token, redis, sender, log) auth.Auth`. -/
def NewServer {σ : Type} (provider : Provider σ) (token : Generate σ) (redis : Storage σ)
    (sender : EmailSender σ) : Auth σ :=
  { provider := provider, token := token, redis := redis, sender := sender }

/-- Go: `func (a *Auth) Login(ctx, email, password, deviceID string) (*model.Token, error)`. -/
def Auth.Login {σ : Type} (a : Auth σ) (email password deviceID : String) (s0 : σ) :
    Except Err Token × σ :=
  -- 1. authenticate the user
  match a.provider.LoginUsers email password s0 with
  | (.error err, s1) => (.error err, s1)
  | (.ok user, s1) =>
    -- 2. the session
    let session := user.UserID ++ ":" ++ deviceID
    -- 3. add the session to the user's list; a failure is only logged
    match a.redis.AddSession user.UserID deviceID s1 with
    | (_, s2) =>
      -- 4. bump the token version of the session
      match a.redis.IncrementTokenVersion session s2 with
      | (.error err, s3) => (.error (.wrap "increment token version" err), s3)
      | (.ok version, s3) =>
        -- 5. the record the tokens are generated from
        let userRefresh : UserRefresh :=
          { SessionId := session, UserID := user.UserID, Version := version,
            Name := user.Name, Email := user.Email, Role := user.Role }
        -- 6. access token
        match a.token.GenerateAccessToken userRefresh s3 with
        | (.error err, s4) => (.error (.wrap "generate access token" err), s4)
        | (.ok accessToken, s4) =>
          -- 7. refresh token
          match a.token.GenerateRefreshToken session s4 with
          | (.error err, s5) => (.error (.wrap "generate refresh token" err), s5)
          | (.ok refreshToken, s5) =>
            -- 8. store the refresh token
            match a.redis.Save session refreshToken s5 with
            | (some err, s6) => (.error (.wrap "save refresh token" err), s6)
            | (none, s6) =>
              (.ok { AccessToken := accessToken, RefreshToken := refreshToken,
                     TokenType := "Bearer" }, s6)

/-- Go: `func (a *Auth) GetRefreshToken(ctx, refreshToken string) (*model.Token, error)`. -/
def Auth.GetRefreshToken {σ : Type} (a : Auth σ) (refreshToken : String) (s0 : σ) :
    Except Err Token × σ :=
  if refreshToken = "" then (.error (.new "refresh token is empty"), s0)
  else
    -- 1. verify the refresh token
    match a.token.VerifyRefreshToken refreshToken s0 with
    | (.error err, s1) =>
      if stringsContains err.Error "expired" then (.error (.new "refresh token expired"), s1)
      else (.error (.wrap "invalid refresh token" err), s1)
    | (.ok claims, s1) =>
      -- 2. the session of the claims
      match claims.getString "session" with
      | none => (.error (.new "invalid token: missing session"), s1)
      | some sessionID =>
        if sessionID = "" then (.error (.new "invalid token: missing session"), s1)
        else
          -- 3. look the token up in the registry
          match a.redis.Get sessionID s1 with
          | (.error err, s2) =>
            if err.isRedisNil then (.error (.new "token revoked or user logged out"), s2)
            else (.error (.wrap "failed to validate token" err), s2)
          | (.ok storedToken, s2) =>
            if storedToken ≠ refreshToken then (.error (.new "invalid refresh token"), s2)
            else
              -- 4. the user id of the session id
              match stringsSplit sessionID ':' with
              | [userID, _] =>
                -- 5. the user's data
                match a.provider.FindOneUsers userID s2 with
                | (.error err, s3) => (.error (.wrap "failed to get user" err), s3)
                | (.ok user, s3) =>
                  -- 6. bump the token version of the session
                  match a.redis.IncrementTokenVersion sessionID s3 with
                  | (.error err, s4) => (.error (.wrap "increment token version" err), s4)
                  | (.ok version, s4) =>
                    -- 7. new access token
                    let userRefresh : UserRefresh :=
                      { SessionId := sessionID, UserID := user.UserID, Version := version,
                        Name := user.Name, Email := user.Email, Role := user.Role }
                    match a.token.GenerateAccessToken userRefresh s4 with
                    | (.error err, s5) => (.error (.wrap "generate access token" err), s5)
                    | (.ok newAccessToken, s5) =>
                      -- 8. new refresh token
                      match a.token.GenerateRefreshToken sessionID s5 with
                      | (.error err, s6) =>
                        (.error (.wrap "generate new refresh token" err), s6)
                      | (.ok newRefreshToken, s6) =>
                        -- 9. store the new refresh token
                        match a.redis.Save sessionID newRefreshToken s6 with
                        | (some err, s7) =>
                          (.error (.wrap "failed to save new refresh token" err), s7)
                        | (none, s7) =>
                          (.ok { AccessToken := newAccessToken,
                                 RefreshToken := newRefreshToken,
                                 TokenType := "Bearer" }, s7)
              | _ => (.error (.new ("invalid session format: " ++ sessionID)), s2)

/-- Go: `func (a *Auth) Logout(ctx, accessToken string) error`. -/
def Auth.Logout {σ : Type} (a : Auth σ) (accessToken : String) (s0 : σ) : Option Err × σ :=
  -- 1. verify the access token
  match a.token.VerifyAccessToken accessToken s0 with
  | (.error err, s1) => (some (.wrap "invalid access token" err), s1)
  | (.ok claims, s1) =>
    -- 2. the session id
    match claims.getString "session" with
    | none => (some (.new "invalid token: missing session"), s1)
    | some sessionID =>
      if sessionID = "" then (some (.new "invalid token: missing session"), s1)
      else
        -- 3. user id and device id of the session id
        match stringsSplit sessionID ':' with
        | [userID, deviceID] =>
          -- 4. the version of the token
          match claims.getFloat64 "ver" with
          | none => (some (.new "invalid version in token"), s1)
          | some versionFloat =>
            let versionFromToken := versionFloat.toInt
            match a.redis.GetTokenVersion sessionID s1 with
            | (.error err, s2) => (some (.wrap "get version" err), s2)
            | (.ok currentVersion, s2) =>
              if versionFromToken ≠ currentVersion then
                (some (.new "invalid token version"), s2)
              else
                -- 5. remove the device from the user's list; a failure is only logged
                match a.redis.RemoveSession userID deviceID s2 with
                | (_, s3) =>
                  -- 6. delete the refresh token
                  match a.redis.DeleteRefreshToken sessionID s3 with
                  | (err6, s4) =>
                    if notNilAndNotRedisNil err6 then
                      (err6.map (Err.wrap "delete refresh token"), s4)
                    else
                      -- 7. delete the token version
                      match a.redis.DeleteVersionToken sessionID s4 with
                      | (err7, s5) =>
                        if notNilAndNotRedisNil err7 then
                          (err7.map (Err.wrap "delete version token"), s5)
                        else (none, s5)
        | _ => (some (.new ("invalid session format: " ++ sessionID)), s1)

/-- The loop of `LogoutAll` over the device ids: the refresh token and the version of every
session are deleted, and `lastErr` keeps the last failure that is not `redis.Nil`. -/
def Auth.logoutAllLoop {σ : Type} (a : Auth σ) (userID : String) :
    List String → Option Err → σ → Option Err × σ
  | [], lastErr, s => (lastErr, s)
  | deviceID :: rest, lastErr, s =>
    let sessionID := userID ++ ":" ++ deviceID
    match a.redis.DeleteRefreshToken sessionID s with
    | (err1, s1) =>
      let lastErr1 := if notNilAndNotRedisNil err1 then err1 else lastErr
      match a.redis.DeleteVersionToken sessionID s1 with
      | (err2, s2) =>
        let lastErr2 := if notNilAndNotRedisNil err2 then err2 else lastErr1
        a.logoutAllLoop userID rest lastErr2 s2

/-- Go: `func (a *Auth) LogoutAll(ctx, accessToken string) error`. -/
def Auth.LogoutAll {σ : Type} (a : Auth σ) (accessToken : String) (s0 : σ) : Option Err × σ :=
  -- 1. verify the access token
  match a.token.VerifyAccessToken accessToken s0 with
  | (.error err, s1) => (some (.wrap "invalid access token" err), s1)
  | (.ok claims, s1) =>
    -- 2. the user id
    match claims.getString "session" with
    | none => (some (.new "invalid token: missing user_id"), s1)
    | some session =>
      if session = "" then (some (.new "invalid token: missing user_id"), s1)
      else
        match stringsSplit session ':' with
        | [userID, _] =>
          -- 3. all sessions of the user
          match a.redis.GetUserSessions userID s1 with
          | ((deviceIDs, err), s2) =>
            if notNilAndNotRedisNil err then (err.map (Err.wrap "get user sessions"), s2)
            else if deviceIDs.length = 0 then (none, s2)
            else
              -- 4. delete every session and its tokens
              match a.logoutAllLoop userID deviceIDs none s2 with
              | (lastErr, s3) =>
                -- 5. delete the user's list of sessions
                match a.redis.DeleteAllSessions userID s3 with
                | (err5, s4) =>
                  let lastErr5 := if notNilAndNotRedisNil err5 then err5 else lastErr
                  match lastErr5 with
                  | some e => (some (.wrap "some sessions were not deleted properly" e), s4)
                  | none => (none, s4)
        | _ => (some (.new ("invalid session format: " ++ session)), s1)

/-! ## The transport handler of a refresh (`internal/grpc/auth/server.go`) -/

/-- The message `sso.TokenResponse`. -/
structure TokenResponse where
  AccessToken : String
  RefreshToken : String
  deriving DecidableEq, Repr

/-- The error `status.Error(code, msg)` of the transport, as its text. -/
def statusError (code msg : String) : Err :=
  .new ("rpc error: code = " ++ code ++ " desc = " ++ msg)

/-- Go: `func (s *serverApi) GetAccessToken(ctx, request *sso.TokenRequest)
(*sso.TokenResponse, error)`. -/
def serverApi.GetAccessToken {σ : Type} (auth : Auth σ) (requestRefreshToken : String)
    (s0 : σ) : Except Err TokenResponse × σ :=
  if requestRefreshToken = "" then
    (.error (statusError "InvalidArgument" "missing refresh token"), s0)
  else
    match auth.GetRefreshToken requestRefreshToken s0 with
    | (.error err, s1) => (.error err, s1)
    | (.ok token, s1) =>
      if token.AccessToken = "" then
        (.error (statusError "PermissionDenied" "failed to get access token"), s1)
      else if token.RefreshToken = "" then
        (.error (statusError "PermissionDenied" "failed to get refresh token"), s1)
      else if requestRefreshToken = token.RefreshToken then
        (.error (statusError "PermissionDenied" "failed to get refresh token"), s1)
      else
        (.ok { AccessToken := token.AccessToken, RefreshToken := token.RefreshToken }, s1)

/-! ## Recording the calls to the collaborators

As the test doubles of `internal/tests/mock` do, a recording wrapper notes every call made to
a collaborator, with its arguments and its result, in the order the calls are made. -/

/-- One call to a collaborator: the method, its arguments and its result. -/
inductive Call where
  | LoginUsers (email password : String) (res : Except Err User) : Call
  | RegisterUsers (email name password : String) (res : Except Err String) : Call
  | FindOneUsers (id : String) (res : Except Err UserRefresh) : Call
  | Exists (email : String) (res : Option Err) : Call
  | GenerateAccessToken (user : UserRefresh) (res : Except Err String) : Call
  | GenerateRefreshToken (sessionId : String) (res : Except Err String) : Call
  | VerifyRefreshToken (tokenString : String) (res : Except Err MapClaims) : Call
  | VerifyAccessToken (tokenString : String) (res : Except Err MapClaims) : Call
  | Save (userId refreshToken : String) (res : Option Err) : Call
  | Get (userId : String) (res : Except Err String) : Call
  | IncrementTokenVersion (session : String) (res : Except Err Int) : Call
  | GetTokenVersion (session : String) (res : Except Err Int) : Call
  | DeleteVersionToken (session : String) (res : Option Err) : Call
  | DeleteRefreshToken (session : String) (res : Option Err) : Call
  | AddSession (userID deviceID : String) (res : Option Err) : Call
  | RemoveSession (userID deviceID : String) (res : Option Err) : Call
  | GetUserSessions (userID : String) (res : List String × Option Err) : Call
  | DeleteAllSessions (userID : String) (res : Option Err) : Call
  | SaveTemporarySession (userTemporary : UserTemporary) (res : Option Err) : Call
  | GetTemporarySession (session : String) (res : Except Err UserTemporary) : Call
  | DeleteTemporarySession (session : String) (res : Option Err) : Call
  | SendVerificationCode (toEmail userName code : String) (res : Option Err) : Call
  deriving DecidableEq

/-- Runs a collaborator method and appends the call to the log. -/
def record {σ α : Type} (f : σ → α × σ) (ev : α → Call) (s : σ × List Call) :
    α × (σ × List Call) :=
  ((f s.1).1, ((f s.1).2, s.2 ++ [ev (f s.1).1]))

/-- The user directory with every call recorded. -/
def Provider.recorded {σ : Type} (p : Provider σ) : Provider (σ × List Call) where
  LoginUsers := fun email password => record (p.LoginUsers email password)
    (Call.LoginUsers email password)
  RegisterUsers := fun email name password => record (p.RegisterUsers email name password)
    (Call.RegisterUsers email name password)
  FindOneUsers := fun id => record (p.FindOneUsers id) (Call.FindOneUsers id)
  Exists := fun email => record (p.Exists email) (Call.Exists email)

/-- The token manager with every call recorded. -/
def Generate.recorded {σ : Type} (t : Generate σ) : Generate (σ × List Call) where
  GenerateAccessToken := fun user => record (t.GenerateAccessToken user)
    (Call.GenerateAccessToken user)
  GenerateRefreshToken := fun sessionId => record (t.GenerateRefreshToken sessionId)
    (Call.GenerateRefreshToken sessionId)
  VerifyRefreshToken := fun tok => record (t.VerifyRefreshToken tok) (Call.VerifyRefreshToken tok)
  VerifyAccessToken := fun tok => record (t.VerifyAccessToken tok) (Call.VerifyAccessToken tok)

/-- The registry with every call recorded. -/
def Storage.recorded {σ : Type} (r : Storage σ) : Storage (σ × List Call) where
  Save := fun userId tok => record (r.Save userId tok) (Call.Save userId tok)
  Get := fun userId => record (r.Get userId) (Call.Get userId)
  IncrementTokenVersion := fun session => record (r.IncrementTokenVersion session)
    (Call.IncrementTokenVersion session)
  GetTokenVersion := fun session => record (r.GetTokenVersion session)
    (Call.GetTokenVersion session)
  DeleteVersionToken := fun session => record (r.DeleteVersionToken session)
    (Call.DeleteVersionToken session)
  DeleteRefreshToken := fun session => record (r.DeleteRefreshToken session)
    (Call.DeleteRefreshToken session)
  AddSession := fun userID deviceID => record (r.AddSession userID deviceID)
    (Call.AddSession userID deviceID)
  RemoveSession := fun userID deviceID => record (r.RemoveSession userID deviceID)
    (Call.RemoveSession userID deviceID)
  GetUserSessions := fun userID => record (r.GetUserSessions userID) (Call.GetUserSessions userID)
  DeleteAllSessions := fun userID => record (r.DeleteAllSessions userID)
    (Call.DeleteAllSessions userID)
  SaveTemporarySession := fun u => record (r.SaveTemporarySession u) (Call.SaveTemporarySession u)
  GetTemporarySession := fun session => record (r.GetTemporarySession session)
    (Call.GetTemporarySession session)
  DeleteTemporarySession := fun session => record (r.DeleteTemporarySession session)
    (Call.DeleteTemporarySession session)

/-- The mail sender with every call recorded. -/
def EmailSender.recorded {σ : Type} (e : EmailSender σ) : EmailSender (σ × List Call) where
  SendVerificationCode := fun toEmail userName code =>
    record (e.SendVerificationCode toEmail userName code)
      (Call.SendVerificationCode toEmail userName code)

/-- The orchestrator over recording collaborators: the second component of its state is the
log of the calls made so far. -/
def Auth.recorded {σ : Type} (a : Auth σ) : Auth (σ × List Call) :=
  { provider := a.provider.recorded, token := a.token.recorded, redis := a.redis.recorded,
    sender := a.sender.recorded }

/-- Whether a call is `GenerateAccessToken`, `GenerateRefreshToken` or `Save`. -/
def Call.issuesOrStores : Call → Bool
  | .GenerateAccessToken _ _ => true
  | .GenerateRefreshToken _ _ => true
  | .Save _ _ _ => true
  | _ => false

/-- Whether a call is `RemoveSession`, `DeleteRefreshToken` or `DeleteVersionToken`. -/
def Call.removesSession : Call → Bool
  | .RemoveSession _ _ _ => true
  | .DeleteRefreshToken _ _ => true
  | .DeleteVersionToken _ _ => true
  | _ => false

/-- Whether a call is `Save`. -/
def Call.isSave : Call → Bool
  | .Save _ _ _ => true
  | _ => false

/-- Whether a call is an `IncrementTokenVersion` that returned a version. -/
def Call.isIncrementOk : Call → Bool
  | .IncrementTokenVersion _ (.ok _) => true
  | _ => false

/-! ## The clock (`time.Now`) -/

/-- The clock of the process: the readings, in nanoseconds since the epoch, that the calls of
`time.Now()` return one after the other, and the number of readings taken so far. -/
structure Clock where
  readings : Nat → Int
  pos : Nat

/-- The call `time.Now()`. -/
def timeNow (c : Clock) : Int × Clock :=
  (c.readings c.pos, { c with pos := c.pos + 1 })

/-- The method `t.Unix()`: whole seconds since the epoch. -/
def unixSeconds (t : Int) : Int := t / 1000000000

/-! ## Signed tokens (`github.com/golang-jwt/jwt/v5`)

A token is the text `header.claims.signature`.  The keyed hash of the signature is a parameter
`hmac`, from the algorithm name, the key and the signed text to the signature: every property
below holds for every such function.  The encoding of a segment stands for base64url: it is
one-to-one and its output has no dot. -/

/-- The keyed hash: algorithm name, key, signed text ↦ signature. -/
abbrev HMAC := String → String → List Char → List Char

/-- The text of a segment of a token: a dot is written `~p` and a tilde `~t`. -/
def segmentEncode : List Char → List Char
  | [] => []
  | c :: cs =>
    if c = '.' then '~' :: 'p' :: segmentEncode cs
    else if c = '~' then '~' :: 't' :: segmentEncode cs
    else c :: segmentEncode cs

/-- Reads the text of a segment back. -/
def segmentDecode : List Char → Option (List Char)
  | [] => some []
  | [c] => if c = '~' ∨ c = '.' then none else some [c]
  | c :: d :: rest =>
    if c = '~' then
      if d = 'p' then (segmentDecode rest).map (fun r => '.' :: r)
      else if d = 't' then (segmentDecode rest).map (fun r => '~' :: r)
      else none
    else if c = '.' then none
    else (segmentDecode (d :: rest)).map (fun r => c :: r)

/-- The JSON text of a claim value.  The token manager issues strings and integers only. -/
def jsonValue : JVal → List Char
  | .str s => '"' :: (jsonEscape s.data ++ ['"'])
  | .int i => intChars i
  | .float64 _ => "null".data
  | .null => "null".data

/-- The JSON text of the entries of a claims map, in the order of the list.  (Go writes the
keys in sorted order; the order has no effect on what parsing returns.) -/
def jsonEntries : MapClaims → List Char
  | [] => []
  | [(k, v)] => '"' :: (jsonEscape k.data ++ '"' :: ':' :: jsonValue v)
  | (k, v) :: kv :: rest =>
    '"' :: (jsonEscape k.data ++ '"' :: ':' :: jsonValue v) ++ ',' :: jsonEntries (kv :: rest)

/-- The JSON text of a claims map. -/
def jsonClaims (claims : MapClaims) : List Char :=
  '{' :: (jsonEntries claims ++ ['}'])

/-- The JSON text of the header of a token signed with `alg`. -/
def jsonHeader (alg : String) : List Char :=
  "\x7b\"alg\":\"".data ++ jsonEscape alg.data ++ "\",\"typ\":\"JWT\"\x7d".data

/-- Whether a character can be part of an integer in JSON. -/
def isIntChar (c : Char) : Bool := c = '-' ∨ (charDigit c).isSome

/-- The integer written by a text: an optional minus sign and decimal digits. -/
def parseInt (cs : List Char) : Option Int :=
  match cs with
  | '-' :: ds => (parseNat ds).map (fun n => -(n : Int))
  | ds => (parseNat ds).map (fun n => (n : Int))

/-- Reads one JSON value: a string, `null`, or an integer, which becomes a `float64` as in
every map the parser returns. -/
def jsonScanValue (cs : List Char) : Option (JVal × List Char) :=
  match cs with
  | '"' :: rest => (jsonScanString rest).map (fun p => (JVal.str (String.mk p.1), p.2))
  | 'n' :: 'u' :: 'l' :: 'l' :: rest => some (.null, rest)
  | _ =>
    (parseInt (cs.takeWhile isIntChar)).map
      (fun i => (JVal.float64 (Float64.ofInt i), cs.dropWhile isIntChar))

/-- Reads the entries of a JSON object up to its closing brace.  An entry read later comes
first in the result, so that the last entry of a key is the one that counts. -/
def jsonScanEntries : Nat → List Char → Option MapClaims
  | 0, _ => none
  | fuel + 1, cs =>
    match cs with
    | '"' :: r0 =>
      match jsonScanString r0 with
      | some (key, ':' :: r1) =>
        match jsonScanValue r1 with
        | some (v, [c]) => if c = '}' then some [(String.mk key, v)] else none
        | some (v, c :: d :: r2) =>
          if c = ',' then
            (jsonScanEntries fuel (d :: r2)).map (fun m => m ++ [(String.mk key, v)])
          else none
        | _ => none
      | _ => none
    | _ => none

/-- Reads the JSON text of a claims map. -/
def jsonParseClaims (cs : List Char) : Option MapClaims :=
  match cs with
  | ['{', '}'] => some []
  | '{' :: rest => jsonScanEntries rest.length rest
  | _ => none

/-! ## The header of a token (`encoding/json`)

`jwt.Parse` reads the header with `json.Unmarshal(headerBytes, &token.Header)`, where
`token.Header` is a `map[string]interface{}`: the text is first checked to be one JSON value,
then decoded.  The members of the object may come in any order, with white space between the
tokens, with other members besides `alg`, and with escapes inside the strings. -/

/-- Whether a character is white space for the JSON scanner: space, tab, line feed, carriage
return. -/
def jsonIsSpace (c : Char) : Bool := c = ' ' ∨ c = '\t' ∨ c = '\n' ∨ c = '\r'

/-- The text after the white space it starts with. -/
def jsonSkipSpace (cs : List Char) : List Char := cs.dropWhile jsonIsSpace

/-- The value of a hexadecimal digit, in either case. -/
def hexDigit (c : Char) : Option Nat :=
  if 48 ≤ c.toNat ∧ c.toNat ≤ 57 then some (c.toNat - 48)
  else if 97 ≤ c.toNat ∧ c.toNat ≤ 102 then some (c.toNat - 87)
  else if 65 ≤ c.toNat ∧ c.toNat ≤ 70 then some (c.toNat - 55)
  else none

/-- The character a one-letter escape stands for: the letter after the backslash is one of
`"`, `\`, `/`, `b`, `f`, `n`, `r`, `t`. -/
def jsonSimpleEscape (c : Char) : Option Char :=
  if c = '"' then some '"'
  else if c = '\\' then some '\\'
  else if c = '/' then some '/'
  else if c = 'b' then some (Char.ofNat 8)
  else if c = 'f' then some (Char.ofNat 12)
  else if c = 'n' then some '\n'
  else if c = 'r' then some '\r'
  else if c = 't' then some '\t'
  else none

/-- A piece of the text of a JSON string: a character, or an escape `\uXXXX` with the number
it writes. -/
inductive JsonUnit where
  | char (c : Char) : JsonUnit
  | u16 (n : Nat) : JsonUnit
  deriving DecidableEq, Repr

/-- Reads a JSON string after its opening quote, up to the closing quote: its pieces and what
follows the string.  A control character, an escape that does not exist and a missing closing
quote make the text invalid. -/
def jsonStringUnits : List Char → Option (List JsonUnit × List Char)
  | [] => none
  | c :: rest =>
    if c = '"' then some ([], rest)
    else if c = '\\' then
      match rest with
      | [] => none
      | x :: rest1 =>
        if x = 'u' then
          match rest1 with
          | h1 :: h2 :: h3 :: h4 :: rest2 =>
            match hexDigit h1, hexDigit h2, hexDigit h3, hexDigit h4 with
            | some d1, some d2, some d3, some d4 =>
              (jsonStringUnits rest2).map
                (fun r => (.u16 (((d1 * 16 + d2) * 16 + d3) * 16 + d4) :: r.1, r.2))
            | _, _, _, _ => none
          | _ => none
        else
          match jsonSimpleEscape x with
          | some ch => (jsonStringUnits rest1).map (fun r => (.char ch :: r.1, r.2))
          | none => none
    else if c.toNat < 32 then none
    else (jsonStringUnits rest).map (fun r => (.char c :: r.1, r.2))

/-- The replacement character, U+FFFD. -/
def replacementChar : Char := Char.ofNat 65533

/-- The characters the pieces of a JSON string stand for (`unquote` of `encoding/json`).  An
escape in the range of the high surrogates followed by an escape in the range of the low
surrogates is one character; any other escape in the surrogate range is the replacement
character.  The first argument is a high surrogate that waits for its partner. -/
def jsonCombineUnits : Option Nat → List JsonUnit → List Char
  | none, [] => []
  | some _, [] => [replacementChar]
  | none, .char c :: rest => c :: jsonCombineUnits none rest
  | some _, .char c :: rest => replacementChar :: c :: jsonCombineUnits none rest
  | none, .u16 n :: rest =>
    if 55296 ≤ n ∧ n < 56320 then jsonCombineUnits (some n) rest
    else if 56320 ≤ n ∧ n < 57344 then replacementChar :: jsonCombineUnits none rest
    else Char.ofNat n :: jsonCombineUnits none rest
  | some hi, .u16 n :: rest =>
    if 56320 ≤ n ∧ n < 57344 then
      Char.ofNat (65536 + (hi - 55296) * 1024 + (n - 56320)) :: jsonCombineUnits none rest
    else if 55296 ≤ n ∧ n < 56320 then replacementChar :: jsonCombineUnits (some n) rest
    else replacementChar :: Char.ofNat n :: jsonCombineUnits none rest

/-- Reads a JSON string after its opening quote: the string it denotes and what follows. -/
def jsonReadString (cs : List Char) : Option (String × List Char) :=
  (jsonStringUnits cs).map (fun r => (String.mk (jsonCombineUnits none r.1), r.2))

/-- The number written by decimal digits. -/
def digitsValue (ds : List Char) : Nat :=
  ds.foldl (fun n c => 10 * n + (c.toNat - 48)) 0

/-- The least number whose nearest `float64` is infinite: `2 ^ 1024 - 2 ^ 970`, half a unit
in the last place above the largest `float64`. -/
def float64Limit : Nat :=
  179769313486231580793728971405303415079934132710037826936173778980444968292764750946649017977587207096330286416692887910946555547851940402630657488671505820681908902000708383676273854845817711531764475730270069855571366959622842914819860834936475292719074168444365510704342711559699508093042880177904174497792

/-- Whether the number `n * 10 ^ k` is beyond the range of a `float64`: from `float64Limit` on
`strconv.ParseFloat` reports a range error. -/
def float64Overflows (n : Nat) (k : Int) : Bool :=
  if 0 ≤ k then decide (float64Limit ≤ n * 10 ^ k.toNat)
  else decide (float64Limit * 10 ^ (-k).toNat ≤ n)

/-- Reads a JSON number: an optional minus sign, `0` or digits that do not start with `0`, an
optional fraction, an optional exponent.  The result is what follows the number; a number out
of the range of a `float64` is an error of the decoding into `interface{}`. -/
def jsonScanNumber (cs : List Char) : Option (List Char) :=
  let r0 := match cs with
    | '-' :: r => r
    | r => r
  let intDigits := match r0 with
    | '0' :: _ => ['0']
    | r => r.takeWhile Char.isDigit
  if intDigits = [] then none
  else
    let r1 := r0.drop intDigits.length
    let fracDigits := match r1 with
      | '.' :: r => some (r.takeWhile Char.isDigit)
      | _ => none
    if fracDigits = some [] then none
    else
      let r2 := match fracDigits with
        | some ds => r1.drop (ds.length + 1)
        | none => r1
      let hasExp : Bool := match r2 with
        | 'e' :: _ => true
        | 'E' :: _ => true
        | _ => false
      let r3 := if hasExp then r2.drop 1 else r2
      let expNeg : Bool := match r3 with
        | '-' :: _ => hasExp
        | _ => false
      let r4 := match r3 with
        | '-' :: r => if hasExp then r else r3
        | '+' :: r => if hasExp then r else r3
        | _ => r3
      let expDigits := if hasExp then r4.takeWhile Char.isDigit else []
      if hasExp = true ∧ expDigits = [] then none
      else
        let exponent : Int :=
          if expNeg then -(digitsValue expDigits : Int) else (digitsValue expDigits : Int)
        let shift : Int := exponent - ((fracDigits.getD []).length : Int)
        if float64Overflows (digitsValue (intDigits ++ fracDigits.getD [])) shift then none
        else some (r4.drop expDigits.length)

/-- The nesting depth up to which the scanner of `encoding/json` reads. -/
def maxNestingDepth : Nat := 10000

/-- Checks one JSON value, as the scanner of `encoding/json` does, and returns what follows it.
With `true` a value is expected; with `false` a value has just ended and the arrays (`false`)
and objects (`true`) of `stack`, innermost first, are still open.  The first argument bounds
the number of steps. -/
def jsonSkip : Nat → Bool → List Bool → List Char → Option (List Char)
  | 0, _, _, _ => none
  | fuel + 1, true, stack, cs =>
    match jsonSkipSpace cs with
    | [] => none
    | c :: rest =>
      if c = '"' then (jsonStringUnits rest).bind (fun r => jsonSkip fuel false stack r.2)
      else if c = '{' then
        if maxNestingDepth ≤ stack.length then none
        else
          match jsonSkipSpace rest with
          | [] => none
          | d :: rest1 =>
            if d = '}' then jsonSkip fuel false stack rest1
            else if d = '"' then
              match jsonStringUnits rest1 with
              | none => none
              | some (_, rest2) =>
                match jsonSkipSpace rest2 with
                | [] => none
                | x :: rest3 =>
                  if x = ':' then jsonSkip fuel true (true :: stack) rest3 else none
            else none
      else if c = '[' then
        if maxNestingDepth ≤ stack.length then none
        else
          match jsonSkipSpace rest with
          | [] => none
          | d :: rest1 =>
            if d = ']' then jsonSkip fuel false stack rest1
            else jsonSkip fuel true (false :: stack) (d :: rest1)
      else if "true".data.isPrefixOf (c :: rest) then jsonSkip fuel false stack (rest.drop 3)
      else if "false".data.isPrefixOf (c :: rest) then jsonSkip fuel false stack (rest.drop 4)
      else if "null".data.isPrefixOf (c :: rest) then jsonSkip fuel false stack (rest.drop 3)
      else (jsonScanNumber (c :: rest)).bind (fun r => jsonSkip fuel false stack r)
  | fuel + 1, false, stack, cs =>
    match stack with
    | [] => some cs
    | true :: outer =>
      match jsonSkipSpace cs with
      | [] => none
      | c :: rest =>
        if c = '}' then jsonSkip fuel false outer rest
        else if c = ',' then
          match jsonSkipSpace rest with
          | [] => none
          | d :: rest1 =>
            if d = '"' then
              match jsonStringUnits rest1 with
              | none => none
              | some (_, rest2) =>
                match jsonSkipSpace rest2 with
                | [] => none
                | x :: rest3 =>
                  if x = ':' then jsonSkip fuel true (true :: outer) rest3 else none
            else none
        else none
    | false :: outer =>
      match jsonSkipSpace cs with
      | [] => none
      | c :: rest =>
        if c = ']' then jsonSkip fuel false outer rest
        else if c = ',' then jsonSkip fuel true (false :: outer) rest
        else none

/-- Checks that a text is one JSON value with nothing but white space after it
(`checkValid` of `encoding/json`). -/
def jsonValid (cs : List Char) : Bool :=
  match jsonSkip (2 * cs.length + 2) true [] cs with
  | some rest => jsonSkipSpace rest = []
  | none => false

/-- The member `alg` of a JSON object that has been checked, read from after its opening
brace or after a comma: the string of the last member with the key `alg`, and `none` when
there is no such member or its value is not a string.  The second argument is the value found
so far. -/
def jsonObjectAlg : Nat → Option String → List Char → Option String
  | 0, found, _ => found
  | fuel + 1, found, cs =>
    match jsonSkipSpace cs with
    | [] => found
    | c :: rest =>
      if c = '"' then
        match jsonReadString rest with
        | none => found
        | some (key, rest1) =>
          match jsonSkipSpace rest1 with
          | [] => found
          | _ :: rest2 =>
            match jsonSkipSpace rest2 with
            | [] => found
            | d :: rest3 =>
              if d = '"' then
                match jsonReadString rest3 with
                | none => found
                | some (value, rest4) =>
                  match jsonSkipSpace rest4 with
                  | [] => found
                  | x :: rest5 =>
                    if x = ',' then
                      jsonObjectAlg fuel (if key = "alg" then some value else found) rest5
                    else if key = "alg" then some value else found
              else
                match jsonSkip (2 * rest3.length + 4) true [] (d :: rest3) with
                | none => found
                | some rest4 =>
                  match jsonSkipSpace rest4 with
                  | [] => found
                  | x :: rest5 =>
                    if x = ',' then jsonObjectAlg fuel (if key = "alg" then none else found) rest5
                    else if key = "alg" then none else found
      else found

/-- The call `json.Unmarshal(headerBytes, &token.Header)` followed by the reading
`token.Header["alg"].(string)`: `none` when the decoding fails (the text is not valid JSON, or
is a value other than an object or `null`), otherwise the algorithm name, which is absent when
the object has no member `alg` or one that is not a string, and for `null`. -/
def jsonParseHeader (cs : List Char) : Option (Option String) :=
  if jsonValid cs then
    match jsonSkipSpace cs with
    | [] => none
    | c :: rest =>
      if c = '{' then some (jsonObjectAlg rest.length none rest)
      else if c = 'n' then some none
      else none
  else none

/-- A signing method of the library: one of the HMAC family (`*jwt.SigningMethodHMAC`) or
another registered method. -/
inductive SigningMethod where
  | HMAC (alg : String) : SigningMethod
  | other (alg : String) : SigningMethod
  deriving DecidableEq, Repr

/-- The call `jwt.GetSigningMethod(alg)`: the registered methods. -/
def GetSigningMethod (alg : String) : Option SigningMethod :=
  if alg ∈ ["HS256", "HS384", "HS512"] then some (.HMAC alg)
  else if alg ∈ ["RS256", "RS384", "RS512", "ES256", "ES384", "ES512", "PS256", "PS384",
      "PS512", "EdDSA", "none"] then some (.other alg)
  else none

/-- The call `jwt.NewWithClaims(method, claims).SignedString(key)` for an HMAC method `alg`. -/
def SignedString (hmac : HMAC) (alg : String) (claims : MapClaims) (key : String) :
    Except Err String :=
  let signingString :=
    segmentEncode (jsonHeader alg) ++ '.' :: segmentEncode (jsonClaims claims)
  .ok (String.mk (signingString ++ '.' :: segmentEncode (hmac alg key signingString)))

/-- The validation of the time claims of a parsed token at the instant `now`: a token with an
`exp` claim is valid strictly before that second, one with an `nbf` claim from that second on. -/
def validateClaims (claims : MapClaims) (now : Int) : Option Err :=
  match claims.get "exp" with
  | some (.float64 exp) =>
    if now < exp.toInt * 1000000000 then
      match claims.get "nbf" with
      | some (.float64 nbf) =>
        if now < nbf.toInt * 1000000000 then
          some (.new "token has invalid claims: token is not valid yet")
        else none
      | some _ => some (.new "token has invalid claims: invalid type for claim: nbf is invalid")
      | none => none
    else some (.new "token has invalid claims: token is expired")
  | some _ => some (.new "token has invalid claims: invalid type for claim: exp is invalid")
  | none =>
    match claims.get "nbf" with
    | some (.float64 nbf) =>
      if now < nbf.toInt * 1000000000 then
        some (.new "token has invalid claims: token is not valid yet")
      else none
    | some _ => some (.new "token has invalid claims: invalid type for claim: nbf is invalid")
    | none => none

/-- The call `jwt.Parse(tokenString, keyFunc)`: the token is split into three segments, header
and claims are decoded, the signing method is looked up under the string member `alg` of the
header, the key function is asked for the key of that method, the signature is checked against
the first two segments, and the time claims are validated. -/
def jwtParse (hmac : HMAC) (tokenString : String) (keyFunc : SigningMethod → String → Except Err String)
    (c0 : Clock) : Except Err MapClaims × Clock :=
  match tokenString.data.splitOn '.' with
  | [p0, p1, p2] =>
    match (segmentDecode p0).bind jsonParseHeader with
    | none => (.error (.new "token is malformed: could not decode header"), c0)
    | some header =>
      match (segmentDecode p1).bind jsonParseClaims with
      | none => (.error (.new "token is malformed: could not decode claim"), c0)
      | some claims =>
        match header with
        | none =>
          (.error (.new "token is unverifiable: signing method (alg) is unspecified"), c0)
        | some alg =>
          match GetSigningMethod alg with
          | none =>
            (.error (.new "token is unverifiable: signing method (alg) is unavailable"), c0)
          | some method =>
            match keyFunc method alg with
            | .error err =>
              (.error (.wrap "token is unverifiable: error while executing keyfunc" err), c0)
            | .ok key =>
              match segmentDecode p2 with
              | none => (.error (.new "token is malformed: could not decode signature"), c0)
              | some sig =>
                if sig ≠ hmac alg key (p0 ++ '.' :: p1) then
                  (.error (.new "token signature is invalid: signature is invalid"), c0)
                else
                  match timeNow c0 with
                  | (now, c1) =>
                    match validateClaims claims now with
                    | some err => (.error err, c1)
                    | none => (.ok claims, c1)
  | _ => (.error (.new "token is malformed: token contains an invalid number of segments"), c0)

/-! ## The token manager (`internal/token/token.go`) -/

/-- The record `JWTManager`; the lifetimes are numbers of nanoseconds. -/
structure JWTManager where
  accessSecret : String
  refreshSecret : String
  accessTokenTTL : Int
  refreshTokenTTL : Int
  deriving DecidableEq, Repr

/-- Go: `func NewJWTManager(accessSecret, refreshSecret string, accessTTL, refreshTTL
time.Duration) *JWTManager`. -/
def NewJWTManager (accessSecret refreshSecret : String) (accessTTL refreshTTL : Int) :
    JWTManager :=
  { accessSecret := accessSecret, refreshSecret := refreshSecret,
    accessTokenTTL := accessTTL, refreshTokenTTL := refreshTTL }

/-- Go: `func (m *JWTManager) GenerateAccessToken(u *model.UserRefresh) (string, error)`.
The clock is read for `exp` and then for `iat`, in the order of the source. -/
def JWTManager.GenerateAccessToken (m : JWTManager) (hmac : HMAC) (u : UserRefresh)
    (c0 : Clock) : Except Err String × Clock :=
  match timeNow c0 with
  | (t1, c1) =>
    match timeNow c1 with
    | (t2, c2) =>
      let claims : MapClaims :=
        [ ("session", .str u.SessionId),
          ("role", .str u.Role),
          ("email", .str u.Email),
          ("exp", .int (unixSeconds (t1 + m.accessTokenTTL))),
          ("ver", .int u.Version),
          ("iat", .int (unixSeconds t2)) ]
      (SignedString hmac "HS256" claims m.accessSecret, c2)

/-- Go: `func (m *JWTManager) GenerateRefreshToken(session string) (string, error)`.  The
clock is read for `exp`, for `iat` and for `lat`. -/
def JWTManager.GenerateRefreshToken (m : JWTManager) (hmac : HMAC) (session : String)
    (c0 : Clock) : Except Err String × Clock :=
  match timeNow c0 with
  | (t1, c1) =>
    match timeNow c1 with
    | (t2, c2) =>
      match timeNow c2 with
      | (t3, c3) =>
        let claims : MapClaims :=
          [ ("session", .str session),
            ("exp", .int (unixSeconds (t1 + m.refreshTokenTTL))),
            ("iat", .int (unixSeconds t2)),
            ("lat", .int (unixSeconds t3)) ]
        (SignedString hmac "HS256" claims m.refreshSecret, c3)

/-- The key function both verifications pass to `jwt.Parse`: a method that is not of the HMAC
family is refused, any other gets `secret`. -/
def keyFuncFor (secret : String) (method : SigningMethod) (alg : String) : Except Err String :=
  match method with
  | .HMAC _ => .ok secret
  | .other _ => .error (.new ("unexpected signing method: " ++ alg))

/-- Go: `func (m *JWTManager) VerifyRefreshToken(session string) (jwt.MapClaims, error)`. -/
def JWTManager.VerifyRefreshToken (m : JWTManager) (hmac : HMAC) (session : String)
    (c0 : Clock) : Except Err MapClaims × Clock :=
  if session = "" then (.error (.new "token is empty"), c0)
  else
    match jwtParse hmac session (keyFuncFor m.refreshSecret) c0 with
    | (.error err, c1) => (.error (.wrap "token validation failed" err), c1)
    | (.ok claims, c1) => (.ok claims, c1)

/-- The sentinel `token.ErrAccessToken`. -/
def ErrAccessToken : Err := .new "access token not valid"

/-- Go: `func (m *JWTManager) VerifyAccessToken(tokenString string) (jwt.MapClaims, error)`. -/
def JWTManager.VerifyAccessToken (m : JWTManager) (hmac : HMAC) (tokenString : String)
    (c0 : Clock) : Except Err MapClaims × Clock :=
  if tokenString = "" then (.error ErrAccessToken, c0)
  else
    match jwtParse hmac tokenString (keyFuncFor m.accessSecret) c0 with
    | (.error err, c1) => (.error (.wrap "access token validation failed" err), c1)
    | (.ok claims, c1) => (.ok claims, c1)

/-- The token manager as an implementation of the interface `token.Generate`. -/
def JWTManager.toGenerate (m : JWTManager) (hmac : HMAC) : Generate Clock where
  GenerateAccessToken := m.GenerateAccessToken hmac
  GenerateRefreshToken := m.GenerateRefreshToken hmac
  VerifyRefreshToken := m.VerifyRefreshToken hmac
  VerifyAccessToken := m.VerifyAccessToken hmac

/-! ## The service over the key-value store

The state of the assembled service is a pair: the key-value store, which only the registry
touches, and the rest of the world (user directory, clock, mail), which the registry does not
touch. -/

/-- A method of a collaborator that works on the first component of the state. -/
def onFst {κ τ α : Type} (f : κ → α × κ) (s : κ × τ) : α × (κ × τ) :=
  ((f s.1).1, ((f s.1).2, s.2))

/-- A method of a collaborator that works on the second component of the state. -/
def onSnd {κ τ α : Type} (g : τ → α × τ) (s : κ × τ) : α × (κ × τ) :=
  ((g s.2).1, (s.1, (g s.2).2))

/-- A registry over `κ` as a registry of the assembled service. -/
def Storage.onStore {κ : Type} (τ : Type) (r : Storage κ) : Storage (κ × τ) where
  Save := fun userId tok => onFst (r.Save userId tok)
  Get := fun userId => onFst (r.Get userId)
  IncrementTokenVersion := fun session => onFst (r.IncrementTokenVersion session)
  GetTokenVersion := fun session => onFst (r.GetTokenVersion session)
  DeleteVersionToken := fun session => onFst (r.DeleteVersionToken session)
  DeleteRefreshToken := fun session => onFst (r.DeleteRefreshToken session)
  AddSession := fun userID deviceID => onFst (r.AddSession userID deviceID)
  RemoveSession := fun userID deviceID => onFst (r.RemoveSession userID deviceID)
  GetUserSessions := fun userID => onFst (r.GetUserSessions userID)
  DeleteAllSessions := fun userID => onFst (r.DeleteAllSessions userID)
  SaveTemporarySession := fun u => onFst (r.SaveTemporarySession u)
  GetTemporarySession := fun session => onFst (r.GetTemporarySession session)
  DeleteTemporarySession := fun session => onFst (r.DeleteTemporarySession session)

/-- A user directory over `τ` as a user directory of the assembled service. -/
def Provider.onWorld (κ : Type) {τ : Type} (p : Provider τ) : Provider (κ × τ) where
  LoginUsers := fun email password => onSnd (p.LoginUsers email password)
  RegisterUsers := fun email name password => onSnd (p.RegisterUsers email name password)
  FindOneUsers := fun id => onSnd (p.FindOneUsers id)
  Exists := fun email => onSnd (p.Exists email)

/-- A token manager over `τ` as a token manager of the assembled service. -/
def Generate.onWorld (κ : Type) {τ : Type} (t : Generate τ) : Generate (κ × τ) where
  GenerateAccessToken := fun user => onSnd (t.GenerateAccessToken user)
  GenerateRefreshToken := fun sessionId => onSnd (t.GenerateRefreshToken sessionId)
  VerifyRefreshToken := fun tok => onSnd (t.VerifyRefreshToken tok)
  VerifyAccessToken := fun tok => onSnd (t.VerifyAccessToken tok)

/-- A mail sender over `τ` as a mail sender of the assembled service. -/
def EmailSender.onWorld (κ : Type) {τ : Type} (e : EmailSender τ) : EmailSender (κ × τ) where
  SendVerificationCode := fun toEmail userName code =>
    onSnd (e.SendVerificationCode toEmail userName code)

/-- The service assembled as in `app.New`: the registry `NewRepositoryRedis` over the
key-value store `memClient`, next to a user directory, a token manager and a mail sender. -/
def registryAuth {τ : Type} (provider : Provider τ) (token : Generate τ)
    (sender : EmailSender τ) (RefreshTTL : Int) : Auth (Store × τ) :=
  NewServer (provider.onWorld Store) (token.onWorld Store)
    ((NewRepositoryRedis memClient RefreshTTL).onStore τ) (sender.onWorld Store)

/-- The counter stored for a session: the integer under the key `token_ver:<session>`, and 0
when the key is absent (or holds no integer). -/
def storedVersion (st : Store) (session : String) : Int :=
  match st ("token_ver:" ++ session) with
  | some (.str v) => (redisInt v).getD 0
  | _ => 0

/-! ## Sequences of calls -/

/-- A call that issues tokens: a login or a refresh. -/
inductive SessionOp where
  | login (email password deviceID : String) : SessionOp
  | refresh (refreshToken : String) : SessionOp
  deriving DecidableEq, Repr

/-- Runs one call. -/
def Auth.runOp {σ : Type} (a : Auth σ) (op : SessionOp) (s : σ) : Except Err Token × σ :=
  match op with
  | .login email password deviceID => a.Login email password deviceID s
  | .refresh refreshToken => a.GetRefreshToken refreshToken s

/-- Runs calls one after the other, each from the state the one before left; `none` when one
of them fails. -/
def Auth.runOps {σ : Type} (a : Auth σ) : List SessionOp → σ → Option σ
  | [], s => some s
  | op :: ops, s =>
    match a.runOp op s with
    | (.ok _, s') => a.runOps ops s'
    | (.error _, _) => none

/-- The session of a call of `IncrementTokenVersion`. -/
def Call.increment : Call → Option String
  | .IncrementTokenVersion session _ => some session
  | _ => none

/-- The version an `IncrementTokenVersion` call returned. -/
def Call.bump : Call → Option Int
  | .IncrementTokenVersion _ (.ok version) => some version
  | _ => none

/-- The version of the record an access token was generated from. -/
def Call.issuedVersion : Call → Option Int
  | .GenerateAccessToken user (.ok _) => some user.Version
  | _ => none

/-- The versions `first, first + 1, ...`, `n` of them. -/
def versionsFrom (first : Int) : Nat → List Int
  | 0 => []
  | n + 1 => first :: versionsFrom (first + 1) n

/-! ## Fixtures for concrete runs -/

/-- A keyed hash for concrete runs: algorithm name, key and signed text side by side. -/
def fixtureHMAC : HMAC :=
  fun alg key text => alg.data ++ '|' :: key.data ++ '|' :: text

/-- A user directory with one user, `user-123`, whatever the credentials. -/
def fixtureProvider (τ : Type) : Provider τ where
  LoginUsers := fun email _ w =>
    (.ok { UserID := "user-123", Email := email, Name := "Test User", Valid := true,
           Role := "user" }, w)
  RegisterUsers := fun _ _ _ w => (.ok "user-123", w)
  FindOneUsers := fun id w =>
    (.ok { SessionId := "", UserID := id, Name := "Test User", Email := "test@gmail.com",
           Role := "user", Version := 0 }, w)
  Exists := fun _ w => (none, w)

/-- A mail sender that accepts every message. -/
def fixtureSender (τ : Type) : EmailSender τ where
  SendVerificationCode := fun _ _ _ w => (none, w)

/-- A clock that stands still at the second `1700000000`. -/
def fixtureClock : Clock :=
  { readings := fun _ => 1700000000000000000, pos := 0 }

/-- A token manager: two secrets, fifteen minutes for access tokens, a week for refresh
tokens. -/
def fixtureManager : JWTManager :=
  NewJWTManager "access-secret" "refresh-secret" 900000000000 604800000000000

/-- The service over the key-value store with the fixtures as its other collaborators. -/
def fixtureAuth : Auth (Store × Clock) :=
  registryAuth (fixtureProvider Clock) (fixtureManager.toGenerate fixtureHMAC)
    (fixtureSender Clock) 604800000000000

/-- The access token of a result, or the empty string. -/
def accessOf (r : Except Err Token) : String :=
  match r with
  | .ok t => t.AccessToken
  | .error _ => ""

/-- The refresh token of a result, or the empty string. -/
def refreshOf (r : Except Err Token) : String :=
  match r with
  | .ok t => t.RefreshToken
  | .error _ => ""

/-- Canned answers for a test double of every collaborator, as the mocks of
`internal/tests/mock` are set up in `internal/tests/tests`.  The defaults are those of
`TestLogin_HappyPath`. -/
structure Canned where
  loginUsers : Except Err User :=
    .ok { UserID := "user-123", Email := "test@gmail.com", Name := "Test User",
          Valid := false, Role := "user" }
  findOneUsers : Except Err UserRefresh :=
    .ok { SessionId := "", UserID := "user-123", Name := "Test User",
          Email := "test@gmail.com", Role := "user", Version := 0 }
  generateAccessToken : Except Err String := .ok "access-token-123"
  generateRefreshToken : Except Err String := .ok "refresh-token-456"
  verifyRefreshToken : Except Err MapClaims := .ok [("session", .str "user-123:device-123")]
  verifyAccessToken : Except Err MapClaims :=
    .ok [("session", .str "user-123:device-123"), ("ver", .float64 ⟨1, 0⟩)]
  save : Option Err := none
  get : Except Err String := .ok "refresh-token-456"
  incrementTokenVersion : Except Err Int := .ok 1
  getTokenVersion : Except Err Int := .ok 1
  deleteVersionToken : String → Option Err := fun _ => none
  deleteRefreshToken : String → Option Err := fun _ => none
  addSession : Option Err := none
  removeSession : Option Err := none
  getUserSessions : List String × Option Err := (["device-123", "device-456", "device-789"], none)
  deleteAllSessions : Option Err := none
  registerUsers : Except Err String := .ok "user-123"
  existsEmail : Option Err := none
  saveTemporarySession : Option Err := none
  getTemporarySession : Except Err UserTemporary := .error .redisNil
  deleteTemporarySession : Option Err := none
  sendVerificationCode : Option Err := none

/-- The orchestrator over test doubles that give the canned answers; there is no state. -/
def mockAuth (c : Canned) : Auth Unit where
  provider :=
    { LoginUsers := fun _ _ u => (c.loginUsers, u)
      RegisterUsers := fun _ _ _ u => (c.registerUsers, u)
      FindOneUsers := fun _ u => (c.findOneUsers, u)
      Exists := fun _ u => (c.existsEmail, u) }
  token :=
    { GenerateAccessToken := fun _ u => (c.generateAccessToken, u)
      GenerateRefreshToken := fun _ u => (c.generateRefreshToken, u)
      VerifyRefreshToken := fun _ u => (c.verifyRefreshToken, u)
      VerifyAccessToken := fun _ u => (c.verifyAccessToken, u) }
  redis :=
    { Save := fun _ _ u => (c.save, u)
      Get := fun _ u => (c.get, u)
      IncrementTokenVersion := fun _ u => (c.incrementTokenVersion, u)
      GetTokenVersion := fun _ u => (c.getTokenVersion, u)
      DeleteVersionToken := fun session u => (c.deleteVersionToken session, u)
      DeleteRefreshToken := fun session u => (c.deleteRefreshToken session, u)
      AddSession := fun _ _ u => (c.addSession, u)
      RemoveSession := fun _ _ u => (c.removeSession, u)
      GetUserSessions := fun _ u => (c.getUserSessions, u)
      DeleteAllSessions := fun _ u => (c.deleteAllSessions, u)
      SaveTemporarySession := fun _ u => (c.saveTemporarySession, u)
      GetTemporarySession := fun _ u => (c.getTemporarySession, u)
      DeleteTemporarySession := fun _ u => (c.deleteTemporarySession, u) }
  sender := { SendVerificationCode := fun _ _ _ u => (c.sendVerificationCode, u) }

/-- A deletion that `LogoutAll` asks of the registry. -/
inductive Deletion where
  | refreshToken (session : String) : Deletion
  | versionToken (session : String) : Deletion
  | allSessions (userID : String) : Deletion
  deriving DecidableEq, Repr

/-- The deletion a call asks for, if it is one of `DeleteRefreshToken`, `DeleteVersionToken`
and `DeleteAllSessions`. -/
def Call.deletion : Call → Option Deletion
  | .DeleteRefreshToken session _ => some (.refreshToken session)
  | .DeleteVersionToken session _ => some (.versionToken session)
  | .DeleteAllSessions userID _ => some (.allSessions userID)
  | _ => none

/-- Whether a call is a deletion that returned an error other than `redis.Nil`. -/
def Call.deletionFailed : Call → Bool
  | .DeleteRefreshToken _ res => notNilAndNotRedisNil res
  | .DeleteVersionToken _ res => notNilAndNotRedisNil res
  | .DeleteAllSessions _ res => notNilAndNotRedisNil res
  | _ => false

/-- The deletions `LogoutAll` is to ask for, in order: refresh token and version of every
session of the device list, then the device list itself. -/
def expectedDeletions (userID : String) (deviceIDs : List String) : List Deletion :=
  (deviceIDs.map (fun d =>
    [Deletion.refreshToken (userID ++ ":" ++ d), Deletion.versionToken (userID ++ ":" ++ d)])).flatten
    ++ [Deletion.allSessions userID]

/-- A key-value store client whose `Set` command fails, as when the connection is lost; the
other commands are those of `memClient`. -/
def failingSetClient : Client Store :=
  { memClient with Set := fun _ _ _ st => (some (.new "dial tcp: connection refused"), st) }

/-- The service over a store client whose `Set` command fails. -/
def failingSetAuth : Auth (Store × Clock) :=
  NewServer ((fixtureProvider Clock).onWorld Store)
    ((fixtureManager.toGenerate fixtureHMAC).onWorld Store)
    ((NewRepositoryRedis failingSetClient 604800000000000).onStore Clock)
    ((fixtureSender Clock).onWorld Store)

/-- Whether a result is a success. -/
def isOk {α : Type} (r : Except Err α) : Bool :=
  match r with
  | .ok _ => true
  | .error _ => false

/-- Whether every `Save` of a log comes after an `IncrementTokenVersion` that returned a
version; `seen` tells whether such a call came before the log. -/
def savesFollowIncrement : Bool → List Call → Bool
  | _, [] => true
  | seen, c :: cs => (!c.isSave || seen) && savesFollowIncrement (seen || c.isIncrementOk) cs

/-- The first login of the fixture user on the device `device-123`, on an empty store. -/
def runLogin : Except Err Token × (Store × Clock) :=
  fixtureAuth.Login "test@gmail.com" "Password123" "device-123" (Store.empty, fixtureClock)

/-- A refresh that presents the refresh token of `runLogin`, in the same second. -/
def runRefresh : Except Err Token × (Store × Clock) :=
  fixtureAuth.GetRefreshToken (refreshOf runLogin.1) runLogin.2

/-- A logout that presents the access token of `runLogin`, right after the login. -/
def runLogout : Option Err × (Store × Clock) :=
  fixtureAuth.Logout (accessOf runLogin.1) runLogin.2

/-- A logout that presents the access token of `runRefresh`, right after the refresh. -/
def runLogoutAfterRefresh : Option Err × (Store × Clock) :=
  fixtureAuth.Logout (accessOf runRefresh.1) runRefresh.2

/-- A login of the same user on a second device, `device-456`, after `runLogin`. -/
def runLoginSecondDevice : Except Err Token × (Store × Clock) :=
  fixtureAuth.Login "test@gmail.com" "Password123" "device-456" runLogin.2

/-- A clock for a run over a week: the first five readings (a login) are at the second
`1700000000`, the next six (a refresh) one second before the refresh token of the login
expires, and all later ones five seconds after it has expired. -/
def agingClock : Clock :=
  { readings := fun n =>
      if n < 5 then 1700000000000000000
      else if n < 11 then 1700604799000000000
      else 1700604805000000000,
    pos := 0 }

/-- The login of `runLogin` under the clock `agingClock`. -/
def agedLogin : Except Err Token × (Store × Clock) :=
  fixtureAuth.Login "test@gmail.com" "Password123" "device-123" (Store.empty, agingClock)

/-- A refresh through the transport handler that presents the refresh token of `agedLogin`, a
second before it expires. -/
def agedRefresh : Except Err TokenResponse × (Store × Clock) :=
  serverApi.GetAccessToken fixtureAuth (refreshOf agedLogin.1) agedLogin.2

/-- The token pair of a result. -/
def tokenOf (r : Except Err Token) : Token :=
  { AccessToken := accessOf r, RefreshToken := refreshOf r, TokenType := "Bearer" }

/-- A clock whose first five readings (a login) are at the second `1700000000` and all later
ones a minute after it. -/
def tickingClock : Clock :=
  { readings := fun n => if n < 5 then 1700000000000000000 else 1700000060000000000,
    pos := 0 }

/-- The login of `runLogin` under the clock `tickingClock`. -/
def tickLogin : Except Err Token × (Store × Clock) :=
  fixtureAuth.Login "test@gmail.com" "Password123" "device-123" (Store.empty, tickingClock)

/-- A refresh that presents the refresh token of `tickLogin`, a minute after the login. -/
def tickRefresh : Except Err Token × (Store × Clock) :=
  fixtureAuth.GetRefreshToken (refreshOf tickLogin.1) tickLogin.2

/-- A login followed by a refresh with the refresh token of the login, with the calls
recorded. -/
def runLoginThenRefresh : Option ((Store × Clock) × List Call) :=
  fixtureAuth.recorded.runOps
    [.login "test@gmail.com" "Password123" "device-123", .refresh (refreshOf runLogin.1)]
    ((Store.empty, fixtureClock), [])

/-! ## Registration: validation and the verification code (`internal/servises/auth/auth.go`) -/

/-- The sentinel `ErrEmailMissingAt`. -/
def ErrEmailMissingAt : Err := .new "your email doesn't contain the '@' symbol"

/-- The sentinel `ErrEmailInvalidFmt`. -/
def ErrEmailInvalidFmt : Err := .new "your email contains not valid characters"

/-- The sentinel `ErrEmailUnknownDomain`. -/
def ErrEmailUnknownDomain : Err := .new "your domain isn't allowed"

/-- The sentinel `ErrPasswordLow`. -/
def ErrPasswordLow : Err := .new "the password must contain at 8 characters or more"

/-- The sentinel `ErrPasswordFmt`. -/
def ErrPasswordFmt : Err :=
  .new "the password must contain at least one uppercase character and one number"

/-- A character class of a regular expression: one of the listed characters. -/
def reClass (cs : List Char) : RegularExpression Char :=
  cs.foldr (fun c r => RegularExpression.plus (RegularExpression.char c) r)
    RegularExpression.zero

/-- The repetition `r+` of a regular expression. -/
def rePlus (r : RegularExpression Char) : RegularExpression Char :=
  RegularExpression.comp r (RegularExpression.star r)

/-- The characters of the class `A-Za-z`. -/
def reLetters : List Char :=
  "ABCDEFGHIJKLMNOPQRSTUVWXYZabcdefghijklmnopqrstuvwxyz".data

/-- The characters of the class `0-9`. -/
def reDigits : List Char := "0123456789".data

/-- The regular expression of `validateEmail`, between its anchors `^` and `$`:
`[A-Za-z0-9._%+\-]+@[A-Za-z0-9.\-]+\.[A-Za-z]{2,}`. -/
def emailRegexp : RegularExpression Char :=
  RegularExpression.comp (rePlus (reClass (reLetters ++ reDigits ++ "._%+-".data)))
    (RegularExpression.comp (RegularExpression.char '@')
      (RegularExpression.comp (rePlus (reClass (reLetters ++ reDigits ++ ".-".data)))
        (RegularExpression.comp (RegularExpression.char '.')
          (RegularExpression.comp (reClass reLetters) (rePlus (reClass reLetters))))))

/-- The call `re.MatchString(email)` for the anchored expression: the whole text matches. -/
def emailRegexpMatchString (email : String) : Bool :=
  emailRegexp.rmatch email.data

/-- The call `strings.ToLower(s)` on a text of ASCII characters: the letters `A-Z` become
`a-z`.  `validateEmail` calls it only on a text that the regular expression has accepted, which
is ASCII; `stringsToLower_exact` shows that the full `strings.ToLower`
(`stringsToLowerUnicode`) agrees with it there, whatever the tables of `unicode.ToLower`. -/
def stringsToLower (s : String) : String :=
  String.mk (s.data.map Char.toLower)

/-- The map `allowedDomains`. -/
def allowedDomains (domain : String) : Bool :=
  domain = "gmail.com" ∨ domain = "yandex.ru" ∨ domain = "mail.ru" ∨ domain = "mail.com"

/-- The outcome that stands for the run-time panic of an index out of range at `paths[1]`. -/
def panicIndexOutOfRange : Err := .new "panic: runtime error: index out of range [1]"

/-- Go: `func validateEmail(email string) error`. -/
def validateEmail (email : String) : Option Err :=
  -- spaces
  if stringsContains email " " then some (.new "email cannot contain spaces")
  else if !stringsContains email "@" then some ErrEmailMissingAt
  else if !emailRegexpMatchString email then some ErrEmailInvalidFmt
  else
    let lowerEmail := stringsToLower email
    let paths := stringsSplit lowerEmail '@'
    match paths.get? 1 with
    | none => some panicIndexOutOfRange
    | some domain =>
      if !allowedDomains domain then some ErrEmailUnknownDomain
      else none

/-- The predicates `unicode.IsDigit` and `unicode.IsUpper` of the Go library, whose tables are
not part of the repository. -/
structure UnicodeTables where
  IsDigit : Char → Bool
  IsUpper : Char → Bool

/-- The loop of `validatePassword` over the characters of the password. -/
def validatePasswordLoop (unicode : UnicodeTables) : List Char → Bool → Bool → Bool × Bool
  | [], hasDigit, hasUpper => (hasDigit, hasUpper)
  | ch :: rest, hasDigit, hasUpper =>
    let hasDigit1 := if unicode.IsDigit ch then true else hasDigit
    let hasUpper1 := if unicode.IsUpper ch then true else hasUpper
    validatePasswordLoop unicode rest hasDigit1 hasUpper1

/-- Go: `func validatePassword(password string) error`.  The length `len(password)` is the
number of bytes of the UTF-8 text. -/
def validatePassword (unicode : UnicodeTables) (password : String) : Option Err :=
  if password.utf8ByteSize < 8 then some ErrPasswordLow
  else
    match validatePasswordLoop unicode password.data false false with
    | (hasDigit, hasUpper) =>
      if !hasDigit || !hasUpper then some ErrPasswordFmt
      else none

/-- The text of a natural number under the format `%04d`: its decimal digits, with zeros in
front up to four characters. -/
def sprintf04d (n : Nat) : String :=
  String.mk (List.replicate (4 - (natChars n).length) '0' ++ natChars n)

/-- Go: `func generateCode() string`, for the number `n` that `rand.Intn(10000)` draws. -/
def generateCode (n : Nat) : String :=
  sprintf04d n

/-- When the goroutine that `RegisterNewUser` starts assigns the result of the send to the
named result `err`, a variable it shares with the function without synchronisation: before
the statement `return session, nil` sets the results, after that statement has set them and
before the function hands them to its caller, or after the function has returned. -/
inductive SendTiming where
  | beforeReturn : SendTiming
  | duringReturn : SendTiming
  | afterReturn : SendTiming
  deriving DecidableEq, Repr

/-- Go: `func (a *Auth) RegisterNewUser(ctx, email, name, password string) (userID string,
err error)`, for the number `draw` that the random generator draws.  The result is the pair of
the two results of the Go function.  The goroutine runs `err = a.sender.SendVerificationCode(
email, name, code)`: `timing` says when that assignment lands, and the state returned is the
one in which the goroutine has finished. -/
def Auth.RegisterNewUser {σ : Type} (a : Auth σ) (unicode : UnicodeTables) (draw : Nat)
    (timing : SendTiming) (email name password : String) (s0 : σ) :
    (String × Option Err) × σ :=
  match validateEmail email with
  | some err => (("", some err), s0)
  | none =>
    match validatePassword unicode password with
    | some err => (("", some err), s0)
    | none =>
      match a.provider.Exists email s0 with
      | (some err, s1) => (("", some err), s1)
      | (none, s1) =>
        let session := "user:" ++ email
        let code := generateCode draw
        let TempUser : UserTemporary :=
          { SessionId := session, Code := code, Name := name, Email := email,
            Password := password }
        match a.redis.SaveTemporarySession TempUser s1 with
        | (some err, s2) => (("", some err), s2)
        | (none, s2) =>
          -- go func() { err = a.sender.SendVerificationCode(email, name, code) }()
          match a.sender.SendVerificationCode email name code s2 with
          | (sendErr, s3) =>
            -- return session, nil
            match timing with
            | .duringReturn => ((session, sendErr), s3)
            | _ => ((session, none), s3)

/-- Go: `func (a *Auth) VerifyEmail(ctx, session string, code string) (userID string,
err error)`; the result is the pair of the two results of the Go function. -/
def Auth.VerifyEmail {σ : Type} (a : Auth σ) (session code : String) (s0 : σ) :
    (String × Option Err) × σ :=
  match a.redis.GetTemporarySession session s0 with
  | (.error _, s1) => (("", some (.new "operations timed out")), s1)
  | (.ok user, s1) =>
    if user.Code ≠ code then (("", some (.new "invalid code")), s1)
    else
      match a.provider.RegisterUsers user.Email user.Name user.Password s1 with
      | (.error err, s2) => (("", some err), s2)
      | (.ok id, s2) =>
        match a.redis.DeleteTemporarySession session s2 with
        | (some err, s3) => (("", some err), s3)
        | (none, s3) => ((id, none), s3)

/-- The tables of `unicode.IsDigit` and `unicode.IsUpper` on the Latin-1 characters; no
character beyond Latin-1 counts as a digit or as an uppercase letter here. -/
def latin1Tables : UnicodeTables where
  IsDigit := fun c => 48 ≤ c.toNat ∧ c.toNat ≤ 57
  IsUpper := fun c => (65 ≤ c.toNat ∧ c.toNat ≤ 90) ∨ (192 ≤ c.toNat ∧ c.toNat ≤ 214)
    ∨ (216 ≤ c.toNat ∧ c.toNat ≤ 222)

/-! ## Configuration (`internal/config/config.go`) and the wiring of `app.New` -/

/-- The record `SMTPConfig`. -/
structure SMTPConfig where
  Host : String
  Port : String
  Username : String
  Password : String
  FromEmail : String
  FromName : String
  AppURL : String
  SupportEmail : String
  UseTLS : Bool
  Timeout : Int
  deriving DecidableEq, Repr

/-- The record `ProviderConfig`; the field `Typ` is the field `Type` of the source. -/
structure ProviderConfig where
  Typ : String
  Port : String
  Host : String
  Protocol : String
  BindIP : String
  deriving DecidableEq, Repr

/-- The record `GRPCConfig`; the timeout is a number of nanoseconds. -/
structure GRPCConfig where
  Port : Int
  Timeout : Int
  deriving DecidableEq, Repr

/-- The record `StorageRedis`. -/
structure StorageRedis where
  Host : String
  Port : String
  Username : String
  Password : String
  Protocol : String
  deriving DecidableEq, Repr

/-- The record `ListenConfig`; the field `Typ` is the field `Type` of the source. -/
structure ListenConfig where
  Typ : String
  Port : Int
  BindIP : String
  deriving DecidableEq, Repr

/-- The record `TokenConfig`; the lifetimes are numbers of nanoseconds. -/
structure TokenConfig where
  AccessSecret : String
  RefreshSecret : String
  AccessTTL : Int
  RefreshTTL : Int
  deriving DecidableEq, Repr

/-- The record `Config`. -/
structure Config where
  ListenConfig : ListenConfig
  Redis : StorageRedis
  Token : TokenConfig
  Provider : ProviderConfig
  GRPCConfig : GRPCConfig
  SMTPConfig : SMTPConfig
  Env : String
  deriving DecidableEq, Repr

/-- Go: `func validateConfig(cfg *Config) error`. -/
def validateConfig (cfg : Config) : Option Err :=
  if cfg.Token.AccessSecret = "" then some (.new "TOKEN_ACCESS_SECRET is required")
  else if cfg.Token.RefreshSecret = "" then some (.new "TOKEN_REFRESH_SECRET is required")
  else none

/-- The token manager that `app.New` builds from the configuration (`internal/app/app.go`):
`token.NewJWTManager(cfg.Token.RefreshSecret, cfg.Token.AccessSecret, cfg.Token.AccessTTL,
cfg.Token.RefreshTTL)`, with the arguments in the order of the source. -/
def appManager (cfg : Config) : JWTManager :=
  NewJWTManager cfg.Token.RefreshSecret cfg.Token.AccessSecret cfg.Token.AccessTTL
    cfg.Token.RefreshTTL

/-! ## What the parser returns for an issued token -/

/-- The value the parser returns for a value the issuing code put into the claims: an integer
comes back as the nearest `float64`. -/
def JVal.parsed : JVal → JVal
  | .int i => .float64 (Float64.ofInt i)
  | v => v

/-- Whether a value is one the issuing code puts into the claims: a string or an integer. -/
def JVal.issued : JVal → Bool
  | .str _ => true
  | .int _ => true
  | _ => false

/-- The claims the parser returns for issued claims: an entry read later comes first. -/
def MapClaims.parsed (claims : MapClaims) : MapClaims :=
  (claims.map (fun kv => (kv.1, kv.2.parsed))).reverse

/-- The text that `SignedString` signs: the first two segments of the token. -/
def signingString (alg : String) (claims : MapClaims) : List Char :=
  segmentEncode (jsonHeader alg) ++ '.' :: segmentEncode (jsonClaims claims)

/-- The algorithm name the parser reads from a token, `token.Header["alg"].(string)`: the
string member `alg` of the header object, in whatever layout the header is written; `none` when
the token has not three segments, when its header does not decode, and when the header has no
string member `alg`. -/
def tokenAlg (tokenString : String) : Option String :=
  match tokenString.data.splitOn '.' with
  | [p0, _, _] => ((segmentDecode p0).bind jsonParseHeader).join
  | _ => none

/-- The claims an access token is issued with at the clock readings `t1` and `t2`. -/
def accessClaims (m : JWTManager) (u : UserRefresh) (t1 t2 : Int) : MapClaims :=
  [ ("session", .str u.SessionId),
    ("role", .str u.Role),
    ("email", .str u.Email),
    ("exp", .int (unixSeconds (t1 + m.accessTokenTTL))),
    ("ver", .int u.Version),
    ("iat", .int (unixSeconds t2)) ]

/-- The claims a refresh token is issued with at the clock readings `t1`, `t2` and `t3`. -/
def refreshClaims (m : JWTManager) (session : String) (t1 t2 t3 : Int) : MapClaims :=
  [ ("session", .str session),
    ("exp", .int (unixSeconds (t1 + m.refreshTokenTTL))),
    ("iat", .int (unixSeconds t2)),
    ("lat", .int (unixSeconds t3)) ]

/-- The text of a token that was issued, or the empty string. -/
def tokenText (r : Except Err String) : String :=
  match r with
  | .ok tok => tok
  | .error _ => ""

/-- A configuration with the given two secrets and the default lifetimes (fifteen minutes, a
week); the other sections hold the defaults of the source. -/
def fixtureConfig (accessSecret refreshSecret : String) : Config :=
  { ListenConfig := { Typ := "port", Port := 8787, BindIP := "0.0.0.0" },
    Redis := { Host := "localhost", Port := "1111", Username := "", Password := "yourpassword",
               Protocol := "tcp" },
    Token := { AccessSecret := accessSecret, RefreshSecret := refreshSecret,
               AccessTTL := 900000000000, RefreshTTL := 604800000000000 },
    Provider := { Typ := "port", Port := "8080", Host := "localhost", Protocol := "http",
                  BindIP := "127.0.0.1" },
    GRPCConfig := { Port := 44044, Timeout := 10000000000 },
    SMTPConfig := { Host := "smtp.gmail.com", Port := "587", Username := "", Password := "",
                    FromEmail := "", FromName := "TODOLIST", AppURL := "https://myapp.com",
                    SupportEmail := "", UseTLS := true, Timeout := 10 },
    Env := "local" }

/-- The user record of the tests, at version 1. -/
def fixtureUser : UserRefresh :=
  { SessionId := "user-123:device-123", UserID := "user-123", Name := "Test User",
    Email := "test@gmail.com", Role := "user", Version := 1 }

/-- A token whose header names the algorithm `none` and whose signature is empty, with the
claims of an access token of `fixtureUser`. -/
def unsignedToken : String :=
  String.mk (segmentEncode (jsonHeader "none") ++ '.' ::
    segmentEncode (jsonClaims (accessClaims fixtureManager fixtureUser 1700000000000000000
      1700000000000000000)) ++ ['.'])

/-! ## The transport handler of Login (`internal/grpc/auth/server.go`) -/

/-- The sentinel `provider.ErrUserExists`. -/
def ErrUserExists : Err := .new "user already exists"

/-- The sentinel `provider.ErrUserNotFound`. -/
def ErrUserNotFound : Err := .new "user not found"

/-- The sentinel `provider.ErrMissingData`. -/
def ErrMissingData : Err := .new "missing email or password"

/-- The call `errors.Is(err, target)`: `err` or an error it wraps is `target`.  Errors made by
`errors.New` are told apart by their text. -/
def errorsIs : Err → Err → Bool
  | .wrap msg inner, target => decide (Err.wrap msg inner = target) || errorsIs inner target
  | err, target => decide (err = target)

/-- The message `sso.LoginResponse`. -/
structure LoginResponse where
  TokenAccess : String
  TokenRefresh : String
  deriving DecidableEq, Repr

/-- Go: `func (s *serverApi) Login(ctx, in *sso.LoginRequest) (*sso.LoginResponse, error)`.
The token of a successful `Auth.Login` is never nil. -/
def serverApi.Login {σ : Type} (auth : Auth σ) (email password deviceID : String) (s0 : σ) :
    Except Err LoginResponse × σ :=
  if email = "" then (.error (statusError "InvalidArgument" "email is required"), s0)
  else if password = "" then
    (.error (statusError "InvalidArgument" "password is required"), s0)
  else if deviceID = "" then
    (.error (statusError "InvalidArgument" "device id is required"), s0)
  else
    match auth.Login email password deviceID s0 with
    | (.error err, s1) =>
      if errorsIs err ErrUserNotFound then
        (.error (statusError "NotFound" "user not found"), s1)
      else if errorsIs err ErrMissingData then
        (.error (statusError "InvalidArgument" "missing data"), s1)
      else if errorsIs err ErrUserExists then
        (.error (statusError "AlreadyExists" "user already exists"), s1)
      else (.error (statusError "Internal" "failed to login"), s1)
    | (.ok token, s1) =>
      if token.AccessToken = "" then (.error (statusError "Internal" "internal error"), s1)
      else (.ok { TokenAccess := token.AccessToken, TokenRefresh := token.RefreshToken }, s1)

/-- A login through the transport handler with the device id `dev:1`, on the service of the
fixtures with an empty store. -/
def runLoginColonDevice : Except Err LoginResponse × (Store × Clock) :=
  serverApi.Login fixtureAuth "test@gmail.com" "Password123" "dev:1" (Store.empty, fixtureClock)

/-- The access token of a response of the handler, or the empty string. -/
def responseAccess (r : Except Err LoginResponse) : String :=
  match r with
  | .ok t => t.TokenAccess
  | .error _ => ""

/-- The refresh token of a response of the handler, or the empty string. -/
def responseRefresh (r : Except Err LoginResponse) : String :=
  match r with
  | .ok t => t.TokenRefresh
  | .error _ => ""

/-! ## The transport handler of Register (`internal/grpc/auth/server.go`) -/

/-- The message `sso.RegisterResponse`. -/
structure RegisterResponse where
  Session : String
  deriving DecidableEq, Repr

/-- Go: `func (s *serverApi) Register(ctx, in *sso.RegisterRequest) (*sso.RegisterResponse,
error)`. -/
def serverApi.Register {σ : Type} (auth : Auth σ) (unicode : UnicodeTables) (draw : Nat)
    (timing : SendTiming) (email name password : String) (s0 : σ) :
    Except Err RegisterResponse × σ :=
  if email = "" then (.error (statusError "InvalidArgument" "missing email"), s0)
  else if password = "" then (.error (statusError "InvalidArgument" "missing password"), s0)
  else
    match auth.RegisterNewUser unicode draw timing email name password s0 with
    | ((_, some err), s1) =>
      if errorsIs err ErrUserExists then
        (.error (statusError "AlreadyExists" "user already exists"), s1)
      else (.error (statusError "InvalidArgument" err.Error), s1)
    | ((uid, none), s1) => (.ok { Session := uid }, s1)

/-- The pending record of the tests of `VerifyEmail`: the code `1234` for `test@gmail.com`. -/
def fixturePending : UserTemporary :=
  { SessionId := "user:test@gmail.com", Code := "1234", Name := "Test User",
    Email := "test@gmail.com", Password := "Password123" }

/-- The pending record that `RegisterNewUser` builds for `test@gmail.com`, `Test`,
`Password123` and the draw 42. -/
def fixtureRegistration : UserTemporary :=
  { SessionId := "user:test@gmail.com", Code := "0042", Name := "Test",
    Email := "test@gmail.com", Password := "Password123" }

/-- A registration of `test@gmail.com` on the service of the fixtures, with an empty store
and the draw 42. -/
def runRegister : (String × Option Err) × (Store × Clock) :=
  fixtureAuth.RegisterNewUser latin1Tables 42 .afterReturn "test@gmail.com" "Test"
    "Password123" (Store.empty, fixtureClock)

/-! ## Rejected refreshes -/

/-- Whether a call only reads: `VerifyRefreshToken`, `Get` or `FindOneUsers`. -/
def Call.readsOnly : Call → Bool
  | .VerifyRefreshToken _ _ => true
  | .Get _ _ => true
  | .FindOneUsers _ _ => true
  | _ => false

/-- The causes for which `GetRefreshToken` rejects a token before it bumps the version: the
token is empty, its verification fails, its claims have no non-empty session, the registry
has no stored token for the session, the stored token differs from the presented one, the
session id does not split into exactly two parts, or the lookup of the user fails. -/
def Auth.rejectsRefreshEarly {σ : Type} (a : Auth σ) (refreshToken : String) (s0 : σ) : Prop :=
  refreshToken = ""
  ∨ (∃ err s1, a.token.VerifyRefreshToken refreshToken s0 = (.error err, s1))
  ∨ ∃ claims s1, a.token.VerifyRefreshToken refreshToken s0 = (.ok claims, s1)
    ∧ (claims.getString "session" = none ∨ claims.getString "session" = some ""
      ∨ ∃ sid, claims.getString "session" = some sid
        ∧ ((∃ err s2, a.redis.Get sid s1 = (.error err, s2))
          ∨ ∃ stored s2, a.redis.Get sid s1 = (.ok stored, s2)
            ∧ (stored ≠ refreshToken
              ∨ (¬ ∃ u d, stringsSplit sid ':' = [u, d])
              ∨ ∃ u d err s3, stringsSplit sid ':' = [u, d]
                ∧ a.provider.FindOneUsers u s2 = (.error err, s3))))

/-! ## The shape of the addresses that the regular expression of `validateEmail` accepts -/

/-- The characters of the class `[A-Za-z0-9._%+\-]` of the regular expression. -/
def emailLocalChars : List Char := reLetters ++ reDigits ++ "._%+-".data

/-- The characters of the class `[A-Za-z0-9.\-]` of the regular expression. -/
def emailDomainChars : List Char := reLetters ++ reDigits ++ ".-".data

/-- The texts of the form `label.tld` that the regular expression accepts after the `'@'`:
a non-empty run of characters of the class `[A-Za-z0-9.\-]`, a dot, and two or more letters. -/
def domainShape (x : List Char) : Prop :=
  ∃ d tl, x = d ++ '.' :: tl ∧ d ≠ [] ∧ (∀ c ∈ d, c ∈ emailDomainChars)
    ∧ 2 ≤ tl.length ∧ ∀ c ∈ tl, c ∈ reLetters

/-- The characters that the specification allows in the local part of an address: `A-Z`,
`a-z`, `0-9`, `'.'`, `'_'`, `'%'`, `'+'` and `'-'`. -/
def specLocalChar (c : Char) : Bool :=
  (65 ≤ c.toNat ∧ c.toNat ≤ 90) ∨ (97 ≤ c.toNat ∧ c.toNat ≤ 122) ∨ (48 ≤ c.toNat ∧ c.toNat ≤ 57)
    ∨ c = '.' ∨ c = '_' ∨ c = '%' ∨ c = '+' ∨ c = '-'

/-- The domains of the allow-list of the specification. -/
def specAllowedDomains : List String := ["gmail.com", "yandex.ru", "mail.ru", "mail.com"]

/-- The call `strings.ToLower(s)` on any text: in a text of ASCII characters only the letters
`A-Z` become `a-z`; a text with a character outside ASCII is mapped character by character
with `unicode.ToLower`, whose tables are not part of the repository and are given as
`toLower`. -/
def stringsToLowerUnicode (toLower : Char → Char) (s : String) : String :=
  if s.data.all (fun c => decide (c.toNat < 128)) then String.mk (s.data.map Char.toLower)
  else String.mk (s.data.map toLower)

/-- The addresses that the specification calls accepted, in its words: `local@domain` with
`local` not empty and made of the characters `A-Z`, `a-z`, `0-9`, `.`, `_`, `%`, `+`, `-`,
and the lower-cased domain in the allow-list; `lower` is the lower-casing. -/
def specAcceptedEmail (lower : String → String) (email : String) : Prop :=
  ∃ loc domain : String, email = loc ++ "@" ++ domain ∧ loc ≠ ""
    ∧ (∀ c ∈ loc.data, specLocalChar c = true)
    ∧ lower domain ∈ specAllowedDomains

/-! ## Concurrent logins

Two `Login` calls that run at the same time share the key-value store and the rest of the
world.  A call proceeds by steps, one call of a collaborator or one command of the store
each; the store executes each command atomically, and the steps of the two calls interleave
in any order.  `IncrementTokenVersion` is two commands, `INCR` and `EXPIRE`, and so two
steps. -/

/-- The point a `Login` call has reached: the step it takes next, with the values of its local
variables, or the result it has returned. -/
inductive LoginPoint where
  | loginUsers (email password deviceID : String) : LoginPoint
  | addSession (user : User) (deviceID : String) : LoginPoint
  | incr (user : User) (deviceID : String) : LoginPoint
  | expire (user : User) (deviceID : String) (newVersion : Int) : LoginPoint
  | generateAccessToken (user : User) (deviceID : String) (version : Int) : LoginPoint
  | generateRefreshToken (user : User) (deviceID : String) (version : Int)
      (accessToken : String) : LoginPoint
  | save (user : User) (deviceID : String) (version : Int)
      (accessToken refreshToken : String) : LoginPoint
  | returned (res : Except Err Token) : LoginPoint
  deriving DecidableEq

/-- One step of a `Login` call of the service assembled over the store client `client`: the
statements of `Auth.Login` (and, for the version bump, of `IncrementTokenVersion`) up to and
including the next call of a collaborator or command of the store. -/
def loginStep {κ τ : Type} (p : Provider τ) (t : Generate τ) (client : Client κ)
    (RefreshTTL : Int) : LoginPoint → κ × τ → LoginPoint × (κ × τ)
  | .loginUsers email password deviceID, (k, w) =>
    match p.LoginUsers email password w with
    | (.error err, w1) => (.returned (.error err), (k, w1))
    | (.ok user, w1) => (.addSession user deviceID, (k, w1))
  | .addSession user deviceID, (k, w) =>
    match repositoryRedis.AddSession { Client := client, RefreshTTL := RefreshTTL }
        user.UserID deviceID k with
    | (_, k1) => (.incr user deviceID, (k1, w))
  | .incr user deviceID, (k, w) =>
    match client.Incr ("token_ver:" ++ (user.UserID ++ ":" ++ deviceID)) k with
    | (.error err, k1) =>
      (.returned (.error (.wrap "increment token version" err)), (k1, w))
    | (.ok newVersion, k1) => (.expire user deviceID newVersion, (k1, w))
  | .expire user deviceID newVersion, (k, w) =>
    match client.Expire ("token_ver:" ++ (user.UserID ++ ":" ++ deviceID)) RefreshTTL k with
    | (_, k2) => (.generateAccessToken user deviceID newVersion, (k2, w))
  | .generateAccessToken user deviceID version, (k, w) =>
    match t.GenerateAccessToken
        { SessionId := user.UserID ++ ":" ++ deviceID, UserID := user.UserID,
          Version := version, Name := user.Name, Email := user.Email, Role := user.Role }
        w with
    | (.error err, w1) => (.returned (.error (.wrap "generate access token" err)), (k, w1))
    | (.ok accessToken, w1) =>
      (.generateRefreshToken user deviceID version accessToken, (k, w1))
  | .generateRefreshToken user deviceID version accessToken, (k, w) =>
    match t.GenerateRefreshToken (user.UserID ++ ":" ++ deviceID) w with
    | (.error err, w1) => (.returned (.error (.wrap "generate refresh token" err)), (k, w1))
    | (.ok refreshToken, w1) =>
      (.save user deviceID version accessToken refreshToken, (k, w1))
  | .save user deviceID _ accessToken refreshToken, (k, w) =>
    match repositoryRedis.Save { Client := client, RefreshTTL := RefreshTTL }
        (user.UserID ++ ":" ++ deviceID) refreshToken k with
    | (some err, k1) => (.returned (.error (.wrap "save refresh token" err)), (k1, w))
    | (none, k1) =>
      (.returned (.ok { AccessToken := accessToken, RefreshToken := refreshToken,
                        TokenType := "Bearer" }), (k1, w))
  | .returned res, s => (.returned res, s)

/-- A number of steps of one `Login` call, with no other call in between. -/
def loginSteps {κ τ : Type} (p : Provider τ) (t : Generate τ) (client : Client κ)
    (RefreshTTL : Int) : Nat → LoginPoint → κ × τ → LoginPoint × (κ × τ)
  | 0, pt, s => (pt, s)
  | n + 1, pt, s =>
    loginSteps p t client RefreshTTL n (loginStep p t client RefreshTTL pt s).1
      (loginStep p t client RefreshTTL pt s).2

/-- The version a step obtained, when the step is an `INCR` that succeeded. -/
def incrEvent : LoginPoint → LoginPoint → Option Int
  | .incr _ _, .expire _ _ newVersion => some newVersion
  | _, _ => none

/-- Two `Login` calls under way: the points the first and the second call have reached, the
shared state, and the versions that `INCR` has handed out so far, in the order in which the
commands took effect, each with the call that got it (`true` for the first call). -/
structure TwoLogins (σ : Type) where
  first : LoginPoint
  second : LoginPoint
  state : σ
  increments : List (Bool × Int)

/-- One step of two concurrent `Login` calls: the first call takes its next step for `true`,
the second for `false`; a version that the step obtained from `INCR` is noted. -/
def stepTwoLogins {κ τ : Type} (p : Provider τ) (t : Generate τ) (client : Client κ)
    (RefreshTTL : Int) (b : Bool) (c : TwoLogins (κ × τ)) : TwoLogins (κ × τ) :=
  match b with
  | true =>
    let r := loginStep p t client RefreshTTL c.first c.state
    ⟨r.1, c.second, r.2,
      match incrEvent c.first r.1 with
      | some v => c.increments ++ [(true, v)]
      | none => c.increments⟩
  | false =>
    let r := loginStep p t client RefreshTTL c.second c.state
    ⟨c.first, r.1, r.2,
      match incrEvent c.second r.1 with
      | some v => c.increments ++ [(false, v)]
      | none => c.increments⟩

/-- The run of two concurrent `Login` calls under a schedule: at each entry one call takes its
next step, the first call for `true` and the second for `false`. -/
def runTwoLogins {κ τ : Type} (p : Provider τ) (t : Generate τ) (client : Client κ)
    (RefreshTTL : Int) : List Bool → TwoLogins (κ × τ) → TwoLogins (κ × τ)
  | [], c => c
  | b :: rest, c =>
    runTwoLogins p t client RefreshTTL rest (stepTwoLogins p t client RefreshTTL b c)

/-- The number of steps a `Login` call has taken when it is at a point (7 when it has
returned after all of them). -/
def LoginPoint.stage : LoginPoint → Nat
  | .loginUsers _ _ _ => 0
  | .addSession _ _ => 1
  | .incr _ _ => 2
  | .expire _ _ _ => 3
  | .generateAccessToken _ _ _ => 4
  | .generateRefreshToken _ _ _ _ => 5
  | .save _ _ _ _ _ => 6
  | .returned _ => 7

/-- A point of a `Login` call with the credentials `email`, `password` and the device
`deviceID` that works on the session of the user `userID` and has not failed. -/
def LoginPoint.forSession (userID deviceID email password : String) : LoginPoint → Prop
  | .loginUsers em pw dev => em = email ∧ pw = password ∧ dev = deviceID
  | .addSession user dev => user.UserID = userID ∧ dev = deviceID
  | .incr user dev => user.UserID = userID ∧ dev = deviceID
  | .expire user dev _ => user.UserID = userID ∧ dev = deviceID
  | .generateAccessToken user dev _ => user.UserID = userID ∧ dev = deviceID
  | .generateRefreshToken user dev _ _ => user.UserID = userID ∧ dev = deviceID
  | .save user dev _ _ _ => user.UserID = userID ∧ dev = deviceID
  | .returned (.ok _) => True
  | .returned (.error _) => False

/-- The version key of a session holds the version `v`: the key is absent and `v` is 0, or
the key holds the decimal text of `v`, an `int64`. -/
def versionKeyHolds (st : Store) (session : String) (v : Int) : Prop :=
  (st ("token_ver:" ++ session) = none ∧ v = 0)
  ∨ (st ("token_ver:" ++ session) = some (.str (String.mk (intChars v)))
      ∧ minInt64 ≤ v ∧ v ≤ maxInt64)

/-- What holds of two concurrent `Login` calls for the session of `userID` and `deviceID`, on
a store whose version key held `v0` when they began: neither call has failed, the versions
handed out so far are `v0 + 1`, `v0 + 2`, ... in this order, a call has an entry among them
when it is past its `INCR`, and the version key holds the last of them. -/
def TwoLogins.inv {τ : Type} (userID deviceID email1 password1 email2 password2 : String)
    (v0 : Int) (c : TwoLogins (Store × τ)) : Prop :=
  c.first.forSession userID deviceID email1 password1
  ∧ c.second.forSession userID deviceID email2 password2
  ∧ c.increments.map Prod.snd
      = (List.range c.increments.length).map (fun (i : Nat) => v0 + 1 + (i : Int))
  ∧ (c.increments.map Prod.fst).count true = (if 3 ≤ c.first.stage then 1 else 0)
  ∧ (c.increments.map Prod.fst).count false = (if 3 ≤ c.second.stage then 1 else 0)
  ∧ versionKeyHolds c.state.1 (userID ++ ":" ++ deviceID) (v0 + (c.increments.length : Int))

/-! ## Fixtures for an expired refresh token and for a lifetime that is not positive -/

/-- A clock for a login and a logout at the second `1700000000` (six readings) and every later
call five seconds after the refresh token of the login has expired. -/
def expiringClock : Clock :=
  { readings := fun n => if n < 6 then 1700000000000000000 else 1700604805000000000,
    pos := 0 }

/-- The login of `runLogin` under the clock `expiringClock`. -/
def lateLogin : Except Err Token × (Store × Clock) :=
  fixtureAuth.Login "test@gmail.com" "Password123" "device-123" (Store.empty, expiringClock)

/-- A logout that presents the access token of `lateLogin`, right after the login. -/
def lateLogout : Option Err × (Store × Clock) :=
  fixtureAuth.Logout (accessOf lateLogin.1) lateLogin.2

/-- A configuration with the two secrets of the fixtures and `TOKEN_REFRESH_TTL` set to 0. -/
def zeroTTLConfig : Config :=
  { fixtureConfig "access-secret" "refresh-secret" with
    Token := ⟨"access-secret", "refresh-secret", 900000000000, 0⟩ }

/-- The service as `app.New` assembles it from `zeroTTLConfig`: the registry and the token
manager get the lifetime of the configuration. -/
def zeroTTLAuth : Auth (Store × Clock) :=
  registryAuth (fixtureProvider Clock) ((appManager zeroTTLConfig).toGenerate fixtureHMAC)
    (fixtureSender Clock) zeroTTLConfig.Token.RefreshTTL

/-- A login of the fixture user on the device `device-123`, on an empty store, over
`zeroTTLAuth`. -/
def zeroTTLFirstLogin : Except Err Token × (Store × Clock) :=
  zeroTTLAuth.Login "test@gmail.com" "Password123" "device-123" (Store.empty, fixtureClock)

/-- A second login on the same device, after `zeroTTLFirstLogin`. -/
def zeroTTLSecondLogin : Except Err Token × (Store × Clock) :=
  zeroTTLAuth.Login "test@gmail.com" "Password123" "device-123" zeroTTLFirstLogin.2

/-- The two logins of `zeroTTLFirstLogin` and `zeroTTLSecondLogin` with the calls recorded. -/
def zeroTTLLogins : Option ((Store × Clock) × List Call) :=
  zeroTTLAuth.recorded.runOps
    [.login "test@gmail.com" "Password123" "device-123",
     .login "test@gmail.com" "Password123" "device-123"]
    ((Store.empty, fixtureClock), [])

/-- Whether a `Login` call has returned tokens. -/
def LoginPoint.completed : LoginPoint → Bool
  | .returned (.ok _) => true
  | _ => false

/-- Two concurrent logins of the fixture user on the device `device-123`, on an empty store,
with the collaborators and the lifetime of `zeroTTLAuth`; the first call takes its seven steps
and then the second. -/
def zeroTTLTwoLogins : TwoLogins (Store × Clock) :=
  runTwoLogins (fixtureProvider Clock) ((appManager zeroTTLConfig).toGenerate fixtureHMAC)
    memClient zeroTTLConfig.Token.RefreshTTL
    [true, true, true, true, true, true, true, false, false, false, false, false, false, false]
    ⟨.loginUsers "test@gmail.com" "Password123" "device-123",
      .loginUsers "test@gmail.com" "Password123" "device-123", (Store.empty, fixtureClock), []⟩

/-- A token with the header text `header`, the claims of an access token of `fixtureUser`, and
the signature of the algorithm `alg` under the key `key`. -/
def tokenWithHeader (header : String) (alg key : String) : String :=
  String.mk (segmentEncode header.data ++ '.' ::
    segmentEncode (jsonClaims (accessClaims fixtureManager fixtureUser 1700000000000000000
      1700000000000000000)) ++ '.' ::
    segmentEncode (fixtureHMAC alg key (segmentEncode header.data ++ '.' ::
      segmentEncode (jsonClaims (accessClaims fixtureManager fixtureUser 1700000000000000000
        1700000000000000000)))))

end AuthService

/-! # Properties -/

namespace AuthService

set_option maxRecDepth 100000

/-! ## Auxiliary facts -/

theorem stringsSplit_two_ne_empty {s u d : String} (h : stringsSplit s ':' = [u, d]) :
    s ≠ "" := by
  rintro rfl
  have h1 : stringsSplit "" ':' = [""] := by decide
  rw [h1] at h
  simp at h

/-! ## Logout -/

/-- C4. Logout rejects a stale token without touching state: when the access token verifies,
its session claim splits into user id and device id, its `ver` claim is a number and the
number differs from the registry's current version of the session, `Logout` returns the error
`invalid token version`, and the only calls it has made are `VerifyAccessToken` and
`GetTokenVersion`: none of `RemoveSession`, `DeleteRefreshToken`, `DeleteVersionToken`. -/
theorem logout_stale_version_rejected {σ : Type} (a : Auth σ) (accessToken : String) (s0 : σ)
    (claims : MapClaims) (sessionID userID deviceID : String) (ver : Float64) (cur : Int)
    (hv : (a.token.VerifyAccessToken accessToken s0).1 = .ok claims)
    (hs : claims.getString "session" = some sessionID)
    (hsplit : stringsSplit sessionID ':' = [userID, deviceID])
    (hver : claims.getFloat64 "ver" = some ver)
    (hcur : (a.redis.GetTokenVersion sessionID (a.token.VerifyAccessToken accessToken s0).2).1
      = .ok cur)
    (hne : ver.toInt ≠ cur) :
    (a.Logout accessToken s0).1 = some (.new "invalid token version")
    ∧ (a.recorded.Logout accessToken (s0, [])).1 = some (.new "invalid token version")
    ∧ (a.recorded.Logout accessToken (s0, [])).2.2 =
        [Call.VerifyAccessToken accessToken (.ok claims),
         Call.GetTokenVersion sessionID (.ok cur)]
    ∧ ∀ c ∈ (a.recorded.Logout accessToken (s0, [])).2.2, c.removesSession = false := by
  have hne' := stringsSplit_two_ne_empty hsplit
  rcases hV : a.token.VerifyAccessToken accessToken s0 with ⟨rv, s1⟩
  rw [hV] at hv hcur
  simp only at hv hcur
  subst hv
  rcases hG : a.redis.GetTokenVersion sessionID s1 with ⟨rg, s2⟩
  rw [hG] at hcur
  simp only at hcur
  subst hcur
  have h1 : (a.Logout accessToken s0).1 = some (.new "invalid token version") := by
    simp [Auth.Logout, hV, hs, hsplit, hver, hG, hne, hne']
  have h2 : a.recorded.Logout accessToken (s0, []) =
      (some (.new "invalid token version"),
        (s2, [Call.VerifyAccessToken accessToken (.ok claims),
              Call.GetTokenVersion sessionID (.ok cur)])) := by
    simp [Auth.Logout, Auth.recorded, Generate.recorded, Storage.recorded, record, hV, hs,
      hsplit, hver, hG, hne, hne']
  refine ⟨h1, ?_, ?_, ?_⟩
  · rw [h2]
  · rw [h2]
  · rw [h2]
    intro c hc
    simp at hc
    rcases hc with rfl | rfl <;> rfl

/-- The stale-token rejection at a concrete run: after a login and a refresh the session is at
version 2, and the access token of the login carries version 1. -/
theorem logout_stale_version_rejected_witness :
    (fixtureAuth.Logout (accessOf runLogin.1) runRefresh.2).1
      = some (.new "invalid token version") :=
  (logout_stale_version_rejected fixtureAuth (accessOf runLogin.1) runRefresh.2
    [("iat", .float64 ⟨1700000000, 0⟩), ("ver", .float64 ⟨1, 0⟩),
     ("exp", .float64 ⟨1700000900, 0⟩), ("email", .str "test@gmail.com"),
     ("role", .str "user"), ("session", .str "user-123:device-123")]
    "user-123:device-123" "user-123" "device-123" ⟨1, 0⟩ 2
    (by decide) (by decide) (by decide) (by decide) (by decide) (by decide)).1

/-! ## Login -/

/-- C10. Login success result: when `LoginUsers`, `IncrementTokenVersion`, both token
generations and `Save` succeed, whatever `AddSession` returned, `Login` returns the generated
access and refresh tokens; the access token is the result of `GenerateAccessToken` on the
`UserRefresh` whose `SessionId` is `userID + ":" + deviceID`, whose `Version` is the value
`IncrementTokenVersion` returned for that session and whose `UserID`, `Name`, `Email` and
`Role` are those of the user directory, and the refresh token returned is the one passed to
`Save` under that session id. -/
theorem login_success_result {σ : Type} (a : Auth σ) (email password deviceID : String)
    (s0 s1 s2 s3 s4 s5 s6 : σ) (user : User) (addErr : Option Err) (version : Int)
    (accessToken refreshToken : String)
    (hL : a.provider.LoginUsers email password s0 = (.ok user, s1))
    (hA : a.redis.AddSession user.UserID deviceID s1 = (addErr, s2))
    (hI : a.redis.IncrementTokenVersion (user.UserID ++ ":" ++ deviceID) s2 = (.ok version, s3))
    (hGA : a.token.GenerateAccessToken
      { SessionId := user.UserID ++ ":" ++ deviceID, UserID := user.UserID, Version := version,
        Name := user.Name, Email := user.Email, Role := user.Role } s3 = (.ok accessToken, s4))
    (hGR : a.token.GenerateRefreshToken (user.UserID ++ ":" ++ deviceID) s4
      = (.ok refreshToken, s5))
    (hS : a.redis.Save (user.UserID ++ ":" ++ deviceID) refreshToken s5 = (none, s6)) :
    a.Login email password deviceID s0
      = (.ok { AccessToken := accessToken, RefreshToken := refreshToken, TokenType := "Bearer" },
         s6)
    ∧ a.recorded.Login email password deviceID (s0, [])
      = (.ok { AccessToken := accessToken, RefreshToken := refreshToken, TokenType := "Bearer" },
         (s6,
          [ Call.LoginUsers email password (.ok user),
            Call.AddSession user.UserID deviceID addErr,
            Call.IncrementTokenVersion (user.UserID ++ ":" ++ deviceID) (.ok version),
            Call.GenerateAccessToken
              { SessionId := user.UserID ++ ":" ++ deviceID, UserID := user.UserID,
                Version := version, Name := user.Name, Email := user.Email, Role := user.Role }
              (.ok accessToken),
            Call.GenerateRefreshToken (user.UserID ++ ":" ++ deviceID) (.ok refreshToken),
            Call.Save (user.UserID ++ ":" ++ deviceID) refreshToken none ])) := by
  constructor
  · simp [Auth.Login, hL, hA, hI, hGA, hGR, hS]
  · simp [Auth.Login, Auth.recorded, Provider.recorded, Generate.recorded, Storage.recorded,
      record, hL, hA, hI, hGA, hGR, hS]

/-- The login result on the test doubles of `TestLogin_HappyPath`, with a failing `AddSession`. -/
theorem login_success_result_witness :
    (mockAuth { addSession := some (.new "connection refused") }).Login
        "test@gmail.com" "Password123" "device-123" ()
      = (.ok { AccessToken := "access-token-123", RefreshToken := "refresh-token-456",
               TokenType := "Bearer" }, ()) :=
  (login_success_result (mockAuth { addSession := some (.new "connection refused") })
    "test@gmail.com" "Password123" "device-123" () () () () () () ()
    { UserID := "user-123", Email := "test@gmail.com", Name := "Test User", Valid := false,
      Role := "user" }
    (some (.new "connection refused")) 1 "access-token-123" "refresh-token-456"
    (by decide) (by decide) (by decide) (by decide) (by decide) (by decide)).1

/-! ## The version bump comes first -/

theorem login_saves_follow_increment {σ : Type} (a : Auth σ) (email password deviceID : String)
    (s : σ) :
    savesFollowIncrement false (a.recorded.Login email password deviceID (s, [])).2.2 = true := by
  rcases hL : a.provider.LoginUsers email password s with ⟨rL, s1⟩
  rcases rL with e | user
  · simp [Auth.Login, Auth.recorded, Provider.recorded, record, hL, savesFollowIncrement,
      Call.isSave, Call.isIncrementOk]
  rcases hA : a.redis.AddSession user.UserID deviceID s1 with ⟨rA, s2⟩
  rcases hI : a.redis.IncrementTokenVersion (user.UserID ++ ":" ++ deviceID) s2 with ⟨rI, s3⟩
  rcases rI with e | version
  · simp [Auth.Login, Auth.recorded, Provider.recorded, Storage.recorded, record, hL, hA, hI,
      savesFollowIncrement, Call.isSave, Call.isIncrementOk]
  rcases hGA : a.token.GenerateAccessToken
      { SessionId := user.UserID ++ ":" ++ deviceID, UserID := user.UserID, Version := version,
        Name := user.Name, Email := user.Email, Role := user.Role } s3 with ⟨rGA, s4⟩
  rcases rGA with e | accessToken
  · simp [Auth.Login, Auth.recorded, Provider.recorded, Storage.recorded, Generate.recorded,
      record, hL, hA, hI, hGA, savesFollowIncrement, Call.isSave, Call.isIncrementOk]
  rcases hGR : a.token.GenerateRefreshToken (user.UserID ++ ":" ++ deviceID) s4 with ⟨rGR, s5⟩
  rcases rGR with e | refreshToken
  · simp [Auth.Login, Auth.recorded, Provider.recorded, Storage.recorded, Generate.recorded,
      record, hL, hA, hI, hGA, hGR, savesFollowIncrement, Call.isSave, Call.isIncrementOk]
  rcases hS : a.redis.Save (user.UserID ++ ":" ++ deviceID) refreshToken s5 with ⟨rS, s6⟩
  rcases rS with _ | e
  all_goals simp [Auth.Login, Auth.recorded, Provider.recorded, Storage.recorded, Generate.recorded,
      record, hL, hA, hI, hGA, hGR, hS, savesFollowIncrement, Call.isSave, Call.isIncrementOk]

theorem refresh_saves_follow_increment {σ : Type} (a : Auth σ) (refreshToken : String) (s : σ) :
    savesFollowIncrement false (a.recorded.GetRefreshToken refreshToken (s, [])).2.2 = true := by
  by_cases h0 : refreshToken = ""
  · simp [Auth.GetRefreshToken, h0, savesFollowIncrement]
  rcases hV : a.token.VerifyRefreshToken refreshToken s with ⟨rV, s1⟩
  rcases rV with e | claims
  · by_cases hx : stringsContains e.Error "expired" = true <;>
    simp [Auth.GetRefreshToken, Auth.recorded, Generate.recorded, record, h0, hV, hx,
      savesFollowIncrement, Call.isSave, Call.isIncrementOk]
  rcases hs : claims.getString "session" with _ | sessionID
  · simp [Auth.GetRefreshToken, Auth.recorded, Generate.recorded, record, h0, hV, hs,
      savesFollowIncrement, Call.isSave, Call.isIncrementOk]
  by_cases h1 : sessionID = ""
  · simp [Auth.GetRefreshToken, Auth.recorded, Generate.recorded, record, h0, hV, hs, h1,
      savesFollowIncrement, Call.isSave, Call.isIncrementOk]
  rcases hG : a.redis.Get sessionID s1 with ⟨rG, s2⟩
  rcases rG with e | storedToken
  · by_cases hx : e.isRedisNil = true <;>
    simp [Auth.GetRefreshToken, Auth.recorded, Generate.recorded, Storage.recorded, record, h0,
      hV, hs, h1, hG, hx, savesFollowIncrement, Call.isSave, Call.isIncrementOk]
  by_cases h2 : storedToken = refreshToken
  swap
  · simp [Auth.GetRefreshToken, Auth.recorded, Generate.recorded, Storage.recorded, record, h0,
      hV, hs, h1, hG, h2, savesFollowIncrement, Call.isSave, Call.isIncrementOk]
  by_cases h3 : ∃ userID deviceID, stringsSplit sessionID ':' = [userID, deviceID]
  swap
  · have : (a.recorded.GetRefreshToken refreshToken (s, [])).2.2 =
        [Call.VerifyRefreshToken refreshToken (.ok claims), Call.Get sessionID (.ok storedToken)] := by
      simp only [Auth.GetRefreshToken, Auth.recorded, Generate.recorded, Storage.recorded, record,
        h0, hV, hs, h1, hG, h2]
      simp
      split
      · rename_i u d hsp
        exact absurd ⟨u, d, hsp⟩ h3
      · simp
    rw [this]
    simp [savesFollowIncrement, Call.isSave, Call.isIncrementOk]
  obtain ⟨userID, deviceID, hsp⟩ := h3
  rcases hF : a.provider.FindOneUsers userID s2 with ⟨rF, s3⟩
  rcases rF with e | user
  · simp [Auth.GetRefreshToken, Auth.recorded, Generate.recorded, Storage.recorded,
      Provider.recorded, record, h0, hV, hs, h1, hG, h2, hsp, hF, savesFollowIncrement,
      Call.isSave, Call.isIncrementOk]
  rcases hI : a.redis.IncrementTokenVersion sessionID s3 with ⟨rI, s4⟩
  rcases rI with e | version
  · simp [Auth.GetRefreshToken, Auth.recorded, Generate.recorded, Storage.recorded,
      Provider.recorded, record, h0, hV, hs, h1, hG, h2, hsp, hF, hI, savesFollowIncrement,
      Call.isSave, Call.isIncrementOk]
  rcases hGA : a.token.GenerateAccessToken
      { SessionId := sessionID, UserID := user.UserID, Version := version,
        Name := user.Name, Email := user.Email, Role := user.Role } s4 with ⟨rGA, s5⟩
  rcases rGA with e | accessToken
  · simp [Auth.GetRefreshToken, Auth.recorded, Generate.recorded, Storage.recorded,
      Provider.recorded, record, h0, hV, hs, h1, hG, h2, hsp, hF, hI, hGA, savesFollowIncrement,
      Call.isSave, Call.isIncrementOk]
  rcases hGR : a.token.GenerateRefreshToken sessionID s5 with ⟨rGR, s6⟩
  rcases rGR with e | newRefreshToken
  · simp [Auth.GetRefreshToken, Auth.recorded, Generate.recorded, Storage.recorded,
      Provider.recorded, record, h0, hV, hs, h1, hG, h2, hsp, hF, hI, hGA, hGR,
      savesFollowIncrement, Call.isSave, Call.isIncrementOk]
  rcases hS : a.redis.Save sessionID newRefreshToken s6 with ⟨rS, s7⟩
  rcases rS with _ | e
  all_goals simp [Auth.GetRefreshToken, Auth.recorded, Generate.recorded, Storage.recorded,
      Provider.recorded, record, h0, hV, hs, h1, hG, h2, hsp, hF, hI, hGA, hGR, hS,
      savesFollowIncrement, Call.isSave, Call.isIncrementOk]

/-- C8. A failed version bump aborts before any token exists: when `IncrementTokenVersion`
returns an error during `Login`, and likewise during `GetRefreshToken`, the operation returns
the error `increment token version: ...`, and the calls it has made include none of
`GenerateAccessToken`, `GenerateRefreshToken` and `Save`; and in every run of `Login` and of
`GetRefreshToken`, every `Save` in the log of calls comes after an `IncrementTokenVersion`
that returned a version. -/
theorem failed_version_bump_aborts {σ : Type} (a : Auth σ)
    (email password deviceID : String) (s0 s1 s2 s3 : σ) (user : User) (addErr : Option Err)
    (err : Err)
    (refreshToken sessionID userID device : String) (t0 t1 t2 t3 t4 : σ) (claims : MapClaims)
    (found : UserRefresh) (err' : Err)
    (hL : a.provider.LoginUsers email password s0 = (.ok user, s1))
    (hA : a.redis.AddSession user.UserID deviceID s1 = (addErr, s2))
    (hI : a.redis.IncrementTokenVersion (user.UserID ++ ":" ++ deviceID) s2 = (.error err, s3))
    (hne : refreshToken ≠ "")
    (hV : a.token.VerifyRefreshToken refreshToken t0 = (.ok claims, t1))
    (hs : claims.getString "session" = some sessionID)
    (hG : a.redis.Get sessionID t1 = (.ok refreshToken, t2))
    (hsplit : stringsSplit sessionID ':' = [userID, device])
    (hF : a.provider.FindOneUsers userID t2 = (.ok found, t3))
    (hI' : a.redis.IncrementTokenVersion sessionID t3 = (.error err', t4)) :
    a.Login email password deviceID s0 = (.error (.wrap "increment token version" err), s3)
    ∧ (a.recorded.Login email password deviceID (s0, [])).2.2.any Call.issuesOrStores = false
    ∧ a.GetRefreshToken refreshToken t0 = (.error (.wrap "increment token version" err'), t4)
    ∧ (a.recorded.GetRefreshToken refreshToken (t0, [])).2.2.any Call.issuesOrStores = false
    ∧ (∀ (e p d : String) (s : σ),
        savesFollowIncrement false (a.recorded.Login e p d (s, [])).2.2 = true)
    ∧ (∀ (r : String) (s : σ),
        savesFollowIncrement false (a.recorded.GetRefreshToken r (s, [])).2.2 = true) := by
  have hne' := stringsSplit_two_ne_empty hsplit
  refine ⟨?_, ?_, ?_, ?_, ?_, ?_⟩
  · simp [Auth.Login, hL, hA, hI]
  · simp [Auth.Login, Auth.recorded, Provider.recorded, Storage.recorded, record, hL, hA, hI,
      Call.issuesOrStores]
  · simp [Auth.GetRefreshToken, hne, hV, hs, hne', hG, hsplit, hF, hI']
  · simp [Auth.GetRefreshToken, Auth.recorded, Provider.recorded, Storage.recorded,
      Generate.recorded, record, hne, hV, hs, hne', hG, hsplit, hF, hI', Call.issuesOrStores]
  · exact fun e p d s => login_saves_follow_increment a e p d s
  · exact fun r s => refresh_saves_follow_increment a r s

/-- The aborted login and refresh on test doubles whose `IncrementTokenVersion` fails. -/
theorem failed_version_bump_aborts_witness :
    (mockAuth { incrementTokenVersion := .error (.new "connection refused") }).Login
        "test@gmail.com" "Password123" "device-123" ()
      = (.error (.wrap "increment token version" (.new "connection refused")), ()) :=
  (failed_version_bump_aborts (mockAuth { incrementTokenVersion := .error (.new "connection refused") })
    "test@gmail.com" "Password123" "device-123" () () () ()
    { UserID := "user-123", Email := "test@gmail.com", Name := "Test User", Valid := false,
      Role := "user" } none (.new "connection refused")
    "refresh-token-456" "user-123:device-123" "user-123" "device-123" () () () () ()
    [("session", .str "user-123:device-123")]
    { SessionId := "", UserID := "user-123", Name := "Test User", Email := "test@gmail.com",
      Role := "user", Version := 0 } (.new "connection refused")
    (by decide) (by decide) (by decide) (by decide) (by decide) (by decide) (by decide)
    (by decide) (by decide) (by decide)).1

/-! ## LogoutAll -/

theorem logoutAllLoop_recorded {σ : Type} (a : Auth σ) (userID : String) :
    ∀ (deviceIDs : List String) (lastErr : Option Err) (s : σ) (log : List Call),
      ∃ calls : List Call,
        (a.recorded.logoutAllLoop userID deviceIDs lastErr (s, log)).2.2 = log ++ calls
        ∧ calls.filterMap Call.deletion =
            (deviceIDs.map (fun d =>
              [Deletion.refreshToken (userID ++ ":" ++ d),
               Deletion.versionToken (userID ++ ":" ++ d)])).flatten
        ∧ (a.recorded.logoutAllLoop userID deviceIDs lastErr (s, log)).1.isSome
            = (lastErr.isSome || calls.any Call.deletionFailed) := by
  intro deviceIDs
  induction deviceIDs with
  | nil =>
    intro lastErr s log
    exact ⟨[], by simp [Auth.logoutAllLoop], by simp, by simp [Auth.logoutAllLoop]⟩
  | cons d rest ih =>
    intro lastErr s log
    rcases h1 : a.redis.DeleteRefreshToken (userID ++ ":" ++ d) s with ⟨e1, s1⟩
    rcases h2 : a.redis.DeleteVersionToken (userID ++ ":" ++ d) s1 with ⟨e2, s2⟩
    obtain ⟨calls, hc1, hc2, hc3⟩ := ih
      (if notNilAndNotRedisNil e2 then e2
        else if notNilAndNotRedisNil e1 then e1 else lastErr) s2
      (log ++ [Call.DeleteRefreshToken (userID ++ ":" ++ d) e1,
               Call.DeleteVersionToken (userID ++ ":" ++ d) e2])
    have hstep : a.recorded.logoutAllLoop userID (d :: rest) lastErr (s, log)
        = a.recorded.logoutAllLoop userID rest
            (if notNilAndNotRedisNil e2 then e2
              else if notNilAndNotRedisNil e1 then e1 else lastErr)
            (s2, log ++ [Call.DeleteRefreshToken (userID ++ ":" ++ d) e1,
               Call.DeleteVersionToken (userID ++ ":" ++ d) e2]) := by
      simp [Auth.logoutAllLoop, Auth.recorded, Storage.recorded, record, h1, h2]
    refine ⟨Call.DeleteRefreshToken (userID ++ ":" ++ d) e1 ::
        Call.DeleteVersionToken (userID ++ ":" ++ d) e2 :: calls, ?_, ?_, ?_⟩
    · rw [hstep, hc1]; simp
    · simp [List.filterMap_cons, Call.deletion, hc2]
    · rw [hstep, hc3]
      cases e1 <;> cases e2 <;>
        simp [Call.deletionFailed, notNilAndNotRedisNil] <;>
        (try split_ifs) <;> simp_all [notNilAndNotRedisNil]

theorem logoutAllLoop_recorded_eq {σ : Type} (a : Auth σ) (userID : String) :
    ∀ (deviceIDs : List String) (lastErr : Option Err) (s : σ) (log : List Call),
      (a.recorded.logoutAllLoop userID deviceIDs lastErr (s, log)).1
          = (a.logoutAllLoop userID deviceIDs lastErr s).1
      ∧ (a.recorded.logoutAllLoop userID deviceIDs lastErr (s, log)).2.1
          = (a.logoutAllLoop userID deviceIDs lastErr s).2 := by
  intro deviceIDs
  induction deviceIDs with
  | nil => intro lastErr s log; simp [Auth.logoutAllLoop]
  | cons d rest ih =>
    intro lastErr s log
    rcases h1 : a.redis.DeleteRefreshToken (userID ++ ":" ++ d) s with ⟨e1, s1⟩
    rcases h2 : a.redis.DeleteVersionToken (userID ++ ":" ++ d) s1 with ⟨e2, s2⟩
    simp only [Auth.logoutAllLoop, Auth.recorded, Storage.recorded, record, h1, h2]
    exact ih _ _ _

theorem recorded_VerifyAccessToken {σ : Type} (a : Auth σ) (tok : String) (s : σ)
    (log : List Call) :
    a.recorded.token.VerifyAccessToken tok (s, log)
      = ((a.token.VerifyAccessToken tok s).1,
         ((a.token.VerifyAccessToken tok s).2,
          log ++ [Call.VerifyAccessToken tok (a.token.VerifyAccessToken tok s).1])) := rfl

theorem recorded_GetUserSessions {σ : Type} (a : Auth σ) (userID : String) (s : σ)
    (log : List Call) :
    a.recorded.redis.GetUserSessions userID (s, log)
      = ((a.redis.GetUserSessions userID s).1,
         ((a.redis.GetUserSessions userID s).2,
          log ++ [Call.GetUserSessions userID (a.redis.GetUserSessions userID s).1])) := rfl

theorem recorded_DeleteAllSessions {σ : Type} (a : Auth σ) (userID : String) (s : σ)
    (log : List Call) :
    a.recorded.redis.DeleteAllSessions userID (s, log)
      = ((a.redis.DeleteAllSessions userID s).1,
         ((a.redis.DeleteAllSessions userID s).2,
          log ++ [Call.DeleteAllSessions userID (a.redis.DeleteAllSessions userID s).1])) := rfl

/-- C7. LogoutAll is partial-failure tolerant: for a non-empty device list that
`GetUserSessions` returns (with no error, or with `redis.Nil`), the deletions `LogoutAll` asks
of the registry are exactly `DeleteRefreshToken` and `DeleteVersionToken` for every session
`userID:deviceID` of the list, in order, and then `DeleteAllSessions(userID)`, whichever of
these calls fail; and it returns an error if and only if at least one of those calls returned
an error other than `redis.Nil`. -/
theorem logoutAll_partial_failure {σ : Type} (a : Auth σ) (accessToken : String) (s0 s1 s2 : σ)
    (claims : MapClaims) (session userID device : String) (deviceIDs : List String)
    (err : Option Err)
    (hV : a.token.VerifyAccessToken accessToken s0 = (.ok claims, s1))
    (hs : claims.getString "session" = some session)
    (hsplit : stringsSplit session ':' = [userID, device])
    (hG : a.redis.GetUserSessions userID s1 = ((deviceIDs, err), s2))
    (herr : notNilAndNotRedisNil err = false)
    (hne : deviceIDs ≠ []) :
    (a.recorded.LogoutAll accessToken (s0, [])).2.2.filterMap Call.deletion
        = expectedDeletions userID deviceIDs
    ∧ (a.recorded.LogoutAll accessToken (s0, [])).1.isSome
        = (a.recorded.LogoutAll accessToken (s0, [])).2.2.any Call.deletionFailed
    ∧ (a.LogoutAll accessToken s0).1 = (a.recorded.LogoutAll accessToken (s0, [])).1 := by
  have hne' := stringsSplit_two_ne_empty hsplit
  have hlen : deviceIDs.length ≠ 0 := by
    intro h; exact hne (List.length_eq_zero.mp h)
  obtain ⟨calls, hc1, hc2, hc3⟩ := logoutAllLoop_recorded a userID deviceIDs none s2
    [Call.VerifyAccessToken accessToken (.ok claims), Call.GetUserSessions userID (deviceIDs, err)]
  obtain ⟨hq1, hq2⟩ := logoutAllLoop_recorded_eq a userID deviceIDs none s2
    [Call.VerifyAccessToken accessToken (.ok claims), Call.GetUserSessions userID (deviceIDs, err)]
  rcases hloop : a.recorded.logoutAllLoop userID deviceIDs none (s2,
    [Call.VerifyAccessToken accessToken (.ok claims), Call.GetUserSessions userID (deviceIDs, err)])
    with ⟨lastErr, s3, log3⟩
  rw [hloop] at hc1 hc3 hq1 hq2
  simp only at hc1 hc3 hq1 hq2
  rcases hplain : a.logoutAllLoop userID deviceIDs none s2 with ⟨lastErrP, s3P⟩
  rw [hplain] at hq1 hq2
  simp only at hq1 hq2
  subst hq1 hq2
  rcases hD : a.redis.DeleteAllSessions userID s3 with ⟨e5, s4⟩
  have hrun : a.recorded.LogoutAll accessToken (s0, [])
      = ((if notNilAndNotRedisNil e5 then e5 else lastErr).map
            (Err.wrap "some sessions were not deleted properly"),
         (s4, log3 ++ [Call.DeleteAllSessions userID e5])) := by
    simp only [Auth.LogoutAll, recorded_VerifyAccessToken, recorded_GetUserSessions,
      recorded_DeleteAllSessions, hV, hs, hsplit, hG, herr, hlen, hne', List.nil_append,
      List.singleton_append, List.cons_append, hloop, hD]
    cases h5 : notNilAndNotRedisNil e5 <;> cases lastErr <;> cases e5 <;>
      simp_all [notNilAndNotRedisNil]
  have hplainrun : (a.LogoutAll accessToken s0).1
      = (if notNilAndNotRedisNil e5 then e5 else lastErr).map
            (Err.wrap "some sessions were not deleted properly") := by
    simp only [Auth.LogoutAll, hV, hs, hsplit, hG, herr, hlen, hne', hplain, hD]
    cases h5 : notNilAndNotRedisNil e5 <;> cases lastErr <;> cases e5 <;>
      simp_all [notNilAndNotRedisNil]
  refine ⟨?_, ?_, ?_⟩
  · rw [hrun, hc1]
    simp [expectedDeletions, Call.deletion, hc2]
  · rw [hrun, hc1]
    simp [Call.deletionFailed, Call.deletion] at hc3 ⊢
    cases h5 : notNilAndNotRedisNil e5
    · simp [hc3]
    · cases e5 with
      | none => simp [notNilAndNotRedisNil] at h5
      | some e => simp
  · rw [hrun, hplainrun]

/-- The partial failure at a concrete run: of three devices, the version of the second cannot
be deleted; all seven deletions are asked for and an error is returned. -/
theorem logoutAll_partial_failure_witness :
    ((mockAuth { deleteVersionToken := fun session =>
          if session = "user-123:device-456" then some (.new "connection refused") else none
        }).recorded.LogoutAll "valid-access-token" ((), [])).2.2.filterMap Call.deletion
      = expectedDeletions "user-123" ["device-123", "device-456", "device-789"]
    ∧ ((mockAuth { deleteVersionToken := fun session =>
          if session = "user-123:device-456" then some (.new "connection refused") else none
        }).recorded.LogoutAll "valid-access-token" ((), [])).1.isSome = true :=
  ⟨(logoutAll_partial_failure (mockAuth { deleteVersionToken := fun session =>
        if session = "user-123:device-456" then some (.new "connection refused") else none })
      "valid-access-token" () () ()
      [("session", .str "user-123:device-123"), ("ver", .float64 ⟨1, 0⟩)]
      "user-123:device-123" "user-123" "device-123"
      ["device-123", "device-456", "device-789"] none
      (by decide) (by decide) (by decide) (by decide) (by decide) (by decide)).1,
   by decide⟩

/-! ## Persistence of the refresh token -/

/-- C9 (the code departs from the claim). `Save` returns a nil error for every store client,
every session and every token, also when the `Set` command reports an error: both `return err`
statements return the error of `json.Marshal`, which is nil.  On a client whose `Set` fails,
`Save` returns nil, `Login` returns a token pair, and no refresh token is stored for the
session. -/
theorem save_returns_nil_when_set_fails :
    (∀ (κ : Type) (r : repositoryRedis κ) (userId refreshToken : String) (k : κ),
        (r.Save userId refreshToken k).1 = none)
    ∧ (failingSetClient.Set "session:user-123:device-123"
          (jsonMarshalString "refresh-token-456").1 604800000000000 Store.empty).1
        = some (.new "dial tcp: connection refused")
    ∧ ((NewRepositoryRedis failingSetClient 604800000000000).Save "user-123:device-123"
          "refresh-token-456" Store.empty).1 = none
    ∧ isOk (failingSetAuth.Login "test@gmail.com" "Password123" "device-123"
          (Store.empty, fixtureClock)).1 = true
    ∧ (failingSetAuth.Login "test@gmail.com" "Password123" "device-123"
          (Store.empty, fixtureClock)).2.1 "session:user-123:device-123" = none := by
  refine ⟨?_, by decide, by decide, by decide, by decide⟩
  intro κ r userId refreshToken k
  simp only [repositoryRedis.Save, jsonMarshalString]
  split <;> simp

/-! ## Decimal text -/

theorem digitsRev_lt_ten : ∀ (fuel n : Nat), ∀ d ∈ digitsRev fuel n, d < 10 := by
  intro fuel
  induction fuel with
  | zero => intro n d hd; simp [digitsRev] at hd
  | succ f ih =>
    intro n d hd
    unfold digitsRev at hd
    split at hd
    · simp at hd; omega
    · simp at hd
      rcases hd with rfl | hd
      · omega
      · exact ih _ _ hd

theorem ofDigitsRev_digitsRev : ∀ (fuel n : Nat), n < fuel → ofDigitsRev (digitsRev fuel n) = n := by
  intro fuel
  induction fuel with
  | zero => intro n h; omega
  | succ f ih =>
    intro n h
    unfold digitsRev
    split
    · simp [ofDigitsRev]
    · have hlt : n / 10 < f := by omega
      simp [ofDigitsRev, ih _ hlt]
      omega

theorem digitsRev_ne_nil (fuel n : Nat) : digitsRev (fuel + 1) n ≠ [] := by
  unfold digitsRev
  split <;> simp

theorem charDigit_digitChar (d : Nat) (h : d < 10) : charDigit (digitChar d) = some d := by
  interval_cases d <;> decide

theorem charsDigits_map_digitChar : ∀ (ds : List Nat), (∀ d ∈ ds, d < 10) →
    charsDigits (ds.map digitChar) = some ds := by
  intro ds
  induction ds with
  | nil => intro _; rfl
  | cons d ds ih =>
    intro h
    have hd := charDigit_digitChar d (h d (by simp))
    have hds := ih (fun x hx => h x (by simp [hx]))
    simp [charsDigits, hd, hds]

theorem natChars_ne_nil (n : Nat) : natChars n ≠ [] := by
  simp [natChars, digitsRev_ne_nil]

theorem parseNat_natChars (n : Nat) : parseNat (natChars n) = some n := by
  have hne := natChars_ne_nil n
  have hcd : charsDigits (natChars n) = some (digitsRev (n + 1) n).reverse := by
    unfold natChars
    rw [← List.map_reverse]
    apply charsDigits_map_digitChar
    intro d hd
    exact digitsRev_lt_ten _ _ d (by simpa using hd)
  unfold parseNat
  split
  · contradiction
  · rename_i c cs heq
    rw [hcd]
    simp [ofDigitsRev_digitsRev]


theorem natChars_head_digit (n : Nat) :
    ∃ c cs, natChars n = c :: cs ∧ c ≠ '-' ∧ c ≠ '+' := by
  have hcd : charsDigits (natChars n) = some (digitsRev (n + 1) n).reverse := by
    unfold natChars
    rw [← List.map_reverse]
    apply charsDigits_map_digitChar
    intro d hd
    exact digitsRev_lt_ten _ _ d (by simpa using hd)
  rcases h : natChars n with _ | ⟨c, cs⟩
  · exact absurd h (natChars_ne_nil n)
  · refine ⟨c, cs, rfl, ?_, ?_⟩
    · rintro rfl
      rw [h] at hcd
      simp [charsDigits] at hcd
      have : charDigit '-' = none := by decide
      simp [this] at hcd
    · rintro rfl
      rw [h] at hcd
      simp [charsDigits] at hcd
      have : charDigit '+' = none := by decide
      simp [this] at hcd

theorem strconvAtoi_intChars (i : Int) (h1 : minInt64 ≤ i) (h2 : i ≤ maxInt64) :
    strconvAtoi (String.mk (intChars i)) = i := by
  have hclamp : clampInt64 i = i := by
    unfold clampInt64
    rw [if_neg (by omega), if_neg (by omega)]
  cases i with
  | ofNat n =>
    obtain ⟨c, cs, hcs, hm, hp⟩ := natChars_head_digit n
    have hp' := parseNat_natChars n
    simp only [intChars, strconvAtoi]
    rw [hcs] at hp' ⊢
    split
    · rename_i heq; simp at heq; exact absurd heq.1 hm
    · rename_i heq; simp at heq; exact absurd heq.1 hp
    · rw [hp']
      simpa using hclamp
  | negSucc n =>
    have hp' := parseNat_natChars (n + 1)
    have hneg : -((n + 1 : Nat) : Int) = Int.negSucc n := by
      simp [Int.negSucc_eq]
    simp only [intChars, strconvAtoi, hp', hneg]
    exact hclamp

theorem redisInt_intChars (i : Int) (h1 : minInt64 ≤ i) (h2 : i ≤ maxInt64) :
    redisInt (String.mk (intChars i)) = some i := by
  cases i with
  | ofNat n =>
    obtain ⟨c, cs, hcs, hm, hp⟩ := natChars_head_digit n
    have hp' := parseNat_natChars n
    simp only [intChars, redisInt]
    rw [hcs] at hp' ⊢
    split
    · rename_i heq; simp at heq; exact absurd heq.1 hm
    · rw [hp']
      simp only [canonInt64]
      rw [if_pos]
      · rfl
      · refine ⟨?_, h1, h2⟩
        show intChars (Int.ofNat n) = _
        simp [intChars, hcs]
  | negSucc n =>
    have hp' := parseNat_natChars (n + 1)
    have hneg : -((n + 1 : Nat) : Int) = Int.negSucc n := by
      simp [Int.negSucc_eq]
    simp only [intChars, redisInt, hp', hneg, canonInt64]
    rw [if_pos]
    exact ⟨by simp [intChars], h1, h2⟩

theorem redisInt_canonical {v : String} {i : Int} (h : redisInt v = some i) :
    v = String.mk (intChars i) ∧ minInt64 ≤ i ∧ i ≤ maxInt64 := by
  have key : ∀ j, canonInt64 v j = some i →
      v = String.mk (intChars i) ∧ minInt64 ≤ i ∧ i ≤ maxInt64 := by
    intro j hj
    unfold canonInt64 at hj
    split at hj
    · rename_i hc
      simp at hj
      subst hj
      exact ⟨by rw [hc.1], hc.2.1, hc.2.2⟩
    · simp at hj
  unfold redisInt at h
  split at h
  · split at h
    · exact key _ h
    · simp at h
  · split at h
    · exact key _ h
    · simp at h

/-! ## Keys and JSON text -/

theorem string_append_left_cancel (p a b : String) : p ++ a = p ++ b ↔ a = b := by
  constructor
  · intro h
    have h' := congrArg String.data h
    simp only [String.data_append] at h'
    exact String.ext (List.append_cancel_left h')
  · rintro rfl; rfl

theorem key_session_ne_token_ver (a b : String) : "session:" ++ a ≠ "token_ver:" ++ b := by
  intro h
  have h' := congrArg String.data h
  simp [String.data_append] at h'

theorem key_session_ne_user_sessions (a b : String) :
    "session:" ++ a ≠ "user_sessions:" ++ b := by
  intro h
  have h' := congrArg String.data h
  simp [String.data_append] at h'

theorem key_token_ver_ne_user_sessions (a b : String) :
    "token_ver:" ++ a ≠ "user_sessions:" ++ b := by
  intro h
  have h' := congrArg String.data h
  simp [String.data_append] at h'

theorem jsonScanString_escape (cs rest : List Char) :
    jsonScanString (jsonEscape cs ++ '"' :: rest) = some (cs, rest) := by
  induction cs with
  | nil =>
    cases rest with
    | nil => simp [jsonEscape, jsonScanString]
    | cons d r => simp [jsonEscape, jsonScanString]
  | cons c cs ih =>
    by_cases hc : c = '"' ∨ c = '\\'
    · simp only [jsonEscape, if_pos hc, List.cons_append]
      rw [jsonScanString]
      simp [ih]
    · have h1 : c ≠ '"' := fun h => hc (Or.inl h)
      have h2 : c ≠ '\\' := fun h => hc (Or.inr h)
      simp only [jsonEscape, if_neg hc, List.cons_append]
      rcases h : jsonEscape cs ++ '"' :: rest with _ | ⟨d, r⟩
      · simp at h
      · rw [jsonScanString]
        rw [h] at ih
        simp [h1, h2, ih]

theorem jsonUnmarshal_marshal (s : String) :
    jsonUnmarshalString (jsonMarshalString s).1 = .ok s := by
  simp [jsonUnmarshalString, jsonMarshalString, jsonScanString_escape]

/-! ## What a successful call has done -/

theorem logout_ok_inv {σ : Type} (a : Auth σ) (accessToken : String) (s0 s' : σ)
    (h : a.Logout accessToken s0 = (none, s')) :
    ∃ (claims : MapClaims) (s1 : σ) (sessionID userID deviceID : String) (ver : Float64)
      (s2 : σ) (remErr : Option Err) (s3 : σ) (e6 : Option Err) (s4 : σ) (e7 : Option Err),
      a.token.VerifyAccessToken accessToken s0 = (.ok claims, s1)
      ∧ claims.getString "session" = some sessionID
      ∧ stringsSplit sessionID ':' = [userID, deviceID]
      ∧ claims.getFloat64 "ver" = some ver
      ∧ a.redis.GetTokenVersion sessionID s1 = (.ok ver.toInt, s2)
      ∧ a.redis.RemoveSession userID deviceID s2 = (remErr, s3)
      ∧ a.redis.DeleteRefreshToken sessionID s3 = (e6, s4)
      ∧ notNilAndNotRedisNil e6 = false
      ∧ a.redis.DeleteVersionToken sessionID s4 = (e7, s')
      ∧ notNilAndNotRedisNil e7 = false := by
  rcases hV : a.token.VerifyAccessToken accessToken s0 with ⟨rV, s1⟩
  rcases rV with e | claims
  · simp [Auth.Logout, hV] at h
  rcases hs : claims.getString "session" with _ | sessionID
  · simp [Auth.Logout, hV, hs] at h
  by_cases h1 : sessionID = ""
  · simp [Auth.Logout, hV, hs, h1] at h
  by_cases h3 : ∃ userID deviceID, stringsSplit sessionID ':' = [userID, deviceID]
  swap
  · exfalso
    simp only [Auth.Logout, hV, hs, h1, if_false] at h
    split at h
    · rename_i u d hsp
      exact h3 ⟨u, d, hsp⟩
    · simp at h
  obtain ⟨userID, deviceID, hsp⟩ := h3
  rcases hver : claims.getFloat64 "ver" with _ | ver
  · simp [Auth.Logout, hV, hs, h1, hsp, hver] at h
  rcases hG : a.redis.GetTokenVersion sessionID s1 with ⟨rG, s2⟩
  rcases rG with e | cur
  · simp [Auth.Logout, hV, hs, h1, hsp, hver, hG] at h
  by_cases hcur : ver.toInt = cur
  swap
  · simp [Auth.Logout, hV, hs, h1, hsp, hver, hG, hcur] at h
  subst hcur
  rcases hR : a.redis.RemoveSession userID deviceID s2 with ⟨remErr, s3⟩
  rcases hD6 : a.redis.DeleteRefreshToken sessionID s3 with ⟨e6, s4⟩
  rcases h6 : notNilAndNotRedisNil e6
  swap
  · cases e6 with
    | none => simp [notNilAndNotRedisNil] at h6
    | some e => simp [Auth.Logout, hV, hs, h1, hsp, hver, hG, hR, hD6, h6] at h
  rcases hD7 : a.redis.DeleteVersionToken sessionID s4 with ⟨e7, s5⟩
  rcases h7 : notNilAndNotRedisNil e7
  swap
  · cases e7 with
    | none => simp [notNilAndNotRedisNil] at h7
    | some e => simp [Auth.Logout, hV, hs, h1, hsp, hver, hG, hR, hD6, h6, hD7, h7] at h
  simp [Auth.Logout, hV, hs, h1, hsp, hver, hG, hR, hD6, h6, hD7, h7] at h
  subst h
  exact ⟨claims, s1, sessionID, userID, deviceID, ver, s2, remErr, s3, e6, s4, e7,
    rfl, hs, hsp, hver, hG, hR, hD6, h6, hD7, h7⟩

theorem login_ok_inv {σ : Type} (a : Auth σ) (email password deviceID : String) (s0 s' : σ)
    (tok : Token) (h : a.Login email password deviceID s0 = (.ok tok, s')) :
    ∃ (user : User) (s1 : σ) (addErr : Option Err) (s2 : σ) (version : Int) (s3 : σ)
      (accessToken : String) (s4 : σ) (refreshToken : String) (s5 : σ),
      a.provider.LoginUsers email password s0 = (.ok user, s1)
      ∧ a.redis.AddSession user.UserID deviceID s1 = (addErr, s2)
      ∧ a.redis.IncrementTokenVersion (user.UserID ++ ":" ++ deviceID) s2 = (.ok version, s3)
      ∧ a.token.GenerateAccessToken
          { SessionId := user.UserID ++ ":" ++ deviceID, UserID := user.UserID,
            Version := version, Name := user.Name, Email := user.Email, Role := user.Role } s3
          = (.ok accessToken, s4)
      ∧ a.token.GenerateRefreshToken (user.UserID ++ ":" ++ deviceID) s4 = (.ok refreshToken, s5)
      ∧ a.redis.Save (user.UserID ++ ":" ++ deviceID) refreshToken s5 = (none, s')
      ∧ tok = { AccessToken := accessToken, RefreshToken := refreshToken,
                TokenType := "Bearer" } := by
  rcases hL : a.provider.LoginUsers email password s0 with ⟨rL, s1⟩
  rcases rL with e | user
  · simp [Auth.Login, hL] at h
  rcases hA : a.redis.AddSession user.UserID deviceID s1 with ⟨addErr, s2⟩
  rcases hI : a.redis.IncrementTokenVersion (user.UserID ++ ":" ++ deviceID) s2 with ⟨rI, s3⟩
  rcases rI with e | version
  · simp [Auth.Login, hL, hA, hI] at h
  rcases hGA : a.token.GenerateAccessToken
      { SessionId := user.UserID ++ ":" ++ deviceID, UserID := user.UserID, Version := version,
        Name := user.Name, Email := user.Email, Role := user.Role } s3 with ⟨rGA, s4⟩
  rcases rGA with e | accessToken
  · simp [Auth.Login, hL, hA, hI, hGA] at h
  rcases hGR : a.token.GenerateRefreshToken (user.UserID ++ ":" ++ deviceID) s4 with ⟨rGR, s5⟩
  rcases rGR with e | refreshToken
  · simp [Auth.Login, hL, hA, hI, hGA, hGR] at h
  rcases hS : a.redis.Save (user.UserID ++ ":" ++ deviceID) refreshToken s5 with ⟨rS, s6⟩
  rcases rS with _ | e
  swap
  · simp [Auth.Login, hL, hA, hI, hGA, hGR, hS] at h
  simp [Auth.Login, hL, hA, hI, hGA, hGR, hS] at h
  obtain ⟨h1, h2⟩ := h
  subst h2
  exact ⟨user, s1, addErr, s2, version, s3, accessToken, s4, refreshToken, s5,
    rfl, hA, hI, hGA, hGR, hS, h1.symm⟩

theorem refresh_ok_inv {σ : Type} (a : Auth σ) (refreshToken : String) (s0 s' : σ)
    (tok : Token) (h : a.GetRefreshToken refreshToken s0 = (.ok tok, s')) :
    ∃ (claims : MapClaims) (s1 : σ) (sessionID userID deviceID : String) (s2 : σ)
      (user : UserRefresh) (s3 : σ) (version : Int) (s4 : σ) (newAccessToken : String) (s5 : σ)
      (newRefreshToken : String) (s6 : σ),
      refreshToken ≠ ""
      ∧ a.token.VerifyRefreshToken refreshToken s0 = (.ok claims, s1)
      ∧ claims.getString "session" = some sessionID
      ∧ a.redis.Get sessionID s1 = (.ok refreshToken, s2)
      ∧ stringsSplit sessionID ':' = [userID, deviceID]
      ∧ a.provider.FindOneUsers userID s2 = (.ok user, s3)
      ∧ a.redis.IncrementTokenVersion sessionID s3 = (.ok version, s4)
      ∧ a.token.GenerateAccessToken
          { SessionId := sessionID, UserID := user.UserID, Version := version,
            Name := user.Name, Email := user.Email, Role := user.Role } s4
          = (.ok newAccessToken, s5)
      ∧ a.token.GenerateRefreshToken sessionID s5 = (.ok newRefreshToken, s6)
      ∧ a.redis.Save sessionID newRefreshToken s6 = (none, s')
      ∧ tok = { AccessToken := newAccessToken, RefreshToken := newRefreshToken,
                TokenType := "Bearer" } := by
  by_cases h0 : refreshToken = ""
  · simp [Auth.GetRefreshToken, h0] at h
  rcases hV : a.token.VerifyRefreshToken refreshToken s0 with ⟨rV, s1⟩
  rcases rV with e | claims
  · by_cases hx : stringsContains e.Error "expired" = true <;>
    simp [Auth.GetRefreshToken, h0, hV, hx] at h
  rcases hs : claims.getString "session" with _ | sessionID
  · simp [Auth.GetRefreshToken, h0, hV, hs] at h
  by_cases h1 : sessionID = ""
  · simp [Auth.GetRefreshToken, h0, hV, hs, h1] at h
  rcases hG : a.redis.Get sessionID s1 with ⟨rG, s2⟩
  rcases rG with e | storedToken
  · by_cases hx : e.isRedisNil = true <;>
    simp [Auth.GetRefreshToken, h0, hV, hs, h1, hG, hx] at h
  by_cases h2 : storedToken = refreshToken
  swap
  · simp [Auth.GetRefreshToken, h0, hV, hs, h1, hG, h2] at h
  subst h2
  by_cases h3 : ∃ userID deviceID, stringsSplit sessionID ':' = [userID, deviceID]
  swap
  · exfalso
    simp only [Auth.GetRefreshToken, h0, hV, hs, h1, hG, if_false, ne_eq, not_true_eq_false] at h
    split at h
    · rename_i u d hsp
      exact h3 ⟨u, d, hsp⟩
    · simp at h
  obtain ⟨userID, deviceID, hsp⟩ := h3
  rcases hF : a.provider.FindOneUsers userID s2 with ⟨rF, s3⟩
  rcases rF with e | user
  · simp [Auth.GetRefreshToken, h0, hV, hs, h1, hG, hsp, hF] at h
  rcases hI : a.redis.IncrementTokenVersion sessionID s3 with ⟨rI, s4⟩
  rcases rI with e | version
  · simp [Auth.GetRefreshToken, h0, hV, hs, h1, hG, hsp, hF, hI] at h
  rcases hGA : a.token.GenerateAccessToken
      { SessionId := sessionID, UserID := user.UserID, Version := version,
        Name := user.Name, Email := user.Email, Role := user.Role } s4 with ⟨rGA, s5⟩
  rcases rGA with e | newAccessToken
  · simp [Auth.GetRefreshToken, h0, hV, hs, h1, hG, hsp, hF, hI, hGA] at h
  rcases hGR : a.token.GenerateRefreshToken sessionID s5 with ⟨rGR, s6⟩
  rcases rGR with e | newRefreshToken
  · simp [Auth.GetRefreshToken, h0, hV, hs, h1, hG, hsp, hF, hI, hGA, hGR] at h
  rcases hS : a.redis.Save sessionID newRefreshToken s6 with ⟨rS, s7⟩
  rcases rS with _ | e
  swap
  · simp [Auth.GetRefreshToken, h0, hV, hs, h1, hG, hsp, hF, hI, hGA, hGR, hS] at h
  simp [Auth.GetRefreshToken, h0, hV, hs, h1, hG, hsp, hF, hI, hGA, hGR, hS] at h
  obtain ⟨h1', h2'⟩ := h
  subst h2'
  exact ⟨claims, s1, sessionID, userID, deviceID, s2, user, s3, version, s4, newAccessToken, s5,
    newRefreshToken, s6, h0, rfl, hs, hG, hsp, hF, hI, hGA, hGR, hS, h1'.symm⟩

/-! ## The registry over the key-value store -/

theorem Store.put_same (st : Store) (key : String) (v : Option RVal) :
    st.put key v key = v := by
  simp [Store.put]

theorem Store.put_other (st : Store) (key k : String) (v : Option RVal) (h : k ≠ key) :
    st.put key v k = st k := by
  simp [Store.put, h]

theorem memClient_Del (key : String) (st : Store) :
    ∃ n, memClient.Del key st = (.ok n, st.put key none) := by
  rcases h : st key with _ | v
  · refine ⟨0, ?_⟩
    have : st.put key none = st := by
      funext k
      by_cases hk : k = key
      · subst hk; simp [Store.put, h]
      · simp [Store.put, hk]
    simp [memClient, h, this]
  · exact ⟨1, by simp [memClient, h]⟩

variable {τ : Type} (p : Provider τ) (t : Generate τ) (e : EmailSender τ) (ttl : Int)

theorem reg_Save (sid tok : String) (st : Store) (w : τ) :
    (registryAuth p t e ttl).redis.Save sid tok (st, w)
      = (none, (st.put ("session:" ++ sid) (some (.str (jsonMarshalString tok).1)), w)) := by
  simp [registryAuth, NewServer, Storage.onStore, onFst, NewRepositoryRedis,
    repositoryRedis.Save, memClient, jsonMarshalString]

theorem reg_Get_absent (sid : String) (st : Store) (w : τ)
    (h : st ("session:" ++ sid) = none) :
    (registryAuth p t e ttl).redis.Get sid (st, w) = (.error .redisNil, (st, w)) := by
  simp [registryAuth, NewServer, Storage.onStore, onFst, NewRepositoryRedis,
    repositoryRedis.Get, memClient, h]

theorem reg_Get_stored (sid tok : String) (st : Store) (w : τ)
    (h : st ("session:" ++ sid) = some (.str (jsonMarshalString tok).1)) :
    (registryAuth p t e ttl).redis.Get sid (st, w) = (.ok tok, (st, w)) := by
  simp [registryAuth, NewServer, Storage.onStore, onFst, NewRepositoryRedis,
    repositoryRedis.Get, memClient, h, jsonUnmarshal_marshal]

theorem reg_DeleteRefreshToken (sid : String) (st : Store) (w : τ) :
    (registryAuth p t e ttl).redis.DeleteRefreshToken sid (st, w)
      = (none, (st.put ("session:" ++ sid) none, w)) := by
  obtain ⟨n, hn⟩ := memClient_Del ("session:" ++ sid) st
  simp [registryAuth, NewServer, Storage.onStore, onFst, NewRepositoryRedis,
    repositoryRedis.DeleteRefreshToken, hn]

theorem reg_DeleteVersionToken (sid : String) (st : Store) (w : τ) :
    (registryAuth p t e ttl).redis.DeleteVersionToken sid (st, w)
      = (none, (st.put ("token_ver:" ++ sid) none, w)) := by
  obtain ⟨n, hn⟩ := memClient_Del ("token_ver:" ++ sid) st
  simp [registryAuth, NewServer, Storage.onStore, onFst, NewRepositoryRedis,
    repositoryRedis.DeleteVersionToken, hn]

theorem reg_DeleteAllSessions (u : String) (st : Store) (w : τ) :
    (registryAuth p t e ttl).redis.DeleteAllSessions u (st, w)
      = (none, (st.put ("user_sessions:" ++ u) none, w)) := by
  obtain ⟨n, hn⟩ := memClient_Del ("user_sessions:" ++ u) st
  simp [registryAuth, NewServer, Storage.onStore, onFst, NewRepositoryRedis,
    repositoryRedis.DeleteAllSessions, hn]

theorem reg_GetTokenVersion_absent (sid : String) (st : Store) (w : τ)
    (h : st ("token_ver:" ++ sid) = none) :
    (registryAuth p t e ttl).redis.GetTokenVersion sid (st, w) = (.ok 1, (st, w)) := by
  simp [registryAuth, NewServer, Storage.onStore, onFst, NewRepositoryRedis,
    repositoryRedis.GetTokenVersion, memClient, h, Err.isRedisNil]

theorem reg_GetTokenVersion_str (sid v : String) (st : Store) (w : τ)
    (h : st ("token_ver:" ++ sid) = some (.str v)) :
    (registryAuth p t e ttl).redis.GetTokenVersion sid (st, w)
      = (.ok (strconvAtoi v), (st, w)) := by
  simp [registryAuth, NewServer, Storage.onStore, onFst, NewRepositoryRedis,
    repositoryRedis.GetTokenVersion, memClient, h]

theorem reg_GetUserSessions_set (u : String) (ds : List String) (st : Store) (w : τ)
    (h : st ("user_sessions:" ++ u) = some (.set ds)) :
    (registryAuth p t e ttl).redis.GetUserSessions u (st, w) = ((ds, none), (st, w)) := by
  simp [registryAuth, NewServer, Storage.onStore, onFst, NewRepositoryRedis,
    repositoryRedis.GetUserSessions, memClient, h]

theorem reg_RemoveSession (u d : String) (st : Store) (w : τ) :
    ∃ (r : Option Err) (st' : Store),
      (registryAuth p t e ttl).redis.RemoveSession u d (st, w) = (r, (st', w))
      ∧ ∀ k, k ≠ "user_sessions:" ++ u → st' k = st k := by
  refine ⟨_, ((registryAuth p t e ttl).redis.RemoveSession u d (st, w)).2.1, rfl, ?_⟩
  intro k hk
  simp only [registryAuth, NewServer, Storage.onStore, onFst, NewRepositoryRedis,
    repositoryRedis.RemoveSession, memClient]
  rcases h : st ("user_sessions:" ++ u) with _ | v
  · simp [h]
  · cases v with
    | str s => simp [h]
    | set ms =>
      by_cases hm : d ∈ ms
      · simp [h, hm, Store.put, hk]
      · simp [h, hm]

theorem reg_AddSession (u d : String) (st : Store) (w : τ) :
    ∃ (r : Option Err) (st' : Store),
      (registryAuth p t e ttl).redis.AddSession u d (st, w) = (r, (st', w))
      ∧ ∀ k, k ≠ "user_sessions:" ++ u → st' k = st k := by
  refine ⟨_, ((registryAuth p t e ttl).redis.AddSession u d (st, w)).2.1, rfl, ?_⟩
  intro k hk
  simp only [registryAuth, NewServer, Storage.onStore, onFst, NewRepositoryRedis,
    repositoryRedis.AddSession, memClient]
  rcases h : st ("user_sessions:" ++ u) with _ | v
  · simp [h, Store.put, hk]
  · cases v with
    | str s => simp [h]
    | set ms =>
      by_cases hm : d ∈ ms
      · simp [h, hm]
      · simp [h, hm, Store.put, hk]

theorem reg_VerifyAccessToken (tok : String) (st : Store) (w : τ) :
    (registryAuth p t e ttl).token.VerifyAccessToken tok (st, w)
      = ((t.VerifyAccessToken tok w).1, (st, (t.VerifyAccessToken tok w).2)) := rfl

theorem reg_VerifyRefreshToken (tok : String) (st : Store) (w : τ) :
    (registryAuth p t e ttl).token.VerifyRefreshToken tok (st, w)
      = ((t.VerifyRefreshToken tok w).1, (st, (t.VerifyRefreshToken tok w).2)) := rfl

theorem reg_GenerateAccessToken (u : UserRefresh) (st : Store) (w : τ) :
    (registryAuth p t e ttl).token.GenerateAccessToken u (st, w)
      = ((t.GenerateAccessToken u w).1, (st, (t.GenerateAccessToken u w).2)) := rfl

theorem reg_GenerateRefreshToken (sid : String) (st : Store) (w : τ) :
    (registryAuth p t e ttl).token.GenerateRefreshToken sid (st, w)
      = ((t.GenerateRefreshToken sid w).1, (st, (t.GenerateRefreshToken sid w).2)) := rfl

theorem reg_FindOneUsers (id : String) (st : Store) (w : τ) :
    (registryAuth p t e ttl).provider.FindOneUsers id (st, w)
      = ((p.FindOneUsers id w).1, (st, (p.FindOneUsers id w).2)) := rfl

theorem reg_LoginUsers (email password : String) (st : Store) (w : τ) :
    (registryAuth p t e ttl).provider.LoginUsers email password (st, w)
      = ((p.LoginUsers email password w).1, (st, (p.LoginUsers email password w).2)) := rfl

theorem intChars_one : String.mk (intChars 1) = "1" := by decide

/-- What a successful `IncrementTokenVersion` of the registry has done, for a positive
lifetime: the stored counter went up by one and is the version returned. -/
theorem reg_Increment_ok (httl : 0 < ttl) (sid : String) (st : Store) (w : τ) (v : Int)
    (s' : Store × τ)
    (h : (registryAuth p t e ttl).redis.IncrementTokenVersion sid (st, w) = (.ok v, s')) :
    s' = (st.put ("token_ver:" ++ sid) (some (.str (String.mk (intChars v)))), w)
    ∧ v = storedVersion st sid + 1
    ∧ minInt64 ≤ v ∧ v ≤ maxInt64
    ∧ (st ("token_ver:" ++ sid) = none
        ∨ ∃ n, st ("token_ver:" ++ sid) = some (.str (String.mk (intChars n)))
            ∧ minInt64 ≤ n ∧ n < maxInt64) := by
  have hnle : ¬ ttl ≤ 0 := by omega
  simp only [registryAuth, NewServer, Storage.onStore, onFst, NewRepositoryRedis,
    repositoryRedis.IncrementTokenVersion, memClient] at h
  rcases hk : st ("token_ver:" ++ sid) with _ | val
  · simp [hk, Store.put, hnle] at h
    obtain ⟨h1, h2⟩ := h
    subst h1 h2
    refine ⟨?_, ?_, by decide, by decide, Or.inl rfl⟩
    · rw [intChars_one]
    · simp [storedVersion, hk]
  · cases val with
    | set ms => simp [hk] at h
    | str sv =>
      rcases hr : redisInt sv with _ | n
      · simp [hk, hr] at h
      · obtain ⟨hcanon, hmin, hmax⟩ := redisInt_canonical hr
        by_cases hn : n = maxInt64
        · simp [hk, hr, hn] at h
        · simp [hk, hr, hn, Store.put, hnle] at h
          obtain ⟨h1, h2⟩ := h
          subst h1 h2
          have hlt : n < maxInt64 := lt_of_le_of_ne hmax hn
          refine ⟨rfl, ?_, ?_, ?_, Or.inr ⟨n, by rw [← hcanon], hmin, hlt⟩⟩
          · simp [storedVersion, hk, hr]
          · omega
          · omega

/-- After a successful `IncrementTokenVersion` the registry reads the version returned. -/
theorem reg_GetTokenVersion_after_put (sid : String) (st : Store) (w : τ) (v : Int)
    (h1 : minInt64 ≤ v) (h2 : v ≤ maxInt64)
    (h : st ("token_ver:" ++ sid) = some (.str (String.mk (intChars v)))) :
    (registryAuth p t e ttl).redis.GetTokenVersion sid (st, w) = (.ok v, (st, w)) := by
  rw [reg_GetTokenVersion_str p t e ttl sid _ st w h, strconvAtoi_intChars v h1 h2]

theorem storedVersion_of_put (sid : String) (st : Store) (v : Int)
    (h1 : minInt64 ≤ v) (h2 : v ≤ maxInt64)
    (h : st ("token_ver:" ++ sid) = some (.str (String.mk (intChars v)))) :
    storedVersion st sid = v := by
  simp [storedVersion, h, redisInt_intChars v h1 h2]

/-- When the registry's `IncrementTokenVersion` succeeds: the key is absent or holds an
integer below the largest `int64`. -/
theorem reg_Increment_succeeds (sid : String) (st : Store) (w : τ)
    (h : st ("token_ver:" ++ sid) = none
        ∨ ∃ n, st ("token_ver:" ++ sid) = some (.str (String.mk (intChars n)))
            ∧ minInt64 ≤ n ∧ n < maxInt64) :
    ∃ v s', (registryAuth p t e ttl).redis.IncrementTokenVersion sid (st, w) = (.ok v, s')
      ∧ s'.2 = w ∧ ∀ k, k ≠ "token_ver:" ++ sid → s'.1 k = st k := by
  simp only [registryAuth, NewServer, Storage.onStore, onFst, NewRepositoryRedis,
    repositoryRedis.IncrementTokenVersion, memClient]
  rcases h with h | ⟨n, h, hmin, hlt⟩
  · refine ⟨1, _, by simp [h]; rfl, rfl, ?_⟩
    intro k hk
    simp only [h, Store.put_same]
    by_cases ht : ttl ≤ 0 <;> simp [ht, Store.put, hk]
  · have hr := redisInt_intChars n hmin (le_of_lt hlt)
    have hn : n ≠ maxInt64 := ne_of_lt hlt
    refine ⟨n + 1, _, by simp [h, hr, hn]; rfl, rfl, ?_⟩
    intro k hk
    simp only [h, hr, hn, if_false, Store.put_same]
    by_cases ht : ttl ≤ 0 <;> simp [ht, Store.put, hk]

theorem reg_GetTokenVersion_state (sid : String) (st : Store) (w : τ) :
    ((registryAuth p t e ttl).redis.GetTokenVersion sid (st, w)).2 = (st, w) := by
  simp only [registryAuth, NewServer, Storage.onStore, onFst, NewRepositoryRedis,
    repositoryRedis.GetTokenVersion, memClient]
  rcases h : st ("token_ver:" ++ sid) with _ | v
  · simp [Err.isRedisNil]
  · cases v <;> simp [Err.isRedisNil, wrongType]

/-- What a successful `Logout` over the registry leaves: the session of the token has no
stored refresh token and no version key, and its version was the one of the token. -/
theorem reg_logout_ok (accessToken : String) (st : Store) (w : τ) (s' : Store × τ)
    (h : (registryAuth p t e ttl).Logout accessToken (st, w) = (none, s')) :
    ∃ (claims : MapClaims) (sid u d : String) (ver : Float64),
      (t.VerifyAccessToken accessToken w).1 = .ok claims
      ∧ claims.getString "session" = some sid
      ∧ stringsSplit sid ':' = [u, d]
      ∧ claims.getFloat64 "ver" = some ver
      ∧ ((registryAuth p t e ttl).redis.GetTokenVersion sid (st, w)).1 = .ok ver.toInt
      ∧ s'.2 = (t.VerifyAccessToken accessToken w).2
      ∧ s'.1 ("session:" ++ sid) = none
      ∧ s'.1 ("token_ver:" ++ sid) = none := by
  obtain ⟨claims, s1, sid, u, d, ver, s2, remErr, s3, e6, s4, e7, hV, hs, hsp, hver, hG, hR,
    hD6, -, hD7, -⟩ := logout_ok_inv _ _ _ _ h
  rw [reg_VerifyAccessToken] at hV
  obtain ⟨hV1, hV2⟩ := Prod.mk.inj hV
  subst hV2
  have hG2 := reg_GetTokenVersion_state p t e ttl sid st (t.VerifyAccessToken accessToken w).2
  rw [hG] at hG2
  simp only at hG2
  subst hG2
  obtain ⟨r, st3, hR', hst3⟩ := reg_RemoveSession p t e ttl u d st (t.VerifyAccessToken accessToken w).2
  rw [hR] at hR'
  obtain ⟨-, hs3⟩ := Prod.mk.inj hR'
  subst hs3
  rw [reg_DeleteRefreshToken] at hD6
  obtain ⟨-, hs4⟩ := Prod.mk.inj hD6
  subst hs4
  rw [reg_DeleteVersionToken] at hD7
  obtain ⟨-, hs5⟩ := Prod.mk.inj hD7
  subst hs5
  refine ⟨claims, sid, u, d, ver, hV1, hs, hsp, hver, ?_, rfl, ?_, ?_⟩
  · have := congrArg Prod.fst hG
    have hw : ((registryAuth p t e ttl).redis.GetTokenVersion sid (st, w)).1
        = ((registryAuth p t e ttl).redis.GetTokenVersion sid
            (st, (t.VerifyAccessToken accessToken w).2)).1 := by
      simp only [registryAuth, NewServer, Storage.onStore, onFst]
    rw [hw, this]
  · simp [Store.put, key_session_ne_token_ver]
  · simp [Store.put]

/-- C2 (amended). Revocation via Logout: over the registry on the key-value store, after a
`Logout` that succeeds for the session of its access token, from any state (any prior history),
a `GetRefreshToken` call that presents a refresh token of that session which still verifies (a
token that is not empty and for which `VerifyRefreshToken` succeeds with that session claim, as
it does for the last-issued one until it expires) fails with the error
`token revoked or user logged out`. -/
theorem revocation_via_logout (accessToken : String) (st : Store) (w : τ) (s' : Store × τ)
    (claims : MapClaims) (sid refreshToken : String) (claimsR : MapClaims)
    (hLogout : (registryAuth p t e ttl).Logout accessToken (st, w) = (none, s'))
    (hA : (t.VerifyAccessToken accessToken w).1 = .ok claims)
    (hsid : claims.getString "session" = some sid)
    (hne : refreshToken ≠ "")
    (hR : (t.VerifyRefreshToken refreshToken s'.2).1 = .ok claimsR)
    (hRsid : claimsR.getString "session" = some sid) :
    ((registryAuth p t e ttl).GetRefreshToken refreshToken s').1
      = .error (.new "token revoked or user logged out") := by
  obtain ⟨claims', sid', u, d, ver, hV, hs, hsp, -, -, -, hsess, -⟩ :=
    reg_logout_ok p t e ttl accessToken st w s' hLogout
  rw [hA] at hV
  cases hV
  rw [hsid] at hs
  cases hs
  have hne' := stringsSplit_two_ne_empty hsp
  rcases s' with ⟨st', w'⟩
  rcases hVR : t.VerifyRefreshToken refreshToken w' with ⟨rV, w''⟩
  rw [hVR] at hR
  simp only at hR
  subst hR
  have hget := reg_Get_absent p t e ttl sid st' w'' hsess
  simp [Auth.GetRefreshToken, hne, reg_VerifyRefreshToken, hVR, hRsid, hne', hget, Err.isRedisNil]

/-- The revocation at a concrete run: login, logout, then a refresh with the refresh token of
the login. -/
theorem revocation_via_logout_witness :
    (fixtureAuth.GetRefreshToken (refreshOf runLogin.1) runLogout.2).1
      = .error (.new "token revoked or user logged out") :=
  revocation_via_logout (fixtureProvider Clock) (fixtureManager.toGenerate fixtureHMAC)
    (fixtureSender Clock) 604800000000000 (accessOf runLogin.1) runLogin.2.1 runLogin.2.2
    runLogout.2
    [("iat", .float64 ⟨1700000000, 0⟩), ("ver", .float64 ⟨1, 0⟩),
     ("exp", .float64 ⟨1700000900, 0⟩), ("email", .str "test@gmail.com"),
     ("role", .str "user"), ("session", .str "user-123:device-123")]
    "user-123:device-123" (refreshOf runLogin.1)
    [("lat", .float64 ⟨1700000000, 0⟩), ("iat", .float64 ⟨1700000000, 0⟩),
     ("exp", .float64 ⟨1700604800, 0⟩), ("session", .str "user-123:device-123")]
    (Prod.ext (by decide) rfl) (by decide) (by decide) (by decide) (by decide) (by decide)

/-- C5 (as stated, refuted). A login on a fresh session, a logout with the access token of the
login, and a second logout with the same token: both logouts succeed; the second is not
rejected with `invalid token version`. -/
theorem second_logout_with_same_token_succeeds :
    isOk runLogin.1 = true
    ∧ runLogout.1 = none
    ∧ (fixtureAuth.Logout (accessOf runLogin.1) runLogout.2).1 = none
    ∧ (fixtureAuth.Logout (accessOf runLogin.1) runLogout.2).1
        ≠ some (.new "invalid token version") := by
  refine ⟨by decide, by decide, by decide, by decide⟩

/-- C5 (amended). Over the registry on the key-value store, after a `Logout` that succeeds for
the session of its access token, a later `Logout` that presents an access token of that session
with a numeric `ver` claim is rejected with `invalid token version` when the version of the
token is not 1, and succeeds when it is 1: the logout has deleted the version key, and the
registry reads an absent key as version 1. -/
theorem logout_after_logout (accessToken : String) (st : Store) (w : τ) (s' : Store × τ)
    (claims : MapClaims) (sid token' : String) (claims' : MapClaims) (ver' : Float64)
    (hLogout : (registryAuth p t e ttl).Logout accessToken (st, w) = (none, s'))
    (hA : (t.VerifyAccessToken accessToken w).1 = .ok claims)
    (hsid : claims.getString "session" = some sid)
    (hV' : (t.VerifyAccessToken token' s'.2).1 = .ok claims')
    (hs' : claims'.getString "session" = some sid)
    (hver' : claims'.getFloat64 "ver" = some ver') :
    (ver'.toInt ≠ 1 →
      ((registryAuth p t e ttl).Logout token' s').1 = some (.new "invalid token version"))
    ∧ (ver'.toInt = 1 → ((registryAuth p t e ttl).Logout token' s').1 = none) := by
  obtain ⟨claims0, sid0, u, d, ver, hV, hs, hsp, -, -, -, -, hverkey⟩ :=
    reg_logout_ok p t e ttl accessToken st w s' hLogout
  rw [hA] at hV
  cases hV
  rw [hsid] at hs
  cases hs
  have hne' := stringsSplit_two_ne_empty hsp
  rcases s' with ⟨st', w'⟩
  rcases hVR : t.VerifyAccessToken token' w' with ⟨rV, w''⟩
  rw [hVR] at hV'
  simp only at hV'
  subst hV'
  have hget := reg_GetTokenVersion_absent p t e ttl sid st' w'' hverkey
  constructor
  · intro hne
    simp [Auth.Logout, reg_VerifyAccessToken, hVR, hs', hne', hsp, hver', hget, hne]
  · intro heq
    obtain ⟨r, st3, hR, -⟩ := reg_RemoveSession p t e ttl u d st' w''
    simp [Auth.Logout, reg_VerifyAccessToken, hVR, hs', hne', hsp, hver', hget, heq, hR,
      reg_DeleteRefreshToken, reg_DeleteVersionToken, notNilAndNotRedisNil]

/-- The amended property at a concrete run: login, refresh (version 2), logout with the token
of version 2, and a second logout with that token, which is rejected. -/
theorem logout_after_logout_witness :
    (fixtureAuth.Logout (accessOf runRefresh.1) runLogoutAfterRefresh.2).1
      = some (.new "invalid token version") :=
  (logout_after_logout (fixtureProvider Clock) (fixtureManager.toGenerate fixtureHMAC)
    (fixtureSender Clock) 604800000000000 (accessOf runRefresh.1) runRefresh.2.1 runRefresh.2.2
    runLogoutAfterRefresh.2
    [("iat", .float64 ⟨1700000000, 0⟩), ("ver", .float64 ⟨2, 0⟩),
     ("exp", .float64 ⟨1700000900, 0⟩), ("email", .str "test@gmail.com"),
     ("role", .str "user"), ("session", .str "user-123:device-123")]
    "user-123:device-123" (accessOf runRefresh.1)
    [("iat", .float64 ⟨1700000000, 0⟩), ("ver", .float64 ⟨2, 0⟩),
     ("exp", .float64 ⟨1700000900, 0⟩), ("email", .str "test@gmail.com"),
     ("role", .str "user"), ("session", .str "user-123:device-123")]
    ⟨2, 0⟩
    (Prod.ext (by decide) rfl) (by decide) (by decide) (by decide) (by decide) (by decide)).1
    (by decide)

theorem reg_logoutAllLoop (u : String) :
    ∀ (ds : List String) (lastErr : Option Err) (st : Store) (w : τ),
      ∃ st' : Store,
        (registryAuth p t e ttl).logoutAllLoop u ds lastErr (st, w) = (lastErr, (st', w))
        ∧ (∀ d ∈ ds, st' ("session:" ++ (u ++ ":" ++ d)) = none
            ∧ st' ("token_ver:" ++ (u ++ ":" ++ d)) = none)
        ∧ (∀ k, st k = none → st' k = none) := by
  intro ds
  induction ds with
  | nil =>
    intro lastErr st w
    exact ⟨st, by simp [Auth.logoutAllLoop], by simp, fun k h => h⟩
  | cons d rest ih =>
    intro lastErr st w
    obtain ⟨st', h1, h2, h3⟩ := ih lastErr
      ((st.put ("session:" ++ (u ++ ":" ++ d)) none).put ("token_ver:" ++ (u ++ ":" ++ d)) none) w
    refine ⟨st', ?_, ?_, ?_⟩
    · simp only [Auth.logoutAllLoop, reg_DeleteRefreshToken, reg_DeleteVersionToken,
        notNilAndNotRedisNil]
      simpa using h1
    · intro d' hd'
      rcases List.mem_cons.mp hd' with rfl | hd'
      · constructor
        · apply h3
          simp [Store.put, key_session_ne_token_ver]
        · apply h3
          simp [Store.put]
      · exact h2 d' hd'
    · intro k hk
      apply h3
      simp only [Store.put]
      split_ifs <;> simp [hk]

/-- C6. LogoutAll coverage: over the registry on the key-value store, for a user whose device
set holds `k ≥ 1` devices, a `LogoutAll` call that presents a valid access token of that user
returns no error and leaves `GetUserSessions(user)` empty and, for each of the `k` sessions
`userID:deviceID`, the stored refresh token absent (`Get` answers `redis.Nil`) and the version
key absent. -/
theorem logoutAll_coverage (accessToken : String) (st : Store) (w : τ) (claims : MapClaims)
    (session u d0 : String) (ds : List String)
    (hV : (t.VerifyAccessToken accessToken w).1 = .ok claims)
    (hs : claims.getString "session" = some session)
    (hsp : stringsSplit session ':' = [u, d0])
    (hset : st ("user_sessions:" ++ u) = some (.set ds))
    (hne : ds ≠ []) :
    ((registryAuth p t e ttl).LogoutAll accessToken (st, w)).1 = none
    ∧ ((registryAuth p t e ttl).redis.GetUserSessions u
        ((registryAuth p t e ttl).LogoutAll accessToken (st, w)).2).1 = ([], none)
    ∧ ∀ d ∈ ds,
        ((registryAuth p t e ttl).redis.Get (u ++ ":" ++ d)
          ((registryAuth p t e ttl).LogoutAll accessToken (st, w)).2).1 = .error .redisNil
        ∧ ((registryAuth p t e ttl).LogoutAll accessToken (st, w)).2.1
            ("session:" ++ (u ++ ":" ++ d)) = none
        ∧ ((registryAuth p t e ttl).LogoutAll accessToken (st, w)).2.1
            ("token_ver:" ++ (u ++ ":" ++ d)) = none := by
  have hne' := stringsSplit_two_ne_empty hsp
  have hlen : ds.length ≠ 0 := fun h => hne (List.length_eq_zero.mp h)
  rcases hVR : t.VerifyAccessToken accessToken w with ⟨rV, w'⟩
  rw [hVR] at hV
  simp only at hV
  subst hV
  obtain ⟨st', hloop, hkeys, hnone⟩ := reg_logoutAllLoop p t e ttl u ds none st w'
  have hrun : (registryAuth p t e ttl).LogoutAll accessToken (st, w)
      = (none, (st'.put ("user_sessions:" ++ u) none, w')) := by
    simp only [Auth.LogoutAll, reg_VerifyAccessToken, hVR, hs, hne', hsp, if_false,
      reg_GetUserSessions_set p t e ttl u ds st w' hset, notNilAndNotRedisNil, hlen, hloop,
      reg_DeleteAllSessions]
    simp
  rw [hrun]
  refine ⟨rfl, ?_, ?_⟩
  · simp [registryAuth, NewServer, Storage.onStore, onFst, NewRepositoryRedis,
      repositoryRedis.GetUserSessions, memClient, Store.put]
  · intro d hd
    obtain ⟨hk1, hk2⟩ := hkeys d hd
    have hs1 : (st'.put ("user_sessions:" ++ u) none) ("session:" ++ (u ++ ":" ++ d)) = none := by
      rw [Store.put_other _ _ _ _ (key_session_ne_user_sessions _ _)]
      exact hk1
    have hs2 : (st'.put ("user_sessions:" ++ u) none) ("token_ver:" ++ (u ++ ":" ++ d)) = none := by
      rw [Store.put_other _ _ _ _ (key_token_ver_ne_user_sessions _ _)]
      exact hk2
    refine ⟨?_, hs1, hs2⟩
    rw [reg_Get_absent p t e ttl (u ++ ":" ++ d) _ w' hs1]

/-- The coverage at a concrete run: the user is logged in on two devices and logs out
everywhere with the access token of the first. -/
theorem logoutAll_coverage_witness :
    (fixtureAuth.LogoutAll (accessOf runLogin.1) runLoginSecondDevice.2).1 = none
    ∧ (fixtureAuth.redis.GetUserSessions "user-123"
        (fixtureAuth.LogoutAll (accessOf runLogin.1) runLoginSecondDevice.2).2).1 = ([], none) :=
  ⟨(logoutAll_coverage (fixtureProvider Clock) (fixtureManager.toGenerate fixtureHMAC)
      (fixtureSender Clock) 604800000000000 (accessOf runLogin.1) runLoginSecondDevice.2.1
      runLoginSecondDevice.2.2
      [("iat", .float64 ⟨1700000000, 0⟩), ("ver", .float64 ⟨1, 0⟩),
       ("exp", .float64 ⟨1700000900, 0⟩), ("email", .str "test@gmail.com"),
       ("role", .str "user"), ("session", .str "user-123:device-123")]
      "user-123:device-123" "user-123" "device-123" ["device-123", "device-456"]
      (by decide) (by decide) (by decide) (by decide) (by decide)).1,
   (logoutAll_coverage (fixtureProvider Clock) (fixtureManager.toGenerate fixtureHMAC)
      (fixtureSender Clock) 604800000000000 (accessOf runLogin.1) runLoginSecondDevice.2.1
      runLoginSecondDevice.2.2
      [("iat", .float64 ⟨1700000000, 0⟩), ("ver", .float64 ⟨1, 0⟩),
       ("exp", .float64 ⟨1700000900, 0⟩), ("email", .str "test@gmail.com"),
       ("role", .str "user"), ("session", .str "user-123:device-123")]
      "user-123:device-123" "user-123" "device-123" ["device-123", "device-456"]
      (by decide) (by decide) (by decide) (by decide) (by decide)).2.1⟩

/-! ## Rotation of the refresh token -/

/-- C1 (as stated, refuted). Two runs of the service over the registry.  In the first, a login
and a refresh happen within one second: the refresh token issued by the refresh is the same
text as the one issued by the login, so the next call that presents the token issued by the
login is accepted.  In the second, the refresh (successful also at the transport handler)
happens a second before the token of the login expires: the next call, after the expiry, that
presents the token of the login is refused with `refresh token expired`, not with
`invalid refresh token`. -/
theorem earlier_refresh_token_not_rejected_as_invalid :
    isOk runLogin.1 = true
    ∧ isOk runRefresh.1 = true
    ∧ refreshOf runRefresh.1 = refreshOf runLogin.1
    ∧ isOk (fixtureAuth.GetRefreshToken (refreshOf runLogin.1) runRefresh.2).1 = true
    ∧ isOk agedLogin.1 = true
    ∧ isOk agedRefresh.1 = true
    ∧ (fixtureAuth.GetRefreshToken (refreshOf agedLogin.1) agedRefresh.2).1
        = .error (.new "refresh token expired")
    ∧ (fixtureAuth.GetRefreshToken (refreshOf agedLogin.1) agedRefresh.2).1
        ≠ .error (.new "invalid refresh token") := by
  refine ⟨by decide, by decide, by decide, by decide, by decide, by decide, by decide, by decide⟩

theorem reg_Get_state (sid : String) (st : Store) (w : τ) :
    ((registryAuth p t e ttl).redis.Get sid (st, w)).2 = (st, w) := by
  simp only [registryAuth, NewServer, Storage.onStore, onFst, NewRepositoryRedis,
    repositoryRedis.Get, memClient]
  rcases h : st ("session:" ++ sid) with _ | v
  · simp
  · cases v with
    | set ms => simp
    | str sv => cases hj : jsonUnmarshalString sv <;> simp [hj]

/-- What a successful `IncrementTokenVersion` of the registry leaves, for any lifetime: the
version key is absent or holds the version returned, and no other key has changed. -/
theorem reg_Increment_any (sid : String) (st : Store) (w : τ) (v : Int) (s' : Store × τ)
    (h : (registryAuth p t e ttl).redis.IncrementTokenVersion sid (st, w) = (.ok v, s')) :
    s'.2 = w
    ∧ minInt64 ≤ v ∧ v ≤ maxInt64
    ∧ (s'.1 ("token_ver:" ++ sid) = none
        ∨ s'.1 ("token_ver:" ++ sid) = some (.str (String.mk (intChars v))))
    ∧ ∀ k, k ≠ "token_ver:" ++ sid → s'.1 k = st k := by
  simp only [registryAuth, NewServer, Storage.onStore, onFst, NewRepositoryRedis,
    repositoryRedis.IncrementTokenVersion, memClient] at h
  rcases hk : st ("token_ver:" ++ sid) with _ | val
  · simp only [hk, Store.put_same] at h
    obtain ⟨h1, h2⟩ := Prod.mk.inj h
    cases h1
    subst h2
    refine ⟨rfl, by decide, by decide, ?_, ?_⟩
    · by_cases ht : ttl ≤ 0
      · left; simp [ht, Store.put]
      · right; simp [ht, Store.put, intChars_one]
    · intro k hk'
      by_cases ht : ttl ≤ 0 <;> simp [ht, Store.put, hk']
  · cases val with
    | set ms => simp [hk] at h
    | str sv =>
      rcases hr : redisInt sv with _ | n
      · simp [hk, hr] at h
      · obtain ⟨-, hmin, hmax⟩ := redisInt_canonical hr
        by_cases hn : n = maxInt64
        · simp [hk, hr, hn] at h
        · simp only [hk, hr, hn, if_false, Store.put_same] at h
          obtain ⟨h1, h2⟩ := Prod.mk.inj h
          cases h1
          subst h2
          have hlt : n < maxInt64 := lt_of_le_of_ne hmax hn
          refine ⟨rfl, by omega, by omega, ?_, ?_⟩
          · by_cases ht : ttl ≤ 0
            · left; simp [ht, Store.put]
            · right; simp [ht, Store.put]
          · intro k hk'
            by_cases ht : ttl ≤ 0 <;> simp [ht, Store.put, hk']

/-- What a successful `GetRefreshToken` over the registry leaves: the refresh token returned
is the one stored for the session of the presented token, and the version key of the session
is absent or holds an `int64`. -/
theorem reg_refresh_ok (refreshToken : String) (st : Store) (w : τ) (s' : Store × τ)
    (tok : Token)
    (h : (registryAuth p t e ttl).GetRefreshToken refreshToken (st, w) = (.ok tok, s')) :
    ∃ (claims : MapClaims) (sid u d : String) (v : Int),
      (t.VerifyRefreshToken refreshToken w).1 = .ok claims
      ∧ claims.getString "session" = some sid
      ∧ stringsSplit sid ':' = [u, d]
      ∧ s'.1 ("session:" ++ sid) = some (.str (jsonMarshalString tok.RefreshToken).1)
      ∧ minInt64 ≤ v ∧ v ≤ maxInt64
      ∧ (s'.1 ("token_ver:" ++ sid) = none
          ∨ s'.1 ("token_ver:" ++ sid) = some (.str (String.mk (intChars v)))) := by
  obtain ⟨claims, s1, sid, u, d, s2, user, s3, v, s4, at', s5, rt, s6, -, hV, hs, hG, hsp, hF,
    hI, hGA, hGR, hS, htok⟩ := refresh_ok_inv _ _ _ _ _ h
  rw [reg_VerifyRefreshToken] at hV
  obtain ⟨hV1, hV2⟩ := Prod.mk.inj hV
  subst hV2
  rcases s3 with ⟨st3, w3⟩
  obtain ⟨hw4, hmin, hmax, hkey, hoth⟩ := reg_Increment_any p t e ttl sid st3 w3 v s4 hI
  rcases s4 with ⟨st4, w4⟩
  rw [reg_GenerateAccessToken] at hGA
  obtain ⟨-, hs5⟩ := Prod.mk.inj hGA
  subst hs5
  rw [reg_GenerateRefreshToken] at hGR
  obtain ⟨-, hs6⟩ := Prod.mk.inj hGR
  subst hs6
  rw [reg_Save] at hS
  obtain ⟨-, hs'⟩ := Prod.mk.inj hS
  subst hs' htok
  refine ⟨claims, sid, u, d, v, hV1, hs, hsp, ?_, hmin, hmax, ?_⟩
  · simp [Store.put]
  · simp only [Store.put, (key_session_ne_token_ver sid sid).symm, if_false]
    exact hkey

theorem isOk_iff {α : Type} (r : Except Err α) : isOk r = true ↔ ∃ a, r = .ok a := by
  cases r <;> simp [isOk]

/-- C1 (amended). Single valid refresh token: over the registry on the key-value store, after
a successful `GetRefreshToken` call on a session (the Nth of a sequence; the state before it is
any state), the next call is rejected with `invalid refresh token` when it presents a refresh
token that verifies for that session and differs from the Nth-issued token, and is accepted
when it presents the Nth-issued token (it returns a new token pair when the user directory
finds the user, the token manager issues tokens and the stored version is below the largest
`int64`).  A token that no longer verifies is refused earlier, as expired or invalid, and a
token issued earlier in the same second as the Nth is the Nth-issued token. -/
theorem single_valid_refresh_token (refreshToken : String) (st : Store) (w : τ)
    (s' : Store × τ) (tok : Token) (claims : MapClaims) (sid presented : String)
    (claimsP : MapClaims)
    (hN : (registryAuth p t e ttl).GetRefreshToken refreshToken (st, w) = (.ok tok, s'))
    (hV : (t.VerifyRefreshToken refreshToken w).1 = .ok claims)
    (hsid : claims.getString "session" = some sid)
    (hPne : presented ≠ "")
    (hP : (t.VerifyRefreshToken presented s'.2).1 = .ok claimsP)
    (hPsid : claimsP.getString "session" = some sid) :
    (presented ≠ tok.RefreshToken →
      ((registryAuth p t e ttl).GetRefreshToken presented s').1
        = .error (.new "invalid refresh token"))
    ∧ (presented = tok.RefreshToken →
        storedVersion s'.1 sid < maxInt64 →
        (∀ (id : String) (x : τ), isOk (p.FindOneUsers id x).1 = true) →
        (∀ (u : UserRefresh) (x : τ), isOk (t.GenerateAccessToken u x).1 = true) →
        (∀ (x : τ), isOk (t.GenerateRefreshToken sid x).1 = true) →
        isOk ((registryAuth p t e ttl).GetRefreshToken presented s').1 = true) := by
  obtain ⟨claims0, sid0, u, d, v, hV0, hs0, hsp, hstored, hmin, hmax, hkey⟩ :=
    reg_refresh_ok p t e ttl refreshToken st w s' tok hN
  rw [hV] at hV0
  cases hV0
  rw [hsid] at hs0
  cases hs0
  have hne' := stringsSplit_two_ne_empty hsp
  rcases s' with ⟨st', w'⟩
  rcases hVP : t.VerifyRefreshToken presented w' with ⟨rV, w1⟩
  rw [hVP] at hP
  simp only at hP
  subst hP
  have hget := reg_Get_stored p t e ttl sid tok.RefreshToken st' w1 hstored
  constructor
  · intro hne
    have hne2 : ¬ tok.RefreshToken = presented := fun h => hne h.symm
    simp [Auth.GetRefreshToken, hPne, reg_VerifyRefreshToken, hVP, hPsid, hne', hget, hne2]
  · intro heq hver hF hGA hGR
    subst heq
    obtain ⟨user, hF'⟩ := (isOk_iff _).mp (hF u w1)
    rcases hFu : p.FindOneUsers u w1 with ⟨rF, w2⟩
    rw [hFu] at hF'
    simp only at hF'
    subst hF'
    have hinc : st' ("token_ver:" ++ sid) = none
        ∨ ∃ n, st' ("token_ver:" ++ sid) = some (.str (String.mk (intChars n)))
            ∧ minInt64 ≤ n ∧ n < maxInt64 := by
      rcases hkey with hk | hk
      · exact Or.inl hk
      · refine Or.inr ⟨v, hk, hmin, ?_⟩
        have := storedVersion_of_put sid st' v hmin hmax hk
        simp only at hver
        rw [this] at hver
        exact hver
    obtain ⟨v', s4, hI, hw4, -⟩ := reg_Increment_succeeds p t e ttl sid st' w2 hinc
    rcases s4 with ⟨st4, w4⟩
    simp only at hw4
    subst hw4
    obtain ⟨at', hGA'⟩ := (isOk_iff _).mp (hGA
      { SessionId := sid, UserID := user.UserID, Version := v', Name := user.Name,
        Email := user.Email, Role := user.Role } w4)
    rcases hGAu : t.GenerateAccessToken
      { SessionId := sid, UserID := user.UserID, Version := v', Name := user.Name,
        Email := user.Email, Role := user.Role } w4 with ⟨rGA, w5⟩
    rw [hGAu] at hGA'
    simp only at hGA'
    subst hGA'
    obtain ⟨rt, hGR'⟩ := (isOk_iff _).mp (hGR w5)
    rcases hGRu : t.GenerateRefreshToken sid w5 with ⟨rGR, w6⟩
    rw [hGRu] at hGR'
    simp only at hGR'
    subst hGR'
    simp [Auth.GetRefreshToken, hPne, reg_VerifyRefreshToken, hVP, hPsid, hne', hget, hsp,
      reg_FindOneUsers, hFu, hI, reg_GenerateAccessToken, hGAu, reg_GenerateRefreshToken, hGRu,
      reg_Save, isOk]

/-- The rotation at a concrete run: a login, and a refresh a minute later; the next call is
rejected when it presents the token of the login and accepted when it presents the token of
the refresh. -/
theorem single_valid_refresh_token_witness :
    (fixtureAuth.GetRefreshToken (refreshOf tickLogin.1) tickRefresh.2).1
      = .error (.new "invalid refresh token")
    ∧ isOk (fixtureAuth.GetRefreshToken (refreshOf tickRefresh.1) tickRefresh.2).1 = true :=
  ⟨(single_valid_refresh_token (fixtureProvider Clock) (fixtureManager.toGenerate fixtureHMAC)
      (fixtureSender Clock) 604800000000000 (refreshOf tickLogin.1) tickLogin.2.1 tickLogin.2.2
      tickRefresh.2 (tokenOf tickRefresh.1)
      [("lat", .float64 ⟨1700000000, 0⟩), ("iat", .float64 ⟨1700000000, 0⟩),
       ("exp", .float64 ⟨1700604800, 0⟩), ("session", .str "user-123:device-123")]
      "user-123:device-123" (refreshOf tickLogin.1)
      [("lat", .float64 ⟨1700000000, 0⟩), ("iat", .float64 ⟨1700000000, 0⟩),
       ("exp", .float64 ⟨1700604800, 0⟩), ("session", .str "user-123:device-123")]
      (Prod.ext (by decide) rfl) (by decide) (by decide) (by decide) (by decide)
      (by decide)).1 (by decide),
   (single_valid_refresh_token (fixtureProvider Clock) (fixtureManager.toGenerate fixtureHMAC)
      (fixtureSender Clock) 604800000000000 (refreshOf tickLogin.1) tickLogin.2.1 tickLogin.2.2
      tickRefresh.2 (tokenOf tickRefresh.1)
      [("lat", .float64 ⟨1700000000, 0⟩), ("iat", .float64 ⟨1700000000, 0⟩),
       ("exp", .float64 ⟨1700604800, 0⟩), ("session", .str "user-123:device-123")]
      "user-123:device-123" (refreshOf tickRefresh.1)
      [("lat", .float64 ⟨1700000060, 0⟩), ("iat", .float64 ⟨1700000060, 0⟩),
       ("exp", .float64 ⟨1700604860, 0⟩), ("session", .str "user-123:device-123")]
      (Prod.ext (by decide) rfl) (by decide) (by decide) (by decide) (by decide)
      (by decide)).2 rfl (by decide) (fun _ _ => rfl) (fun _ _ => rfl) (fun _ => rfl)⟩

/-! ## Versions along a sequence of calls -/

theorem record_inv {σ α : Type} (f : σ → α × σ) (ev : α → Call) (s : σ) (log : List Call)
    (r : α) (S' : σ × List Call) (h : record f ev (s, log) = (r, S')) :
    f s = (r, S'.1) ∧ S'.2 = log ++ [ev r] := by
  simp only [record] at h
  obtain ⟨h1, h2⟩ := Prod.mk.inj h
  subst h1 h2
  exact ⟨rfl, rfl⟩

/-- A successful `Login` over recording collaborators: the log grows by the six calls of a
login. -/
theorem login_ok_recorded {σ : Type} (a : Auth σ) (email password deviceID : String) (s0 : σ)
    (log0 : List Call) (tok : Token) (S' : σ × List Call)
    (h : a.recorded.Login email password deviceID (s0, log0) = (.ok tok, S')) :
    ∃ (user : User) (s1 : σ) (addErr : Option Err) (s2 : σ) (version : Int) (s3 : σ) (s4 s5 : σ),
      a.provider.LoginUsers email password s0 = (.ok user, s1)
      ∧ a.redis.AddSession user.UserID deviceID s1 = (addErr, s2)
      ∧ a.redis.IncrementTokenVersion (user.UserID ++ ":" ++ deviceID) s2 = (.ok version, s3)
      ∧ a.token.GenerateAccessToken
          { SessionId := user.UserID ++ ":" ++ deviceID, UserID := user.UserID,
            Version := version, Name := user.Name, Email := user.Email, Role := user.Role } s3
          = (.ok tok.AccessToken, s4)
      ∧ a.token.GenerateRefreshToken (user.UserID ++ ":" ++ deviceID) s4
          = (.ok tok.RefreshToken, s5)
      ∧ a.redis.Save (user.UserID ++ ":" ++ deviceID) tok.RefreshToken s5 = (none, S'.1)
      ∧ S'.2 = log0 ++
          [ Call.LoginUsers email password (.ok user),
            Call.AddSession user.UserID deviceID addErr,
            Call.IncrementTokenVersion (user.UserID ++ ":" ++ deviceID) (.ok version),
            Call.GenerateAccessToken
              { SessionId := user.UserID ++ ":" ++ deviceID, UserID := user.UserID,
                Version := version, Name := user.Name, Email := user.Email, Role := user.Role }
              (.ok tok.AccessToken),
            Call.GenerateRefreshToken (user.UserID ++ ":" ++ deviceID) (.ok tok.RefreshToken),
            Call.Save (user.UserID ++ ":" ++ deviceID) tok.RefreshToken none ] := by
  obtain ⟨user, S1, addErr, S2, version, S3, at', S4, rt, S5, hL, hA, hI, hGA, hGR, hS, htok⟩ :=
    login_ok_inv _ _ _ _ _ _ _ h
  subst htok
  rcases S1 with ⟨s1, l1⟩
  rcases S2 with ⟨s2, l2⟩
  rcases S3 with ⟨s3, l3⟩
  rcases S4 with ⟨s4, l4⟩
  rcases S5 with ⟨s5, l5⟩
  obtain ⟨hL1, hL2⟩ := record_inv _ _ _ _ _ _ hL
  obtain ⟨hA1, hA2⟩ := record_inv _ _ _ _ _ _ hA
  obtain ⟨hI1, hI2⟩ := record_inv _ _ _ _ _ _ hI
  obtain ⟨hGA1, hGA2⟩ := record_inv _ _ _ _ _ _ hGA
  obtain ⟨hGR1, hGR2⟩ := record_inv _ _ _ _ _ _ hGR
  obtain ⟨hS1, hS2⟩ := record_inv _ _ _ _ _ _ hS
  simp only at hL1 hL2 hA1 hA2 hI1 hI2 hGA1 hGA2 hGR1 hGR2 hS1 hS2
  refine ⟨user, s1, addErr, s2, version, s3, s4, s5, hL1, hA1, hI1, hGA1, hGR1, hS1, ?_⟩
  rw [hS2, hGR2, hGA2, hI2, hA2, hL2]
  simp

/-- A successful `GetRefreshToken` over recording collaborators: the log grows by the seven
calls of a refresh. -/
theorem refresh_ok_recorded {σ : Type} (a : Auth σ) (refreshToken : String) (s0 : σ)
    (log0 : List Call) (tok : Token) (S' : σ × List Call)
    (h : a.recorded.GetRefreshToken refreshToken (s0, log0) = (.ok tok, S')) :
    ∃ (claims : MapClaims) (s1 : σ) (sessionID userID deviceID : String) (s2 : σ)
      (user : UserRefresh) (s3 : σ) (version : Int) (s4 s5 s6 : σ),
      a.token.VerifyRefreshToken refreshToken s0 = (.ok claims, s1)
      ∧ claims.getString "session" = some sessionID
      ∧ a.redis.Get sessionID s1 = (.ok refreshToken, s2)
      ∧ stringsSplit sessionID ':' = [userID, deviceID]
      ∧ a.provider.FindOneUsers userID s2 = (.ok user, s3)
      ∧ a.redis.IncrementTokenVersion sessionID s3 = (.ok version, s4)
      ∧ a.token.GenerateAccessToken
          { SessionId := sessionID, UserID := user.UserID, Version := version,
            Name := user.Name, Email := user.Email, Role := user.Role } s4
          = (.ok tok.AccessToken, s5)
      ∧ a.token.GenerateRefreshToken sessionID s5 = (.ok tok.RefreshToken, s6)
      ∧ a.redis.Save sessionID tok.RefreshToken s6 = (none, S'.1)
      ∧ S'.2 = log0 ++
          [ Call.VerifyRefreshToken refreshToken (.ok claims),
            Call.Get sessionID (.ok refreshToken),
            Call.FindOneUsers userID (.ok user),
            Call.IncrementTokenVersion sessionID (.ok version),
            Call.GenerateAccessToken
              { SessionId := sessionID, UserID := user.UserID, Version := version,
                Name := user.Name, Email := user.Email, Role := user.Role }
              (.ok tok.AccessToken),
            Call.GenerateRefreshToken sessionID (.ok tok.RefreshToken),
            Call.Save sessionID tok.RefreshToken none ] := by
  obtain ⟨claims, S1, sid, u, d, S2, user, S3, version, S4, at', S5, rt, S6, -, hV, hs, hG, hsp,
    hF, hI, hGA, hGR, hS, htok⟩ := refresh_ok_inv _ _ _ _ _ h
  subst htok
  rcases S1 with ⟨s1, l1⟩
  rcases S2 with ⟨s2, l2⟩
  rcases S3 with ⟨s3, l3⟩
  rcases S4 with ⟨s4, l4⟩
  rcases S5 with ⟨s5, l5⟩
  rcases S6 with ⟨s6, l6⟩
  obtain ⟨hV1, hV2⟩ := record_inv _ _ _ _ _ _ hV
  obtain ⟨hG1, hG2⟩ := record_inv _ _ _ _ _ _ hG
  obtain ⟨hF1, hF2⟩ := record_inv _ _ _ _ _ _ hF
  obtain ⟨hI1, hI2⟩ := record_inv _ _ _ _ _ _ hI
  obtain ⟨hGA1, hGA2⟩ := record_inv _ _ _ _ _ _ hGA
  obtain ⟨hGR1, hGR2⟩ := record_inv _ _ _ _ _ _ hGR
  obtain ⟨hS1, hS2⟩ := record_inv _ _ _ _ _ _ hS
  simp only at hV1 hV2 hG1 hG2 hF1 hF2 hI1 hI2 hGA1 hGA2 hGR1 hGR2 hS1 hS2
  refine ⟨claims, s1, sid, u, d, s2, user, s3, version, s4, s5, s6, hV1, hs, hG1, hsp, hF1, hI1,
    hGA1, hGR1, hS1, ?_⟩
  rw [hS2, hGR2, hGA2, hI2, hF2, hG2, hV2]
  simp

theorem storedVersion_congr (st1 st2 : Store) (sid : String)
    (h : st1 ("token_ver:" ++ sid) = st2 ("token_ver:" ++ sid)) :
    storedVersion st1 sid = storedVersion st2 sid := by
  simp only [storedVersion, h]

theorem key_token_ver_ne (s sid : String) (h : s ≠ sid) :
    "token_ver:" ++ s ≠ "token_ver:" ++ sid :=
  fun hk => h ((string_append_left_cancel _ _ _).mp hk)

/-- The tail of a call that issues tokens, over the registry: from the version bump to the
storing of the refresh token. -/
theorem reg_bump_to_save (httl : 0 < ttl) (sid : String) (st0 st : Store) (w : τ)
    (hsame : st ("token_ver:" ++ sid) = st0 ("token_ver:" ++ sid))
    (hoth : ∀ s, s ≠ sid → st ("token_ver:" ++ s) = st0 ("token_ver:" ++ s))
    (v : Int) (s3 s4 s5 S' : Store × τ) (u : UserRefresh) (at' rt : String)
    (hI : (registryAuth p t e ttl).redis.IncrementTokenVersion sid (st, w) = (.ok v, s3))
    (hGA : (registryAuth p t e ttl).token.GenerateAccessToken u s3 = (.ok at', s4))
    (hGR : (registryAuth p t e ttl).token.GenerateRefreshToken sid s4 = (.ok rt, s5))
    (hS : (registryAuth p t e ttl).redis.Save sid rt s5 = (none, S')) :
    v = storedVersion st0 sid + 1
    ∧ minInt64 ≤ v ∧ v ≤ maxInt64
    ∧ S'.1 ("token_ver:" ++ sid) = some (.str (String.mk (intChars v)))
    ∧ (∀ s, s ≠ sid → S'.1 ("token_ver:" ++ s) = st0 ("token_ver:" ++ s))
    ∧ (st0 ("token_ver:" ++ sid) = none
        ∨ ∃ n, st0 ("token_ver:" ++ sid) = some (.str (String.mk (intChars n)))
            ∧ minInt64 ≤ n ∧ n < maxInt64) := by
  obtain ⟨hs3, hv, hmin, hmax, hinit⟩ := reg_Increment_ok p t e ttl httl sid st w v s3 hI
  rw [hsame] at hinit
  subst hs3
  rw [reg_GenerateAccessToken] at hGA
  obtain ⟨-, hs4⟩ := Prod.mk.inj hGA
  subst hs4
  rw [reg_GenerateRefreshToken] at hGR
  obtain ⟨-, hs5⟩ := Prod.mk.inj hGR
  subst hs5
  rw [reg_Save] at hS
  obtain ⟨-, hS'⟩ := Prod.mk.inj hS
  subst hS'
  refine ⟨?_, hmin, hmax, ?_, ?_, hinit⟩
  · rw [hv, storedVersion_congr st st0 sid hsame]
  · simp [Store.put, (key_session_ne_token_ver sid sid).symm]
  · intro s hs
    simp only [Store.put, (key_session_ne_token_ver sid s).symm, if_false,
      key_token_ver_ne s sid hs]
    exact hoth s hs

/-- One successful call that issues tokens, over the registry with its calls recorded: it
makes one `IncrementTokenVersion` call, for one session; the version returned is the stored
counter of that session plus one, it is the version the access token is generated from and the
counter stored afterwards; the counters of the other sessions are unchanged. -/
theorem reg_runOp_step (httl : 0 < ttl) (op : SessionOp) (st : Store) (w : τ)
    (log : List Call) (tok : Token) (S' : (Store × τ) × List Call)
    (h : (registryAuth p t e ttl).recorded.runOp op ((st, w), log) = (.ok tok, S')) :
    ∃ (sid : String) (v : Int) (calls : List Call),
      S'.2 = log ++ calls
      ∧ calls.filterMap Call.increment = [sid]
      ∧ calls.filterMap Call.bump = [v]
      ∧ calls.filterMap Call.issuedVersion = [v]
      ∧ v = storedVersion st sid + 1
      ∧ minInt64 ≤ v ∧ v ≤ maxInt64
      ∧ S'.1.1 ("token_ver:" ++ sid) = some (.str (String.mk (intChars v)))
      ∧ (∀ s, s ≠ sid → S'.1.1 ("token_ver:" ++ s) = st ("token_ver:" ++ s))
      ∧ (st ("token_ver:" ++ sid) = none
          ∨ ∃ n, st ("token_ver:" ++ sid) = some (.str (String.mk (intChars n)))
              ∧ minInt64 ≤ n ∧ n < maxInt64) := by
  cases op with
  | login email password deviceID =>
    obtain ⟨user, s1, addErr, s2, v, s3, s4, s5, hL, hA, hI, hGA, hGR, hS, hlog⟩ :=
      login_ok_recorded _ _ _ _ _ _ _ _ h
    rw [reg_LoginUsers] at hL
    obtain ⟨-, hs1⟩ := Prod.mk.inj hL
    subst hs1
    obtain ⟨r, st2, hA', hst2⟩ := reg_AddSession p t e ttl user.UserID deviceID st
      (p.LoginUsers email password w).2
    rw [hA] at hA'
    obtain ⟨-, hs2⟩ := Prod.mk.inj hA'
    subst hs2
    obtain ⟨hv, hmin, hmax, hkey, hoth, hinit⟩ := reg_bump_to_save p t e ttl httl
      (user.UserID ++ ":" ++ deviceID) st st2 _
      (hst2 _ (key_token_ver_ne_user_sessions _ _))
      (fun s _ => hst2 _ (key_token_ver_ne_user_sessions _ _)) v s3 s4 s5 S'.1 _ _ _
      hI hGA hGR hS
    exact ⟨user.UserID ++ ":" ++ deviceID, v, _, hlog, by simp [Call.increment],
      by simp [Call.bump], by simp [Call.issuedVersion], hv, hmin, hmax, hkey, hoth, hinit⟩
  | refresh refreshToken =>
    obtain ⟨claims, s1, sid, u, d, s2, user, s3, v, s4, s5, s6, hV, hs, hG, hsp, hF, hI, hGA,
      hGR, hS, hlog⟩ := refresh_ok_recorded _ _ _ _ _ _ h
    rw [reg_VerifyRefreshToken] at hV
    obtain ⟨-, hs1⟩ := Prod.mk.inj hV
    subst hs1
    have hG2 := reg_Get_state p t e ttl sid st (t.VerifyRefreshToken refreshToken w).2
    rw [hG] at hG2
    simp only at hG2
    subst hG2
    rw [reg_FindOneUsers] at hF
    obtain ⟨-, hs3⟩ := Prod.mk.inj hF
    subst hs3
    obtain ⟨hv, hmin, hmax, hkey, hoth, hinit⟩ := reg_bump_to_save p t e ttl httl
      sid st st _ rfl (fun s _ => rfl) v s4 s5 s6 S'.1 _ _ _
      hI hGA hGR hS
    exact ⟨sid, v, _, hlog, by simp [Call.increment],
      by simp [Call.bump], by simp [Call.issuedVersion], hv, hmin, hmax, hkey, hoth, hinit⟩

theorem versionsFrom_mem (a : Int) (n : Nat) (v : Int) (h : v ∈ versionsFrom a n) :
    a ≤ v ∧ v < a + n := by
  induction n generalizing a with
  | zero => simp [versionsFrom] at h
  | succ n ih =>
    simp only [versionsFrom, List.mem_cons] at h
    rcases h with rfl | h
    · constructor <;> push_cast <;> omega
    · have := ih (a + 1) h
      constructor <;> push_cast <;> omega

theorem versionsFrom_dropLast (a : Int) (n : Nat) :
    (versionsFrom a (n + 1)).dropLast = versionsFrom a n := by
  induction n generalizing a with
  | zero => rfl
  | succ n ih =>
    have := ih (a + 1)
    simp only [versionsFrom] at this ⊢
    rw [List.dropLast_cons₂, this]

/-- A successful sequence of calls that issue tokens, all on the session `sid`, over the
registry with its calls recorded. -/
theorem reg_runOps (httl : 0 < ttl) (sid : String) :
    ∀ (ops : List SessionOp) (st : Store) (w : τ) (log : List Call)
      (S' : (Store × τ) × List Call),
      (registryAuth p t e ttl).recorded.runOps ops ((st, w), log) = some S' →
      ∃ calls : List Call,
        S'.2 = log ++ calls
        ∧ ((∀ s ∈ calls.filterMap Call.increment, s = sid) →
            calls.filterMap Call.bump = versionsFrom (storedVersion st sid + 1) ops.length
            ∧ calls.filterMap Call.issuedVersion
                = versionsFrom (storedVersion st sid + 1) ops.length
            ∧ (calls.filterMap Call.increment).length = ops.length
            ∧ (ops = [] → S'.1.1 = st)
            ∧ (ops ≠ [] →
                S'.1.1 ("token_ver:" ++ sid)
                    = some (.str (String.mk (intChars (storedVersion st sid + ops.length))))
                ∧ minInt64 ≤ storedVersion st sid + ops.length
                ∧ storedVersion st sid + ops.length ≤ maxInt64
                ∧ (st ("token_ver:" ++ sid) = none
                    ∨ ∃ n, st ("token_ver:" ++ sid) = some (.str (String.mk (intChars n)))
                        ∧ minInt64 ≤ n ∧ n < maxInt64))) := by
  intro ops
  induction ops with
  | nil =>
    intro st w log S' h
    simp only [Auth.runOps, Option.some.injEq] at h
    subst h
    exact ⟨[], by simp, fun _ => by simp [versionsFrom]⟩
  | cons op ops ih =>
    intro st w log S' h
    rcases hop : (registryAuth p t e ttl).recorded.runOp op ((st, w), log) with ⟨r, S1⟩
    rcases r with err | tok
    · simp [Auth.runOps, hop] at h
    simp only [Auth.runOps, hop] at h
    obtain ⟨sid1, v1, calls1, hlog1, hinc1, hbump1, hiss1, hv1, hmin1, hmax1, hkey1, -, hinit1⟩ :=
      reg_runOp_step p t e ttl httl op st w log tok S1 hop
    rcases S1 with ⟨⟨st1, w1⟩, log1⟩
    simp only at hlog1 hkey1
    subst hlog1
    obtain ⟨calls2, hlog2, hrest⟩ := ih st1 w1 (log ++ calls1) S' h
    refine ⟨calls1 ++ calls2, by rw [hlog2, List.append_assoc], ?_⟩
    intro hon
    have hsid1 : sid1 = sid := by
      apply hon
      simp [List.filterMap_append, hinc1]
    subst hsid1
    have hon2 : ∀ s ∈ calls2.filterMap Call.increment, s = sid1 := by
      intro s hs
      apply hon
      simp only [List.filterMap_append, List.mem_append]
      exact Or.inr hs
    obtain ⟨hb2, hi2, hn2, hnil2, hcons2⟩ := hrest hon2
    have hsv1 : storedVersion st1 sid1 = v1 := storedVersion_of_put sid1 st1 v1 hmin1 hmax1 hkey1
    rw [hsv1] at hb2 hi2 hcons2
    refine ⟨?_, ?_, ?_, ?_, ?_⟩
    · simp only [List.filterMap_append, hbump1, hb2, List.length_cons, versionsFrom,
        List.singleton_append, hv1]
    · simp only [List.filterMap_append, hiss1, hi2, List.length_cons, versionsFrom,
        List.singleton_append, hv1]
    · simp [List.filterMap_append, hinc1, hn2]
    · intro hnil
      simp at hnil
    · intro _
      by_cases hops : ops = []
      · subst hops
        have hst' := hnil2 rfl
        simp only [List.length_singleton, Nat.cast_one]
        rw [hst', ← hv1]
        exact ⟨hkey1, hmin1, hmax1, hinit1⟩
      · obtain ⟨hk, hmn, hmx, -⟩ := hcons2 hops
        have heq : storedVersion st sid1 + ((op :: ops).length : Nat)
            = v1 + (ops.length : Nat) := by
          rw [hv1]
          simp only [List.length_cons]
          push_cast
          omega
        rw [heq]
        exact ⟨hk, hmn, hmx, hinit1⟩

theorem some_getD_of_isSome {α : Type} (o : Option α) (d : α) (h : o.isSome = true) :
    o = some (o.getD d) := by
  cases o with
  | none => simp at h
  | some a => rfl

theorem reg_GetTokenVersion_fst (sid : String) (st : Store) (w w' : τ) :
    ((registryAuth p t e ttl).redis.GetTokenVersion sid (st, w)).1
      = ((registryAuth p t e ttl).redis.GetTokenVersion sid (st, w')).1 := by
  simp only [registryAuth, NewServer, Storage.onStore, onFst]

/-- C3 (amended). Version monotonicity: over the registry on the key-value store, with a
positive lifetime `RefreshTTL`, for every session `sid` and every sequence of successful
`Login` / `GetRefreshToken` calls on that session, from any state: the calls make one
`IncrementTokenVersion` call each, the versions returned are the stored counter (0 for an
absent key) plus 1, 2, 3, ..., and they are the versions the access tokens are generated from;
`GetTokenVersion` after the sequence is not below `GetTokenVersion` before it; after a
non-empty sequence it is the stored counter plus the number of calls; and it differs from the
version of every access token issued by a call other than the last. -/
theorem version_monotonicity (httl : 0 < ttl) (sid : String) (ops : List SessionOp)
    (st : Store) (w : τ) (S' : (Store × τ) × List Call)
    (hrun : (registryAuth p t e ttl).recorded.runOps ops ((st, w), []) = some S')
    (hon : ∀ s ∈ S'.2.filterMap Call.increment, s = sid) :
    S'.2.filterMap Call.bump = versionsFrom (storedVersion st sid + 1) ops.length
    ∧ S'.2.filterMap Call.issuedVersion = S'.2.filterMap Call.bump
    ∧ (S'.2.filterMap Call.increment).length = ops.length
    ∧ (∀ g0, ((registryAuth p t e ttl).redis.GetTokenVersion sid (st, w)).1 = .ok g0 →
        ∃ g1, ((registryAuth p t e ttl).redis.GetTokenVersion sid S'.1).1 = .ok g1 ∧ g0 ≤ g1)
    ∧ (ops ≠ [] →
        ((registryAuth p t e ttl).redis.GetTokenVersion sid S'.1).1
          = .ok (storedVersion st sid + ops.length))
    ∧ (∀ v ∈ (S'.2.filterMap Call.issuedVersion).dropLast,
        ((registryAuth p t e ttl).redis.GetTokenVersion sid S'.1).1 ≠ .ok v) := by
  obtain ⟨calls, hlog, hrest⟩ := reg_runOps p t e ttl httl sid ops st w [] S' hrun
  simp only [List.nil_append] at hlog
  rw [hlog] at hon ⊢
  obtain ⟨hb, hi, hn, hnil, hcons⟩ := hrest hon
  rcases S' with ⟨⟨st', w'⟩, log'⟩
  simp only at hnil hcons hlog
  have hfinal : ops ≠ [] →
      (registryAuth p t e ttl).redis.GetTokenVersion sid (st', w')
        = (.ok (storedVersion st sid + ops.length), (st', w')) := by
    intro hops
    obtain ⟨hk, hmn, hmx, -⟩ := hcons hops
    exact reg_GetTokenVersion_after_put p t e ttl sid st' w' _ hmn hmx hk
  refine ⟨hb, by rw [hi, hb], hn, ?_, ?_, ?_⟩
  · intro g0 hg0
    by_cases hops : ops = []
    · have := hnil hops
      subst this
      exact ⟨g0, by rw [reg_GetTokenVersion_fst p t e ttl sid st' w' w]; exact hg0, le_refl _⟩
    · refine ⟨_, by rw [hfinal hops], ?_⟩
      obtain ⟨-, -, -, hinit⟩ := hcons hops
      have hlen : 1 ≤ ops.length := by
        cases ops with
        | nil => exact absurd rfl hops
        | cons _ _ => simp
      rcases hinit with hnone | ⟨n, hn', hmin, hlt⟩
      · rw [reg_GetTokenVersion_absent p t e ttl sid st w hnone] at hg0
        cases hg0
        have : storedVersion st sid = 0 := by simp [storedVersion, hnone]
        rw [this]
        omega
      · rw [reg_GetTokenVersion_after_put p t e ttl sid st w n hmin (le_of_lt hlt) hn'] at hg0
        cases hg0
        rw [storedVersion_of_put sid st g0 hmin (le_of_lt hlt) hn']
        omega
  · intro hops
    rw [hfinal hops]
  · intro v hv
    cases ops with
    | nil =>
      rw [hi] at hv
      simp [versionsFrom] at hv
    | cons op ops' =>
      rw [hfinal (by simp)]
      rw [hi] at hv
      simp only [List.length_cons] at hv ⊢
      rw [versionsFrom_dropLast] at hv
      have := versionsFrom_mem _ _ _ hv
      intro heq
      cases heq
      push_cast at this
      omega

/-- The versions of a concrete run, a login followed by a refresh: 1 and 2, and the registry
reads 2 afterwards. -/
theorem version_monotonicity_witness :
    (runLoginThenRefresh.getD ((Store.empty, fixtureClock), [])).2.filterMap Call.bump = [1, 2]
    ∧ (fixtureAuth.redis.GetTokenVersion "user-123:device-123"
        (runLoginThenRefresh.getD ((Store.empty, fixtureClock), [])).1).1 = .ok 2 :=
  ⟨(version_monotonicity (fixtureProvider Clock) (fixtureManager.toGenerate fixtureHMAC)
      (fixtureSender Clock) 604800000000000 (by decide) "user-123:device-123"
      [.login "test@gmail.com" "Password123" "device-123", .refresh (refreshOf runLogin.1)]
      Store.empty fixtureClock (runLoginThenRefresh.getD ((Store.empty, fixtureClock), []))
      (some_getD_of_isSome _ _ (by decide)) (by decide)).1,
   (version_monotonicity (fixtureProvider Clock) (fixtureManager.toGenerate fixtureHMAC)
      (fixtureSender Clock) 604800000000000 (by decide) "user-123:device-123"
      [.login "test@gmail.com" "Password123" "device-123", .refresh (refreshOf runLogin.1)]
      Store.empty fixtureClock (runLoginThenRefresh.getD ((Store.empty, fixtureClock), []))
      (some_getD_of_isSome _ _ (by decide)) (by decide)).2.2.2.2.1 (by decide)⟩

/-! ## Failures of Login and of the refresh-token verification -/

/-- C11. Login authentication failure: when `LoginUsers` returns an error `err`, `Login`
returns exactly `err`, not wrapped, and no token; the only call it has made is `LoginUsers`:
none of `AddSession`, `IncrementTokenVersion`, `GenerateAccessToken`, `GenerateRefreshToken`
and `Save`. -/
theorem login_authentication_failure {σ : Type} (a : Auth σ) (email password deviceID : String)
    (s0 s1 : σ) (err : Err)
    (hL : a.provider.LoginUsers email password s0 = (.error err, s1)) :
    a.Login email password deviceID s0 = (.error err, s1)
    ∧ a.recorded.Login email password deviceID (s0, [])
        = (.error err, (s1, [Call.LoginUsers email password (.error err)])) := by
  constructor
  · simp [Auth.Login, hL]
  · simp [Auth.Login, Auth.recorded, Provider.recorded, record, hL]

/-- The failed login on the test doubles of `TestLogin_UserNotFound`. -/
theorem login_authentication_failure_witness :
    (mockAuth { loginUsers := .error (.new "user not found") }).Login
        "ghostuser@notfound.com" "SomePassword123" "device-123" ()
      = (.error (.new "user not found"), ()) :=
  (login_authentication_failure (mockAuth { loginUsers := .error (.new "user not found") })
    "ghostuser@notfound.com" "SomePassword123" "device-123" () () (.new "user not found")
    (by decide)).1

/-- The errors `jwt.Parse` can return, in the model. -/
theorem jwtParse_error_cases (hmac : HMAC) (tok key : String) (c : Clock) (pe : Err)
    (h : (jwtParse hmac tok (keyFuncFor key) c).1 = .error pe) :
    pe ∈ [ Err.new "token is malformed: token contains an invalid number of segments",
           Err.new "token is malformed: could not decode header",
           Err.new "token is malformed: could not decode claim",
           Err.new "token is unverifiable: signing method (alg) is unspecified",
           Err.new "token is unverifiable: signing method (alg) is unavailable",
           Err.new "token is malformed: could not decode signature",
           Err.new "token signature is invalid: signature is invalid",
           Err.new "token has invalid claims: token is expired",
           Err.new "token has invalid claims: token is not valid yet",
           Err.new "token has invalid claims: invalid type for claim: nbf is invalid",
           Err.new "token has invalid claims: invalid type for claim: exp is invalid" ]
    ∨ ∃ alg ∈ ["RS256", "RS384", "RS512", "ES256", "ES384", "ES512", "PS256", "PS384",
        "PS512", "EdDSA", "none"],
        pe = .wrap "token is unverifiable: error while executing keyfunc"
          (.new ("unexpected signing method: " ++ alg)) := by
  unfold jwtParse at h
  split at h
  · split at h
    · simp at h; simp [← h]
    · split at h
      · simp at h; simp [← h]
      · split at h
        · simp at h; simp [← h]
        · split at h
          · simp at h; simp [← h]
          · rename_i method hm
            split at h
            · rename_i err hk
              simp at h
              subst h
              right
              cases method with
              | HMAC a => simp [keyFuncFor] at hk
              | other a =>
                simp only [keyFuncFor, Except.error.injEq] at hk
                subst hk
                refine ⟨_, ?_, rfl⟩
                unfold GetSigningMethod at hm
                split at hm
                · simp at hm
                · split at hm
                  · assumption
                  · simp at hm
            · split at h
              · simp at h; simp [← h]
              · split at h
                · simp at h; simp [← h]
                · split at h
                  rename_i now c1 _
                  split at h
                  · rename_i err hv
                    simp at h
                    subst h
                    left
                    unfold validateClaims at hv
                    repeat' split at hv
                    all_goals simp at hv
                    all_goals simp [← hv]
                  · simp at h
  · simp at h; simp [← h]


/-- For the token manager of the service, the text of a verification error holds `expired`
exactly when `jwt.Parse` failed with the expiry error. -/
theorem verifyRefresh_error_expired (m : JWTManager) (hmac : HMAC) (tok : String) (c : Clock)
    (err : Err) (hne : tok ≠ "")
    (h : (m.VerifyRefreshToken hmac tok c).1 = .error err) :
    stringsContains err.Error "expired" = true
      ↔ (jwtParse hmac tok (keyFuncFor m.refreshSecret) c).1
          = .error (.new "token has invalid claims: token is expired") := by
  simp only [JWTManager.VerifyRefreshToken, hne, if_false] at h
  rcases hp : jwtParse hmac tok (keyFuncFor m.refreshSecret) c with ⟨r, c1⟩
  rw [hp] at h
  rcases r with pe | claims
  swap
  · simp at h
  simp only [Except.error.injEq] at h
  subst h
  have hcases := jwtParse_error_cases hmac tok m.refreshSecret c pe (by rw [hp])
  simp only [Except.error.injEq]
  rcases hcases with hmem | ⟨alg, halg, rfl⟩
  · simp only [List.mem_cons, List.mem_singleton, List.not_mem_nil, or_false] at hmem
    rcases hmem with rfl | rfl | rfl | rfl | rfl | rfl | rfl | rfl | rfl | rfl | rfl <;> decide
  · simp only [List.mem_cons, List.mem_singleton, List.not_mem_nil, or_false] at halg
    rcases halg with rfl | rfl | rfl | rfl | rfl | rfl | rfl | rfl | rfl | rfl | rfl <;> decide

/-- C12. Expired versus invalid refresh token: for a refresh token that is not empty and for
which `VerifyRefreshToken` fails with an error `err`, `GetRefreshToken` returns the error
`refresh token expired` when the text of `err` holds `expired` and the error
`invalid refresh token: ...` otherwise, and the only call it has made is `VerifyRefreshToken`:
none of `Get`, `FindOneUsers`, `IncrementTokenVersion`, `GenerateAccessToken`,
`GenerateRefreshToken` and `Save`.  For the token manager of the service the text holds
`expired` exactly when the verification failed because the token is expired. -/
theorem refresh_expired_versus_invalid {σ : Type} (a : Auth σ) (refreshToken : String)
    (s0 s1 : σ) (err : Err)
    (hne : refreshToken ≠ "")
    (hV : a.token.VerifyRefreshToken refreshToken s0 = (.error err, s1)) :
    a.recorded.GetRefreshToken refreshToken (s0, [])
      = ((if stringsContains err.Error "expired" then .error (.new "refresh token expired")
          else .error (.wrap "invalid refresh token" err)),
         (s1, [Call.VerifyRefreshToken refreshToken (.error err)]))
    ∧ (a.GetRefreshToken refreshToken s0).1
        = (if stringsContains err.Error "expired" then .error (.new "refresh token expired")
           else .error (.wrap "invalid refresh token" err))
    ∧ ∀ (m : JWTManager) (hmac : HMAC) (c : Clock) (e' : Err),
        (m.VerifyRefreshToken hmac refreshToken c).1 = .error e' →
        (stringsContains e'.Error "expired" = true
          ↔ (jwtParse hmac refreshToken (keyFuncFor m.refreshSecret) c).1
              = .error (.new "token has invalid claims: token is expired")) := by
  refine ⟨?_, ?_, ?_⟩
  · by_cases hx : stringsContains err.Error "expired" = true <;>
      simp [Auth.GetRefreshToken, Auth.recorded, Generate.recorded, record, hne, hV, hx]
  · by_cases hx : stringsContains err.Error "expired" = true <;>
      simp [Auth.GetRefreshToken, hne, hV, hx]
  · intro m hmac c e' h
    exact verifyRefresh_error_expired m hmac refreshToken c e' hne h

/-- The expired refresh token on the test doubles of `TestGetRefreshToken_ExpiredToken`, and on
the service itself a week after the login. -/
theorem refresh_expired_versus_invalid_witness :
    ((mockAuth { verifyRefreshToken := .error (.new "token expired") }).GetRefreshToken
        "expired_refresh_token" ()).1 = .error (.new "refresh token expired")
    ∧ (fixtureAuth.GetRefreshToken (refreshOf agedLogin.1) agedRefresh.2).1
        = .error (.new "refresh token expired") :=
  ⟨(refresh_expired_versus_invalid
      (mockAuth { verifyRefreshToken := .error (.new "token expired") })
      "expired_refresh_token" () () (.new "token expired") (by decide) (by decide)).2.1,
   (refresh_expired_versus_invalid fixtureAuth (refreshOf agedLogin.1) agedRefresh.2
      (fixtureAuth.token.VerifyRefreshToken (refreshOf agedLogin.1) agedRefresh.2).2
      (.wrap "token validation failed" (.new "token has invalid claims: token is expired"))
      (by decide) (Prod.ext (by decide) rfl)).2.1⟩

/-! ## Registration: the verification code -/

theorem digitsRev_length_le : ∀ (k fuel n : Nat), n < 10 ^ (k + 1) →
    (digitsRev fuel n).length ≤ k + 1 := by
  intro k
  induction k with
  | zero =>
    intro fuel n h
    cases fuel with
    | zero => simp [digitsRev]
    | succ f =>
      have h10 : n < 10 := by simpa using h
      simp [digitsRev, h10]
  | succ k ih =>
    intro fuel n h
    cases fuel with
    | zero => simp [digitsRev]
    | succ f =>
      by_cases h10 : n < 10
      · simp [digitsRev, h10]
      · have hd : n / 10 < 10 ^ (k + 1) := by
          rw [Nat.div_lt_iff_lt_mul (by decide)]
          rw [pow_succ] at h
          exact h
        have := ih f (n / 10) hd
        simp [digitsRev, h10]
        omega

theorem natChars_length_le (k n : Nat) (h : n < 10 ^ (k + 1)) : (natChars n).length ≤ k + 1 := by
  simp only [natChars, List.length_reverse, List.length_map]
  exact digitsRev_length_le k (n + 1) n h

theorem natChars_digits (n : Nat) : ∀ c ∈ natChars n, 48 ≤ c.toNat ∧ c.toNat ≤ 57 := by
  intro c hc
  simp only [natChars, List.mem_reverse, List.mem_map] at hc
  obtain ⟨d, hd, rfl⟩ := hc
  have hlt := digitsRev_lt_ten (n + 1) n d hd
  have : d = 0 ∨ d = 1 ∨ d = 2 ∨ d = 3 ∨ d = 4 ∨ d = 5 ∨ d = 6 ∨ d = 7 ∨ d = 8 ∨ d = 9 := by
    omega
  rcases this with h | h | h | h | h | h | h | h | h | h <;> subst h <;> decide

theorem charsDigits_zeros : ∀ (k : Nat) (cs : List Char),
    charsDigits (List.replicate k '0' ++ cs)
      = (charsDigits cs).map (fun ds => List.replicate k 0 ++ ds) := by
  intro k
  induction k with
  | zero => intro cs; simp
  | succ k ih =>
    intro cs
    have h0 : charDigit '0' = some 0 := by decide
    have ih1 := ih cs
    simp only [List.replicate_succ, List.cons_append, charsDigits, h0]
    rw [show (List.replicate k '0').append cs = List.replicate k '0' ++ cs from rfl, ih1]
    cases charsDigits cs <;> simp

theorem ofDigitsRev_append_zeros : ∀ (ds : List Nat) (k : Nat),
    ofDigitsRev (ds ++ List.replicate k 0) = ofDigitsRev ds := by
  intro ds
  induction ds with
  | nil =>
    intro k
    induction k with
    | zero => simp [ofDigitsRev]
    | succ k ih => simpa [List.replicate_succ, ofDigitsRev] using ih
  | cons d ds ih => intro k; simp [ofDigitsRev, ih]

theorem parseNat_zeros_natChars (k n : Nat) :
    parseNat (List.replicate k '0' ++ natChars n) = some n := by
  have hp := parseNat_natChars n
  have hne := natChars_ne_nil n
  cases hcs : natChars n with
  | nil => exact absurd hcs hne
  | cons c cs =>
    rw [hcs] at hp
    have hne2 : List.replicate k '0' ++ c :: cs ≠ [] := by simp
    cases hz : List.replicate k '0' ++ c :: cs with
    | nil => exact absurd hz hne2
    | cons z zs =>
      simp only [parseNat] at hp ⊢
      rw [← hz, charsDigits_zeros]
      cases hd : charsDigits (c :: cs) with
      | none => rw [hd] at hp; simp at hp
      | some ds =>
        rw [hd] at hp
        simp only [Option.map_some', Option.some.injEq] at hp ⊢
        rw [List.reverse_append, List.reverse_replicate, ofDigitsRev_append_zeros]
        exact hp

/-- C20: for every number `n` below 10000 that the random generator draws, `generateCode`
returns a text of exactly four characters, each one of `'0'..'9'`, whose decimal value is `n`;
the text is the decimal text of `n` with zeros in front. -/
theorem generateCode_shape (n : Nat) (h : n < 10000) :
    (generateCode n).length = 4
    ∧ (∀ c ∈ (generateCode n).data, '0' ≤ c ∧ c ≤ '9')
    ∧ parseNat (generateCode n).data = some n
    ∧ ∃ k, (generateCode n).data = List.replicate k '0' ++ natChars n := by
  have hlen : (natChars n).length ≤ 4 := natChars_length_le 3 n (by simpa using h)
  refine ⟨?_, ?_, ?_, ?_⟩
  · simp only [generateCode, sprintf04d, String.length, List.length_append,
      List.length_replicate]
    omega
  · intro c hc
    simp only [generateCode, sprintf04d, List.mem_append, List.mem_replicate] at hc
    rcases hc with ⟨_, rfl⟩ | hc
    · decide
    · have := natChars_digits n c hc
      constructor
      · show (48 : Nat) ≤ c.toNat
        exact this.1
      · show c.toNat ≤ (57 : Nat)
        exact this.2
  · simp only [generateCode, sprintf04d]
    exact parseNat_zeros_natChars _ n
  · exact ⟨4 - (natChars n).length, rfl⟩

/-- The draw 42 gives the code `0042`. -/
theorem generateCode_shape_witness :
    (42 < 10000)
    ∧ generateCode 42 = "0042"
    ∧ ((generateCode 42).length = 4
      ∧ (∀ c ∈ (generateCode 42).data, '0' ≤ c ∧ c ≤ '9')
      ∧ parseNat (generateCode 42).data = some 42
      ∧ ∃ k, (generateCode 42).data = List.replicate k '0' ++ natChars 42) :=
  ⟨by decide, by decide, generateCode_shape 42 (by decide)⟩

/-! ## Registration: the checks of the email address -/

theorem containsChars_single (c : Char) : ∀ (s : List Char),
    containsChars [c] s = decide (c ∈ s) := by
  intro s
  induction s with
  | nil => simp [containsChars, hasPrefixChars]
  | cons d s ih =>
    simp only [containsChars, hasPrefixChars, ih, Bool.and_true, List.mem_cons]
    by_cases h : c = d <;> simp [h]

theorem stringsContains_space (s : String) : stringsContains s " " = decide (' ' ∈ s.data) :=
  containsChars_single ' ' s.data

theorem stringsContains_at (s : String) : stringsContains s "@" = decide ('@' ∈ s.data) :=
  containsChars_single '@' s.data

/-- C19, counterexample: the text `a b` contains no `'@'`, and `validateEmail` reports the
space in it, not the missing `'@'`. -/
theorem validateEmail_space_before_missing_at :
    '@' ∉ "a b".data
    ∧ validateEmail "a b" = some (Err.new "email cannot contain spaces")
    ∧ validateEmail "a b" ≠ some ErrEmailMissingAt := by
  decide

/-- C19, amended: for every email text that does not contain the character `'@'`,
`validateEmail` returns `ErrEmailMissingAt` when the text contains no space, and the error
`email cannot contain spaces` when it contains one. -/
theorem validateEmail_missing_at (email : String) (hat : '@' ∉ email.data) :
    validateEmail email
      = (if ' ' ∈ email.data then some (Err.new "email cannot contain spaces")
         else some ErrEmailMissingAt) := by
  unfold validateEmail
  rw [stringsContains_space, stringsContains_at]
  by_cases hsp : ' ' ∈ email.data
  · simp [hsp]
  · simp [hsp, hat]

/-- The address `invalidemail` of the test `TestRegister_InvalidEmailFormat`. -/
theorem validateEmail_missing_at_witness :
    '@' ∉ "invalidemail".data
    ∧ validateEmail "invalidemail" = some ErrEmailMissingAt :=
  ⟨by decide, (validateEmail_missing_at "invalidemail" (by decide)).trans (by decide)⟩

/-! ## Registration: validation comes first -/

theorem validatePasswordLoop_eq (unicode : UnicodeTables) : ∀ (cs : List Char) (d u : Bool),
    validatePasswordLoop unicode cs d u
      = (d || cs.any unicode.IsDigit, u || cs.any unicode.IsUpper) := by
  intro cs
  induction cs with
  | nil => intro d u; simp [validatePasswordLoop]
  | cons c cs ih =>
    intro d u
    simp only [validatePasswordLoop, ih, List.any_cons]
    cases unicode.IsDigit c <;> cases unicode.IsUpper c <;> cases d <;> cases u <;> simp

/-- C18: `validatePassword` measures the length of the password in bytes of its UTF-8 text,
not in characters: the password of the four characters `A`, `1`, `€`, `€` is eight bytes long
and is accepted.  For every password the result is `ErrPasswordLow` when the text has fewer
than 8 bytes, otherwise `nil` when it has a digit and an uppercase letter, otherwise
`ErrPasswordFmt`. -/
theorem validatePassword_counts_bytes :
    "A1€€".length = 4 ∧ "A1€€".utf8ByteSize = 8
    ∧ validatePassword latin1Tables "A1€€" = none
    ∧ ∀ (unicode : UnicodeTables) (password : String),
        validatePassword unicode password
          = if password.utf8ByteSize < 8 then some ErrPasswordLow
            else if password.data.any unicode.IsDigit && password.data.any unicode.IsUpper
              then none
            else some ErrPasswordFmt := by
  refine ⟨by decide, by decide, by decide, ?_⟩
  intro unicode password
  simp only [validatePassword, validatePasswordLoop_eq, Bool.false_or]
  by_cases h : password.utf8ByteSize < 8
  · simp [h]
  · simp only [h, if_false]
    cases password.data.any unicode.IsDigit <;> cases password.data.any unicode.IsUpper <;> simp

/-- C17: when `validateEmail` rejects the email, or accepts it and `validatePassword` rejects
the password, `RegisterNewUser` returns that validation error, leaves the state as it was and
calls no collaborator: neither `Exists` nor `SaveTemporarySession` nor `SendVerificationCode`.
A rejected email is reported whatever the password is. -/
theorem register_validation_is_local {σ : Type} (a : Auth σ) (unicode : UnicodeTables)
    (draw : Nat) (timing : SendTiming) (email name password : String) (s0 : σ) (err : Err)
    (h : validateEmail email = some err
      ∨ (validateEmail email = none ∧ validatePassword unicode password = some err)) :
    a.RegisterNewUser unicode draw timing email name password s0 = (("", some err), s0)
    ∧ a.recorded.RegisterNewUser unicode draw timing email name password (s0, [])
        = (("", some err), (s0, [])) := by
  rcases h with h | ⟨h1, h2⟩
  · simp [Auth.RegisterNewUser, h]
  · simp [Auth.RegisterNewUser, h1, h2]

/-- The two cases of the tests `TestRegister_InvalidEmailFormat` (the address `invalidemail`)
and `TestRegister_InvalidPassword` (the password `abc`), and an address without `'@'` together
with a password that is too short. -/
theorem register_validation_is_local_witness :
    ((mockAuth {}).recorded.RegisterNewUser latin1Tables 42 .afterReturn "invalidemail" "Test"
        "Password1" ((), []) = (("", some ErrEmailMissingAt), ((), [])))
    ∧ ((mockAuth {}).recorded.RegisterNewUser latin1Tables 42 .afterReturn "test@gmail.com"
        "Test" "abc" ((), []) = (("", some ErrPasswordLow), ((), [])))
    ∧ ((mockAuth {}).recorded.RegisterNewUser latin1Tables 42 .afterReturn "invalidemail" "Test"
        "abc" ((), []) = (("", some ErrEmailMissingAt), ((), []))) :=
  ⟨(register_validation_is_local (mockAuth {}) latin1Tables 42 .afterReturn "invalidemail"
      "Test" "Password1" () ErrEmailMissingAt (Or.inl (by decide))).2,
   (register_validation_is_local (mockAuth {}) latin1Tables 42 .afterReturn "test@gmail.com"
      "Test" "abc" () ErrPasswordLow (Or.inr ⟨by decide, by decide⟩)).2,
   (register_validation_is_local (mockAuth {}) latin1Tables 42 .afterReturn "invalidemail"
      "Test" "abc" () ErrEmailMissingAt (Or.inl (by decide))).2⟩

/-! ## Parsing an issued token -/

theorem segmentEncode_no_dot : ∀ (x : List Char), '.' ∉ segmentEncode x := by
  intro x
  induction x with
  | nil => simp [segmentEncode]
  | cons c cs ih =>
    by_cases h1 : c = '.'
    · simp [segmentEncode, h1, ih]
    · by_cases h2 : c = '~'
      · simp [segmentEncode, h2, ih]
      · simp [segmentEncode, h1, h2, ih]
        exact fun h => h1 h.symm

theorem segmentEncode_eq_nil {x : List Char} (h : segmentEncode x = []) : x = [] := by
  cases x with
  | nil => rfl
  | cons c cs =>
    simp only [segmentEncode] at h
    split_ifs at h

theorem segmentDecode_encode : ∀ (x : List Char), segmentDecode (segmentEncode x) = some x := by
  intro x
  induction x with
  | nil => simp [segmentEncode, segmentDecode]
  | cons c cs ih =>
    by_cases h1 : c = '.'
    · subst h1
      simp [segmentEncode, segmentDecode, ih]
    · by_cases h2 : c = '~'
      · subst h2
        simp [segmentEncode, segmentDecode, ih]
      · simp only [segmentEncode, if_neg h1, if_neg h2]
        cases hcs : segmentEncode cs with
        | nil =>
          have := segmentEncode_eq_nil hcs
          subst this
          simp [segmentDecode, h1, h2]
        | cons d rest =>
          rw [hcs] at ih
          simp [segmentDecode, h1, h2, ih]

theorem splitOn_three (a b c : List Char) (ha : '.' ∉ a) (hb : '.' ∉ b) (hc : '.' ∉ c) :
    (a ++ '.' :: (b ++ '.' :: c)).splitOn '.' = [a, b, c] := by
  have h : ([('.' : Char)].intercalate [a, b, c]).splitOn '.' = [a, b, c] :=
    List.splitOn_intercalate [a, b, c] '.'
      (by intro l hl; simp at hl; rcases hl with rfl | rfl | rfl <;> assumption) (by simp)
  simpa [List.intercalate, List.intersperse, List.flatten] using h

theorem excessBits_small (fuel a : Nat) (h : a < 2 ^ 53) : excessBits fuel a = 0 := by
  cases fuel with
  | zero => rfl
  | succ f =>
    have h' : a < 9007199254740992 := by simpa using h
    simp [excessBits, h']

theorem Float64.toInt_ofInt (i : Int) (h1 : -(2 ^ 53) < i) (h2 : i < 2 ^ 53) :
    (Float64.ofInt i).toInt = i := by
  cases i with
  | ofNat n =>
    have hn : n < 2 ^ 53 := by
      have : (n : Int) < 2 ^ 53 := h2
      exact_mod_cast this
    simp [Float64.ofInt, roundNat53, excessBits_small n n hn, Float64.toInt]
  | negSucc n =>
    have hn : n + 1 < 2 ^ 53 := by
      have : -(2 ^ 53 : Int) < Int.negSucc n := h1
      rw [Int.negSucc_eq] at this
      have h3 : ((n + 1 : Nat) : Int) < 2 ^ 53 := by push_cast; linarith
      exact_mod_cast h3
    simp [Float64.ofInt, roundNat53, excessBits_small (n + 1) (n + 1) hn, Float64.toInt,
      Int.negSucc_eq]

theorem natChars_isIntChar (n : Nat) : ∀ c ∈ natChars n, isIntChar c = true := by
  intro c hc
  have h := natChars_digits n c hc
  simp [isIntChar, charDigit, h.1, h.2]

theorem intChars_isIntChar (i : Int) : ∀ c ∈ intChars i, isIntChar c = true := by
  intro c hc
  cases i with
  | ofNat n => exact natChars_isIntChar n c hc
  | negSucc n =>
    simp only [intChars, List.mem_cons] at hc
    rcases hc with rfl | hc
    · decide
    · exact natChars_isIntChar (n + 1) c hc

theorem parseInt_intChars (i : Int) : parseInt (intChars i) = some i := by
  cases i with
  | ofNat n =>
    obtain ⟨c, cs, hcs, hm, _⟩ := natChars_head_digit n
    have hp := parseNat_natChars n
    simp only [intChars]
    rw [hcs] at hp ⊢
    unfold parseInt
    split
    · rename_i ds heq
      simp only [List.cons.injEq] at heq
      exact absurd heq.1 hm
    · simp [hp]
  | negSucc n =>
    have hp := parseNat_natChars (n + 1)
    simp only [intChars, parseInt, hp, Option.map_some', Int.negSucc_eq]
    simp

theorem intChars_head (i : Int) :
    ∃ c cs, intChars i = c :: cs ∧ c ≠ '"' ∧ c ≠ 'n' := by
  cases i with
  | ofNat n =>
    have hne := natChars_ne_nil n
    cases hcs : natChars n with
    | nil => exact absurd hcs hne
    | cons c cs =>
      have hd := natChars_digits n c (by rw [hcs]; simp)
      refine ⟨c, cs, by simp [intChars, hcs], ?_, ?_⟩
      · rintro rfl; revert hd; decide
      · rintro rfl; revert hd; decide
  | negSucc n => exact ⟨'-', natChars (n + 1), rfl, by decide, by decide⟩

theorem jsonScanValue_int (i : Int) (c : Char) (rest : List Char) (hc : isIntChar c = false) :
    jsonScanValue (intChars i ++ c :: rest) = some (.float64 (Float64.ofInt i), c :: rest) := by
  have htake : (intChars i ++ c :: rest).takeWhile isIntChar = intChars i := by
    rw [List.takeWhile_append_of_pos (intChars_isIntChar i)]
    simp [List.takeWhile, hc]
  have hdrop : (intChars i ++ c :: rest).dropWhile isIntChar = c :: rest := by
    rw [List.dropWhile_append_of_pos (intChars_isIntChar i)]
    simp [List.dropWhile, hc]
  obtain ⟨d, ds, hds, h1, h2⟩ := intChars_head i
  unfold jsonScanValue
  split
  · rename_i r heq
    rw [hds] at heq
    simp only [List.cons_append, List.cons.injEq] at heq
    exact absurd heq.1 h1
  · rename_i r heq
    rw [hds] at heq
    simp only [List.cons_append, List.cons.injEq] at heq
    exact absurd heq.1 h2
  · rw [htake, hdrop, parseInt_intChars]
    rfl

theorem jsonScanValue_str (s rest : List Char) :
    jsonScanValue ('"' :: (jsonEscape s ++ '"' :: rest)) = some (.str (String.mk s), rest) := by
  simp [jsonScanValue, jsonScanString_escape]

theorem jsonScanValue_issued (v : JVal) (hv : v.issued = true) (c : Char) (rest : List Char)
    (hc : isIntChar c = false) :
    jsonScanValue (jsonValue v ++ c :: rest) = some (v.parsed, c :: rest) := by
  cases v with
  | str s =>
    have := jsonScanValue_str s.data (c :: rest)
    simpa [jsonValue, JVal.parsed] using this
  | int i => simpa [jsonValue, JVal.parsed] using jsonScanValue_int i c rest hc
  | float64 f => simp [JVal.issued] at hv
  | null => simp [JVal.issued] at hv

theorem jsonEntries_head (kv : String × JVal) (rest : MapClaims) :
    ∃ t, jsonEntries (kv :: rest) = '"' :: t := by
  cases rest with
  | nil => exact ⟨_, rfl⟩
  | cons kv2 rest => exact ⟨_, rfl⟩

theorem jsonScanEntries_issued : ∀ (claims : MapClaims) (fuel : Nat), claims ≠ [] →
    claims.length ≤ fuel → (∀ kv ∈ claims, kv.2.issued = true) →
    jsonScanEntries fuel (jsonEntries claims ++ ['}']) = some claims.parsed := by
  intro claims
  induction claims with
  | nil => intro fuel h; exact absurd rfl h
  | cons kv rest ih =>
    intro fuel _ hlen hiss
    obtain ⟨k, v⟩ := kv
    have hv : v.issued = true := hiss (k, v) (by simp)
    cases fuel with
    | zero => simp at hlen
    | succ f =>
      cases rest with
      | nil =>
        have h1 : jsonEntries [(k, v)] ++ ['}']
            = '"' :: (jsonEscape k.data ++ '"' :: (':' :: (jsonValue v ++ ['}']))) := by
          simp [jsonEntries]
        rw [h1, jsonScanEntries]
        simp only [jsonScanString_escape]
        rw [show jsonValue v ++ ['}'] = jsonValue v ++ '}' :: [] from rfl,
          jsonScanValue_issued v hv '}' [] (by decide)]
        simp [MapClaims.parsed]
      | cons kv2 rest2 =>
        obtain ⟨t, ht⟩ := jsonEntries_head kv2 rest2
        have h1 : jsonEntries ((k, v) :: kv2 :: rest2) ++ ['}']
            = '"' :: (jsonEscape k.data ++ '"' :: (':' :: (jsonValue v
                ++ ',' :: (jsonEntries (kv2 :: rest2) ++ ['}'])))) := by
          simp [jsonEntries]
        have ih1 := ih f (by simp) (by simpa using hlen)
          (fun kv hkv => hiss kv (List.mem_cons_of_mem _ hkv))
        rw [h1, jsonScanEntries]
        simp only [jsonScanString_escape]
        rw [jsonScanValue_issued v hv ',' _ (by decide)]
        rw [ht] at ih1 ⊢
        simp only [List.cons_append] at ih1 ⊢
        simp [ih1, MapClaims.parsed]

theorem jsonEntries_length : ∀ (claims : MapClaims), claims.length ≤ (jsonEntries claims).length := by
  intro claims
  induction claims with
  | nil => simp
  | cons kv rest ih =>
    cases rest with
    | nil => simp [jsonEntries]
    | cons kv2 rest2 =>
      simp only [jsonEntries, List.length_cons, List.length_append] at ih ⊢
      omega

theorem jsonParseClaims_issued (claims : MapClaims) (hne : claims ≠ [])
    (hiss : ∀ kv ∈ claims, kv.2.issued = true) :
    jsonParseClaims (jsonClaims claims) = some claims.parsed := by
  cases claims with
  | nil => exact absurd rfl hne
  | cons kv rest =>
    obtain ⟨t, ht⟩ := jsonEntries_head kv rest
    have hlen := jsonEntries_length (kv :: rest)
    have hs := jsonScanEntries_issued (kv :: rest) (jsonEntries (kv :: rest) ++ ['}']).length
      hne (by simp only [List.length_append]; omega) hiss
    unfold jsonParseClaims jsonClaims
    rw [ht] at hs ⊢
    simp only [List.cons_append] at hs ⊢
    exact hs

theorem jsonParseHeader_HS256 :
    jsonParseHeader (jsonHeader "HS256") = some (some "HS256") := by
  decide

/-- What `jwt.Parse` returns for a token that `SignedString` made with the method HS256 and the
key `key`, when the key function supplies `secret`. -/
theorem jwtParse_signed (hmac : HMAC) (claims : MapClaims) (key secret : String) (c0 : Clock)
    (hne : claims ≠ []) (hiss : ∀ kv ∈ claims, kv.2.issued = true) (tok : String)
    (htok : SignedString hmac "HS256" claims key = .ok tok) :
    jwtParse hmac tok (keyFuncFor secret) c0
      = if hmac "HS256" key (signingString "HS256" claims)
            ≠ hmac "HS256" secret (signingString "HS256" claims) then
          (.error (.new "token signature is invalid: signature is invalid"), c0)
        else
          match validateClaims claims.parsed (timeNow c0).1 with
          | some err => (.error err, (timeNow c0).2)
          | none => (.ok claims.parsed, (timeNow c0).2) := by
  simp only [SignedString, Except.ok.injEq] at htok
  subst htok
  have hsplit := splitOn_three (segmentEncode (jsonHeader "HS256"))
    (segmentEncode (jsonClaims claims))
    (segmentEncode (hmac "HS256" key (signingString "HS256" claims)))
    (segmentEncode_no_dot _) (segmentEncode_no_dot _) (segmentEncode_no_dot _)
  have hdata : (String.mk (segmentEncode (jsonHeader "HS256") ++ '.' ::
        segmentEncode (jsonClaims claims) ++ '.' ::
        segmentEncode (hmac "HS256" key (segmentEncode (jsonHeader "HS256") ++ '.' ::
          segmentEncode (jsonClaims claims))))).data.splitOn '.'
      = [segmentEncode (jsonHeader "HS256"), segmentEncode (jsonClaims claims),
         segmentEncode (hmac "HS256" key (signingString "HS256" claims))] := by
    rw [← hsplit]
    simp [signingString]
  have hm : GetSigningMethod "HS256" = some (.HMAC "HS256") := by decide
  unfold jwtParse
  rw [hdata]
  simp only [segmentDecode_encode, Option.some_bind, jsonParseHeader_HS256,
    jsonParseClaims_issued claims hne hiss, hm, keyFuncFor]
  rfl

/-! ## Round trip of the tokens -/

theorem SignedString_ok (hmac : HMAC) (alg : String) (claims : MapClaims) (key : String) :
    ∃ tok, SignedString hmac alg claims key = .ok tok ∧ tok ≠ "" := by
  refine ⟨_, rfl, ?_⟩
  intro h
  have := congrArg String.data h
  simp at this

theorem GenerateAccessToken_eq (m : JWTManager) (hmac : HMAC) (u : UserRefresh) (c0 : Clock) :
    m.GenerateAccessToken hmac u c0
      = (SignedString hmac "HS256"
          (accessClaims m u (c0.readings c0.pos) (c0.readings (c0.pos + 1))) m.accessSecret,
         { c0 with pos := c0.pos + 2 }) := rfl

theorem GenerateRefreshToken_eq (m : JWTManager) (hmac : HMAC) (session : String) (c0 : Clock) :
    m.GenerateRefreshToken hmac session c0
      = (SignedString hmac "HS256"
          (refreshClaims m session (c0.readings c0.pos) (c0.readings (c0.pos + 1))
            (c0.readings (c0.pos + 2))) m.refreshSecret,
         { c0 with pos := c0.pos + 3 }) := rfl

theorem accessClaims_issued (m : JWTManager) (u : UserRefresh) (t1 t2 : Int) :
    accessClaims m u t1 t2 ≠ [] ∧ ∀ kv ∈ accessClaims m u t1 t2, kv.2.issued = true := by
  refine ⟨by simp [accessClaims], ?_⟩
  intro kv hkv
  simp only [accessClaims, List.mem_cons, List.mem_singleton, List.not_mem_nil, or_false] at hkv
  rcases hkv with rfl | rfl | rfl | rfl | rfl | rfl <;> rfl

theorem refreshClaims_issued (m : JWTManager) (s : String) (t1 t2 t3 : Int) :
    refreshClaims m s t1 t2 t3 ≠ [] ∧ ∀ kv ∈ refreshClaims m s t1 t2 t3, kv.2.issued = true := by
  refine ⟨by simp [refreshClaims], ?_⟩
  intro kv hkv
  simp only [refreshClaims, List.mem_cons, List.mem_singleton, List.not_mem_nil, or_false] at hkv
  rcases hkv with rfl | rfl | rfl | rfl <;> rfl

theorem accessClaims_parsed (m : JWTManager) (u : UserRefresh) (t1 t2 : Int) :
    (accessClaims m u t1 t2).parsed
      = [ ("iat", .float64 (Float64.ofInt (unixSeconds t2))),
          ("ver", .float64 (Float64.ofInt u.Version)),
          ("exp", .float64 (Float64.ofInt (unixSeconds (t1 + m.accessTokenTTL)))),
          ("email", .str u.Email),
          ("role", .str u.Role),
          ("session", .str u.SessionId) ] := rfl

theorem refreshClaims_parsed (m : JWTManager) (s : String) (t1 t2 t3 : Int) :
    (refreshClaims m s t1 t2 t3).parsed
      = [ ("lat", .float64 (Float64.ofInt (unixSeconds t3))),
          ("iat", .float64 (Float64.ofInt (unixSeconds t2))),
          ("exp", .float64 (Float64.ofInt (unixSeconds (t1 + m.refreshTokenTTL)))),
          ("session", .str s) ] := rfl

theorem validateClaims_access (m : JWTManager) (u : UserRefresh) (t1 t2 now : Int) :
    validateClaims (accessClaims m u t1 t2).parsed now
      = if now < (Float64.ofInt (unixSeconds (t1 + m.accessTokenTTL))).toInt * 1000000000
          then none
        else some (.new "token has invalid claims: token is expired") := by
  rw [accessClaims_parsed]
  simp [validateClaims, MapClaims.get, List.find?]

theorem validateClaims_refresh (m : JWTManager) (s : String) (t1 t2 t3 now : Int) :
    validateClaims (refreshClaims m s t1 t2 t3).parsed now
      = if now < (Float64.ofInt (unixSeconds (t1 + m.refreshTokenTTL))).toInt * 1000000000
          then none
        else some (.new "token has invalid claims: token is expired") := by
  rw [refreshClaims_parsed]
  simp [validateClaims, MapClaims.get, List.find?]

theorem VerifyAccessToken_signed (m : JWTManager) (hmac : HMAC) (claims : MapClaims)
    (key : String) (cv : Clock) (hne : claims ≠ [])
    (hiss : ∀ kv ∈ claims, kv.2.issued = true) (tok : String)
    (htok : SignedString hmac "HS256" claims key = .ok tok) :
    m.VerifyAccessToken hmac tok cv
      = if hmac "HS256" key (signingString "HS256" claims)
            ≠ hmac "HS256" m.accessSecret (signingString "HS256" claims) then
          (.error (.wrap "access token validation failed"
            (.new "token signature is invalid: signature is invalid")), cv)
        else
          match validateClaims claims.parsed (timeNow cv).1 with
          | some err => (.error (.wrap "access token validation failed" err), (timeNow cv).2)
          | none => (.ok claims.parsed, (timeNow cv).2) := by
  obtain ⟨tok1, h1, hnz⟩ := SignedString_ok hmac "HS256" claims key
  rw [htok] at h1
  cases h1
  unfold JWTManager.VerifyAccessToken
  rw [if_neg hnz, jwtParse_signed hmac claims key m.accessSecret cv hne hiss tok htok]
  by_cases hs : hmac "HS256" key (signingString "HS256" claims)
      = hmac "HS256" m.accessSecret (signingString "HS256" claims)
  · simp only [ne_eq, hs, not_true_eq_false, if_false]
    cases validateClaims claims.parsed (timeNow cv).1 <;> rfl
  · simp only [ne_eq, hs, not_false_eq_true, if_true]

theorem VerifyRefreshToken_signed (m : JWTManager) (hmac : HMAC) (claims : MapClaims)
    (key : String) (cv : Clock) (hne : claims ≠ [])
    (hiss : ∀ kv ∈ claims, kv.2.issued = true) (tok : String)
    (htok : SignedString hmac "HS256" claims key = .ok tok) :
    m.VerifyRefreshToken hmac tok cv
      = if hmac "HS256" key (signingString "HS256" claims)
            ≠ hmac "HS256" m.refreshSecret (signingString "HS256" claims) then
          (.error (.wrap "token validation failed"
            (.new "token signature is invalid: signature is invalid")), cv)
        else
          match validateClaims claims.parsed (timeNow cv).1 with
          | some err => (.error (.wrap "token validation failed" err), (timeNow cv).2)
          | none => (.ok claims.parsed, (timeNow cv).2) := by
  obtain ⟨tok1, h1, hnz⟩ := SignedString_ok hmac "HS256" claims key
  rw [htok] at h1
  cases h1
  unfold JWTManager.VerifyRefreshToken
  rw [if_neg hnz, jwtParse_signed hmac claims key m.refreshSecret cv hne hiss tok htok]
  by_cases hs : hmac "HS256" key (signingString "HS256" claims)
      = hmac "HS256" m.refreshSecret (signingString "HS256" claims)
  · simp only [ne_eq, hs, not_true_eq_false, if_false]
    cases validateClaims claims.parsed (timeNow cv).1 <;> rfl
  · simp only [ne_eq, hs, not_false_eq_true, if_true]

/-! ## C13: round trip of the tokens -/

/-- C13, counterexample: an access token issued for a user whose version is
`9007199254740993` (that is `2^53 + 1`) verifies, and its `ver` claim, read as a number and
converted to an integer the way `Logout` reads it, is `9007199254740992`, not the version of
the user. -/
theorem ver_beyond_float64_not_round_tripped :
    (match (fixtureManager.VerifyAccessToken fixtureHMAC
        (match (fixtureManager.GenerateAccessToken fixtureHMAC
            { SessionId := "user-123:device-123", UserID := "user-123", Name := "Test User",
              Email := "test@gmail.com", Role := "user", Version := 9007199254740993 }
            fixtureClock).1 with
          | .ok tok => tok
          | .error _ => "") fixtureClock).1 with
      | .ok claims => (claims.getFloat64 "ver").map Float64.toInt
      | .error _ => none) = some 9007199254740992 := by
  decide

/-- C13, amended: for every manager, keyed hash and user, the token that `GenerateAccessToken`
returns at the clock `c0` is accepted by `VerifyAccessToken` at every clock `cv` whose reading
is before the expiry second of the token (that second being within the integers a `float64`
holds exactly); the claims returned have the session, role and email of the user, their `ver`
is the `float64` nearest to the version of the user, and read as `Logout` reads it (converted
to an integer) it is that version whenever the version is between `-2^53` and `2^53`.
Likewise the token of `GenerateRefreshToken` is accepted by `VerifyRefreshToken` before its
expiry, with the session it was issued for. -/
theorem token_round_trip (m : JWTManager) (hmac : HMAC) (u : UserRefresh) (session : String)
    (c0 cv r0 rv : Clock)
    (hexp : -9007199254740992 < unixSeconds (c0.readings c0.pos + m.accessTokenTTL)
      ∧ unixSeconds (c0.readings c0.pos + m.accessTokenTTL) < 9007199254740992)
    (hnow : cv.readings cv.pos
      < unixSeconds (c0.readings c0.pos + m.accessTokenTTL) * 1000000000)
    (hexpR : -9007199254740992 < unixSeconds (r0.readings r0.pos + m.refreshTokenTTL)
      ∧ unixSeconds (r0.readings r0.pos + m.refreshTokenTTL) < 9007199254740992)
    (hnowR : rv.readings rv.pos
      < unixSeconds (r0.readings r0.pos + m.refreshTokenTTL) * 1000000000) :
    (∃ tok claims, (m.GenerateAccessToken hmac u c0).1 = .ok tok
      ∧ (m.VerifyAccessToken hmac tok cv).1 = .ok claims
      ∧ claims.getString "session" = some u.SessionId
      ∧ claims.getString "role" = some u.Role
      ∧ claims.getString "email" = some u.Email
      ∧ claims.getFloat64 "ver" = some (Float64.ofInt u.Version)
      ∧ (-9007199254740992 < u.Version → u.Version < 9007199254740992 →
          (claims.getFloat64 "ver").map Float64.toInt = some u.Version))
    ∧ (∃ tok claims, (m.GenerateRefreshToken hmac session r0).1 = .ok tok
      ∧ (m.VerifyRefreshToken hmac tok rv).1 = .ok claims
      ∧ claims.getString "session" = some session) := by
  constructor
  · obtain ⟨tok, htok, _⟩ := SignedString_ok hmac "HS256"
      (accessClaims m u (c0.readings c0.pos) (c0.readings (c0.pos + 1))) m.accessSecret
    have hi := accessClaims_issued m u (c0.readings c0.pos) (c0.readings (c0.pos + 1))
    have hto := Float64.toInt_ofInt (unixSeconds (c0.readings c0.pos + m.accessTokenTTL))
      (by have := hexp.1; norm_num; exact this) (by have := hexp.2; norm_num; exact this)
    refine ⟨tok, (accessClaims m u (c0.readings c0.pos) (c0.readings (c0.pos + 1))).parsed,
      ?_, ?_, ?_, ?_, ?_, ?_, ?_⟩
    · rw [GenerateAccessToken_eq, htok]
    · rw [VerifyAccessToken_signed m hmac _ m.accessSecret cv hi.1 hi.2 tok htok,
        validateClaims_access, hto]
      simp [timeNow, hnow]
    · rw [accessClaims_parsed]; simp [MapClaims.getString, MapClaims.get, List.find?]
    · rw [accessClaims_parsed]; simp [MapClaims.getString, MapClaims.get, List.find?]
    · rw [accessClaims_parsed]; simp [MapClaims.getString, MapClaims.get, List.find?]
    · rw [accessClaims_parsed]; simp [MapClaims.getFloat64, MapClaims.get, List.find?]
    · intro h1 h2
      have hv := Float64.toInt_ofInt u.Version (by norm_num; exact h1) (by norm_num; exact h2)
      rw [accessClaims_parsed]
      simp [MapClaims.getFloat64, MapClaims.get, List.find?, hv]
  · obtain ⟨tok, htok, _⟩ := SignedString_ok hmac "HS256"
      (refreshClaims m session (r0.readings r0.pos) (r0.readings (r0.pos + 1))
        (r0.readings (r0.pos + 2))) m.refreshSecret
    have hi := refreshClaims_issued m session (r0.readings r0.pos) (r0.readings (r0.pos + 1))
      (r0.readings (r0.pos + 2))
    have hto := Float64.toInt_ofInt (unixSeconds (r0.readings r0.pos + m.refreshTokenTTL))
      (by have := hexpR.1; norm_num; exact this) (by have := hexpR.2; norm_num; exact this)
    refine ⟨tok, (refreshClaims m session (r0.readings r0.pos) (r0.readings (r0.pos + 1))
      (r0.readings (r0.pos + 2))).parsed, ?_, ?_, ?_⟩
    · rw [GenerateRefreshToken_eq, htok]
    · rw [VerifyRefreshToken_signed m hmac _ m.refreshSecret rv hi.1 hi.2 tok htok,
        validateClaims_refresh, hto]
      simp [timeNow, hnowR]
    · rw [refreshClaims_parsed]; simp [MapClaims.getString, MapClaims.get, List.find?]

/-- The manager of the fixtures (fifteen minutes, a week), the user of the tests at version 7,
issued at the second `1700000000` and verified in that second. -/
theorem token_round_trip_witness :
    (∃ tok claims, (fixtureManager.GenerateAccessToken fixtureHMAC
          { SessionId := "user-123:device-123", UserID := "user-123", Name := "Test User",
            Email := "test@gmail.com", Role := "user", Version := 7 } fixtureClock).1 = .ok tok
      ∧ (fixtureManager.VerifyAccessToken fixtureHMAC tok fixtureClock).1 = .ok claims
      ∧ claims.getString "session" = some "user-123:device-123"
      ∧ claims.getString "role" = some "user"
      ∧ claims.getString "email" = some "test@gmail.com"
      ∧ claims.getFloat64 "ver" = some (Float64.ofInt 7)
      ∧ (-9007199254740992 < (7 : Int) → (7 : Int) < 9007199254740992 →
          (claims.getFloat64 "ver").map Float64.toInt = some 7))
    ∧ (∃ tok claims, (fixtureManager.GenerateRefreshToken fixtureHMAC "user-123:device-123"
          fixtureClock).1 = .ok tok
      ∧ (fixtureManager.VerifyRefreshToken fixtureHMAC tok fixtureClock).1 = .ok claims
      ∧ claims.getString "session" = some "user-123:device-123") :=
  token_round_trip fixtureManager fixtureHMAC
    { SessionId := "user-123:device-123", UserID := "user-123", Name := "Test User",
      Email := "test@gmail.com", Role := "user", Version := 7 } "user-123:device-123"
    fixtureClock fixtureClock fixtureClock fixtureClock
    (by decide) (by decide) (by decide) (by decide)

/-! ## C14: the two secrets -/

/-- C14, counterexample: a configuration whose two secrets are the same text passes
`validateConfig`, and under the manager built from it a refresh token is accepted by
`VerifyAccessToken` and an access token by `VerifyRefreshToken`. -/
theorem equal_secrets_accepted_across_kinds :
    validateConfig (fixtureConfig "secret" "secret") = none
    ∧ (match ((appManager (fixtureConfig "secret" "secret")).VerifyAccessToken fixtureHMAC
          (tokenText ((appManager (fixtureConfig "secret" "secret")).GenerateRefreshToken
            fixtureHMAC "user-123:device-123" fixtureClock).1) fixtureClock).1 with
        | .ok claims => claims.getString "session"
        | .error _ => none) = some "user-123:device-123"
    ∧ (match ((appManager (fixtureConfig "secret" "secret")).VerifyRefreshToken fixtureHMAC
          (tokenText ((appManager (fixtureConfig "secret" "secret")).GenerateAccessToken
            fixtureHMAC fixtureUser fixtureClock).1) fixtureClock).1 with
        | .ok claims => claims.getString "session"
        | .error _ => none) = some "user-123:device-123" := by
  decide

/-- C14, amended: for every manager and every keyed hash that gives different signatures
under the access secret and under the refresh secret, a token produced by
`GenerateRefreshToken` is rejected by `VerifyAccessToken`, and a token produced by
`GenerateAccessToken` is rejected by `VerifyRefreshToken`, both with the error of an invalid
signature and at every clock. -/
theorem key_separation (m : JWTManager) (hmac : HMAC) (u : UserRefresh) (session : String)
    (c0 cv : Clock)
    (hsep : ∀ text : List Char,
      hmac "HS256" m.accessSecret text ≠ hmac "HS256" m.refreshSecret text) :
    (∃ tok, (m.GenerateRefreshToken hmac session c0).1 = .ok tok
      ∧ m.VerifyAccessToken hmac tok cv
          = (.error (.wrap "access token validation failed"
              (.new "token signature is invalid: signature is invalid")), cv))
    ∧ (∃ tok, (m.GenerateAccessToken hmac u c0).1 = .ok tok
      ∧ m.VerifyRefreshToken hmac tok cv
          = (.error (.wrap "token validation failed"
              (.new "token signature is invalid: signature is invalid")), cv)) := by
  constructor
  · obtain ⟨tok, htok, _⟩ := SignedString_ok hmac "HS256"
      (refreshClaims m session (c0.readings c0.pos) (c0.readings (c0.pos + 1))
        (c0.readings (c0.pos + 2))) m.refreshSecret
    have hi := refreshClaims_issued m session (c0.readings c0.pos) (c0.readings (c0.pos + 1))
      (c0.readings (c0.pos + 2))
    refine ⟨tok, by rw [GenerateRefreshToken_eq, htok], ?_⟩
    rw [VerifyAccessToken_signed m hmac _ m.refreshSecret cv hi.1 hi.2 tok htok]
    exact if_pos (fun h => hsep _ h.symm)
  · obtain ⟨tok, htok, _⟩ := SignedString_ok hmac "HS256"
      (accessClaims m u (c0.readings c0.pos) (c0.readings (c0.pos + 1))) m.accessSecret
    have hi := accessClaims_issued m u (c0.readings c0.pos) (c0.readings (c0.pos + 1))
    refine ⟨tok, by rw [GenerateAccessToken_eq, htok], ?_⟩
    rw [VerifyRefreshToken_signed m hmac _ m.accessSecret cv hi.1 hi.2 tok htok]
    exact if_pos (fun h => hsep _ h)

/-- The manager built from a configuration with the secrets `access-secret` and
`refresh-secret`, which `validateConfig` accepts. -/
theorem key_separation_witness :
    validateConfig (fixtureConfig "access-secret" "refresh-secret") = none
    ∧ ((∃ tok, ((appManager (fixtureConfig "access-secret" "refresh-secret")).GenerateRefreshToken
            fixtureHMAC "user-123:device-123" fixtureClock).1 = .ok tok
        ∧ (appManager (fixtureConfig "access-secret" "refresh-secret")).VerifyAccessToken
            fixtureHMAC tok fixtureClock
          = (.error (.wrap "access token validation failed"
              (.new "token signature is invalid: signature is invalid")), fixtureClock))
      ∧ (∃ tok, ((appManager (fixtureConfig "access-secret" "refresh-secret")).GenerateAccessToken
            fixtureHMAC fixtureUser fixtureClock).1 = .ok tok
        ∧ (appManager (fixtureConfig "access-secret" "refresh-secret")).VerifyRefreshToken
            fixtureHMAC tok fixtureClock
          = (.error (.wrap "token validation failed"
              (.new "token signature is invalid: signature is invalid")), fixtureClock))) :=
  ⟨by decide,
   key_separation (appManager (fixtureConfig "access-secret" "refresh-secret")) fixtureHMAC
     fixtureUser "user-123:device-123" fixtureClock fixtureClock
     (by intro text h; simp [fixtureHMAC, appManager, fixtureConfig, NewJWTManager] at h)⟩

/-! ## C15: the algorithm of a token -/

theorem jwtParse_rejects_alg (hmac : HMAC) (tok secret : String) (c0 : Clock)
    (h256 : tokenAlg tok ≠ some "HS256") (h384 : tokenAlg tok ≠ some "HS384")
    (h512 : tokenAlg tok ≠ some "HS512") :
    ∃ err, jwtParse hmac tok (keyFuncFor secret) c0 = (.error err, c0) := by
  unfold tokenAlg at h256 h384 h512
  unfold jwtParse
  split
  · rename_i p0 p1 p2 hsp
    rw [hsp] at h256 h384 h512
    simp only at h256 h384 h512
    cases hh : (segmentDecode p0).bind jsonParseHeader with
    | none => exact ⟨_, rfl⟩
    | some header =>
      rw [hh] at h256 h384 h512
      simp only
      cases hc : (segmentDecode p1).bind jsonParseClaims with
      | none => exact ⟨_, rfl⟩
      | some claims =>
        simp only
        cases header with
        | none => exact ⟨_, rfl⟩
        | some alg =>
          simp only [Option.join] at h256 h384 h512
          have hnot : alg ∉ ["HS256", "HS384", "HS512"] := by
            intro hmem
            simp only [List.mem_cons, List.mem_singleton, List.not_mem_nil, or_false] at hmem
            rcases hmem with rfl | rfl | rfl
            · exact h256 rfl
            · exact h384 rfl
            · exact h512 rfl
          simp only
          unfold GetSigningMethod
          rw [if_neg hnot]
          split_ifs
          · exact ⟨_, rfl⟩
          · exact ⟨_, rfl⟩
  · exact ⟨_, rfl⟩

/-- C15, counterexample: a token whose header names HS384, signed with the access secret, is
accepted by `VerifyAccessToken`; one whose header names HS512, signed with the refresh secret,
is accepted by `VerifyRefreshToken`. -/
theorem hs384_and_hs512_tokens_accepted :
    tokenAlg (tokenText (SignedString fixtureHMAC "HS384"
        (accessClaims fixtureManager fixtureUser 1700000000000000000 1700000000000000000)
        "access-secret")) = some "HS384"
    ∧ (match (fixtureManager.VerifyAccessToken fixtureHMAC
          (tokenText (SignedString fixtureHMAC "HS384"
            (accessClaims fixtureManager fixtureUser 1700000000000000000 1700000000000000000)
            "access-secret")) fixtureClock).1 with
        | .ok claims => claims.getString "session"
        | .error _ => none) = some "user-123:device-123"
    ∧ tokenAlg (tokenText (SignedString fixtureHMAC "HS512"
        (refreshClaims fixtureManager "user-123:device-123" 1700000000000000000
          1700000000000000000 1700000000000000000) "refresh-secret")) = some "HS512"
    ∧ (match (fixtureManager.VerifyRefreshToken fixtureHMAC
          (tokenText (SignedString fixtureHMAC "HS512"
            (refreshClaims fixtureManager "user-123:device-123" 1700000000000000000
              1700000000000000000 1700000000000000000) "refresh-secret")) fixtureClock).1 with
        | .ok claims => claims.getString "session"
        | .error _ => none) = some "user-123:device-123" := by
  decide

/-- C15, amended: `VerifyAccessToken` and `VerifyRefreshToken` reject every token whose header
algorithm is none of HS256, HS384 and HS512 (or cannot be read), whatever its signature, its
claims, the keyed hash and the clock, and before the clock is read. -/
theorem algorithm_family_pinned (m : JWTManager) (hmac : HMAC) (tok : String) (cv : Clock)
    (h256 : tokenAlg tok ≠ some "HS256") (h384 : tokenAlg tok ≠ some "HS384")
    (h512 : tokenAlg tok ≠ some "HS512") :
    (∃ err, m.VerifyAccessToken hmac tok cv = (.error err, cv))
    ∧ (∃ err, m.VerifyRefreshToken hmac tok cv = (.error err, cv)) := by
  constructor
  · unfold JWTManager.VerifyAccessToken
    split_ifs
    · exact ⟨_, rfl⟩
    · obtain ⟨err, he⟩ := jwtParse_rejects_alg hmac tok m.accessSecret cv h256 h384 h512
      rw [he]
      exact ⟨_, rfl⟩
  · unfold JWTManager.VerifyRefreshToken
    split_ifs
    · exact ⟨_, rfl⟩
    · obtain ⟨err, he⟩ := jwtParse_rejects_alg hmac tok m.refreshSecret cv h256 h384 h512
      rw [he]
      exact ⟨_, rfl⟩

/-- The token with the algorithm `none` and an empty signature. -/
theorem algorithm_family_pinned_witness :
    tokenAlg unsignedToken = some "none"
    ∧ ((∃ err, fixtureManager.VerifyAccessToken fixtureHMAC unsignedToken fixtureClock
          = (.error err, fixtureClock))
      ∧ (∃ err, fixtureManager.VerifyRefreshToken fixtureHMAC unsignedToken fixtureClock
          = (.error err, fixtureClock))) :=
  ⟨by decide,
   algorithm_family_pinned fixtureManager fixtureHMAC unsignedToken fixtureClock
     (by decide) (by decide) (by decide)⟩

/-! ## C16: the session identifier -/

theorem append_colon_inj : ∀ (a b a' b' : List Char), ':' ∉ a → ':' ∉ a' →
    a ++ ':' :: b = a' ++ ':' :: b' → a = a' ∧ b = b' := by
  intro a
  induction a with
  | nil =>
    intro b a' b' _ ha' h
    cases a' with
    | nil => simpa using h
    | cons c cs =>
      simp only [List.nil_append, List.cons_append, List.cons.injEq] at h
      exact absurd (by rw [← h.1]; simp) ha'
  | cons x xs ih =>
    intro b a' b' ha ha' h
    cases a' with
    | nil =>
      simp only [List.nil_append, List.cons_append, List.cons.injEq] at h
      exact absurd (by rw [h.1]; simp) ha
    | cons c cs =>
      simp only [List.cons_append, List.cons.injEq] at h
      have := ih b cs b' (fun hm => ha (List.mem_cons_of_mem _ hm))
        (fun hm => ha' (List.mem_cons_of_mem _ hm)) h.2
      exact ⟨by rw [h.1, this.1], this.2⟩

theorem session_inj (u d u' d' : String) (hu : ':' ∉ u.data) (hu' : ':' ∉ u'.data)
    (h : u ++ ":" ++ d = u' ++ ":" ++ d') : u = u' ∧ d = d' := by
  have hd := congrArg String.data h
  simp only [String.data_append, List.append_assoc] at hd
  have := append_colon_inj u.data d.data u'.data d'.data hu hu' (by simpa using hd)
  exact ⟨String.ext this.1, String.ext this.2⟩

theorem session_split (u d : String) (hu : ':' ∉ u.data) (hd : ':' ∉ d.data) :
    stringsSplit (u ++ ":" ++ d) ':' = [u, d] := by
  have h : ([(':' : Char)].intercalate [u.data, d.data]).splitOn ':' = [u.data, d.data] :=
    List.splitOn_intercalate [u.data, d.data] ':'
      (by intro l hl; simp at hl; rcases hl with rfl | rfl <;> assumption) (by simp)
  have h2 : (u ++ ":" ++ d).data = [':'].intercalate [u.data, d.data] := by
    simp [List.intercalate, List.intersperse, List.flatten]
  simp only [stringsSplit, h2, h]
  rfl

/-- C16: a device id with a colon in it passes the checks of the transport handler and of
`Login` (only an empty device id is refused), and the session identifier built from it does
not split into the user id and the device id: the login with the device id `dev:1` succeeds,
the identifier `user-123:dev:1` splits into three parts, and the refresh, the logout and the
logout of all devices that present the tokens of that login fail with `invalid session
format`.  Two different pairs can also give one identifier.  For user ids without a colon equal
identifiers do come from equal pairs, and when the device id has no colon either the
identifier splits into exactly the user id and the device id. -/
theorem session_identifier_with_colon :
    isOk runLoginColonDevice.1 = true
    ∧ stringsSplit ("user-123" ++ ":" ++ "dev:1") ':' = ["user-123", "dev", "1"]
    ∧ (fixtureAuth.GetRefreshToken (responseRefresh runLoginColonDevice.1)
          runLoginColonDevice.2).1
        = .error (.new "invalid session format: user-123:dev:1")
    ∧ (fixtureAuth.Logout (responseAccess runLoginColonDevice.1) runLoginColonDevice.2).1
        = some (.new "invalid session format: user-123:dev:1")
    ∧ (fixtureAuth.LogoutAll (responseAccess runLoginColonDevice.1) runLoginColonDevice.2).1
        = some (.new "invalid session format: user-123:dev:1")
    ∧ ("a" ++ ":" ++ "b:c" = "a:b" ++ ":" ++ "c" ∧ ("a", "b:c") ≠ ("a:b", "c"))
    ∧ (∀ u d u' d' : String, ':' ∉ u.data → ':' ∉ u'.data →
        u ++ ":" ++ d = u' ++ ":" ++ d' → u = u' ∧ d = d')
    ∧ (∀ u d : String, ':' ∉ u.data → ':' ∉ d.data →
        stringsSplit (u ++ ":" ++ d) ':' = [u, d]) :=
  ⟨by decide, by decide, by decide, by decide, by decide, by decide,
   session_inj, session_split⟩

/-! ## VerifyEmail -/

/-- The runs of `VerifyEmail`: the calls it makes, in order, and what it returns. -/
theorem verifyEmail_trace {σ : Type} (a : Auth σ) (session code : String) (s0 : σ) :
    (∃ e s1, a.redis.GetTemporarySession session s0 = (.error e, s1)
      ∧ a.recorded.VerifyEmail session code (s0, [])
        = (("", some (.new "operations timed out")),
           (s1, [Call.GetTemporarySession session (.error e)])))
    ∨ (∃ user s1, a.redis.GetTemporarySession session s0 = (.ok user, s1)
      ∧ user.Code ≠ code
      ∧ a.recorded.VerifyEmail session code (s0, [])
        = (("", some (.new "invalid code")),
           (s1, [Call.GetTemporarySession session (.ok user)])))
    ∨ (∃ user s1 e s2, a.redis.GetTemporarySession session s0 = (.ok user, s1)
      ∧ user.Code = code
      ∧ a.provider.RegisterUsers user.Email user.Name user.Password s1 = (.error e, s2)
      ∧ a.recorded.VerifyEmail session code (s0, [])
        = (("", some e),
           (s2, [Call.GetTemporarySession session (.ok user),
                 Call.RegisterUsers user.Email user.Name user.Password (.error e)])))
    ∨ (∃ user s1 id s2 e s3, a.redis.GetTemporarySession session s0 = (.ok user, s1)
      ∧ user.Code = code
      ∧ a.provider.RegisterUsers user.Email user.Name user.Password s1 = (.ok id, s2)
      ∧ a.redis.DeleteTemporarySession session s2 = (some e, s3)
      ∧ a.recorded.VerifyEmail session code (s0, [])
        = (("", some e),
           (s3, [Call.GetTemporarySession session (.ok user),
                 Call.RegisterUsers user.Email user.Name user.Password (.ok id),
                 Call.DeleteTemporarySession session (some e)])))
    ∨ (∃ user s1 id s2 s3, a.redis.GetTemporarySession session s0 = (.ok user, s1)
      ∧ user.Code = code
      ∧ a.provider.RegisterUsers user.Email user.Name user.Password s1 = (.ok id, s2)
      ∧ a.redis.DeleteTemporarySession session s2 = (none, s3)
      ∧ a.recorded.VerifyEmail session code (s0, [])
        = ((id, none),
           (s3, [Call.GetTemporarySession session (.ok user),
                 Call.RegisterUsers user.Email user.Name user.Password (.ok id),
                 Call.DeleteTemporarySession session none]))) := by
  rcases hG : a.redis.GetTemporarySession session s0 with ⟨r, s1⟩
  rcases r with e | user
  · left
    refine ⟨e, s1, rfl, ?_⟩
    simp [Auth.VerifyEmail, Auth.recorded, Storage.recorded, record, hG]
  · right
    by_cases hc : user.Code = code
    · right
      rcases hR : a.provider.RegisterUsers user.Email user.Name user.Password s1 with ⟨r2, s2⟩
      rcases r2 with e | id
      · left
        refine ⟨user, s1, e, s2, rfl, hc, hR, ?_⟩
        simp [Auth.VerifyEmail, Auth.recorded, Storage.recorded, Provider.recorded, record, hG,
          hc, hR]
      · right
        rcases hD : a.redis.DeleteTemporarySession session s2 with ⟨r3, s3⟩
        rcases r3 with _ | e
        · right
          refine ⟨user, s1, id, s2, s3, rfl, hc, hR, hD, ?_⟩
          simp [Auth.VerifyEmail, Auth.recorded, Storage.recorded, Provider.recorded, record,
            hG, hc, hR, hD]
        · left
          refine ⟨user, s1, id, s2, e, s3, rfl, hc, hR, hD, ?_⟩
          simp [Auth.VerifyEmail, Auth.recorded, Storage.recorded, Provider.recorded, record,
            hG, hc, hR, hD]
    · left
      refine ⟨user, s1, rfl, hc, ?_⟩
      simp [Auth.VerifyEmail, Auth.recorded, Storage.recorded, record, hG, hc]

theorem verifyEmail_unrecorded {σ : Type} (a : Auth σ) (session code : String) (s0 : σ) :
    a.VerifyEmail session code s0
      = ((a.recorded.VerifyEmail session code (s0, [])).1,
         (a.recorded.VerifyEmail session code (s0, [])).2.1) := by
  rcases hG : a.redis.GetTemporarySession session s0 with ⟨r, s1⟩
  rcases r with e | user
  · simp [Auth.VerifyEmail, Auth.recorded, Storage.recorded, record, hG]
  · by_cases hc : user.Code = code
    · rcases hR : a.provider.RegisterUsers user.Email user.Name user.Password s1 with ⟨r2, s2⟩
      rcases r2 with e | id
      · simp [Auth.VerifyEmail, Auth.recorded, Storage.recorded, Provider.recorded, record, hG,
          hc, hR]
      · rcases hD : a.redis.DeleteTemporarySession session s2 with ⟨r3, s3⟩
        rcases r3 with _ | e <;>
          simp [Auth.VerifyEmail, Auth.recorded, Storage.recorded, Provider.recorded, record,
            hG, hc, hR, hD]
    · simp [Auth.VerifyEmail, Auth.recorded, Storage.recorded, record, hG, hc]

theorem reg_GetTemporarySession_state {τ : Type} (p : Provider τ) (t : Generate τ)
    (e : EmailSender τ) (ttl : Int) (session : String) (st : Store) (w : τ) :
    ((registryAuth p t e ttl).redis.GetTemporarySession session (st, w)).2 = (st, w) := by
  simp only [registryAuth, NewServer, Storage.onStore, onFst, NewRepositoryRedis,
    repositoryRedis.GetTemporarySession, memClient]
  cases hk : st session with
  | none => simp
  | some v =>
    cases v with
    | str x => simp only []; cases jsonUnmarshalUserTemporary x <;> simp
    | set ms => simp

/-- C23: when the pending record that `GetTemporarySession` returns has a code different
from the submitted one, `VerifyEmail` returns the empty user id with the error `invalid code`,
and the only call it has made is `GetTemporarySession`: neither `RegisterUsers` nor
`DeleteTemporarySession` is called.  Over the registry on the key-value store the whole state
is as before the call, so the pending record is still there. -/
theorem verifyEmail_wrong_code {σ : Type} (a : Auth σ) (session code : String) (s0 s1 : σ)
    (user : UserTemporary)
    (hG : a.redis.GetTemporarySession session s0 = (.ok user, s1))
    (hne : user.Code ≠ code) :
    a.VerifyEmail session code s0 = (("", some (.new "invalid code")), s1)
    ∧ a.recorded.VerifyEmail session code (s0, [])
        = (("", some (.new "invalid code")),
           (s1, [Call.GetTemporarySession session (.ok user)]))
    ∧ ∀ (τ : Type) (p : Provider τ) (t : Generate τ) (e : EmailSender τ) (ttl : Int)
        (st : Store) (w : τ),
        ((registryAuth p t e ttl).redis.GetTemporarySession session (st, w)).1 = .ok user →
        (registryAuth p t e ttl).VerifyEmail session code (st, w)
          = (("", some (.new "invalid code")), (st, w)) := by
  refine ⟨?_, ?_, ?_⟩
  · simp [Auth.VerifyEmail, hG, hne]
  · simp [Auth.VerifyEmail, Auth.recorded, Storage.recorded, record, hG, hne]
  · intro τ p t e ttl st w h
    have hs := reg_GetTemporarySession_state p t e ttl session st w
    have hG2 : (registryAuth p t e ttl).redis.GetTemporarySession session (st, w)
        = (.ok user, (st, w)) := Prod.ext h hs
    simp [Auth.VerifyEmail, hG2, hne]

/-- The case of the test `TestVerifyEmail_WrongCode`: the code `1234` is stored and `9999` is
submitted. -/
theorem verifyEmail_wrong_code_witness :
    (mockAuth { getTemporarySession := .ok fixturePending }).recorded.VerifyEmail
        "user:test@gmail.com" "9999" ((), [])
      = (("", some (.new "invalid code")),
         ((), [Call.GetTemporarySession "user:test@gmail.com" (.ok fixturePending)])) :=
  (verifyEmail_wrong_code (mockAuth { getTemporarySession := .ok fixturePending })
    "user:test@gmail.com" "9999" () () fixturePending rfl (by decide)).2.1

/-- C30: when the code matches and `RegisterUsers` succeeds but `DeleteTemporarySession`
returns an error, `VerifyEmail` returns that error together with the empty user id: the id of
the user just created is not returned.  In every run of `VerifyEmail` a call of
`DeleteTemporarySession` comes right after a call of `RegisterUsers` that succeeded, and a
user id is returned without error only in a run whose last call is a
`DeleteTemporarySession` that succeeded. -/
theorem verifyEmail_delete_after_register {σ : Type} (a : Auth σ) (session code : String)
    (s0 s1 s2 s3 : σ) (user : UserTemporary) (id : String) (err : Err)
    (hG : a.redis.GetTemporarySession session s0 = (.ok user, s1))
    (hc : user.Code = code)
    (hR : a.provider.RegisterUsers user.Email user.Name user.Password s1 = (.ok id, s2))
    (hD : a.redis.DeleteTemporarySession session s2 = (some err, s3)) :
    a.VerifyEmail session code s0 = (("", some err), s3)
    ∧ a.recorded.VerifyEmail session code (s0, [])
        = (("", some err),
           (s3, [Call.GetTemporarySession session (.ok user),
                 Call.RegisterUsers user.Email user.Name user.Password (.ok id),
                 Call.DeleteTemporarySession session (some err)]))
    ∧ (∀ (code' : String) (s : σ) (pre post : List Call) (d : String) (res : Option Err),
        (a.recorded.VerifyEmail session code' (s, [])).2.2
          = pre ++ Call.DeleteTemporarySession d res :: post →
        ∃ pre' em nm pw id', pre = pre' ++ [Call.RegisterUsers em nm pw (.ok id')])
    ∧ (∀ (code' : String) (s : σ),
        (a.recorded.VerifyEmail session code' (s, [])).1.2 = none →
        ∃ pre, (a.recorded.VerifyEmail session code' (s, [])).2.2
          = pre ++ [Call.DeleteTemporarySession session none]) := by
  refine ⟨?_, ?_, ?_, ?_⟩
  · simp [Auth.VerifyEmail, hG, hc, hR, hD]
  · simp [Auth.VerifyEmail, Auth.recorded, Storage.recorded, Provider.recorded, record, hG,
      hc, hR, hD]
  · intro code' s pre post d res hlog
    rcases verifyEmail_trace a session code' s with
      ⟨e, t1, _, h⟩ | ⟨u, t1, _, _, h⟩ | ⟨u, t1, e, t2, _, _, _, h⟩
      | ⟨u, t1, i, t2, e, t3, _, _, _, _, h⟩ | ⟨u, t1, i, t2, t3, _, _, _, _, h⟩
    all_goals rw [h] at hlog
    all_goals simp only [] at hlog
    · rcases pre with _ | ⟨c, pre⟩ <;> simp at hlog
    · rcases pre with _ | ⟨c, pre⟩ <;> simp at hlog
    · rcases pre with _ | ⟨c, _ | ⟨c2, pre⟩⟩ <;> simp at hlog
    · rcases pre with _ | ⟨c, _ | ⟨c2, _ | ⟨c3, pre⟩⟩⟩ <;> simp at hlog
      obtain ⟨rfl, rfl, _⟩ := hlog
      exact ⟨[_], _, _, _, _, rfl⟩
    · rcases pre with _ | ⟨c, _ | ⟨c2, _ | ⟨c3, pre⟩⟩⟩ <;> simp at hlog
      obtain ⟨rfl, rfl, _⟩ := hlog
      exact ⟨[_], _, _, _, _, rfl⟩
  · intro code' s hnone
    rcases verifyEmail_trace a session code' s with
      ⟨e, t1, _, h⟩ | ⟨u, t1, _, _, h⟩ | ⟨u, t1, e, t2, _, _, _, h⟩
      | ⟨u, t1, i, t2, e, t3, _, _, _, _, h⟩ | ⟨u, t1, i, t2, t3, _, _, _, _, h⟩
    all_goals rw [h] at hnone ⊢
    all_goals simp only [] at hnone ⊢
    all_goals first
      | exact ⟨[_, _], rfl⟩
      | simp at hnone

/-- The pending record of the tests, a directory that creates the user `user-123`, and a
registry whose deletion fails. -/
theorem verifyEmail_delete_after_register_witness :
    (mockAuth { getTemporarySession := .ok fixturePending,
                deleteTemporarySession := some (.new "redis error") }).VerifyEmail
        "user:test@gmail.com" "1234" ()
      = (("", some (.new "redis error")), ()) :=
  (verifyEmail_delete_after_register
    (mockAuth { getTemporarySession := .ok fixturePending,
                deleteTemporarySession := some (.new "redis error") })
    "user:test@gmail.com" "1234" () () () () fixturePending
    "user-123" (.new "redis error") rfl rfl rfl rfl).1

/-! ## RegisterNewUser -/

theorem validateEmail_test_gmail : validateEmail "test@gmail.com" = none := by decide

theorem validatePassword_Password123 :
    validatePassword latin1Tables "Password123" = none := by decide

/-- What a run of `RegisterNewUser` that gets past the validation, the check of the directory
and the saving of the pending record calls and returns. -/
theorem register_run {σ : Type} (a : Auth σ) (unicode : UnicodeTables) (draw : Nat)
    (timing : SendTiming) (email name password : String) (s0 s1 s2 s3 : σ)
    (sendErr : Option Err)
    (hE : validateEmail email = none) (hP : validatePassword unicode password = none)
    (hX : a.provider.Exists email s0 = (none, s1))
    (hS : a.redis.SaveTemporarySession
        { SessionId := "user:" ++ email, Code := generateCode draw, Name := name,
          Email := email, Password := password } s1 = (none, s2))
    (hM : a.sender.SendVerificationCode email name (generateCode draw) s2 = (sendErr, s3)) :
    a.recorded.RegisterNewUser unicode draw timing email name password (s0, [])
      = (("user:" ++ email, if timing = .duringReturn then sendErr else none),
         (s3, [Call.Exists email none,
               Call.SaveTemporarySession
                 { SessionId := "user:" ++ email, Code := generateCode draw, Name := name,
                   Email := email, Password := password } none,
               Call.SendVerificationCode email name (generateCode draw) sendErr]))
    ∧ a.RegisterNewUser unicode draw timing email name password s0
      = (("user:" ++ email, if timing = .duringReturn then sendErr else none), s3) := by
  constructor
  · cases timing <;>
      simp [Auth.RegisterNewUser, Auth.recorded, Storage.recorded, Provider.recorded,
        EmailSender.recorded, record, hE, hP, hX, hS, hM]
  · cases timing <;> simp [Auth.RegisterNewUser, hE, hP, hX, hS, hM]

/-- C21: the goroutine that sends the mail assigns its result to the named result `err` of
`RegisterNewUser`, which the function reads when it returns.  When that assignment lands
between the statement `return session, nil` and the return itself, a failure of the send is
returned next to the session handle, and the transport handler answers with an error although
the pending record is stored: with a sender that fails with `SMTP error` the result is the
handle `user:test@gmail.com` together with that error.  For every service and every timing
the other parts hold: the handle is `user:` followed by the email, the record passed to
`SaveTemporarySession` has that handle, the code and the inputs, the same code, email and name
go to `SendVerificationCode`, and when the assignment does not land in that window the result
is the handle without error whatever the send returns. -/
theorem register_send_failure_reaches_result :
    (mockAuth { sendVerificationCode := some (.new "SMTP error") }).RegisterNewUser
        latin1Tables 42 .duringReturn "test@gmail.com" "Test" "Password123" ()
      = (("user:test@gmail.com", some (.new "SMTP error")), ())
    ∧ (serverApi.Register (mockAuth { sendVerificationCode := some (.new "SMTP error") })
        latin1Tables 42 .duringReturn "test@gmail.com" "Test" "Password123" ()).1
      = .error (statusError "InvalidArgument" "SMTP error")
    ∧ (serverApi.Register (mockAuth { sendVerificationCode := some (.new "SMTP error") })
        latin1Tables 42 .afterReturn "test@gmail.com" "Test" "Password123" ()).1
      = .ok { Session := "user:test@gmail.com" }
    ∧ ∀ (σ : Type) (a : Auth σ) (unicode : UnicodeTables) (draw : Nat) (timing : SendTiming)
        (email name password : String) (s0 s1 s2 s3 : σ) (sendErr : Option Err),
        validateEmail email = none → validatePassword unicode password = none →
        a.provider.Exists email s0 = (none, s1) →
        a.redis.SaveTemporarySession
          { SessionId := "user:" ++ email, Code := generateCode draw, Name := name,
            Email := email, Password := password } s1 = (none, s2) →
        a.sender.SendVerificationCode email name (generateCode draw) s2 = (sendErr, s3) →
        a.recorded.RegisterNewUser unicode draw timing email name password (s0, [])
          = (("user:" ++ email, if timing = .duringReturn then sendErr else none),
             (s3, [Call.Exists email none,
                   Call.SaveTemporarySession
                     { SessionId := "user:" ++ email, Code := generateCode draw, Name := name,
                       Email := email, Password := password } none,
                   Call.SendVerificationCode email name (generateCode draw) sendErr])) := by
  have h1 := (register_run (mockAuth { sendVerificationCode := some (.new "SMTP error") })
    latin1Tables 42 .duringReturn "test@gmail.com" "Test" "Password123" () () () ()
    (some (.new "SMTP error")) validateEmail_test_gmail validatePassword_Password123
    rfl rfl rfl).2
  have h2 := (register_run (mockAuth { sendVerificationCode := some (.new "SMTP error") })
    latin1Tables 42 .afterReturn "test@gmail.com" "Test" "Password123" () () () ()
    (some (.new "SMTP error")) validateEmail_test_gmail validatePassword_Password123
    rfl rfl rfl).2
  refine ⟨?_, ?_, ?_, ?_⟩
  · rw [h1]; decide
  · unfold serverApi.Register
    rw [h1]; decide
  · unfold serverApi.Register
    rw [h2]; decide
  · intro σ a unicode draw timing email name password s0 s1 s2 s3 sendErr hE hP hX hS hM
    exact (register_run a unicode draw timing email name password s0 s1 s2 s3 sendErr
      hE hP hX hS hM).1

/-- C22: `SaveTemporarySession` does not look at the result of `Set`: for every store client,
every record and every state it returns nil (the only error it can return is that of
`json.Marshal`, which is nil).  Over a client whose `Set` fails, `RegisterNewUser` therefore
returns the session handle and sends the verification mail, while nothing was stored: the
pending record cannot be read back and `VerifyEmail` with the code that was sent fails. -/
theorem saveTemporarySession_ignores_set_failure :
    (∀ (κ : Type) (r : repositoryRedis κ) (u : UserTemporary) (k : κ),
        (r.SaveTemporarySession u k).1 = none)
    ∧ (failingSetClient.Set "user:test@gmail.com"
          (jsonMarshalUserTemporary fixtureRegistration).1
          180000000000 Store.empty).1 = some (.new "dial tcp: connection refused")
    ∧ (failingSetAuth.recorded.RegisterNewUser latin1Tables 42 .afterReturn "test@gmail.com"
          "Test" "Password123" ((Store.empty, fixtureClock), [])).1
        = ("user:test@gmail.com", none)
    ∧ (failingSetAuth.recorded.RegisterNewUser latin1Tables 42 .afterReturn "test@gmail.com"
          "Test" "Password123" ((Store.empty, fixtureClock), [])).2.2
        = [Call.Exists "test@gmail.com" none,
           Call.SaveTemporarySession fixtureRegistration none,
           Call.SendVerificationCode "test@gmail.com" "Test" "0042" none]
    ∧ (failingSetAuth.redis.GetTemporarySession "user:test@gmail.com"
          (failingSetAuth.RegisterNewUser latin1Tables 42 .afterReturn "test@gmail.com"
            "Test" "Password123" (Store.empty, fixtureClock)).2).1 = .error .redisNil
    ∧ (failingSetAuth.VerifyEmail "user:test@gmail.com" "0042"
          (failingSetAuth.RegisterNewUser latin1Tables 42 .afterReturn "test@gmail.com"
            "Test" "Password123" (Store.empty, fixtureClock)).2).1
        = ("", some (.new "operations timed out")) := by
  have hrun := register_run failingSetAuth latin1Tables 42 .afterReturn "test@gmail.com"
    "Test" "Password123" (Store.empty, fixtureClock) (Store.empty, fixtureClock)
    (Store.empty, fixtureClock) (Store.empty, fixtureClock) none
    validateEmail_test_gmail validatePassword_Password123 rfl rfl rfl
  refine ⟨?_, ?_, ?_, ?_, ?_, ?_⟩
  · intro κ r u k
    simp [repositoryRedis.SaveTemporarySession, jsonMarshalUserTemporary]
  · rfl
  · rw [hrun.1]; decide
  · rw [hrun.1]; decide
  · rw [hrun.2]; decide
  · rw [hrun.2]; decide

/-! ## The pending record in the key-value store -/

theorem jsonExpect_append (lit rest : List Char) : jsonExpect lit (lit ++ rest) = some rest := by
  simp [jsonExpect]

theorem jsonUnmarshalUserTemporary_marshal (u : UserTemporary) :
    jsonUnmarshalUserTemporary (jsonMarshalUserTemporary u).1 = .ok u := by
  obtain ⟨sid, code, name, email, pw⟩ := u
  have h1 : ∀ (lit a rest : List Char),
      jsonExpect lit (lit ++ (jsonEscape a ++ rest)) = some (jsonEscape a ++ rest) :=
    fun lit a rest => jsonExpect_append lit _
  simp only [jsonUnmarshalUserTemporary, jsonMarshalUserTemporary, List.append_assoc]
  rw [h1]
  simp only [Option.bind_eq_bind, Option.some_bind]
  simp [jsonScanString_escape, jsonExpect, List.isPrefixOf]

theorem reg_SaveTemporarySession (u : UserTemporary) (st : Store) (w : τ) :
    (registryAuth p t e ttl).redis.SaveTemporarySession u (st, w)
      = (none, (st.put u.SessionId (some (.str (jsonMarshalUserTemporary u).1)), w)) := by
  simp [registryAuth, NewServer, Storage.onStore, onFst, NewRepositoryRedis,
    repositoryRedis.SaveTemporarySession, memClient, jsonMarshalUserTemporary]

theorem reg_GetTemporarySession_stored (session : String) (u : UserTemporary) (st : Store)
    (w : τ) (h : st session = some (.str (jsonMarshalUserTemporary u).1)) :
    (registryAuth p t e ttl).redis.GetTemporarySession session (st, w) = (.ok u, (st, w)) := by
  simp [registryAuth, NewServer, Storage.onStore, onFst, NewRepositoryRedis,
    repositoryRedis.GetTemporarySession, memClient, h, jsonUnmarshalUserTemporary_marshal]

theorem reg_GetTemporarySession_absent (session : String) (st : Store) (w : τ)
    (h : st session = none) :
    (registryAuth p t e ttl).redis.GetTemporarySession session (st, w)
      = (.error .redisNil, (st, w)) := by
  simp [registryAuth, NewServer, Storage.onStore, onFst, NewRepositoryRedis,
    repositoryRedis.GetTemporarySession, memClient, h]

theorem reg_DeleteTemporarySession (session : String) (st : Store) (w : τ) :
    (registryAuth p t e ttl).redis.DeleteTemporarySession session (st, w)
      = (none, (st.put session none, w)) := by
  obtain ⟨n, hn⟩ := memClient_Del session st
  simp [registryAuth, NewServer, Storage.onStore, onFst, NewRepositoryRedis,
    repositoryRedis.DeleteTemporarySession, hn]

theorem reg_Exists (email : String) (st : Store) (w : τ) :
    (registryAuth p t e ttl).provider.Exists email (st, w)
      = ((p.Exists email w).1, (st, (p.Exists email w).2)) := rfl

theorem reg_RegisterUsers (email name password : String) (st : Store) (w : τ) :
    (registryAuth p t e ttl).provider.RegisterUsers email name password (st, w)
      = ((p.RegisterUsers email name password w).1,
         (st, (p.RegisterUsers email name password w).2)) := rfl

theorem reg_SendVerificationCode (email name code : String) (st : Store) (w : τ) :
    (registryAuth p t e ttl).sender.SendVerificationCode email name code (st, w)
      = ((e.SendVerificationCode email name code w).1,
         (st, (e.SendVerificationCode email name code w).2)) := rfl

/-- What a run of `RegisterNewUser` that returns no error has done. -/
theorem register_ok_inv {σ : Type} (a : Auth σ) (unicode : UnicodeTables) (draw : Nat)
    (timing : SendTiming) (email name password uid : String) (s0 s' : σ)
    (h : a.RegisterNewUser unicode draw timing email name password s0 = ((uid, none), s')) :
    uid = "user:" ++ email ∧ validateEmail email = none
    ∧ validatePassword unicode password = none
    ∧ ∃ s1 s2 sendErr, a.provider.Exists email s0 = (none, s1)
      ∧ a.redis.SaveTemporarySession
          { SessionId := "user:" ++ email, Code := generateCode draw, Name := name,
            Email := email, Password := password } s1 = (none, s2)
      ∧ a.sender.SendVerificationCode email name (generateCode draw) s2 = (sendErr, s') := by
  unfold Auth.RegisterNewUser at h
  cases hE : validateEmail email with
  | some err => simp [hE] at h
  | none =>
    cases hP : validatePassword unicode password with
    | some err => simp [hE, hP] at h
    | none =>
      rcases hX : a.provider.Exists email s0 with ⟨r1, s1⟩
      rcases r1 with _ | err
      · rcases hS : a.redis.SaveTemporarySession
            { SessionId := "user:" ++ email, Code := generateCode draw, Name := name,
              Email := email, Password := password } s1 with ⟨r2, s2⟩
        rcases r2 with _ | err
        · rcases hM : a.sender.SendVerificationCode email name (generateCode draw) s2
            with ⟨sendErr, s3⟩
          simp only [hE, hP, hX, hS, hM] at h
          have h2 : s3 = s' := by
            cases timing <;> simp only [Prod.mk.injEq] at h <;> exact h.2
          have h1 : "user:" ++ email = uid := by
            cases timing <;> simp only [Prod.mk.injEq] at h <;> exact h.1.1
          subst h2
          exact ⟨h1.symm, rfl, rfl, s1, s2, sendErr, rfl, hS, hM⟩
        · simp [hE, hP, hX, hS] at h
      · simp [hE, hP, hX] at h

/-- C24: over the registry on the key-value store, after a `RegisterNewUser` that returned a
session handle without error, the pending record is stored under the handle with the code of
the registration; `VerifyEmail` with the handle and that code calls `RegisterUsers` with the
email, name and password of the registration, returns the user id it produced and deletes the
pending record, so that a later `VerifyEmail` with the same handle, whatever the code, fails
because the record is not found. -/
theorem registration_round_trip (unicode : UnicodeTables) (draw : Nat) (timing : SendTiming)
    (email name password session id : String) (st0 st1 : Store) (w0 w1 w2 : τ)
    (hreg : (registryAuth p t e ttl).RegisterNewUser unicode draw timing email name password
        (st0, w0) = ((session, none), (st1, w1)))
    (hR : p.RegisterUsers email name password w1 = (.ok id, w2)) :
    session = "user:" ++ email
    ∧ (registryAuth p t e ttl).redis.GetTemporarySession session (st1, w1)
        = (.ok { SessionId := session, Code := generateCode draw, Name := name,
                 Email := email, Password := password }, (st1, w1))
    ∧ (registryAuth p t e ttl).recorded.VerifyEmail session (generateCode draw) ((st1, w1), [])
        = ((id, none),
           ((st1.put session none, w2),
            [Call.GetTemporarySession session
               (.ok { SessionId := session, Code := generateCode draw, Name := name,
                      Email := email, Password := password }),
             Call.RegisterUsers email name password (.ok id),
             Call.DeleteTemporarySession session none]))
    ∧ (registryAuth p t e ttl).VerifyEmail session (generateCode draw) (st1, w1)
        = ((id, none), (st1.put session none, w2))
    ∧ ∀ (code' : String) (w : τ),
        (registryAuth p t e ttl).VerifyEmail session code' (st1.put session none, w)
          = (("", some (.new "operations timed out")), (st1.put session none, w)) := by
  obtain ⟨hs, _, _, s1, s2, sendErr, hX, hS, hM⟩ :=
    register_ok_inv (registryAuth p t e ttl) unicode draw timing email name password session
      (st0, w0) (st1, w1) hreg
  subst hs
  obtain ⟨sa, wa⟩ := s1
  obtain ⟨sb, wb⟩ := s2
  rw [reg_Exists] at hX
  rw [reg_SaveTemporarySession] at hS
  rw [reg_SendVerificationCode] at hM
  simp only [Prod.mk.injEq] at hX hS hM
  obtain ⟨_, hsa, _⟩ := hX
  obtain ⟨_, hsb, _⟩ := hS
  obtain ⟨_, hst1, _⟩ := hM
  have hstored : st1 ("user:" ++ email)
      = some (.str (jsonMarshalUserTemporary
          ⟨"user:" ++ email, generateCode draw, name, email, password⟩).1) := by
    rw [← hst1, ← hsb]
    exact Store.put_same _ _ _
  have hG := reg_GetTemporarySession_stored p t e ttl ("user:" ++ email) _ st1 w1 hstored
  have hRR : (registryAuth p t e ttl).provider.RegisterUsers email name password (st1, w1)
      = (.ok id, (st1, w2)) := by
    rw [reg_RegisterUsers, hR]
  have hD := reg_DeleteTemporarySession p t e ttl ("user:" ++ email) st1 w2
  refine ⟨rfl, hG, ?_, ?_, ?_⟩
  · simp [Auth.VerifyEmail, Auth.recorded, Storage.recorded, Provider.recorded, record, hG,
      hRR, hD]
  · simp [Auth.VerifyEmail, hG, hRR, hD]
  · intro code' w
    have hA := reg_GetTemporarySession_absent p t e ttl ("user:" ++ email)
      (st1.put ("user:" ++ email) none) w (Store.put_same _ _ _)
    simp [Auth.VerifyEmail, hA]

/-- The registration of `test@gmail.com` on the service of the fixtures, whose directory
creates the user `user-123`: the verification with the code `0042` returns that id, and a
second verification fails. -/
theorem registration_round_trip_witness :
    runRegister.1 = ("user:test@gmail.com", none)
    ∧ (fixtureAuth.VerifyEmail "user:test@gmail.com" "0042" runRegister.2).1
        = ("user-123", none)
    ∧ (fixtureAuth.VerifyEmail "user:test@gmail.com" "0042"
          (fixtureAuth.VerifyEmail "user:test@gmail.com" "0042" runRegister.2).2).1
        = ("", some (.new "operations timed out")) := by
  have hreg : fixtureAuth.RegisterNewUser latin1Tables 42 .afterReturn "test@gmail.com" "Test"
      "Password123" (Store.empty, fixtureClock)
      = (("user:test@gmail.com", none), (runRegister.2.1, runRegister.2.2)) :=
    Prod.ext ((register_run fixtureAuth latin1Tables 42 .afterReturn "test@gmail.com" "Test"
      "Password123" (Store.empty, fixtureClock) (Store.empty, fixtureClock) _ _ none
      validateEmail_test_gmail validatePassword_Password123 rfl rfl rfl).2 ▸ rfl) rfl
  have h := registration_round_trip (fixtureProvider Clock)
    (fixtureManager.toGenerate fixtureHMAC) (fixtureSender Clock) 604800000000000
    latin1Tables 42 .afterReturn "test@gmail.com" "Test" "Password123" "user:test@gmail.com"
    "user-123" Store.empty runRegister.2.1 fixtureClock runRegister.2.2 runRegister.2.2
    hreg rfl
  refine ⟨congrArg Prod.fst hreg, ?_, ?_⟩
  · have h4 := h.2.2.2.1
    exact congrArg Prod.fst h4
  · have h4 := h.2.2.2.1
    have h5 := h.2.2.2.2 "0042" runRegister.2.2
    rw [show fixtureAuth.VerifyEmail "user:test@gmail.com" "0042" runRegister.2
        = (("user-123", none), (runRegister.2.1.put "user:test@gmail.com" none,
            runRegister.2.2)) from h4]
    exact congrArg Prod.fst h5

/-! ## Rejected refreshes -/

theorem refresh_rejected_early {σ : Type} (a : Auth σ) (refreshToken : String) (s0 : σ)
    (h : a.rejectsRefreshEarly refreshToken s0) :
    isOk (a.GetRefreshToken refreshToken s0).1 = false
    ∧ isOk (a.recorded.GetRefreshToken refreshToken (s0, [])).1 = false
    ∧ (∀ c ∈ (a.recorded.GetRefreshToken refreshToken (s0, [])).2.2, c.readsOnly = true)
    ∧ ∀ P : σ → Prop, P s0 →
        (∀ s tok, P s → P (a.token.VerifyRefreshToken tok s).2) →
        (∀ s k, P s → P (a.redis.Get k s).2) →
        (∀ s u, P s → P (a.provider.FindOneUsers u s).2) →
        P (a.GetRefreshToken refreshToken s0).2 := by
  by_cases hempty : refreshToken = ""
  · subst hempty
    refine ⟨by simp [Auth.GetRefreshToken, isOk], by simp [Auth.GetRefreshToken, isOk],
      by simp [Auth.GetRefreshToken], ?_⟩
    intro P h0 _ _ _
    simpa [Auth.GetRefreshToken] using h0
  rcases h with h | h | h
  · exact absurd h hempty
  · obtain ⟨err, s1, hV⟩ := h
    refine ⟨?_, ?_, ?_, ?_⟩
    · by_cases hx : stringsContains err.Error "expired" = true <;>
        simp [Auth.GetRefreshToken, hempty, hV, hx, isOk]
    · by_cases hx : stringsContains err.Error "expired" = true <;>
        simp [Auth.GetRefreshToken, Auth.recorded, Generate.recorded, record, hempty, hV, hx,
          isOk]
    · by_cases hx : stringsContains err.Error "expired" = true <;>
        simp [Auth.GetRefreshToken, Auth.recorded, Generate.recorded, record, hempty, hV, hx,
          Call.readsOnly]
    · intro P h0 hPV _ _
      have := hPV s0 refreshToken h0
      rw [hV] at this
      by_cases hx : stringsContains err.Error "expired" = true <;>
        simpa [Auth.GetRefreshToken, hempty, hV, hx] using this
  · obtain ⟨claims, s1, hV, h⟩ := h
    have hP1 : ∀ P : σ → Prop, P s0 →
        (∀ s tok, P s → P (a.token.VerifyRefreshToken tok s).2) → P s1 := by
      intro P h0 hPV
      have := hPV s0 refreshToken h0
      rwa [hV] at this
    rcases h with h | h | ⟨sid, hsid, h⟩
    · refine ⟨by simp [Auth.GetRefreshToken, hempty, hV, h, isOk],
        by simp [Auth.GetRefreshToken, Auth.recorded, Generate.recorded, record, hempty, hV, h,
          isOk],
        by simp [Auth.GetRefreshToken, Auth.recorded, Generate.recorded, record, hempty, hV, h,
          Call.readsOnly], ?_⟩
      intro P h0 hPV _ _
      simpa [Auth.GetRefreshToken, hempty, hV, h] using hP1 P h0 hPV
    · refine ⟨by simp [Auth.GetRefreshToken, hempty, hV, h, isOk],
        by simp [Auth.GetRefreshToken, Auth.recorded, Generate.recorded, record, hempty, hV, h,
          isOk],
        by simp [Auth.GetRefreshToken, Auth.recorded, Generate.recorded, record, hempty, hV, h,
          Call.readsOnly], ?_⟩
      intro P h0 hPV _ _
      simpa [Auth.GetRefreshToken, hempty, hV, h] using hP1 P h0 hPV
    · by_cases hsid0 : sid = ""
      · subst hsid0
        refine ⟨by simp [Auth.GetRefreshToken, hempty, hV, hsid, isOk],
          by simp [Auth.GetRefreshToken, Auth.recorded, Generate.recorded, record, hempty, hV,
            hsid, isOk],
          by simp [Auth.GetRefreshToken, Auth.recorded, Generate.recorded, record, hempty, hV,
            hsid, Call.readsOnly], ?_⟩
        intro P h0 hPV _ _
        simpa [Auth.GetRefreshToken, hempty, hV, hsid] using hP1 P h0 hPV
      rcases h with ⟨err, s2, hG⟩ | ⟨stored, s2, hG, h⟩
      · have hP2 : ∀ P : σ → Prop, P s0 →
            (∀ s tok, P s → P (a.token.VerifyRefreshToken tok s).2) →
            (∀ s k, P s → P (a.redis.Get k s).2) → P s2 := by
          intro P h0 hPV hPG
          have := hPG s1 sid (hP1 P h0 hPV)
          rwa [hG] at this
        refine ⟨?_, ?_, ?_, ?_⟩
        · by_cases hn : err.isRedisNil = true <;>
            simp [Auth.GetRefreshToken, hempty, hV, hsid, hsid0, hG, hn, isOk]
        · by_cases hn : err.isRedisNil = true <;>
            simp [Auth.GetRefreshToken, Auth.recorded, Generate.recorded, Storage.recorded,
              record, hempty, hV, hsid, hsid0, hG, hn, isOk]
        · by_cases hn : err.isRedisNil = true <;>
            simp [Auth.GetRefreshToken, Auth.recorded, Generate.recorded, Storage.recorded,
              record, hempty, hV, hsid, hsid0, hG, hn, Call.readsOnly]
        · intro P h0 hPV hPG _
          by_cases hn : err.isRedisNil = true <;>
            simpa [Auth.GetRefreshToken, hempty, hV, hsid, hsid0, hG, hn]
              using hP2 P h0 hPV hPG
      · have hP2 : ∀ P : σ → Prop, P s0 →
            (∀ s tok, P s → P (a.token.VerifyRefreshToken tok s).2) →
            (∀ s k, P s → P (a.redis.Get k s).2) → P s2 := by
          intro P h0 hPV hPG
          have := hPG s1 sid (hP1 P h0 hPV)
          rwa [hG] at this
        by_cases hst : stored = refreshToken
        swap
        · refine ⟨by simp [Auth.GetRefreshToken, hempty, hV, hsid, hsid0, hG, hst, isOk],
            by simp [Auth.GetRefreshToken, Auth.recorded, Generate.recorded, Storage.recorded,
              record, hempty, hV, hsid, hsid0, hG, hst, isOk],
            by simp [Auth.GetRefreshToken, Auth.recorded, Generate.recorded, Storage.recorded,
              record, hempty, hV, hsid, hsid0, hG, hst, Call.readsOnly], ?_⟩
          intro P h0 hPV hPG _
          simpa [Auth.GetRefreshToken, hempty, hV, hsid, hsid0, hG, hst] using hP2 P h0 hPV hPG
        · rcases h with h | h | ⟨u, d, err, s3, hsp, hF⟩
          · exact absurd hst h
          · have hbad : ∀ (r : List String), stringsSplit sid ':' = r →
                (∀ u d, r ≠ [u, d]) := by
              intro r hr u d hud
              exact h ⟨u, d, hr.trans hud⟩
            rcases hsp : stringsSplit sid ':' with _ | ⟨x, _ | ⟨y, _ | ⟨z, l⟩⟩⟩
            · refine ⟨by simp [Auth.GetRefreshToken, hempty, hV, hsid, hsid0, hG, hst, hsp, isOk],
                by simp [Auth.GetRefreshToken, Auth.recorded, Generate.recorded,
                  Storage.recorded, record, hempty, hV, hsid, hsid0, hG, hst, hsp, isOk],
                by simp [Auth.GetRefreshToken, Auth.recorded, Generate.recorded,
                  Storage.recorded, record, hempty, hV, hsid, hsid0, hG, hst, hsp,
                  Call.readsOnly], ?_⟩
              intro P h0 hPV hPG _
              simpa [Auth.GetRefreshToken, hempty, hV, hsid, hsid0, hG, hst, hsp]
                using hP2 P h0 hPV hPG
            · refine ⟨by simp [Auth.GetRefreshToken, hempty, hV, hsid, hsid0, hG, hst, hsp, isOk],
                by simp [Auth.GetRefreshToken, Auth.recorded, Generate.recorded,
                  Storage.recorded, record, hempty, hV, hsid, hsid0, hG, hst, hsp, isOk],
                by simp [Auth.GetRefreshToken, Auth.recorded, Generate.recorded,
                  Storage.recorded, record, hempty, hV, hsid, hsid0, hG, hst, hsp,
                  Call.readsOnly], ?_⟩
              intro P h0 hPV hPG _
              simpa [Auth.GetRefreshToken, hempty, hV, hsid, hsid0, hG, hst, hsp]
                using hP2 P h0 hPV hPG
            · exact absurd rfl (hbad _ hsp x y)
            · refine ⟨by simp [Auth.GetRefreshToken, hempty, hV, hsid, hsid0, hG, hst, hsp, isOk],
                by simp [Auth.GetRefreshToken, Auth.recorded, Generate.recorded,
                  Storage.recorded, record, hempty, hV, hsid, hsid0, hG, hst, hsp, isOk],
                by simp [Auth.GetRefreshToken, Auth.recorded, Generate.recorded,
                  Storage.recorded, record, hempty, hV, hsid, hsid0, hG, hst, hsp,
                  Call.readsOnly], ?_⟩
              intro P h0 hPV hPG _
              simpa [Auth.GetRefreshToken, hempty, hV, hsid, hsid0, hG, hst, hsp]
                using hP2 P h0 hPV hPG
          · refine ⟨by simp [Auth.GetRefreshToken, hempty, hV, hsid, hsid0, hG, hst, hsp, hF,
                isOk],
              by simp [Auth.GetRefreshToken, Auth.recorded, Generate.recorded,
                Storage.recorded, Provider.recorded, record, hempty, hV, hsid, hsid0, hG, hst,
                hsp, hF, isOk],
              by simp [Auth.GetRefreshToken, Auth.recorded, Generate.recorded,
                Storage.recorded, Provider.recorded, record, hempty, hV, hsid, hsid0, hG, hst,
                hsp, hF, Call.readsOnly], ?_⟩
            intro P h0 hPV hPG hPF
            have := hPF s2 u (hP2 P h0 hPV hPG)
            rw [hF] at this
            simpa [Auth.GetRefreshToken, hempty, hV, hsid, hsid0, hG, hst, hsp, hF] using this

theorem readsOnly_no_effect (c : Call) (h : c.readsOnly = true) :
    c.increment = none ∧ c.isSave = false ∧ c.issuesOrStores = false := by
  cases c <;> simp [Call.readsOnly] at h <;>
    simp [Call.increment, Call.isSave, Call.issuesOrStores]

/-- C26: when `GetRefreshToken` rejects a token because it is empty, fails verification, has
no non-empty session claim, has no stored refresh token for its session, differs from the
stored refresh token, has a session id that does not split into exactly two parts, or because
the lookup of the user fails, then it returns an error and every call it has made is one of
`VerifyRefreshToken`, `Get` and `FindOneUsers`: it has called neither `IncrementTokenVersion`
nor `Save` and has generated no token.  Every property of the state that those three calls
preserve holds afterwards; over the registry on the key-value store the store is as before,
so the stored version and the stored refresh token of the session are unchanged. -/
theorem rejected_refresh_no_side_effects {σ : Type} (a : Auth σ) (refreshToken : String)
    (s0 : σ) (h : a.rejectsRefreshEarly refreshToken s0) :
    isOk (a.GetRefreshToken refreshToken s0).1 = false
    ∧ (∀ c ∈ (a.recorded.GetRefreshToken refreshToken (s0, [])).2.2,
        c.readsOnly = true ∧ c.increment = none ∧ c.isSave = false
          ∧ c.issuesOrStores = false)
    ∧ (∀ P : σ → Prop, P s0 →
        (∀ s tok, P s → P (a.token.VerifyRefreshToken tok s).2) →
        (∀ s k, P s → P (a.redis.Get k s).2) →
        (∀ s u, P s → P (a.provider.FindOneUsers u s).2) →
        P (a.GetRefreshToken refreshToken s0).2)
    ∧ ∀ (ρ : Type) (p' : Provider ρ) (t' : Generate ρ) (e' : EmailSender ρ) (ttl' : Int)
        (st : Store) (w : ρ),
        (registryAuth p' t' e' ttl').rejectsRefreshEarly refreshToken (st, w) →
        ((registryAuth p' t' e' ttl').GetRefreshToken refreshToken (st, w)).2.1 = st
        ∧ ∀ session, storedVersion
            ((registryAuth p' t' e' ttl').GetRefreshToken refreshToken (st, w)).2.1 session
              = storedVersion st session := by
  obtain ⟨h1, _, h3, h4⟩ := refresh_rejected_early a refreshToken s0 h
  refine ⟨h1, fun c hc => ⟨h3 c hc, readsOnly_no_effect c (h3 c hc)⟩, h4, ?_⟩
  intro ρ p' t' e' ttl' st w hr
  have hst : ((registryAuth p' t' e' ttl').GetRefreshToken refreshToken (st, w)).2.1 = st := by
    refine (refresh_rejected_early (registryAuth p' t' e' ttl') refreshToken (st, w) hr).2.2.2
      (fun s => s.1 = st) rfl ?_ ?_ ?_
    · intro s tok hs
      exact hs
    · intro s k hs
      obtain ⟨sa, wa⟩ := s
      rw [reg_Get_state]
      exact hs
    · intro s u hs
      exact hs
  exact ⟨hst, fun session => by rw [hst]⟩

/-- The case of a stored token that differs from the presented one: the test double of the
registry answers `Get` with another token. -/
theorem rejected_refresh_no_side_effects_witness :
    isOk ((mockAuth { get := .ok "another-token" }).GetRefreshToken "refresh-token-456" ()).1
      = false
    ∧ ((mockAuth { get := .ok "another-token" }).recorded.GetRefreshToken "refresh-token-456"
        ((), [])).2.2
      = [Call.VerifyRefreshToken "refresh-token-456"
           (.ok [("session", .str "user-123:device-123")]),
         Call.Get "user-123:device-123" (.ok "another-token")] :=
  ⟨(rejected_refresh_no_side_effects (mockAuth { get := .ok "another-token" })
      "refresh-token-456" ()
      (Or.inr (Or.inr ⟨[("session", .str "user-123:device-123")], (), rfl,
        Or.inr (Or.inr ⟨"user-123:device-123", by decide,
          Or.inr ⟨"another-token", (), rfl, Or.inl (by decide)⟩⟩)⟩))).1,
   by decide⟩

/-! ## C28: the secrets of the manager that `app.New` builds -/

/-- C28: `app.New` passes `cfg.Token.RefreshSecret` where `NewJWTManager` takes the access
secret and `cfg.Token.AccessSecret` where it takes the refresh secret, so for every
configuration the manager signs and verifies access tokens with the configured refresh secret
and refresh tokens with the configured access secret.  With the secrets `access-secret` and
`refresh-secret`, an access token of that manager is refused by a manager that holds the
configured secrets in their places, which accepts it as a refresh token. -/
theorem app_manager_secrets_swapped :
    (∀ cfg : Config, (appManager cfg).accessSecret = cfg.Token.RefreshSecret
      ∧ (appManager cfg).refreshSecret = cfg.Token.AccessSecret)
    ∧ (∀ (cfg : Config) (hmac : HMAC) (u : UserRefresh) (c0 : Clock),
        ((appManager cfg).GenerateAccessToken hmac u c0).1
          = SignedString hmac "HS256"
              (accessClaims (appManager cfg) u (c0.readings c0.pos)
                (c0.readings (c0.pos + 1))) cfg.Token.RefreshSecret)
    ∧ (∀ (cfg : Config) (hmac : HMAC) (session : String) (c0 : Clock),
        ((appManager cfg).GenerateRefreshToken hmac session c0).1
          = SignedString hmac "HS256"
              (refreshClaims (appManager cfg) session (c0.readings c0.pos)
                (c0.readings (c0.pos + 1)) (c0.readings (c0.pos + 2)))
              cfg.Token.AccessSecret)
    ∧ validateConfig (fixtureConfig "access-secret" "refresh-secret") = none
    ∧ ((NewJWTManager "access-secret" "refresh-secret" 900000000000
          604800000000000).VerifyAccessToken fixtureHMAC
        (tokenText ((appManager (fixtureConfig "access-secret"
          "refresh-secret")).GenerateAccessToken fixtureHMAC fixtureUser fixtureClock).1)
        fixtureClock).1
      = .error (.wrap "access token validation failed"
          (.new "token signature is invalid: signature is invalid"))
    ∧ isOk ((NewJWTManager "access-secret" "refresh-secret" 900000000000
          604800000000000).VerifyRefreshToken fixtureHMAC
        (tokenText ((appManager (fixtureConfig "access-secret"
          "refresh-secret")).GenerateAccessToken fixtureHMAC fixtureUser fixtureClock).1)
        fixtureClock).1 = true := by
  refine ⟨fun cfg => ⟨rfl, rfl⟩, ?_, ?_, by decide, by decide, by decide⟩
  · intro cfg hmac u c0
    rw [GenerateAccessToken_eq]
    rfl
  · intro cfg hmac session c0
    rw [GenerateRefreshToken_eq]
    rfl

/-! ## The regular expression of `validateEmail` -/

theorem reClass_rmatch (cs : List Char) (x : List Char) :
    (reClass cs).rmatch x = true ↔ ∃ c ∈ cs, x = [c] := by
  induction cs with
  | nil =>
    simp only [reClass, List.foldr, List.not_mem_nil, false_and, exists_false, iff_false]
    rw [RegularExpression.zero_def, RegularExpression.zero_rmatch]
    simp
  | cons c cs ih =>
    have h : reClass (c :: cs) = RegularExpression.char c + reClass cs := rfl
    rw [h, RegularExpression.add_rmatch_iff, RegularExpression.char_rmatch_iff, ih]
    constructor
    · rintro (h1 | ⟨d, hd, h2⟩)
      · exact ⟨c, List.mem_cons_self _ _, h1⟩
      · exact ⟨d, List.mem_cons_of_mem _ hd, h2⟩
    · rintro ⟨d, hd, h2⟩
      rcases List.mem_cons.mp hd with rfl | hd
      · exact Or.inl h2
      · exact Or.inr ⟨d, hd, h2⟩

theorem star_reClass_rmatch (cs : List Char) (x : List Char) :
    (RegularExpression.star (reClass cs)).rmatch x = true ↔ ∀ c ∈ x, c ∈ cs := by
  rw [RegularExpression.star_rmatch_iff]
  constructor
  · rintro ⟨S, rfl, hS⟩ c hc
    rw [List.mem_flatten] at hc
    obtain ⟨t, ht, hct⟩ := hc
    obtain ⟨d, hd, rfl⟩ := (reClass_rmatch cs t).mp (hS t ht).2
    rw [List.mem_singleton] at hct
    exact hct ▸ hd
  · intro h
    refine ⟨x.map (fun c => [c]), ?_, ?_⟩
    · induction x with
      | nil => rfl
      | cons a x ih =>
        simp only [List.map_cons, List.flatten_cons, List.singleton_append, List.cons.injEq,
          true_and]
        exact ih (fun c hc => h c (List.mem_cons_of_mem _ hc))
    · intro t ht
      rw [List.mem_map] at ht
      obtain ⟨c, hc, rfl⟩ := ht
      exact ⟨by simp, (reClass_rmatch cs [c]).mpr ⟨c, h c hc, rfl⟩⟩

theorem rePlus_reClass_rmatch (cs : List Char) (x : List Char) :
    (rePlus (reClass cs)).rmatch x = true ↔ x ≠ [] ∧ ∀ c ∈ x, c ∈ cs := by
  have h : rePlus (reClass cs) = reClass cs * RegularExpression.star (reClass cs) := rfl
  rw [h, RegularExpression.mul_rmatch_iff]
  constructor
  · rintro ⟨t, u, rfl, ht, hu⟩
    obtain ⟨c, hc, rfl⟩ := (reClass_rmatch cs t).mp ht
    refine ⟨by simp, ?_⟩
    intro d hd
    rcases List.mem_append.mp hd with h1 | h1
    · rw [List.mem_singleton] at h1
      exact h1 ▸ hc
    · exact (star_reClass_rmatch cs u).mp hu d h1
  · rintro ⟨hne, hall⟩
    cases x with
    | nil => exact absurd rfl hne
    | cons a x =>
      refine ⟨[a], x, rfl, (reClass_rmatch cs [a]).mpr ⟨a, hall a (List.mem_cons_self _ _), rfl⟩,
        (star_reClass_rmatch cs x).mpr (fun c hc => hall c (List.mem_cons_of_mem _ hc))⟩

theorem tld_rmatch (x : List Char) :
    (RegularExpression.comp (reClass reLetters) (rePlus (reClass reLetters))).rmatch x = true
      ↔ 2 ≤ x.length ∧ ∀ c ∈ x, c ∈ reLetters := by
  rw [RegularExpression.comp_def, RegularExpression.mul_rmatch_iff]
  constructor
  · rintro ⟨t, u, rfl, ht, hu⟩
    obtain ⟨c, hc, rfl⟩ := (reClass_rmatch _ t).mp ht
    obtain ⟨hne, hall⟩ := (rePlus_reClass_rmatch _ u).mp hu
    refine ⟨?_, ?_⟩
    · cases u with
      | nil => exact absurd rfl hne
      | cons a u => simp
    · intro d hd
      rcases List.mem_append.mp hd with h1 | h1
      · rw [List.mem_singleton] at h1
        exact h1 ▸ hc
      · exact hall d h1
  · rintro ⟨hlen, hall⟩
    cases x with
    | nil => simp at hlen
    | cons a x =>
      cases x with
      | nil => simp at hlen
      | cons b x =>
        refine ⟨[a], b :: x, rfl,
          (reClass_rmatch _ [a]).mpr ⟨a, hall a (List.mem_cons_self _ _), rfl⟩,
          (rePlus_reClass_rmatch _ (b :: x)).mpr ⟨by simp, fun c hc =>
            hall c (List.mem_cons_of_mem _ hc)⟩⟩

/-- The texts that the regular expression of `validateEmail` accepts. -/
theorem emailRegexp_rmatch (x : List Char) :
    emailRegexp.rmatch x = true
      ↔ ∃ l r, x = l ++ '@' :: r ∧ l ≠ [] ∧ (∀ c ∈ l, c ∈ emailLocalChars) ∧ domainShape r := by
  unfold emailRegexp domainShape
  simp only [RegularExpression.comp_def]
  rw [RegularExpression.mul_rmatch_iff]
  constructor
  · rintro ⟨l, u, rfl, hl, hu⟩
    rw [RegularExpression.mul_rmatch_iff] at hu
    obtain ⟨a, r, rfl, ha, hr⟩ := hu
    rw [RegularExpression.char_rmatch_iff] at ha
    subst ha
    rw [RegularExpression.mul_rmatch_iff] at hr
    obtain ⟨d, v, rfl, hd, hv⟩ := hr
    rw [RegularExpression.mul_rmatch_iff] at hv
    obtain ⟨b, tl, rfl, hb, htl⟩ := hv
    rw [RegularExpression.char_rmatch_iff] at hb
    subst hb
    obtain ⟨hl1, hl2⟩ := (rePlus_reClass_rmatch _ l).mp hl
    obtain ⟨hd1, hd2⟩ := (rePlus_reClass_rmatch _ d).mp hd
    rw [← RegularExpression.comp_def] at htl
    obtain ⟨ht1, ht2⟩ := (tld_rmatch tl).mp htl
    exact ⟨l, d ++ '.' :: tl, rfl, hl1, hl2, d, tl, rfl, hd1, hd2, ht1, ht2⟩
  · rintro ⟨l, r, rfl, hl1, hl2, d, tl, rfl, hd1, hd2, ht1, ht2⟩
    refine ⟨l, '@' :: (d ++ '.' :: tl), rfl, (rePlus_reClass_rmatch _ l).mpr ⟨hl1, hl2⟩, ?_⟩
    rw [RegularExpression.mul_rmatch_iff]
    refine ⟨['@'], d ++ '.' :: tl, rfl, (RegularExpression.char_rmatch_iff _ _).mpr rfl, ?_⟩
    rw [RegularExpression.mul_rmatch_iff]
    refine ⟨d, '.' :: tl, rfl, (rePlus_reClass_rmatch _ d).mpr ⟨hd1, hd2⟩, ?_⟩
    rw [RegularExpression.mul_rmatch_iff]
    refine ⟨['.'], tl, rfl, (RegularExpression.char_rmatch_iff _ _).mpr rfl, ?_⟩
    rw [← RegularExpression.comp_def]
    exact (tld_rmatch tl).mpr ⟨ht1, ht2⟩

/-! ## Lower-casing the characters of an address -/

theorem toLower_of_not_upper (c : Char) (h : ¬ (65 ≤ c.toNat ∧ c.toNat ≤ 90)) :
    c.toLower = c := by
  unfold Char.toLower
  simp only [ge_iff_le]
  rw [if_neg h]

theorem upper_mem (c : Char) (h : 65 ≤ c.toNat ∧ c.toNat ≤ 90) :
    c ∈ "ABCDEFGHIJKLMNOPQRSTUVWXYZ".data := by
  have hc : c = Char.ofNat c.toNat := (Char.ofNat_toNat c).symm
  obtain ⟨h1, h2⟩ := h
  rw [hc]
  generalize c.toNat = n at h1 h2
  interval_cases n <;> decide

theorem toLower_mem_domainChars (c : Char) (h : c.toLower ∈ emailDomainChars) :
    c ∈ emailDomainChars := by
  by_cases hu : 65 ≤ c.toNat ∧ c.toNat ≤ 90
  · have hall : ∀ d ∈ "ABCDEFGHIJKLMNOPQRSTUVWXYZ".data, d ∈ emailDomainChars := by decide
    exact hall c (upper_mem c hu)
  · rwa [toLower_of_not_upper c hu] at h

theorem toLower_mem_letters (c : Char) (h : c.toLower ∈ reLetters) : c ∈ reLetters := by
  by_cases hu : 65 ≤ c.toNat ∧ c.toNat ≤ 90
  · have hall : ∀ d ∈ "ABCDEFGHIJKLMNOPQRSTUVWXYZ".data, d ∈ reLetters := by decide
    exact hall c (upper_mem c hu)
  · rwa [toLower_of_not_upper c hu] at h

theorem toLower_eq_dot (c : Char) (h : c.toLower = '.') : c = '.' := by
  by_cases hu : 65 ≤ c.toNat ∧ c.toNat ≤ 90
  · have hall : ∀ d ∈ "ABCDEFGHIJKLMNOPQRSTUVWXYZ".data, d.toLower ≠ '.' := by decide
    exact absurd h (hall c (upper_mem c hu))
  · rwa [toLower_of_not_upper c hu] at h

theorem localChars_plain : ∀ c ∈ emailLocalChars,
    c ≠ '@' ∧ c ≠ ' ' ∧ c.toLower ≠ '@' ∧ specLocalChar c = true := by decide

theorem domainChars_plain : ∀ c ∈ emailDomainChars,
    c ≠ '@' ∧ c ≠ ' ' ∧ c.toLower ≠ '@' := by decide

theorem letters_plain : ∀ c ∈ reLetters,
    c ≠ '@' ∧ c ≠ ' ' ∧ c.toLower ≠ '@' := by decide

theorem specLocalChar_mem (c : Char) (h : specLocalChar c = true) : c ∈ emailLocalChars := by
  have hc : c = Char.ofNat c.toNat := (Char.ofNat_toNat c).symm
  simp only [specLocalChar, decide_eq_true_eq] at h
  rcases h with ⟨h1, h2⟩ | ⟨h1, h2⟩ | ⟨h1, h2⟩ | h | h | h | h | h
  · rw [hc]; generalize c.toNat = n at h1 h2; interval_cases n <;> decide
  · rw [hc]; generalize c.toNat = n at h1 h2; interval_cases n <;> decide
  · rw [hc]; generalize c.toNat = n at h1 h2; interval_cases n <;> decide
  all_goals subst h; decide

theorem domainShape_plain (r : List Char) (h : domainShape r) :
    ∀ c ∈ r, c ≠ '@' ∧ c ≠ ' ' ∧ c.toLower ≠ '@' := by
  obtain ⟨d, tl, rfl, _, hd, _, htl⟩ := h
  intro c hc
  rcases List.mem_append.mp hc with h1 | h1
  · exact domainChars_plain c (hd c h1)
  · rcases List.mem_cons.mp h1 with rfl | h2
    · decide
    · exact letters_plain c (htl c h2)

/-! ## The two parts of an address that has the accepted shape -/

theorem lower_split (l r : List Char) (hl : ∀ c ∈ l, c.toLower ≠ '@')
    (hr : ∀ c ∈ r, c.toLower ≠ '@') :
    stringsSplit (stringsToLower (String.mk (l ++ '@' :: r))) '@'
      = [String.mk (l.map Char.toLower), String.mk (r.map Char.toLower)] := by
  have h1 : '@' ∉ l.map Char.toLower := by
    intro hm
    obtain ⟨c, hc, hcl⟩ := List.mem_map.mp hm
    exact hl c hc hcl
  have h2 : '@' ∉ r.map Char.toLower := by
    intro hm
    obtain ⟨c, hc, hcl⟩ := List.mem_map.mp hm
    exact hr c hc hcl
  have h : ([('@' : Char)].intercalate [l.map Char.toLower, r.map Char.toLower]).splitOn '@'
      = [l.map Char.toLower, r.map Char.toLower] :=
    List.splitOn_intercalate [l.map Char.toLower, r.map Char.toLower] '@'
      (by intro x hx; simp at hx; rcases hx with rfl | rfl <;> assumption) (by simp)
  have hat : Char.toLower '@' = '@' := by decide
  have h3 : (stringsToLower (String.mk (l ++ '@' :: r))).data
      = [('@' : Char)].intercalate [l.map Char.toLower, r.map Char.toLower] := by
    simp [stringsToLower, List.intercalate, List.intersperse, List.flatten, hat]
  simp only [stringsSplit, h3, h]
  rfl

theorem validateEmail_of_shape (email : String) (l r : List Char)
    (he : email.data = l ++ '@' :: r) (hl1 : l ≠ [])
    (hl2 : ∀ c ∈ l, c ∈ emailLocalChars) (hr : domainShape r) :
    stringsContains email " " = false ∧ stringsContains email "@" = true
    ∧ emailRegexpMatchString email = true
    ∧ stringsSplit (stringsToLower email) '@'
        = [String.mk (l.map Char.toLower), String.mk (r.map Char.toLower)]
    ∧ validateEmail email
        = if allowedDomains (String.mk (r.map Char.toLower)) = true then none
          else some ErrEmailUnknownDomain := by
  have hemail : email = String.mk (l ++ '@' :: r) := String.ext he
  have hrp := domainShape_plain r hr
  have hsp : stringsContains email " " = false := by
    rw [stringsContains_space, he]
    simp only [decide_eq_false_iff_not, List.mem_append, List.mem_cons]
    rintro (h | h | h)
    · exact (localChars_plain _ (hl2 _ h)).2.1 rfl
    · revert h; decide
    · exact (hrp _ h).2.1 rfl
  have hat : stringsContains email "@" = true := by
    rw [stringsContains_at, he]
    simp
  have hre : emailRegexpMatchString email = true := by
    unfold emailRegexpMatchString
    rw [he]
    exact (emailRegexp_rmatch _).mpr ⟨l, r, rfl, hl1, hl2, hr⟩
  have hsplit : stringsSplit (stringsToLower email) '@'
      = [String.mk (l.map Char.toLower), String.mk (r.map Char.toLower)] := by
    rw [hemail]
    exact lower_split l r (fun c hc => (localChars_plain c (hl2 c hc)).2.2.1)
      (fun c hc => (hrp c hc).2.2)
  refine ⟨hsp, hat, hre, hsplit, ?_⟩
  unfold validateEmail
  simp only [hsp, hat, hre, hsplit]
  by_cases ha : allowedDomains (String.mk (r.map Char.toLower)) = true
  · simp [ha]
  · simp [ha]

/-- What `validateEmail` returns, for every text: the result depends on the checks in the
order of the source, and the index `paths[1]` is never out of range. -/
theorem validateEmail_cases (email : String) :
    (stringsContains email " " = true
      ∧ validateEmail email = some (.new "email cannot contain spaces"))
    ∨ (stringsContains email " " = false ∧ stringsContains email "@" = false
      ∧ validateEmail email = some ErrEmailMissingAt)
    ∨ (stringsContains email " " = false ∧ stringsContains email "@" = true
      ∧ emailRegexpMatchString email = false
      ∧ validateEmail email = some ErrEmailInvalidFmt)
    ∨ (∃ l r, email.data = l ++ '@' :: r ∧ l ≠ [] ∧ (∀ c ∈ l, c ∈ emailLocalChars)
      ∧ domainShape r ∧ stringsContains email " " = false
      ∧ stringsContains email "@" = true ∧ emailRegexpMatchString email = true
      ∧ stringsSplit (stringsToLower email) '@'
          = [String.mk (l.map Char.toLower), String.mk (r.map Char.toLower)]
      ∧ validateEmail email
          = if allowedDomains (String.mk (r.map Char.toLower)) = true then none
            else some ErrEmailUnknownDomain) := by
  by_cases hsp : stringsContains email " " = true
  · left
    exact ⟨hsp, by simp [validateEmail, hsp]⟩
  · right
    have hsp' : stringsContains email " " = false := by simpa using hsp
    by_cases hat : stringsContains email "@" = true
    · right
      by_cases hre : emailRegexpMatchString email = true
      · right
        obtain ⟨l, r, he, hl1, hl2, hr⟩ := (emailRegexp_rmatch _).mp hre
        obtain ⟨h1, h2, h3, h4, h5⟩ := validateEmail_of_shape email l r he hl1 hl2 hr
        exact ⟨l, r, he, hl1, hl2, hr, h1, h2, h3, h4, h5⟩
      · left
        have hre' : emailRegexpMatchString email = false := by simpa using hre
        exact ⟨hsp', hat, hre', by simp [validateEmail, hsp', hat, hre']⟩
    · left
      have hat' : stringsContains email "@" = false := by simpa using hat
      exact ⟨hsp', hat', by simp [validateEmail, hsp', hat']⟩

theorem validateEmail_never_panics (email : String) :
    validateEmail email ≠ some panicIndexOutOfRange := by
  rcases validateEmail_cases email with ⟨_, h⟩ | ⟨_, _, h⟩ | ⟨_, _, _, h⟩
    | ⟨l, r, _, _, _, _, _, _, _, _, h⟩
  · rw [h]; decide
  · rw [h]; decide
  · rw [h]; decide
  · rw [h]
    by_cases ha : allowedDomains (String.mk (r.map Char.toLower)) = true
    · simp [ha]
    · rw [if_neg ha]; decide

/-- C29: for every text that passes the space check, the `'@'` check and the regular
expression, the lower-cased text splits on `'@'` into exactly two parts, so the access
`paths[1]` is in bounds; and for every text whatsoever `validateEmail` returns without
reaching an index out of range. -/
theorem validateEmail_index_in_bounds (email : String)
    (hsp : stringsContains email " " = false) (hat : stringsContains email "@" = true)
    (hre : emailRegexpMatchString email = true) :
    (∃ a b, stringsSplit (stringsToLower email) '@' = [a, b])
    ∧ (stringsSplit (stringsToLower email) '@').length = 2
    ∧ (stringsSplit (stringsToLower email) '@').get? 1 ≠ none
    ∧ validateEmail email ≠ some panicIndexOutOfRange
    ∧ ∀ e : String, validateEmail e ≠ some panicIndexOutOfRange := by
  rcases validateEmail_cases email with ⟨h, _⟩ | ⟨_, h, _⟩ | ⟨_, _, h, _⟩
    | ⟨l, r, _, _, _, _, _, _, _, h, _⟩
  · rw [hsp] at h; exact absurd h (by decide)
  · rw [hat] at h; exact absurd h (by decide)
  · rw [hre] at h; exact absurd h (by decide)
  · refine ⟨⟨_, _, h⟩, by rw [h]; rfl, by rw [h]; simp, validateEmail_never_panics email,
      validateEmail_never_panics⟩

/-- The address `Test.User@GMAIL.com`. -/
theorem validateEmail_index_in_bounds_witness :
    stringsSplit (stringsToLower "Test.User@GMAIL.com") '@' = ["test.user", "gmail.com"]
    ∧ (stringsSplit (stringsToLower "Test.User@GMAIL.com") '@').length = 2
    ∧ validateEmail "Test.User@GMAIL.com" ≠ some panicIndexOutOfRange :=
  ⟨by decide,
   (validateEmail_index_in_bounds "Test.User@GMAIL.com" (by decide) (by decide)
      (by decide)).2.1,
   (validateEmail_index_in_bounds "Test.User@GMAIL.com" (by decide) (by decide)
      (by decide)).2.2.2.1⟩

/-! ## C27: the addresses that `validateEmail` accepts -/

theorem domainShape_of_lower (x : List Char) (h : domainShape (x.map Char.toLower)) :
    domainShape x := by
  obtain ⟨d, tl, hx, hd1, hd2, ht1, ht2⟩ := h
  obtain ⟨d0, r0, rfl, hd0, hr0⟩ := List.map_eq_append_iff.mp hx
  obtain ⟨c0, tl0, rfl, hc0, htl0⟩ := List.map_eq_cons_iff.mp hr0
  refine ⟨d0, tl0, ?_, ?_, ?_, ?_, ?_⟩
  · rw [toLower_eq_dot c0 hc0]
  · rintro rfl
    exact hd1 (by simpa using hd0.symm)
  · intro c hc
    apply toLower_mem_domainChars
    apply hd2
    rw [← hd0]
    exact List.mem_map_of_mem _ hc
  · rw [← htl0] at ht1
    simpa using ht1
  · intro c hc
    apply toLower_mem_letters
    apply ht2
    rw [← htl0]
    exact List.mem_map_of_mem _ hc

theorem allowedDomains_iff (s : String) :
    allowedDomains s = true ↔ s ∈ specAllowedDomains := by
  simp [allowedDomains, specAllowedDomains]

theorem domainShape_of_allowed (s : String) (h : s ∈ specAllowedDomains) :
    domainShape s.data := by
  simp only [specAllowedDomains, List.mem_cons, List.mem_singleton, List.not_mem_nil,
    or_false] at h
  rcases h with rfl | rfl | rfl | rfl
  · exact ⟨"gmail".data, "com".data, rfl, by decide, by decide, by decide, by decide⟩
  · exact ⟨"yandex".data, "ru".data, rfl, by decide, by decide, by decide, by decide⟩
  · exact ⟨"mail".data, "ru".data, rfl, by decide, by decide, by decide, by decide⟩
  · exact ⟨"mail".data, "com".data, rfl, by decide, by decide, by decide, by decide⟩

theorem append_at_unique : ∀ (l r a b : List Char), '@' ∉ l → '@' ∉ r →
    a ++ '@' :: b = l ++ '@' :: r → a = l ∧ b = r := by
  intro l
  induction l with
  | nil =>
    intro r a b _ hr h
    cases a with
    | nil => simpa using h
    | cons c a' =>
      simp only [List.cons_append, List.nil_append, List.cons.injEq] at h
      exact absurd (by rw [← h.2]; simp) hr
  | cons x l' ih =>
    intro r a b hl hr h
    cases a with
    | nil =>
      simp only [List.nil_append, List.cons_append, List.cons.injEq] at h
      exact absurd (by rw [← h.1]; simp) hl
    | cons c a' =>
      simp only [List.cons_append, List.cons.injEq] at h
      have := ih r a' b (fun hm => hl (List.mem_cons_of_mem _ hm)) hr h.2
      exact ⟨by rw [h.1, this.1], this.2⟩

theorem address_data (loc domain : String) :
    (loc ++ "@" ++ domain).data = loc.data ++ '@' :: domain.data := by
  simp

/-- The accepted addresses in terms of the map `Char.toLower` over the domain, which changes
the letters `A-Z` only: `validateEmail` returns nil exactly for the texts `local@domain` with
`local` not empty and made of the characters of the specification and the mapped domain in the
allow-list; a text that passes the three checks and whose mapped domain is not in the list
gets `ErrEmailUnknownDomain`. -/
theorem validateEmail_none_iff (email : String) :
    (validateEmail email = none ↔
      ∃ loc domain : String, email = loc ++ "@" ++ domain ∧ loc ≠ ""
        ∧ (∀ c ∈ loc.data, specLocalChar c = true)
        ∧ stringsToLower domain ∈ specAllowedDomains)
    ∧ (stringsContains email " " = false → stringsContains email "@" = true →
        emailRegexpMatchString email = true →
        ∀ loc domain : String, email = loc ++ "@" ++ domain →
          stringsToLower domain ∉ specAllowedDomains →
          validateEmail email = some ErrEmailUnknownDomain) := by
  refine ⟨⟨?_, ?_⟩, ?_⟩
  · intro hnone
    rcases validateEmail_cases email with ⟨_, h⟩ | ⟨_, _, h⟩ | ⟨_, _, _, h⟩
      | ⟨l, r, he, hl1, hl2, hr, _, _, _, _, h⟩
    · rw [h] at hnone; exact absurd hnone (by simp)
    · rw [h] at hnone; exact absurd hnone (by simp)
    · rw [h] at hnone; exact absurd hnone (by simp)
    · have ha : allowedDomains (String.mk (r.map Char.toLower)) = true := by
        by_contra hc
        rw [h, if_neg hc] at hnone
        exact absurd hnone (by simp)
      refine ⟨String.mk l, String.mk r, ?_, ?_, ?_, ?_⟩
      · apply String.ext
        rw [address_data, he]
      · intro hl
        exact hl1 (congrArg String.data hl)
      · intro c hc
        exact (localChars_plain c (hl2 c hc)).2.2.2
      · exact (allowedDomains_iff _).mp ha
  · rintro ⟨loc, domain, rfl, hloc, hchars, hdom⟩
    have hr : domainShape domain.data :=
      domainShape_of_lower _ (domainShape_of_allowed _ hdom)
    have hl1 : loc.data ≠ [] := by
      intro h
      exact hloc (String.ext h)
    obtain ⟨_, _, _, _, h⟩ := validateEmail_of_shape (loc ++ "@" ++ domain) loc.data
      domain.data (address_data loc domain) hl1
      (fun c hc => specLocalChar_mem c (hchars c hc)) hr
    have ha : allowedDomains (String.mk (domain.data.map Char.toLower)) = true :=
      (allowedDomains_iff _).mpr hdom
    rw [h, if_pos ha]
  · intro _ _ hre loc domain he hnot
    obtain ⟨l, r, hd, hl1, hl2, hr⟩ := (emailRegexp_rmatch _).mp hre
    have hrp := domainShape_plain r hr
    have huniq := append_at_unique l r loc.data domain.data
      (fun hm => (localChars_plain _ (hl2 _ hm)).1 rfl) (fun hm => (hrp _ hm).1 rfl)
      (by rw [← address_data, ← he]; exact hd)
    obtain ⟨_, _, _, _, h⟩ := validateEmail_of_shape email l r hd hl1 hl2 hr
    rw [h]
    have hna : ¬ allowedDomains (String.mk (r.map Char.toLower)) = true := by
      intro ha
      apply hnot
      have := (allowedDomains_iff _).mp ha
      rw [← huniq.2] at this
      exact this
    rw [if_neg hna]

theorem toLower_ascii (c : Char) (h : c.toLower.toNat < 128) : c.toNat < 128 := by
  by_cases hu : 65 ≤ c.toNat ∧ c.toNat ≤ 90
  · omega
  · rwa [toLower_of_not_upper c hu] at h

theorem stringsToLowerUnicode_ascii (toLower : Char → Char) (s : String)
    (h : ∀ c ∈ s.data, c.toNat < 128) :
    stringsToLowerUnicode toLower s = stringsToLower s := by
  have : s.data.all (fun c => decide (c.toNat < 128)) = true := by
    simpa [List.all_eq_true] using h
  simp [stringsToLowerUnicode, stringsToLower, this]

theorem ascii_of_lower_allowed (domain : String)
    (h : stringsToLower domain ∈ specAllowedDomains) : ∀ c ∈ domain.data, c.toNat < 128 := by
  intro c hc
  apply toLower_ascii
  have hm : c.toLower ∈ (stringsToLower domain).data := by
    simp only [stringsToLower]
    exact List.mem_map_of_mem _ hc
  have hall : ∀ s ∈ specAllowedDomains, ∀ d ∈ s.data, d.toNat < 128 := by decide
  exact hall _ h _ hm

/-- The lower-casing in `validateEmail` is exact: a text that the regular expression accepts
has ASCII characters only, so `strings.ToLower` changes the letters `A-Z` and nothing else,
whatever `unicode.ToLower` does. -/
theorem stringsToLower_exact (toLower : Char → Char) (email : String)
    (h : emailRegexpMatchString email = true) :
    stringsToLowerUnicode toLower email = stringsToLower email := by
  apply stringsToLowerUnicode_ascii
  obtain ⟨l, r, hd, _, hl, d, tl, rfl, _, hdc, _, htl⟩ := (emailRegexp_rmatch _).mp h
  have h1 : ∀ c ∈ emailLocalChars, c.toNat < 128 := by decide
  have h2 : ∀ c ∈ emailDomainChars, c.toNat < 128 := by decide
  have h3 : ∀ c ∈ reLetters, c.toNat < 128 := by decide
  intro c hc
  rw [hd] at hc
  simp only [List.mem_append, List.mem_cons] at hc
  rcases hc with hc | rfl | hc | rfl | hc
  · exact h1 c (hl c hc)
  · decide
  · exact h2 c (hdc c hc)
  · decide
  · exact h3 c (htl c hc)

/-- C27 (as stated, refuted). The address `a@gmaİl.com`, with the capital letter I with a dot
above (U+0130) in the domain: `validateEmail` refuses it at the regular expression, with
`ErrEmailInvalidFmt`; yet it has the form the claim describes, because `strings.ToLower` takes
the domain to `gmail.com`: Go maps U+0130 to `i`.  This holds for every table of
`unicode.ToLower` that maps U+0130 to `i` and is the ASCII lower-casing on ASCII, and there is
such a table. -/
theorem validateEmail_rejects_dotted_capital_i :
    validateEmail "a@gmaİl.com" = some ErrEmailInvalidFmt
    ∧ (∀ toLower : Char → Char, toLower 'İ' = 'i' →
        (∀ c : Char, c.toNat < 128 → toLower c = c.toLower) →
        stringsToLowerUnicode toLower "gmaİl.com" = "gmail.com"
        ∧ specAcceptedEmail (stringsToLowerUnicode toLower) "a@gmaİl.com")
    ∧ (∃ toLower : Char → Char, toLower 'İ' = 'i'
        ∧ ∀ c : Char, c.toNat < 128 → toLower c = c.toLower) := by
  refine ⟨by decide, ?_, ⟨fun c => if c = 'İ' then 'i' else c.toLower, by decide, ?_⟩⟩
  · intro toLower hI hA
    have hl : stringsToLowerUnicode toLower "gmaİl.com" = "gmail.com" := by
      have hna : ("gmaİl.com".data.all (fun c => decide (c.toNat < 128))) = false := by decide
      simp only [stringsToLowerUnicode, hna]
      apply String.ext
      show List.map toLower ['g', 'm', 'a', 'İ', 'l', '.', 'c', 'o', 'm'] = _
      simp only [List.map_cons, List.map_nil, hI, hA 'g' (by decide), hA 'm' (by decide),
        hA 'a' (by decide), hA 'l' (by decide), hA '.' (by decide), hA 'c' (by decide),
        hA 'o' (by decide)]
      decide
    refine ⟨hl, "a", "gmaİl.com", by decide, by decide, by decide, ?_⟩
    rw [hl]
    decide
  · intro c hc
    have : c ≠ 'İ' := by
      rintro rfl
      revert hc
      decide
    simp [this]

/-- C27 (amended): `validateEmail` returns nil exactly for the texts `local@domain` in which
`local` is not empty and made of the characters `A-Z`, `a-z`, `0-9`, `.`, `_`, `%`, `+`, `-`,
the domain has ASCII characters only and, lower-cased, is one of `gmail.com`, `yandex.ru`,
`mail.ru`, `mail.com`.  A text that passes the space check, the `'@'` check and the regular
expression and whose lower-cased domain is not one of these gets `ErrEmailUnknownDomain`.
Lower-casing is `strings.ToLower`, for every table of `unicode.ToLower`. -/
theorem validateEmail_accepts_iff (toLower : Char → Char) (email : String) :
    (validateEmail email = none ↔
      ∃ loc domain : String, email = loc ++ "@" ++ domain ∧ loc ≠ ""
        ∧ (∀ c ∈ loc.data, specLocalChar c = true)
        ∧ (∀ c ∈ domain.data, c.toNat < 128)
        ∧ stringsToLowerUnicode toLower domain ∈ specAllowedDomains)
    ∧ (stringsContains email " " = false → stringsContains email "@" = true →
        emailRegexpMatchString email = true →
        ∀ loc domain : String, email = loc ++ "@" ++ domain →
          stringsToLowerUnicode toLower domain ∉ specAllowedDomains →
          validateEmail email = some ErrEmailUnknownDomain) := by
  obtain ⟨h1, h2⟩ := validateEmail_none_iff email
  refine ⟨⟨?_, ?_⟩, ?_⟩
  · intro hnone
    obtain ⟨loc, domain, he, hloc, hchars, hdom⟩ := h1.mp hnone
    have hascii := ascii_of_lower_allowed domain hdom
    exact ⟨loc, domain, he, hloc, hchars, hascii,
      by rw [stringsToLowerUnicode_ascii toLower domain hascii]; exact hdom⟩
  · rintro ⟨loc, domain, he, hloc, hchars, hascii, hdom⟩
    rw [stringsToLowerUnicode_ascii toLower domain hascii] at hdom
    exact h1.mpr ⟨loc, domain, he, hloc, hchars, hdom⟩
  · intro hs ha hre loc domain he hnot
    apply h2 hs ha hre loc domain he
    intro hdom
    apply hnot
    rw [stringsToLowerUnicode_ascii toLower domain (ascii_of_lower_allowed domain hdom)]
    exact hdom

/-- The address `Test.User@GMAIL.com` is accepted, and `a@unknown.tld` gets the error of a
domain that is not allowed. -/
theorem validateEmail_accepts_iff_witness :
    validateEmail "Test.User@GMAIL.com" = none
    ∧ validateEmail "a@unknown.tld" = some ErrEmailUnknownDomain :=
  ⟨(validateEmail_accepts_iff Char.toLower "Test.User@GMAIL.com").1.mpr
      ⟨"Test.User", "GMAIL.com", by decide, by decide, by decide, by decide, by decide⟩,
   (validateEmail_accepts_iff Char.toLower "a@unknown.tld").2 (by decide) (by decide)
      (by decide) "a" "unknown.tld" (by decide) (by decide)⟩

/-- The seven steps of a `Login` call, taken with no other call in between, are the call
`Login` of the service over the key-value store. -/
theorem loginSteps_eq_Login (email password deviceID : String) (st : Store) (w : τ) :
    loginSteps p t memClient ttl 7 (.loginUsers email password deviceID) (st, w)
      = (.returned ((registryAuth p t e ttl).Login email password deviceID (st, w)).1,
         ((registryAuth p t e ttl).Login email password deviceID (st, w)).2) := by
  rcases h1 : p.LoginUsers email password w with ⟨r1, w1⟩
  rcases r1 with err | user
  · simp [loginSteps, loginStep, Auth.Login, registryAuth, NewServer, Provider.onWorld,
      Generate.onWorld, Storage.onStore, onFst, onSnd, NewRepositoryRedis,
      repositoryRedis.IncrementTokenVersion, h1]
  · rcases h2 : repositoryRedis.AddSession { Client := memClient, RefreshTTL := ttl }
      user.UserID deviceID st with ⟨r2, k1⟩
    rcases h3 : memClient.Incr ("token_ver:" ++ (user.UserID ++ ":" ++ deviceID)) k1
      with ⟨r3, k2⟩
    rcases r3 with err | v
    · simp [loginSteps, loginStep, Auth.Login, registryAuth, NewServer, Provider.onWorld,
        Generate.onWorld, Storage.onStore, onFst, onSnd, NewRepositoryRedis,
        repositoryRedis.IncrementTokenVersion, h1, h2, h3]
    · rcases h4 : memClient.Expire ("token_ver:" ++ (user.UserID ++ ":" ++ deviceID)) ttl k2
        with ⟨r4, k3⟩
      rcases h5 : t.GenerateAccessToken
        ⟨user.UserID ++ ":" ++ deviceID, user.UserID, user.Name, user.Email, user.Role, v⟩ w1
        with ⟨r5, w2⟩
      rcases r5 with err | acc
      · simp [loginSteps, loginStep, Auth.Login, registryAuth, NewServer, Provider.onWorld,
          Generate.onWorld, Storage.onStore, onFst, onSnd, NewRepositoryRedis,
          repositoryRedis.IncrementTokenVersion, h1, h2, h3, h4, h5]
      · rcases h6 : t.GenerateRefreshToken (user.UserID ++ ":" ++ deviceID) w2 with ⟨r6, w3⟩
        rcases r6 with err | ref
        · simp [loginSteps, loginStep, Auth.Login, registryAuth, NewServer, Provider.onWorld,
            Generate.onWorld, Storage.onStore, onFst, onSnd, NewRepositoryRedis,
            repositoryRedis.IncrementTokenVersion, h1, h2, h3, h4, h5, h6]
        · rcases h7 : repositoryRedis.Save { Client := memClient, RefreshTTL := ttl }
            (user.UserID ++ ":" ++ deviceID) ref k3 with ⟨r7, k4⟩
          rcases r7 with _ | err <;>
          simp [loginSteps, loginStep, Auth.Login, registryAuth, NewServer, Provider.onWorld,
            Generate.onWorld, Storage.onStore, onFst, onSnd, NewRepositoryRedis,
            repositoryRedis.IncrementTokenVersion, h1, h2, h3, h4, h5, h6, h7]

theorem memClient_SAdd_other (key member k : String) (st : Store) (h : k ≠ key) :
    (memClient.SAdd key member st).2 k = st k := by
  simp only [memClient]
  rcases hk : st key with _ | v
  · simp [Store.put, h]
  · cases v with
    | str s => simp
    | set ms =>
      by_cases hm : member ∈ ms
      · simp [hm]
      · simp [hm, Store.put, h]

theorem memClient_Expire_pos (key : String) (st : Store) (h : 0 < ttl) :
    (memClient.Expire key ttl st).2 = st := by
  have hn : ¬ ttl ≤ 0 := by omega
  simp only [memClient]
  rcases hk : st key with _ | v
  · simp
  · simp [hn]

theorem memClient_Incr_holds (sid : String) (st : Store) (v : Int)
    (hv : versionKeyHolds st sid v) (hb : v < maxInt64) :
    memClient.Incr ("token_ver:" ++ sid) st
      = (.ok (v + 1),
         st.put ("token_ver:" ++ sid) (some (.str (String.mk (intChars (v + 1)))))) := by
  simp only [memClient]
  rcases hv with ⟨hk, h0⟩ | ⟨hk, hmin, hmax⟩
  · subst h0
    simp [hk, intChars_one]
  · have hn : v ≠ maxInt64 := ne_of_lt hb
    simp [hk, redisInt_intChars v hmin hmax, hn]

theorem versionKeyHolds_put (sid : String) (st : Store) (v : Int)
    (h1 : minInt64 ≤ v) (h2 : v ≤ maxInt64) :
    versionKeyHolds (st.put ("token_ver:" ++ sid) (some (.str (String.mk (intChars v))))) sid v :=
  Or.inr ⟨Store.put_same _ _ _, h1, h2⟩

theorem versionKeyHolds_congr (sid : String) (st st' : Store) (v : Int)
    (h : st' ("token_ver:" ++ sid) = st ("token_ver:" ++ sid))
    (hv : versionKeyHolds st sid v) : versionKeyHolds st' sid v := by
  simpa only [versionKeyHolds, h] using hv

theorem versionKeyHolds_ge (sid : String) (st : Store) (v : Int)
    (hv : versionKeyHolds st sid v) : minInt64 ≤ v := by
  rcases hv with ⟨-, h0⟩ | ⟨-, hmin, -⟩
  · subst h0; decide
  · exact hmin

/-- One step of a `Login` call for a session whose calls of the user directory and of the
token manager succeed, over the key-value store with a positive lifetime: the call moves to
its next point without failing; the step at `INCR` obtains the stored version plus one and
stores it, every other step leaves the version key as it is. -/
theorem loginStep_forSession (httl : 0 < ttl) (uid d email password : String)
    (hL : ∀ w, ∃ user w', p.LoginUsers email password w = (.ok user, w') ∧ user.UserID = uid)
    (hA : ∀ u w, ∃ tok w', t.GenerateAccessToken u w = (.ok tok, w'))
    (hR : ∀ s w, ∃ tok w', t.GenerateRefreshToken s w = (.ok tok, w'))
    (pt : LoginPoint) (st : Store) (w : τ) (v : Int)
    (hg : pt.forSession uid d email password)
    (hv : versionKeyHolds st (uid ++ ":" ++ d) v) (hb : pt.stage = 2 → v < maxInt64) :
    (loginStep p t memClient ttl pt (st, w)).1.forSession uid d email password
    ∧ (loginStep p t memClient ttl pt (st, w)).1.stage = min 7 (pt.stage + 1)
    ∧ incrEvent pt (loginStep p t memClient ttl pt (st, w)).1
        = (if pt.stage = 2 then some (v + 1) else none)
    ∧ versionKeyHolds (loginStep p t memClient ttl pt (st, w)).2.1 (uid ++ ":" ++ d)
        (if pt.stage = 2 then v + 1 else v) := by
  cases pt with
  | loginUsers em pw dev =>
    obtain ⟨h1, h2, h3⟩ := hg
    subst h1 h2 h3
    obtain ⟨user, w1, hl, hu⟩ := hL w
    simp [loginStep, hl, LoginPoint.forSession, LoginPoint.stage, incrEvent, hu, hv]
  | addSession user dev =>
    obtain ⟨h1, h2⟩ := hg
    subst h1 h2
    refine ⟨by simp [loginStep, LoginPoint.forSession],
      by simp [loginStep, LoginPoint.stage], by simp [loginStep, LoginPoint.stage, incrEvent], ?_⟩
    simp only [loginStep, LoginPoint.stage]
    refine versionKeyHolds_congr _ st _ v ?_ hv
    simp only [repositoryRedis.AddSession]
    have := memClient_SAdd_other ("user_sessions:" ++ user.UserID) dev
      ("token_ver:" ++ (user.UserID ++ ":" ++ dev)) st (key_token_ver_ne_user_sessions _ _)
    rcases hs : memClient.SAdd ("user_sessions:" ++ user.UserID) dev st with ⟨r, k1⟩
    rw [hs] at this
    rcases r with err | n <;> simpa using this
  | incr user dev =>
    obtain ⟨h1, h2⟩ := hg
    subst h1 h2
    have hi := memClient_Incr_holds (user.UserID ++ ":" ++ dev) st v hv (hb rfl)
    have hlt := hb rfl
    have hge := versionKeyHolds_ge _ _ _ hv
    simp only [loginStep, hi, LoginPoint.forSession, LoginPoint.stage, incrEvent]
    refine ⟨by simp, by decide, by simp, ?_⟩
    simp only [if_true]
    exact versionKeyHolds_put _ _ _ (by omega) (by omega)
  | expire user dev nv =>
    obtain ⟨h1, h2⟩ := hg
    subst h1 h2
    have he := memClient_Expire_pos ttl ("token_ver:" ++ (user.UserID ++ ":" ++ dev)) st httl
    simp [loginStep, he, LoginPoint.forSession, LoginPoint.stage, incrEvent, hv]
  | generateAccessToken user dev ver =>
    obtain ⟨h1, h2⟩ := hg
    subst h1 h2
    obtain ⟨tok, w1, ha⟩ := hA ⟨user.UserID ++ ":" ++ dev, user.UserID, user.Name, user.Email,
      user.Role, ver⟩ w
    simp [loginStep, ha, LoginPoint.forSession, LoginPoint.stage, incrEvent, hv]
  | generateRefreshToken user dev ver acc =>
    obtain ⟨h1, h2⟩ := hg
    subst h1 h2
    obtain ⟨tok, w1, hr⟩ := hR (user.UserID ++ ":" ++ dev) w
    simp [loginStep, hr, LoginPoint.forSession, LoginPoint.stage, incrEvent, hv]
  | save user dev ver acc ref =>
    obtain ⟨h1, h2⟩ := hg
    subst h1 h2
    have hs : repositoryRedis.Save { Client := memClient, RefreshTTL := ttl }
        (user.UserID ++ ":" ++ dev) ref st
        = (none, st.put ("session:" ++ (user.UserID ++ ":" ++ dev))
            (some (.str (jsonMarshalString ref).1))) := by
      simp [repositoryRedis.Save, jsonMarshalString, memClient]
    simp only [loginStep, hs, LoginPoint.forSession, LoginPoint.stage, incrEvent]
    refine ⟨trivial, by decide, by simp, ?_⟩
    simp only [show ¬ (6 : Nat) = 2 by decide, if_false]
    exact versionKeyHolds_congr _ st _ v
      (Store.put_other _ _ _ _ (key_session_ne_token_ver _ _).symm) hv
  | returned res =>
    cases res with
    | error err => exact absurd hg (by simp [LoginPoint.forSession])
    | ok tok => simp [loginStep, LoginPoint.forSession, LoginPoint.stage, incrEvent, hv]

theorem versions_snoc (v0 : Int) (l : List (Bool × Int)) (b : Bool)
    (h : l.map Prod.snd = (List.range l.length).map (fun (i : Nat) => v0 + 1 + (i : Int))) :
    (l ++ [(b, v0 + (l.length : Int) + 1)]).map Prod.snd
      = (List.range (l ++ [(b, v0 + (l.length : Int) + 1)]).length).map
          (fun (i : Nat) => v0 + 1 + (i : Int)) := by
  simp only [List.map_append, List.length_append, List.length_singleton, List.range_succ, h,
    List.map_cons, List.map_nil]
  have : v0 + (l.length : Int) + 1 = v0 + 1 + (l.length : Int) := by ring
  rw [this]

/-- One scheduled step of two concurrent `Login` calls for one session keeps what holds of
them, and takes the call that steps one point further. -/
theorem stepTwoLogins_inv (httl : 0 < ttl) (uid d email1 password1 email2 password2 : String)
    (hL1 : ∀ w, ∃ user w', p.LoginUsers email1 password1 w = (.ok user, w') ∧ user.UserID = uid)
    (hL2 : ∀ w, ∃ user w', p.LoginUsers email2 password2 w = (.ok user, w') ∧ user.UserID = uid)
    (hA : ∀ u w, ∃ tok w', t.GenerateAccessToken u w = (.ok tok, w'))
    (hR : ∀ s w, ∃ tok w', t.GenerateRefreshToken s w = (.ok tok, w'))
    (v0 : Int) (hbound : v0 + 2 ≤ maxInt64) (b : Bool) (c : TwoLogins (Store × τ))
    (hinv : c.inv uid d email1 password1 email2 password2 v0) :
    (stepTwoLogins p t memClient ttl b c).inv uid d email1 password1 email2 password2 v0
    ∧ (stepTwoLogins p t memClient ttl b c).first.stage
        = (if b then min 7 (c.first.stage + 1) else c.first.stage)
    ∧ (stepTwoLogins p t memClient ttl b c).second.stage
        = (if b then c.second.stage else min 7 (c.second.stage + 1)) := by
  obtain ⟨hg1, hg2, hvers, hct, hcf, hkey⟩ := hinv
  have hlen := List.count_true_add_count_false (c.increments.map Prod.fst)
  rw [List.length_map] at hlen
  cases b with
  | true =>
    have hb : c.first.stage = 2 → v0 + (c.increments.length : Int) < maxInt64 := by
      intro hs
      rw [hs] at hct
      simp only [show ¬ 3 ≤ 2 by decide, if_false] at hct
      have : List.count false (c.increments.map Prod.fst) ≤ 1 := by
        rw [hcf]; split <;> omega
      omega
    obtain ⟨h1, h2, h3, h4⟩ := loginStep_forSession p t ttl httl uid d email1 password1 hL1 hA hR
      c.first c.state.1 c.state.2 _ hg1 hkey hb
    simp only [Prod.mk.eta] at h1 h2 h3 h4
    by_cases hs : c.first.stage = 2
    · simp only [hs, if_true] at h3 h4 h2
      simp only [hs, show ¬ 3 ≤ 2 by decide, if_false] at hct
      refine ⟨⟨h1, hg2, ?_, ?_, ?_, ?_⟩, by simpa [stepTwoLogins, hs] using h2, rfl⟩
      · simp only [stepTwoLogins, h3]
        exact versions_snoc v0 c.increments true hvers
      · simp only [stepTwoLogins, h3, h2, List.map_append, List.count_append, hct]
        simp
      · simp only [stepTwoLogins, h3, List.map_append, List.count_append, hcf]
        simp
      · simp only [stepTwoLogins, h3, List.length_append, List.length_singleton]
        have : v0 + ((c.increments.length + 1 : Nat) : Int) = v0 + (c.increments.length : Int) + 1 := by
          push_cast; ring
        rw [this]
        exact h4
    · simp only [hs, if_false] at h3 h4
      refine ⟨⟨h1, hg2, ?_, ?_, ?_, ?_⟩, by simpa [stepTwoLogins] using h2, rfl⟩
      · simpa only [stepTwoLogins, h3] using hvers
      · simp only [stepTwoLogins, h3, h2, hct]
        have : (3 ≤ min 7 (c.first.stage + 1)) ↔ 3 ≤ c.first.stage := by omega
        simp only [this]
      · simpa only [stepTwoLogins, h3] using hcf
      · simpa only [stepTwoLogins, h3] using h4
  | false =>
    have hb : c.second.stage = 2 → v0 + (c.increments.length : Int) < maxInt64 := by
      intro hs
      rw [hs] at hcf
      simp only [show ¬ 3 ≤ 2 by decide, if_false] at hcf
      have : List.count true (c.increments.map Prod.fst) ≤ 1 := by
        rw [hct]; split <;> omega
      omega
    obtain ⟨h1, h2, h3, h4⟩ := loginStep_forSession p t ttl httl uid d email2 password2 hL2 hA hR
      c.second c.state.1 c.state.2 _ hg2 hkey hb
    simp only [Prod.mk.eta] at h1 h2 h3 h4
    by_cases hs : c.second.stage = 2
    · simp only [hs, if_true] at h3 h4 h2
      simp only [hs, show ¬ 3 ≤ 2 by decide, if_false] at hcf
      refine ⟨⟨hg1, h1, ?_, ?_, ?_, ?_⟩, rfl, by simpa [stepTwoLogins, hs] using h2⟩
      · simp only [stepTwoLogins, h3]
        exact versions_snoc v0 c.increments false hvers
      · simp only [stepTwoLogins, h3, List.map_append, List.count_append, hct]
        simp
      · simp only [stepTwoLogins, h3, h2, List.map_append, List.count_append, hcf]
        simp
      · simp only [stepTwoLogins, h3, List.length_append, List.length_singleton]
        have : v0 + ((c.increments.length + 1 : Nat) : Int) = v0 + (c.increments.length : Int) + 1 := by
          push_cast; ring
        rw [this]
        exact h4
    · simp only [hs, if_false] at h3 h4
      refine ⟨⟨hg1, h1, ?_, ?_, ?_, ?_⟩, rfl, by simpa [stepTwoLogins] using h2⟩
      · simpa only [stepTwoLogins, h3] using hvers
      · simpa only [stepTwoLogins, h3] using hct
      · simp only [stepTwoLogins, h3, h2, hcf]
        have : (3 ≤ min 7 (c.second.stage + 1)) ↔ 3 ≤ c.second.stage := by omega
        simp only [this]
      · simpa only [stepTwoLogins, h3] using h4

/-- A run of two concurrent `Login` calls for one session keeps what holds of them, and each
call is as many points further as the schedule gave it steps, up to its return. -/
theorem runTwoLogins_inv (httl : 0 < ttl) (uid d email1 password1 email2 password2 : String)
    (hL1 : ∀ w, ∃ user w', p.LoginUsers email1 password1 w = (.ok user, w') ∧ user.UserID = uid)
    (hL2 : ∀ w, ∃ user w', p.LoginUsers email2 password2 w = (.ok user, w') ∧ user.UserID = uid)
    (hA : ∀ u w, ∃ tok w', t.GenerateAccessToken u w = (.ok tok, w'))
    (hR : ∀ s w, ∃ tok w', t.GenerateRefreshToken s w = (.ok tok, w'))
    (v0 : Int) (hbound : v0 + 2 ≤ maxInt64) (sched : List Bool) :
    ∀ c : TwoLogins (Store × τ), c.inv uid d email1 password1 email2 password2 v0 →
      (runTwoLogins p t memClient ttl sched c).inv uid d email1 password1 email2 password2 v0
      ∧ (runTwoLogins p t memClient ttl sched c).first.stage
          = min 7 (c.first.stage + sched.count true)
      ∧ (runTwoLogins p t memClient ttl sched c).second.stage
          = min 7 (c.second.stage + sched.count false) := by
  induction sched with
  | nil =>
    intro c hinv
    have h1 : c.first.stage ≤ 7 := by cases c.first <;> simp [LoginPoint.stage]
    have h2 : c.second.stage ≤ 7 := by cases c.second <;> simp [LoginPoint.stage]
    exact ⟨hinv, by simp [runTwoLogins, h1], by simp [runTwoLogins, h2]⟩
  | cons b rest ih =>
    intro c hinv
    obtain ⟨hi, hf, hs⟩ := stepTwoLogins_inv p t ttl httl uid d email1 password1 email2
      password2 hL1 hL2 hA hR v0 hbound b c hinv
    obtain ⟨ri, rf, rs⟩ := ih _ hi
    refine ⟨ri, ?_, ?_⟩
    · rw [runTwoLogins, rf, hf]
      cases b <;> simp <;> omega
    · rw [runTwoLogins, rs, hs]
      cases b <;> simp <;> omega

theorem forSession_stage_seven (uid d email password : String) (pt : LoginPoint)
    (hg : pt.forSession uid d email password) (hs : pt.stage = 7) :
    ∃ tok, pt = .returned (.ok tok) := by
  cases pt with
  | returned res =>
    cases res with
    | error err => exact absurd hg (by simp [LoginPoint.forSession])
    | ok tok => exact ⟨tok, rfl⟩
  | _ => simp [LoginPoint.stage] at hs

theorem increments_two (v0 : Int) (l : List (Bool × Int))
    (hv : l.map Prod.snd = (List.range l.length).map (fun (i : Nat) => v0 + 1 + (i : Int)))
    (ht : (l.map Prod.fst).count true = 1) (hf : (l.map Prod.fst).count false = 1) :
    ∃ b, l = [(b, v0 + 1), (!b, v0 + 2)] := by
  have hlen := List.count_true_add_count_false (l.map Prod.fst)
  rw [List.length_map, ht, hf] at hlen
  match l, hlen with
  | [(b1, v1), (b2, v2)], _ =>
    simp [List.range_succ] at hv
    obtain ⟨hv1, hv2⟩ := hv
    subst hv1 hv2
    refine ⟨b1, ?_⟩
    have : b2 = !b1 := by
      revert ht hf
      cases b1 <;> cases b2 <;> simp
    subst this
    have e2 : v0 + 1 + 1 = v0 + 2 := by ring
    simp [e2]

/-- C25 (amended): two concurrent `Login` calls for the same session, over the key-value store
with a positive lifetime `RefreshTTL` and with a user directory and a token manager that
answer, under every schedule that lets both calls finish: both calls return tokens; the `INCR`
commands of the two calls hand out the stored version plus one and the stored version plus
two, in the order in which they take effect, one to each call; and the version stored at the
end is the version stored at the beginning plus two, so it is 2, the number of completed
logins, when the session had no version before. -/
theorem concurrent_logins_versions (httl : 0 < ttl)
    (uid d email1 password1 email2 password2 : String)
    (hL1 : ∀ w, ∃ user w', p.LoginUsers email1 password1 w = (.ok user, w') ∧ user.UserID = uid)
    (hL2 : ∀ w, ∃ user w', p.LoginUsers email2 password2 w = (.ok user, w') ∧ user.UserID = uid)
    (hA : ∀ u w, ∃ tok w', t.GenerateAccessToken u w = (.ok tok, w'))
    (hR : ∀ s w, ∃ tok w', t.GenerateRefreshToken s w = (.ok tok, w'))
    (st : Store) (w : τ)
    (hinit : st ("token_ver:" ++ (uid ++ ":" ++ d)) = none
      ∨ ∃ n, st ("token_ver:" ++ (uid ++ ":" ++ d)) = some (.str (String.mk (intChars n)))
          ∧ minInt64 ≤ n ∧ n + 2 ≤ maxInt64)
    (sched : List Bool) (hs1 : 7 ≤ sched.count true) (hs2 : 7 ≤ sched.count false) :
    ∃ tok1 tok2 b st' w',
      runTwoLogins p t memClient ttl sched
          ⟨.loginUsers email1 password1 d, .loginUsers email2 password2 d, (st, w), []⟩
        = ⟨.returned (.ok tok1), .returned (.ok tok2), (st', w'),
            [(b, storedVersion st (uid ++ ":" ++ d) + 1),
             (!b, storedVersion st (uid ++ ":" ++ d) + 2)]⟩
      ∧ storedVersion st' (uid ++ ":" ++ d) = storedVersion st (uid ++ ":" ++ d) + 2
      ∧ (st ("token_ver:" ++ (uid ++ ":" ++ d)) = none
          → storedVersion st' (uid ++ ":" ++ d) = 2) := by
  have hv0 : versionKeyHolds st (uid ++ ":" ++ d) (storedVersion st (uid ++ ":" ++ d))
      ∧ storedVersion st (uid ++ ":" ++ d) + 2 ≤ maxInt64 := by
    rcases hinit with h | ⟨n, h, hmin, hmax⟩
    · have : storedVersion st (uid ++ ":" ++ d) = 0 := by simp [storedVersion, h]
      rw [this]
      exact ⟨Or.inl ⟨h, rfl⟩, by decide⟩
    · have : storedVersion st (uid ++ ":" ++ d) = n :=
        storedVersion_of_put _ st n hmin (by omega) h
      rw [this]
      exact ⟨Or.inr ⟨h, hmin, by omega⟩, hmax⟩
  obtain ⟨hkey, hbound⟩ := hv0
  have hinv : TwoLogins.inv uid d email1 password1 email2 password2
      (storedVersion st (uid ++ ":" ++ d))
      (⟨.loginUsers email1 password1 d, .loginUsers email2 password2 d, (st, w), []⟩ :
        TwoLogins (Store × τ)) := by
    refine ⟨⟨rfl, rfl, rfl⟩, ⟨rfl, rfl, rfl⟩, rfl, by simp [LoginPoint.stage],
      by simp [LoginPoint.stage], ?_⟩
    simpa using hkey
  obtain ⟨⟨hg1, hg2, hvers, hct, hcf, hk⟩, hf, hs⟩ := runTwoLogins_inv p t ttl httl uid d email1
    password1 email2 password2 hL1 hL2 hA hR _ hbound sched _ hinv
  rcases hr : runTwoLogins p t memClient ttl sched
    ⟨.loginUsers email1 password1 d, .loginUsers email2 password2 d, (st, w), []⟩
    with ⟨f, s, ⟨st', w'⟩, incs⟩
  rw [hr] at hg1 hg2 hvers hct hcf hk hf hs
  dsimp only at hg1 hg2 hvers hct hcf hk hf hs
  rw [show (LoginPoint.loginUsers email1 password1 d).stage = 0 from rfl, Nat.zero_add] at hf
  rw [show (LoginPoint.loginUsers email2 password2 d).stage = 0 from rfl, Nat.zero_add] at hs
  have hf7 : f.stage = 7 := by omega
  have hs7 : s.stage = 7 := by omega
  obtain ⟨tok1, rfl⟩ := forSession_stage_seven uid d email1 password1 f hg1 hf7
  obtain ⟨tok2, rfl⟩ := forSession_stage_seven uid d email2 password2 s hg2 hs7
  simp only [LoginPoint.stage, show (3 : Nat) ≤ 7 by decide, if_true] at hct hcf
  obtain ⟨b, rfl⟩ := increments_two _ incs hvers hct hcf
  have hfin : storedVersion st' (uid ++ ":" ++ d) = storedVersion st (uid ++ ":" ++ d) + 2 := by
    simp only [List.length_cons, List.length_nil] at hk
    rcases hk with ⟨hk1, hk2⟩ | ⟨hk1, hk2, hk3⟩
    · have h0 : storedVersion st' (uid ++ ":" ++ d) = 0 := by simp [storedVersion, hk1]
      rw [h0]
      push_cast at hk2
      omega
    · have := storedVersion_of_put _ st' _ hk2 hk3 hk1
      rw [this]
      push_cast
      ring
  refine ⟨tok1, tok2, b, st', w', rfl, hfin, ?_⟩
  intro habs
  rw [hfin]
  simp [storedVersion, habs]

theorem concurrent_logins_versions_witness :
    ∃ tok1 tok2 b st' w',
      runTwoLogins (fixtureProvider Clock) (fixtureManager.toGenerate fixtureHMAC) memClient
          604800000000000
          [true, true, false, false, false, true, true, true, true, true, false, false, false,
            false]
          ⟨.loginUsers "test@gmail.com" "Password123" "device-1",
            .loginUsers "test@gmail.com" "Password123" "device-1",
            (Store.empty, fixtureClock), []⟩
        = ⟨.returned (.ok tok1), .returned (.ok tok2), (st', w'),
            [(b, storedVersion Store.empty ("user-123" ++ ":" ++ "device-1") + 1),
             (!b, storedVersion Store.empty ("user-123" ++ ":" ++ "device-1") + 2)]⟩
      ∧ storedVersion st' ("user-123" ++ ":" ++ "device-1")
          = storedVersion Store.empty ("user-123" ++ ":" ++ "device-1") + 2
      ∧ (Store.empty ("token_ver:" ++ ("user-123" ++ ":" ++ "device-1")) = none
          → storedVersion st' ("user-123" ++ ":" ++ "device-1") = 2) :=
  concurrent_logins_versions (fixtureProvider Clock) (fixtureManager.toGenerate fixtureHMAC)
    604800000000000 (by decide) "user-123" "device-1" "test@gmail.com" "Password123"
    "test@gmail.com" "Password123"
    (fun _ => ⟨_, _, rfl, rfl⟩) (fun _ => ⟨_, _, rfl, rfl⟩)
    (fun _ _ => ⟨_, _, rfl⟩) (fun _ _ => ⟨_, _, rfl⟩)
    Store.empty fixtureClock (Or.inl rfl)
    [true, true, false, false, false, true, true, true, true, true, false, false, false, false]
    (by decide) (by decide)

/-- C2 (as stated, refuted). A login, a logout with the access token of the login, and then,
after the refresh token of the login has expired, a refresh that presents it: the refresh is
refused with `refresh token expired`, not with `token revoked or user logged out`. -/
theorem expired_refresh_after_logout_not_reported_revoked :
    isOk lateLogin.1 = true
    ∧ lateLogout.1 = none
    ∧ (fixtureAuth.GetRefreshToken (refreshOf lateLogin.1) lateLogout.2).1
        = .error (.new "refresh token expired")
    ∧ (fixtureAuth.GetRefreshToken (refreshOf lateLogin.1) lateLogout.2).1
        ≠ .error (.new "token revoked or user logged out") := by
  refine ⟨by decide, by decide, by decide, by decide⟩

/-- C3 (as stated, refuted). With `TOKEN_REFRESH_TTL` 0, which `validateConfig` accepts, two
logins on one session succeed and `IncrementTokenVersion` returns 1 to both: the `EXPIRE` of
each call deletes the counter.  Both access tokens are generated from version 1,
`GetTokenVersion` is 1 after the second login, equal to the version of the access token of the
first, and a `Logout` that presents that token is accepted. -/
theorem zero_lifetime_versions_repeat :
    validateConfig zeroTTLConfig = none
    ∧ zeroTTLLogins.map (fun S => S.2.filterMap Call.bump) = some [1, 1]
    ∧ zeroTTLLogins.map (fun S => S.2.filterMap Call.issuedVersion) = some [1, 1]
    ∧ isOk zeroTTLFirstLogin.1 = true
    ∧ isOk zeroTTLSecondLogin.1 = true
    ∧ (zeroTTLAuth.redis.GetTokenVersion "user-123:device-123" zeroTTLSecondLogin.2).1 = .ok 1
    ∧ (zeroTTLAuth.Logout (accessOf zeroTTLFirstLogin.1) zeroTTLSecondLogin.2).1 = none := by
  refine ⟨by decide, by decide, by decide, by decide, by decide, by decide, by decide⟩

/-- C25 (as stated, refuted). With `TOKEN_REFRESH_TTL` 0, which `validateConfig` accepts, two
concurrent logins for one session both return tokens and both get version 1 from `INCR`: the
versions are not unique and not increasing, and no version is stored at the end, although two
logins have completed. -/
theorem zero_lifetime_concurrent_logins_share_version :
    validateConfig zeroTTLConfig = none
    ∧ zeroTTLTwoLogins.first.completed = true
    ∧ zeroTTLTwoLogins.second.completed = true
    ∧ zeroTTLTwoLogins.increments = [(true, 1), (false, 1)]
    ∧ zeroTTLTwoLogins.state.1 "token_ver:user-123:device-123" = none
    ∧ storedVersion zeroTTLTwoLogins.state.1 "user-123:device-123" = 0 := by
  refine ⟨by decide, by decide, by decide, by decide, by decide, by decide⟩

/-- The header of a token is read as JSON, in any layout: with the members in another order,
with white space, with a further member, and with an escape in the algorithm name, a token
signed with the access secret is accepted; a header without a string member `alg`, and a
header that is not JSON, name no algorithm. -/
theorem tokenAlg_reads_any_layout :
    tokenAlg (tokenWithHeader "\x7b\"typ\":\"JWT\",\"alg\":\"HS256\"\x7d" "HS256" "access-secret")
        = some "HS256"
    ∧ isOk (fixtureManager.VerifyAccessToken fixtureHMAC
        (tokenWithHeader "\x7b\"typ\":\"JWT\",\"alg\":\"HS256\"\x7d" "HS256" "access-secret")
        fixtureClock).1 = true
    ∧ tokenAlg (tokenWithHeader "\x7b \"kid\" : [1, null], \"alg\" : \"HS\\u0032\\u0035\\u0036\" \x7d"
        "HS256" "access-secret") = some "HS256"
    ∧ isOk (fixtureManager.VerifyAccessToken fixtureHMAC
        (tokenWithHeader "\x7b \"kid\" : [1, null], \"alg\" : \"HS\\u0032\\u0035\\u0036\" \x7d"
          "HS256" "access-secret") fixtureClock).1 = true
    ∧ tokenAlg (tokenWithHeader "\x7b\"typ\":\"JWT\",\"alg\":\"none\"\x7d" "none" "") = some "none"
    ∧ tokenAlg (tokenWithHeader "\x7b\"typ\":\"JWT\",\"alg\":256\x7d" "HS256" "access-secret")
        = none
    ∧ (fixtureManager.VerifyAccessToken fixtureHMAC
        (tokenWithHeader "\x7b\"typ\":\"JWT\",\"alg\":256\x7d" "HS256" "access-secret")
        fixtureClock).1
        = .error (.wrap "access token validation failed"
            (.new "token is unverifiable: signing method (alg) is unspecified"))
    ∧ tokenAlg (tokenWithHeader "\x7b\"alg\":\"HS256\"" "HS256" "access-secret") = none := by
  refine ⟨by decide, by decide, by decide, by decide, by decide, by decide, by decide, by decide⟩

end AuthService
